import Mathlib

/-!
# `net_mhm_itf`: byte buffer, header codec and ARP responder

A shallow embedding of `binary_parser.cpp`, `protocol.hpp` and the responder loop of
`interface.cpp`, followed by the properties proved about it.

Modelling conventions.

* `int64_t` / `int` quantities are mathematical integers (`Int`); where the C++ converts to a
  narrower or signed type the conversion is written out (`to_int32`, `to_int64`, `to_uint8`),
  with the modular meaning C++20 gives it.  Additions on cursor values are not wrapped: signed
  overflow is undefined in C++ and buffers are far smaller than `2^63` bytes.
* `uint8_t* _storage` is a map from byte offsets (relative to the `_storage` pointer) to bytes.
  Offsets outside the allocation are still addressable in the model; the C++ has undefined
  behaviour there.
* A member function that may throw returns an `Outcome`: the thrown error or the returned value,
  together with the state of the object at that moment (a C++ exception does not roll back the
  fields that were assigned before the `throw`).
-/

namespace networkinterface

/-! ## Data model -/

/-- A `uint8_t`. -/
abbrev Byte := Fin 256

/-- The exception types of `exceptions.hpp` that the modelled code throws (`ErrorBase` itself
among them) and those of the standard library it meets: `std::runtime_error`,
`std::invalid_argument`, `std::length_error` and `std::out_of_range`. `BufferReadError(int64_t)`
and `BufferWriteError(int64_t)` keep the amount they were constructed with. -/
inductive Error where
  | BufferReadError (amount : Int)
  | BufferWriteError (amount : Int)
  | ArgumentError (what : String)
  | NoDataException
  | runtime_error (what : String)
  | invalid_argument (what : String)
  | ErrorBase (what : String)
  | length_error (what : String)
  | out_of_range (what : String)
  deriving DecidableEq, Repr

deriving instance DecidableEq for Except

/-- The fields of `class BufferMixin` (`binary_parser.hpp`). -/
structure BufferMixin where
  _storage : Int → Byte
  _bytes_allocated : Int
  _bytes_written : Int
  _position : Int
  _ownning_storage : Bool

/-- What a call on a buffer leaves behind: the value returned or the error thrown, and the
buffer as the call left it. -/
structure Outcome (α : Type) where
  result : Except Error α
  buf : BufferMixin

/-- The call threw. -/
def Outcome.failed {α : Type} (o : Outcome α) : Prop :=
  ∃ e, o.result = Except.error e

/-- The call threw a `BufferReadError`. -/
def Outcome.readError {α : Type} (o : Outcome α) : Prop :=
  ∃ n, o.result = Except.error (Error.BufferReadError n)

/-- The call threw a `BufferWriteError`. -/
def Outcome.writeError {α : Type} (o : Outcome α) : Prop :=
  ∃ n, o.result = Except.error (Error.BufferWriteError n)

/-- The call threw one of the two buffer-range errors. -/
def Outcome.rangeError {α : Type} (o : Outcome α) : Prop :=
  o.readError ∨ o.writeError

/-- Sequencing of two calls on the same buffer: the second runs on the state the first left,
unless the first threw. -/
def Outcome.bind {α β : Type} (o : Outcome α) (f : α → BufferMixin → Outcome β) : Outcome β :=
  match o.result with
  | Except.ok a => f a o.buf
  | Except.error e => ⟨Except.error e, o.buf⟩

/-- `throw_with_trace(e)` inside a member function of `b`. -/
def throw_with_trace {α : Type} (e : Error) (b : BufferMixin) : Outcome α :=
  ⟨Except.error e, b⟩

/-- Conversion of an integer to a signed integer type of `w` bits (two's complement). -/
def to_signed (w : Nat) (x : Int) : Int :=
  (x + 2 ^ (w - 1)) % 2 ^ w - 2 ^ (w - 1)

/-- Conversion to `int` / `int32_t`. -/
def to_int32 (x : Int) : Int := to_signed 32 x

/-- Conversion to `int64_t`. -/
def to_int64 (x : Int) : Int := to_signed 64 x

/-- Conversion to `uint8_t` (what `pos[i] = (char)(x)` stores). -/
def to_uint8 (x : Int) : Byte :=
  ⟨(x % 256).toNat, by omega⟩

/-- Assignment `storage[i] = v`. -/
def poke (s : Int → Byte) (i : Int) (v : Byte) : Int → Byte :=
  fun j => if j = i then v else s j

/-- Memory holding the bytes of `l` from offset 0 on (zero elsewhere). -/
def memory_of (l : List Nat) : Int → Byte :=
  fun i => if 0 ≤ i then to_uint8 (l.getD i.toNat 0) else 0

/-- The `n` bytes of `s` from offset `pos` on. -/
def bytes_at (s : Int → Byte) (pos : Int) (n : Nat) : List Nat :=
  (List.range n).map fun (k : Nat) => (s (pos + (k : Int))).val

namespace BufferMixin

/-- Equivalent of `BufferMixin::from_external_memory`. -/
def from_external_memory (external_pointer : Int → Byte) (allocated_size data_size : Int) :
    BufferMixin :=
  { _storage := external_pointer, _bytes_allocated := allocated_size,
    _bytes_written := data_size, _position := 0, _ownning_storage := false }

/-- Equivalent of `bytes_left()`. -/
def bytes_left (b : BufferMixin) : Int := b._bytes_written - b._position

/-- Equivalent of `capacity_left()`. -/
def capacity_left (b : BufferMixin) : Int := b._bytes_allocated - b._bytes_written

/-- Equivalent of `len()`. -/
def len (b : BufferMixin) : Int := b._bytes_written

/-- Equivalent of `tell()`. -/
def tell (b : BufferMixin) : Int := b._position

/-- Equivalent of `BufferMixin::seek`. -/
def seek (b : BufferMixin) (position : Int) : Outcome Unit :=
  if position > b._bytes_written then
    throw_with_trace (Error.BufferReadError (position - b._bytes_written)) b
  else
    ⟨Except.ok (), { b with _position := position }⟩

/-- Equivalent of `BufferMixin::clear`. -/
def clear (b : BufferMixin) : BufferMixin :=
  { b with _bytes_written := 0, _position := 0 }

/-- The byte `pos[k]` where `pos = _storage + _position`. -/
def at_cursor (b : BufferMixin) (k : Int) : Nat := (b._storage (b._position + k)).val

/-- The cursor moved by `n` (`b._position += n`). -/
def advance (b : BufferMixin) (n : Int) : BufferMixin :=
  { b with _position := b._position + n }

/-- The tail of every free write function: `b._position += n;
b._bytes_written = std::max(b._position, b._bytes_written)`, on storage `s`. -/
def written (b : BufferMixin) (s : Int → Byte) (n : Int) : BufferMixin :=
  { b with _storage := s, _position := b._position + n,
           _bytes_written := max (b._position + n) b._bytes_written }

/-- The bounds invariant of the buffer. -/
def Inv (b : BufferMixin) : Prop :=
  0 ≤ b._position ∧ b._position ≤ b._bytes_written ∧ b._bytes_written ≤ b._bytes_allocated

instance (b : BufferMixin) : Decidable b.Inv := by
  unfold Inv; infer_instance

end BufferMixin

/-! ## Common read functions (the unchecked free functions) -/

/-- Equivalent of `int32_t ru8(BufferMixin&)`. -/
def ru8 (b : BufferMixin) : Int × BufferMixin :=
  (to_int32 (b.at_cursor 0), b.advance 1)

/-- Equivalent of `int32_t ru16(BufferMixin&)`. -/
def ru16 (b : BufferMixin) : Int × BufferMixin :=
  (to_int32 ((b.at_cursor 0 <<< 8) ||| b.at_cursor 1 : Nat), b.advance 2)

/-- The statement `x |= -(x & (one << ((8 * size) - 1)))` of the signed reads. -/
def sign_extend (size : Nat) (x : Int) : Int :=
  Int.lor x (-(Int.land x ((1 : Int) <<< ((8 * size - 1 : Nat) : Int))))

/-- Equivalent of `int32_t rs16(BufferMixin&)`. -/
def rs16 (b : BufferMixin) : Int × BufferMixin :=
  let x : Int := ((b.at_cursor 0 <<< 8) ||| b.at_cursor 1 : Nat)
  (to_int32 (sign_extend 2 x), b.advance 2)

/-- Equivalent of `int32_t ru24(BufferMixin&)`. -/
def ru24 (b : BufferMixin) : Int × BufferMixin :=
  (to_int32 ((b.at_cursor 0 <<< 16) ||| (b.at_cursor 1 <<< 8) ||| b.at_cursor 2 : Nat),
    b.advance 3)

/-- Equivalent of `int32_t rs24(BufferMixin&)`. -/
def rs24 (b : BufferMixin) : Int × BufferMixin :=
  let x : Int := ((b.at_cursor 0 <<< 16) ||| (b.at_cursor 1 <<< 8) ||| b.at_cursor 2 : Nat)
  (to_int32 (sign_extend 3 x), b.advance 3)

/-- Equivalent of `int64_t ru32(BufferMixin&)`. -/
def ru32 (b : BufferMixin) : Int × BufferMixin :=
  (to_int64 ((b.at_cursor 0 <<< 24) ||| (b.at_cursor 1 <<< 16) ||| (b.at_cursor 2 <<< 8)
      ||| b.at_cursor 3 : Nat),
    b.advance 4)

/-- Equivalent of `int64_t rs32(BufferMixin&)`. -/
def rs32 (b : BufferMixin) : Int × BufferMixin :=
  let x : Int := ((b.at_cursor 0 <<< 24) ||| (b.at_cursor 1 <<< 16) ||| (b.at_cursor 2 <<< 8)
      ||| b.at_cursor 3 : Nat)
  (to_int64 (sign_extend 4 x), b.advance 4)

/-- Equivalent of `int64_t ru40(BufferMixin&)`. -/
def ru40 (b : BufferMixin) : Int × BufferMixin :=
  (to_int64 ((b.at_cursor 0 <<< 32) ||| (b.at_cursor 1 <<< 24) ||| (b.at_cursor 2 <<< 16)
      ||| (b.at_cursor 3 <<< 8) ||| b.at_cursor 4 : Nat),
    b.advance 5)

/-- Equivalent of `int64_t rs40(BufferMixin&)`. -/
def rs40 (b : BufferMixin) : Int × BufferMixin :=
  let x : Int := ((b.at_cursor 0 <<< 32) ||| (b.at_cursor 1 <<< 24) ||| (b.at_cursor 2 <<< 16)
      ||| (b.at_cursor 3 <<< 8) ||| b.at_cursor 4 : Nat)
  (to_int64 (sign_extend 5 x), b.advance 5)

/-- Equivalent of `int64_t ru48(BufferMixin&)`. -/
def ru48 (b : BufferMixin) : Int × BufferMixin :=
  (to_int64 ((b.at_cursor 0 <<< 40) ||| (b.at_cursor 1 <<< 32) ||| (b.at_cursor 2 <<< 24)
      ||| (b.at_cursor 3 <<< 16) ||| (b.at_cursor 4 <<< 8) ||| b.at_cursor 5 : Nat),
    b.advance 6)

/-- Equivalent of `int64_t rs48(BufferMixin&)`. -/
def rs48 (b : BufferMixin) : Int × BufferMixin :=
  let x : Int := ((b.at_cursor 0 <<< 40) ||| (b.at_cursor 1 <<< 32) ||| (b.at_cursor 2 <<< 24)
      ||| (b.at_cursor 3 <<< 16) ||| (b.at_cursor 4 <<< 8) ||| b.at_cursor 5 : Nat)
  (to_int64 (sign_extend 6 x), b.advance 6)

/-- Equivalent of `int64_t ru56(BufferMixin&)`. -/
def ru56 (b : BufferMixin) : Int × BufferMixin :=
  (to_int64 ((b.at_cursor 0 <<< 48) ||| (b.at_cursor 1 <<< 40) ||| (b.at_cursor 2 <<< 32)
      ||| (b.at_cursor 3 <<< 24) ||| (b.at_cursor 4 <<< 16) ||| (b.at_cursor 5 <<< 8)
      ||| b.at_cursor 6 : Nat),
    b.advance 7)

/-- Equivalent of `int64_t rs56(BufferMixin&)`. -/
def rs56 (b : BufferMixin) : Int × BufferMixin :=
  let x : Int := ((b.at_cursor 0 <<< 48) ||| (b.at_cursor 1 <<< 40) ||| (b.at_cursor 2 <<< 32)
      ||| (b.at_cursor 3 <<< 24) ||| (b.at_cursor 4 <<< 16) ||| (b.at_cursor 5 <<< 8)
      ||| b.at_cursor 6 : Nat)
  (to_int64 (sign_extend 7 x), b.advance 7)

/-- Equivalent of `int64_t rs64(BufferMixin&)`: seven bytes are combined, the result is shifted
left by 8 within `int64_t` and the last byte is or-ed in. -/
def rs64 (b : BufferMixin) : Int × BufferMixin :=
  let value : Int := ((b.at_cursor 0 <<< 48) ||| (b.at_cursor 1 <<< 40) ||| (b.at_cursor 2 <<< 32)
      ||| (b.at_cursor 3 <<< 24) ||| (b.at_cursor 4 <<< 16) ||| (b.at_cursor 5 <<< 8)
      ||| b.at_cursor 6 : Nat)
  (Int.lor (to_int64 (value <<< (8 : Int))) (b.at_cursor 7), b.advance 8)

/-- Equivalent of `int64_t ru64(BufferMixin&)`: the `uint64_t` combination of the eight bytes is
returned as `int64_t`. -/
def ru64 (b : BufferMixin) : Int × BufferMixin :=
  (to_int64 ((b.at_cursor 0 <<< 56) ||| (b.at_cursor 1 <<< 48) ||| (b.at_cursor 2 <<< 40)
      ||| (b.at_cursor 3 <<< 32) ||| (b.at_cursor 4 <<< 24) ||| (b.at_cursor 5 <<< 16)
      ||| (b.at_cursor 6 <<< 8) ||| b.at_cursor 7 : Nat),
    b.advance 8)

/-- Equivalent of `uint8_t* rbytes(BufferMixin&, int64_t)`; the pointer returned is the offset
of its first byte. -/
def rbytes (b : BufferMixin) (size : Int) : Int × BufferMixin :=
  (b._position, b.advance size)

/-- Equivalent of `uint8_t* rbytes_at_most(BufferMixin&, int64_t, int64_t&)`; returns the offset
and `received`. -/
def rbytes_at_most (b : BufferMixin) (max_size : Int) : (Int × Int) × BufferMixin :=
  let max_size := if b._position + max_size > b._bytes_written
    then b._bytes_written - b._position else max_size
  ((b._position, max_size), b.advance max_size)

/-- Equivalent of `std::string rstring(BufferMixin&, int64_t)`. -/
def rstring (b : BufferMixin) (size : Int) : List Nat × BufferMixin :=
  (bytes_at b._storage b._position size.toNat, b.advance size)

/-! ## Common write functions (the unchecked free functions) -/

/-- A `void*` / `uint8_t*` argument: a region of memory and the offset pointed at. -/
structure Pointer where
  mem : Int → Byte
  off : Int

/-- Equivalent of `std::memcpy(dst + d, src, n)`. -/
def memcpy (dst : Int → Byte) (d : Int) (src : Pointer) (n : Int) : Int → Byte :=
  fun j => if d ≤ j ∧ j < d + n then src.mem (src.off + (j - d)) else dst j

/-- Equivalent of `void wu8(BufferMixin&, int value)`. -/
def wu8 (b : BufferMixin) (value : Int) : BufferMixin :=
  let s0 := poke b._storage (b._position + 0) (to_uint8 (Int.land value 0xFF))
  b.written s0 1

/-- Equivalent of `void wu16(BufferMixin&, int value)`. -/
def wu16 (b : BufferMixin) (value : Int) : BufferMixin :=
  let s0 := poke b._storage (b._position + 0) (to_uint8 (value.shiftRight 8))
  let s1 := poke s0 (b._position + 1) (to_uint8 value)
  b.written s1 2

/-- Equivalent of `void wu16le(BufferMixin&, int value)`. -/
def wu16le (b : BufferMixin) (value : Int) : BufferMixin :=
  let s0 := poke b._storage (b._position + 1) (to_uint8 (value.shiftRight 8))
  let s1 := poke s0 (b._position + 0) (to_uint8 value)
  b.written s1 2

/-- Equivalent of `void wu24(BufferMixin&, int value)`. -/
def wu24 (b : BufferMixin) (value : Int) : BufferMixin :=
  let s0 := poke b._storage (b._position + 0) (to_uint8 (value.shiftRight 16))
  let s1 := poke s0 (b._position + 1) (to_uint8 (value.shiftRight 8))
  let s2 := poke s1 (b._position + 2) (to_uint8 value)
  b.written s2 3

/-- Equivalent of `void wu32(BufferMixin&, int value)`. -/
def wu32 (b : BufferMixin) (value : Int) : BufferMixin :=
  let s0 := poke b._storage (b._position + 0) (to_uint8 (value.shiftRight 24))
  let s1 := poke s0 (b._position + 1) (to_uint8 (value.shiftRight 16))
  let s2 := poke s1 (b._position + 2) (to_uint8 (value.shiftRight 8))
  let s3 := poke s2 (b._position + 3) (to_uint8 value)
  b.written s3 4

/-- Equivalent of `void wu32le(BufferMixin&, int value)`. -/
def wu32le (b : BufferMixin) (value : Int) : BufferMixin :=
  let s0 := poke b._storage (b._position + 3) (to_uint8 (value.shiftRight 24))
  let s1 := poke s0 (b._position + 2) (to_uint8 (value.shiftRight 16))
  let s2 := poke s1 (b._position + 1) (to_uint8 (value.shiftRight 8))
  let s3 := poke s2 (b._position + 0) (to_uint8 value)
  b.written s3 4

/-- Equivalent of `void wu40(BufferMixin&, int64_t value)`. -/
def wu40 (b : BufferMixin) (value : Int) : BufferMixin :=
  let s0 := poke b._storage (b._position + 0) (to_uint8 (value.shiftRight 32))
  let s1 := poke s0 (b._position + 1) (to_uint8 (value.shiftRight 24))
  let s2 := poke s1 (b._position + 2) (to_uint8 (value.shiftRight 16))
  let s3 := poke s2 (b._position + 3) (to_uint8 (value.shiftRight 8))
  let s4 := poke s3 (b._position + 4) (to_uint8 value)
  b.written s4 5

/-- Equivalent of `void wu48(BufferMixin&, int64_t value)`. -/
def wu48 (b : BufferMixin) (value : Int) : BufferMixin :=
  let s0 := poke b._storage (b._position + 0) (to_uint8 (value.shiftRight 40))
  let s1 := poke s0 (b._position + 1) (to_uint8 (value.shiftRight 32))
  let s2 := poke s1 (b._position + 2) (to_uint8 (value.shiftRight 24))
  let s3 := poke s2 (b._position + 3) (to_uint8 (value.shiftRight 16))
  let s4 := poke s3 (b._position + 4) (to_uint8 (value.shiftRight 8))
  let s5 := poke s4 (b._position + 5) (to_uint8 value)
  b.written s5 6

/-- Equivalent of `void wu56(BufferMixin&, int64_t value)`. -/
def wu56 (b : BufferMixin) (value : Int) : BufferMixin :=
  let s0 := poke b._storage (b._position + 0) (to_uint8 (value.shiftRight 48))
  let s1 := poke s0 (b._position + 1) (to_uint8 (value.shiftRight 40))
  let s2 := poke s1 (b._position + 2) (to_uint8 (value.shiftRight 32))
  let s3 := poke s2 (b._position + 3) (to_uint8 (value.shiftRight 24))
  let s4 := poke s3 (b._position + 4) (to_uint8 (value.shiftRight 16))
  let s5 := poke s4 (b._position + 5) (to_uint8 (value.shiftRight 8))
  let s6 := poke s5 (b._position + 6) (to_uint8 value)
  b.written s6 7

/-- Equivalent of `void wu64(BufferMixin&, int64_t value)`. -/
def wu64 (b : BufferMixin) (value : Int) : BufferMixin :=
  let s0 := poke b._storage (b._position + 0) (to_uint8 (value.shiftRight 56))
  let s1 := poke s0 (b._position + 1) (to_uint8 (value.shiftRight 48))
  let s2 := poke s1 (b._position + 2) (to_uint8 (value.shiftRight 40))
  let s3 := poke s2 (b._position + 3) (to_uint8 (value.shiftRight 32))
  let s4 := poke s3 (b._position + 4) (to_uint8 (value.shiftRight 24))
  let s5 := poke s4 (b._position + 5) (to_uint8 (value.shiftRight 16))
  let s6 := poke s5 (b._position + 6) (to_uint8 (value.shiftRight 8))
  let s7 := poke s6 (b._position + 7) (to_uint8 value)
  b.written s7 8

/-- Equivalent of `void bor_byte(BufferMixin&, int64_t pos, int mask)`. -/
def bor_byte (b : BufferMixin) (pos : Int) (mask : Int) : BufferMixin :=
  { b with _storage := poke b._storage pos (to_uint8 (Int.lor (b._storage pos).val mask)) }

/-- Equivalent of `void wbytes(BufferMixin&, void* data, int64_t data_size)`. -/
def wbytes (b : BufferMixin) (data : Pointer) (data_size : Int) : BufferMixin :=
  b.written (memcpy b._storage b._position data data_size) data_size

/-- The characters of a `std::string` laid out in memory (`text.c_str()`). -/
def c_str (text : List Byte) : Pointer :=
  ⟨fun i => if 0 ≤ i then text.getD i.toNat 0 else 0, 0⟩

/-- Equivalent of `void wstring(BufferMixin&, const std::string& text)`. -/
def wstring (b : BufferMixin) (text : List Byte) : BufferMixin :=
  let text_size : Int := text.length
  b.written (memcpy b._storage b._position (c_str text) text.length) text_size

/-! ## `BufferMixin` member functions (bounds-checked) -/

namespace BufferMixin

/-- Equivalent of `void BufferMixin::wu8(int value)`. -/
def wu8 (b : BufferMixin) (value : Int) : Outcome Unit :=
  if b._position + 1 > b._bytes_allocated then
    throw_with_trace (Error.BufferWriteError (1)) b
  else ⟨Except.ok (), networkinterface.wu8 b value⟩

/-- Equivalent of `void BufferMixin::wu16(int value)`. -/
def wu16 (b : BufferMixin) (value : Int) : Outcome Unit :=
  if b._position + 2 > b._bytes_allocated then
    throw_with_trace (Error.BufferWriteError (2 - b._bytes_allocated + b._position)) b
  else ⟨Except.ok (), networkinterface.wu16 b value⟩

/-- Equivalent of `void BufferMixin::wu16le(int value)`. -/
def wu16le (b : BufferMixin) (value : Int) : Outcome Unit :=
  if b._position + 2 > b._bytes_allocated then
    throw_with_trace (Error.BufferWriteError (2 - b._bytes_allocated + b._position)) b
  else ⟨Except.ok (), networkinterface.wu16le b value⟩

/-- Equivalent of `void BufferMixin::wu24(int value)`. -/
def wu24 (b : BufferMixin) (value : Int) : Outcome Unit :=
  if b._position + 3 > b._bytes_allocated then
    throw_with_trace (Error.BufferWriteError (3 - b._bytes_allocated + b._position)) b
  else ⟨Except.ok (), networkinterface.wu24 b value⟩

/-- Equivalent of `void BufferMixin::wu32(int value)`. -/
def wu32 (b : BufferMixin) (value : Int) : Outcome Unit :=
  if b._position + 4 > b._bytes_allocated then
    throw_with_trace (Error.BufferWriteError (4 - b._bytes_allocated + b._position)) b
  else ⟨Except.ok (), networkinterface.wu32 b value⟩

/-- Equivalent of `void BufferMixin::wu32le(int value)`. -/
def wu32le (b : BufferMixin) (value : Int) : Outcome Unit :=
  if b._position + 4 > b._bytes_allocated then
    throw_with_trace (Error.BufferWriteError (4 - b._bytes_allocated + b._position)) b
  else ⟨Except.ok (), networkinterface.wu32le b value⟩

/-- Equivalent of `void BufferMixin::wu40(int64_t value)`. -/
def wu40 (b : BufferMixin) (value : Int) : Outcome Unit :=
  if b._position + 5 > b._bytes_allocated then
    throw_with_trace (Error.BufferWriteError (5 - b._bytes_allocated + b._position)) b
  else ⟨Except.ok (), networkinterface.wu40 b value⟩

/-- Equivalent of `void BufferMixin::wu48(int64_t value)`. -/
def wu48 (b : BufferMixin) (value : Int) : Outcome Unit :=
  if b._position + 6 > b._bytes_allocated then
    throw_with_trace (Error.BufferWriteError (6 - b._bytes_allocated + b._position)) b
  else ⟨Except.ok (), networkinterface.wu48 b value⟩

/-- Equivalent of `void BufferMixin::wu56(int64_t value)`. -/
def wu56 (b : BufferMixin) (value : Int) : Outcome Unit :=
  if b._position + 7 > b._bytes_allocated then
    throw_with_trace (Error.BufferWriteError (7 - b._bytes_allocated + b._position)) b
  else ⟨Except.ok (), networkinterface.wu56 b value⟩

/-- Equivalent of `void BufferMixin::wu64(int64_t value)`. -/
def wu64 (b : BufferMixin) (value : Int) : Outcome Unit :=
  if b._position + 8 > b._bytes_allocated then
    throw_with_trace (Error.BufferWriteError (8 - b._bytes_allocated + b._position)) b
  else ⟨Except.ok (), networkinterface.wu64 b value⟩

/-- Equivalent of `void BufferMixin::wbytes(void* data, int64_t data_size)`. -/
def wbytes (b : BufferMixin) (data : Pointer) (data_size : Int) : Outcome Unit :=
  if b._position + data_size > b._bytes_allocated then
    throw_with_trace (Error.BufferWriteError (data_size - b._bytes_allocated + b._position)) b
  else ⟨Except.ok (), networkinterface.wbytes b data data_size⟩

/-- Equivalent of `void BufferMixin::wstring(const std::string& text)`. -/
def wstring (b : BufferMixin) (text : List Byte) : Outcome Unit :=
  let text_size : Int := text.length
  if b._position + text_size > b._bytes_allocated then
    throw_with_trace (Error.BufferWriteError (text_size - b._bytes_allocated + b._position)) b
  else ⟨Except.ok (), networkinterface.wstring b text⟩

/-- Equivalent of `void BufferMixin::bor_byte(int64_t pos, int mask)`. -/
def bor_byte (b : BufferMixin) (pos : Int) (mask : Int) : Outcome Unit :=
  if pos > b._bytes_allocated then
    throw_with_trace (Error.BufferWriteError (pos - b._bytes_allocated)) b
  else ⟨Except.ok (), networkinterface.bor_byte b pos mask⟩

/-- Equivalent of `int32_t BufferMixin::ru8()`. -/
def ru8 (b : BufferMixin) : Outcome Int :=
  if b._position + 1 > b._bytes_written then
    throw_with_trace (Error.BufferReadError (1)) b
  else ⟨Except.ok (networkinterface.ru8 b).1, (networkinterface.ru8 b).2⟩

/-- Equivalent of `int32_t BufferMixin::ru16()`. -/
def ru16 (b : BufferMixin) : Outcome Int :=
  if b._position + 2 > b._bytes_written then
    throw_with_trace (Error.BufferReadError (2 - b._bytes_written + b._position)) b
  else ⟨Except.ok (networkinterface.ru16 b).1, (networkinterface.ru16 b).2⟩

/-- Equivalent of `int32_t BufferMixin::rs16()`. -/
def rs16 (b : BufferMixin) : Outcome Int :=
  if b._position + 2 > b._bytes_written then
    throw_with_trace (Error.BufferReadError (2 - b._bytes_written + b._position)) b
  else ⟨Except.ok (networkinterface.rs16 b).1, (networkinterface.rs16 b).2⟩

/-- Equivalent of `int32_t BufferMixin::ru24()`. -/
def ru24 (b : BufferMixin) : Outcome Int :=
  if b._position + 3 > b._bytes_written then
    throw_with_trace (Error.BufferReadError (3 - b._bytes_written + b._position)) b
  else ⟨Except.ok (networkinterface.ru24 b).1, (networkinterface.ru24 b).2⟩

/-- Equivalent of `int32_t BufferMixin::rs24()`. -/
def rs24 (b : BufferMixin) : Outcome Int :=
  if b._position + 3 > b._bytes_written then
    throw_with_trace (Error.BufferReadError (3 - b._bytes_written + b._position)) b
  else ⟨Except.ok (networkinterface.rs24 b).1, (networkinterface.rs24 b).2⟩

/-- Equivalent of `int64_t BufferMixin::ru32()`. -/
def ru32 (b : BufferMixin) : Outcome Int :=
  if b._position + 4 > b._bytes_written then
    throw_with_trace (Error.BufferReadError (4 - b._bytes_written + b._position)) b
  else ⟨Except.ok (networkinterface.ru32 b).1, (networkinterface.ru32 b).2⟩

/-- Equivalent of `int64_t BufferMixin::rs32()`. -/
def rs32 (b : BufferMixin) : Outcome Int :=
  if b._position + 4 > b._bytes_written then
    throw_with_trace (Error.BufferReadError (4 - b._bytes_written + b._position)) b
  else ⟨Except.ok (networkinterface.rs32 b).1, (networkinterface.rs32 b).2⟩

/-- Equivalent of `int64_t BufferMixin::ru40()`. -/
def ru40 (b : BufferMixin) : Outcome Int :=
  if b._position + 5 > b._bytes_written then
    throw_with_trace (Error.BufferReadError (5 - b._bytes_written + b._position)) b
  else ⟨Except.ok (networkinterface.ru40 b).1, (networkinterface.ru40 b).2⟩

/-- Equivalent of `int64_t BufferMixin::rs40()`. -/
def rs40 (b : BufferMixin) : Outcome Int :=
  if b._position + 5 > b._bytes_written then
    throw_with_trace (Error.BufferReadError (5 - b._bytes_written + b._position)) b
  else ⟨Except.ok (networkinterface.rs40 b).1, (networkinterface.rs40 b).2⟩

/-- Equivalent of `int64_t BufferMixin::ru48()`. -/
def ru48 (b : BufferMixin) : Outcome Int :=
  if b._position + 6 > b._bytes_written then
    throw_with_trace (Error.BufferReadError (6 - b._bytes_written + b._position)) b
  else ⟨Except.ok (networkinterface.ru48 b).1, (networkinterface.ru48 b).2⟩

/-- Equivalent of `int64_t BufferMixin::rs48()`. -/
def rs48 (b : BufferMixin) : Outcome Int :=
  if b._position + 6 > b._bytes_written then
    throw_with_trace (Error.BufferReadError (6 - b._bytes_written + b._position)) b
  else ⟨Except.ok (networkinterface.rs48 b).1, (networkinterface.rs48 b).2⟩

/-- Equivalent of `int64_t BufferMixin::ru56()`. -/
def ru56 (b : BufferMixin) : Outcome Int :=
  if b._position + 7 > b._bytes_written then
    throw_with_trace (Error.BufferReadError (7 - b._bytes_written + b._position)) b
  else ⟨Except.ok (networkinterface.ru56 b).1, (networkinterface.ru56 b).2⟩

/-- Equivalent of `int64_t BufferMixin::rs56()`. -/
def rs56 (b : BufferMixin) : Outcome Int :=
  if b._position + 7 > b._bytes_written then
    throw_with_trace (Error.BufferReadError (7 - b._bytes_written + b._position)) b
  else ⟨Except.ok (networkinterface.rs56 b).1, (networkinterface.rs56 b).2⟩

/-- Equivalent of `int64_t BufferMixin::rs64()`. -/
def rs64 (b : BufferMixin) : Outcome Int :=
  if b._position + 8 > b._bytes_written then
    throw_with_trace (Error.BufferReadError (8 - b._bytes_written + b._position)) b
  else ⟨Except.ok (networkinterface.rs64 b).1, (networkinterface.rs64 b).2⟩

/-- Equivalent of `int64_t BufferMixin::ru64()`. -/
def ru64 (b : BufferMixin) : Outcome Int :=
  if b._position + 8 > b._bytes_written then
    throw_with_trace (Error.BufferReadError (8 - b._bytes_written + b._position)) b
  else ⟨Except.ok (networkinterface.ru64 b).1, (networkinterface.ru64 b).2⟩

/-- Equivalent of `uint8_t* BufferMixin::rbytes(int64_t size)`. -/
def rbytes (b : BufferMixin) (size : Int) : Outcome Int :=
  if b._position + size > b._bytes_written then
    throw_with_trace (Error.BufferReadError (b._bytes_written - (b._position + size))) b
  else ⟨Except.ok (networkinterface.rbytes b size).1, (networkinterface.rbytes b size).2⟩

/-- Equivalent of `void BufferMixin::rbytes_into(uint8_t* destination, int64_t size)`; the bytes
copied to `destination` are returned. -/
def rbytes_into (b : BufferMixin) (size : Int) : Outcome (List Nat) :=
  if b._position + size > b._bytes_written then
    throw_with_trace (Error.BufferReadError (b._bytes_written - (b._position + size))) b
  else ⟨Except.ok (bytes_at b._storage b._position size.toNat), b.advance size⟩

/-- Equivalent of `uint8_t* BufferMixin::rbytes_at_most(int64_t max_size, int64_t& received)`. -/
def rbytes_at_most (b : BufferMixin) (max_size : Int) : Outcome (Int × Int) :=
  let max_size := if b._position + max_size > b._bytes_written
    then b._bytes_written - b._position else max_size
  ⟨Except.ok (networkinterface.rbytes_at_most b max_size).1,
    (networkinterface.rbytes_at_most b max_size).2⟩

/-- Equivalent of `std::string BufferMixin::rstring(int64_t size)`. -/
def rstring (b : BufferMixin) (size : Int) : Outcome (List Nat) :=
  if b._position + size > b._bytes_written then
    throw_with_trace (Error.BufferReadError (b._bytes_written - (b._position + size))) b
  else ⟨Except.ok (networkinterface.rstring b size).1, (networkinterface.rstring b size).2⟩

end BufferMixin

/-- Equivalent of `void wmkvuint(BufferMixin& b, int64_t number)`; `b.wu8` .. `b.wu64` and
`b.bor_byte` are the checked member functions. -/
def wmkvuint (b : BufferMixin) (number : Int) : Outcome Unit :=
  let pos := b.tell
  if 0x7F > number then
    (b.wu8 (to_int32 number)).bind fun _ b => b.bor_byte pos 0x80
  else if 0x3FFF > number then
    (b.wu16 (to_int32 number)).bind fun _ b => b.bor_byte pos 0x40
  else if 0x1FFFFF > number then
    (b.wu24 (to_int32 number)).bind fun _ b => b.bor_byte pos 0x20
  else if 0xFFFFFFF > number then
    (b.wu32 (to_int32 number)).bind fun _ b => b.bor_byte pos 0x10
  else if 0x07FFFFFFFF > number then
    (b.wu40 number).bind fun _ b => b.bor_byte pos 0x08
  else if 0x03FFFFFFFFFF > number then
    (b.wu48 number).bind fun _ b => b.bor_byte pos 0x04
  else if 0x01FFFFFFFFFFFF > number then
    (b.wu56 number).bind fun _ b => b.bor_byte pos 0x02
  else
    (b.wu64 number).bind fun _ b => b.bor_byte pos 0x01

/-- Equivalent of `void BufferMixin::wmkvuint(int64_t number)`. -/
def BufferMixin.wmkvuint (b : BufferMixin) (number : Int) : Outcome Unit :=
  if b._position + 8 > b._bytes_allocated then
    throw_with_trace (Error.BufferWriteError (8 - b._bytes_allocated + b._position)) b
  else networkinterface.wmkvuint b number

/-! ## The operations the buffer contracts range over -/

/-- The fixed-width reads of `BufferMixin`. -/
inductive FixedRead where
  | ru8
  | ru16
  | rs16
  | ru24
  | rs24
  | ru32
  | rs32
  | ru40
  | rs40
  | ru48
  | rs48
  | ru56
  | rs56
  | ru64
  | rs64
  deriving DecidableEq, Repr

/-- Number of bytes a fixed-width read consumes (its width / 8). -/
def FixedRead.size : FixedRead → Int
  | .ru8 => 1
  | .ru16 => 2
  | .rs16 => 2
  | .ru24 => 3
  | .rs24 => 3
  | .ru32 => 4
  | .rs32 => 4
  | .ru40 => 5
  | .rs40 => 5
  | .ru48 => 6
  | .rs48 => 6
  | .ru56 => 7
  | .rs56 => 7
  | .ru64 => 8
  | .rs64 => 8

/-- The member function a `FixedRead` names. -/
def FixedRead.call : FixedRead → BufferMixin → Outcome Int
  | .ru8 => BufferMixin.ru8
  | .ru16 => BufferMixin.ru16
  | .rs16 => BufferMixin.rs16
  | .ru24 => BufferMixin.ru24
  | .rs24 => BufferMixin.rs24
  | .ru32 => BufferMixin.ru32
  | .rs32 => BufferMixin.rs32
  | .ru40 => BufferMixin.ru40
  | .rs40 => BufferMixin.rs40
  | .ru48 => BufferMixin.ru48
  | .rs48 => BufferMixin.rs48
  | .ru56 => BufferMixin.ru56
  | .rs56 => BufferMixin.rs56
  | .ru64 => BufferMixin.ru64
  | .rs64 => BufferMixin.rs64

/-- The writes of the fixed-capacity `BufferMixin`, with their arguments. -/
inductive FixedWrite where
  | wu8 (value : Int)
  | wu16 (value : Int)
  | wu16le (value : Int)
  | wu24 (value : Int)
  | wu32 (value : Int)
  | wu32le (value : Int)
  | wu40 (value : Int)
  | wu48 (value : Int)
  | wu56 (value : Int)
  | wu64 (value : Int)
  | wbytes (data : Pointer) (data_size : Int)
  | wstring (text : List Byte)

/-- Number of bytes a write stores. -/
def FixedWrite.size : FixedWrite → Int
  | .wu8 _ => 1
  | .wu16 _ => 2
  | .wu16le _ => 2
  | .wu24 _ => 3
  | .wu32 _ => 4
  | .wu32le _ => 4
  | .wu40 _ => 5
  | .wu48 _ => 6
  | .wu56 _ => 7
  | .wu64 _ => 8
  | .wbytes _ data_size => data_size
  | .wstring text => text.length

/-- The member function a `FixedWrite` names, applied to its arguments. -/
def FixedWrite.call : FixedWrite → BufferMixin → Outcome Unit
  | .wu8 value => fun b => b.wu8 value
  | .wu16 value => fun b => b.wu16 value
  | .wu16le value => fun b => b.wu16le value
  | .wu24 value => fun b => b.wu24 value
  | .wu32 value => fun b => b.wu32 value
  | .wu32le value => fun b => b.wu32le value
  | .wu40 value => fun b => b.wu40 value
  | .wu48 value => fun b => b.wu48 value
  | .wu56 value => fun b => b.wu56 value
  | .wu64 value => fun b => b.wu64 value
  | .wbytes data data_size => fun b => b.wbytes data data_size
  | .wstring text => fun b => b.wstring text

/-- Forgetting the value a call returned. -/
def Outcome.void {α : Type} (o : Outcome α) : Outcome Unit :=
  ⟨o.result.map fun _ => (), o.buf⟩

/-- The calls the bounds invariant is stated for. -/
inductive BufferOp where
  | seek (position : Int)
  | clear
  | read (r : FixedRead)
  | write (w : FixedWrite)
  | rbytes (size : Int)
  | rstring (size : Int)
  | rbytes_at_most (max_size : Int)

/-- The member function a `BufferOp` names, applied to its arguments. -/
def BufferOp.call : BufferOp → BufferMixin → Outcome Unit
  | .seek position => fun b => b.seek position
  | .clear => fun b => ⟨Except.ok (), b.clear⟩
  | .read r => fun b => (r.call b).void
  | .write w => fun b => w.call b
  | .rbytes size => fun b => (b.rbytes size).void
  | .rstring size => fun b => (b.rstring size).void
  | .rbytes_at_most max_size => fun b => (b.rbytes_at_most max_size).void

/-- The size argument of a call, where it has one (`0` otherwise). -/
def BufferOp.size_arg : BufferOp → Int
  | .write w => w.size
  | .rbytes size => size
  | .rstring size => size
  | .rbytes_at_most max_size => max_size
  | _ => 0

/-! ## Concrete buffers used to instantiate the theorems -/

/-- A buffer over 16 bytes of zeroed external memory, nothing written yet. -/
def empty16 : BufferMixin := BufferMixin.from_external_memory (memory_of []) 16 0

/-- A buffer over 16 bytes of external memory of which the first four, `01 02 03 04`,
are valid data. -/
def four_of_16 : BufferMixin := BufferMixin.from_external_memory (memory_of [1, 2, 3, 4]) 16 4

/-! ## Write-then-read at the same cursor -/

/-- The integer widths of the accessors. -/
inductive Width where
  | w8 | w16 | w24 | w32 | w40 | w48 | w56 | w64
  deriving DecidableEq, Repr

/-- Number of bytes of a width. -/
def Width.bytes : Width → Nat
  | .w8 => 1 | .w16 => 2 | .w24 => 3 | .w32 => 4 | .w40 => 5 | .w48 => 6 | .w56 => 7 | .w64 => 8

/-- Number of bits of a width. -/
def Width.bits (W : Width) : Nat := 8 * W.bytes

/-- The call `b.wuW(v)` for an integer `v`: the argument is converted to the parameter type,
`int` for the widths up to 32 and `int64_t` above. -/
def Width.write_u : Width → BufferMixin → Int → Outcome Unit
  | .w8 => fun b v => b.wu8 (to_int32 v)
  | .w16 => fun b v => b.wu16 (to_int32 v)
  | .w24 => fun b v => b.wu24 (to_int32 v)
  | .w32 => fun b v => b.wu32 (to_int32 v)
  | .w40 => fun b v => b.wu40 (to_int64 v)
  | .w48 => fun b v => b.wu48 (to_int64 v)
  | .w56 => fun b v => b.wu56 (to_int64 v)
  | .w64 => fun b v => b.wu64 (to_int64 v)

/-- The call `b.ruW()`. -/
def Width.read_u : Width → BufferMixin → Outcome Int
  | .w8 => BufferMixin.ru8
  | .w16 => BufferMixin.ru16
  | .w24 => BufferMixin.ru24
  | .w32 => BufferMixin.ru32
  | .w40 => BufferMixin.ru40
  | .w48 => BufferMixin.ru48
  | .w56 => BufferMixin.ru56
  | .w64 => BufferMixin.ru64

/-- The call `b.rsW()`, for the widths that have a signed read (there is no `rs8`). -/
def Width.read_s : Width → Option (BufferMixin → Outcome Int)
  | .w8 => none
  | .w16 => some BufferMixin.rs16
  | .w24 => some BufferMixin.rs24
  | .w32 => some BufferMixin.rs32
  | .w40 => some BufferMixin.rs40
  | .w48 => some BufferMixin.rs48
  | .w56 => some BufferMixin.rs56
  | .w64 => some BufferMixin.rs64

/-- A write, then `seek` back to the cursor the write started from, then a read. -/
def write_seek_read (write : BufferMixin → Outcome Unit) (read : BufferMixin → Outcome Int)
    (b : BufferMixin) : Outcome Int :=
  (write b).bind fun _ b1 => (b1.seek b._position).bind fun _ b2 => read b2

/-- Big-endian unsigned value of the `n` bytes of `s` from offset `pos` on. -/
def be_value (s : Int → Byte) (pos : Int) : Nat → Nat
  | 0 => 0
  | n + 1 => be_value s pos n * 256 + (s (pos + n)).val

/-- Two's complement reading of an unsigned value of `bits` bits. -/
def twos_complement (bits : Nat) (u : Nat) : Int :=
  if u < 2 ^ (bits - 1) then (u : Int) else (u : Int) - 2 ^ bits

/-- The branch `wmkvuint` takes for `number`: the width it writes and the marker it ors into
the first byte. -/
def varint_class (number : Int) : Width × Int :=
  if 0x7F > number then (Width.w8, 0x80)
  else if 0x3FFF > number then (Width.w16, 0x40)
  else if 0x1FFFFF > number then (Width.w24, 0x20)
  else if 0xFFFFFFF > number then (Width.w32, 0x10)
  else if 0x07FFFFFFFF > number then (Width.w40, 0x08)
  else if 0x03FFFFFFFFFF > number then (Width.w48, 0x04)
  else if 0x01FFFFFFFFFFFF > number then (Width.w56, 0x02)
  else (Width.w64, 0x01)

/-! ## Constants and helpers of `constants.hpp`, `protocol.hpp`, `interface.hpp` -/

/-- Equivalent of `ETHERNET_PACKET_MAX_SIZE`. -/
def ETHERNET_PACKET_MAX_SIZE : Int := 1518

/-- Equivalent of `ETHERNET_PACKET_HEADER_SIZE`. -/
def ETHERNET_PACKET_HEADER_SIZE : Int := 14

/-- Equivalent of `IPV6_HEADER_LENGTH`. -/
def IPV6_HEADER_LENGTH : Int := 40

/-- Equivalent of `MAC_ADDR_LEN`. -/
def MAC_ADDR_LEN : Int := 6

/-- Equivalent of `REBROADCAST_INTERVAL` (milliseconds). -/
def REBROADCAST_INTERVAL : Int := 1000

/-- Value of `EthernetType::IPv4`. -/
def EthernetType.IPv4 : Int := 0x0800

/-- Value of `EthernetType::IPv6`. -/
def EthernetType.IPv6 : Int := 0x86DD

/-- Value of `EthernetType::ARP`. -/
def EthernetType.ARP : Int := 0x0806

/-- Value of `ArpOperations::ARP_REPLY`. -/
def ArpOperations.ARP_REPLY : Int := 2

/-- Value of `ARPOperationType::REQUEST`. -/
def ARPOperationType.REQUEST : Int := 1

/-- The digit `"0123456789abcdef"[n]`, or with capitals when `upper`. -/
def hex_digit (upper : Bool) (n : Nat) : Char :=
  if n < 10 then Char.ofNat (48 + n)
  else if upper then Char.ofNat (55 + n) else Char.ofNat (87 + n)

/-- Equivalent of `string_to_hex`: two capital hex digits per byte, high nibble first. -/
def string_to_hex (input : List Nat) : String :=
  String.mk (input.flatMap fun c => [hex_digit true (c / 16), hex_digit true (c % 16)])

/-- Equivalent of `mac_to_string`: the six bytes at `mac` as two lower-case hex digits each,
separated by colons. -/
def mac_to_string (mac : Pointer) : String :=
  String.intercalate ":" ((List.range 6).map fun (i : Nat) =>
    String.mk [hex_digit false ((mac.mem (mac.off + (i : Int))).val / 16),
      hex_digit false ((mac.mem (mac.off + (i : Int))).val % 16)])

/-- Value of a hexadecimal digit, if the character is one. -/
def hex_value (c : Char) : Option Nat :=
  if '0' ≤ c ∧ c ≤ '9' then some (c.toNat - 48)
  else if 'a' ≤ c ∧ c ≤ 'f' then some (c.toNat - 87)
  else if 'A' ≤ c ∧ c ≤ 'F' then some (c.toNat - 55)
  else none

/-- The digit loop of `strtoul(s, &end, 16)`: the number the leading hex digits of `s` spell,
with the count of digits read. -/
def stoul16_digits : List Char → Nat → Nat → Nat × Nat
  | [], acc, n => (acc, n)
  | c :: cs, acc, n =>
    match hex_value c with
    | some d => stoul16_digits cs (acc * 16 + d) (n + 1)
    | none => (acc, n)

/-- Splitting at each `sep` as successive `std::getline(stream, part, sep)` calls do: a final
empty part after a trailing separator is not produced. -/
def getline_parts (sep : Char) : List Char → List Char → List (List Char)
  | [], [] => []
  | [], cur => [cur.reverse]
  | c :: cs, cur => if c = sep then cur.reverse :: getline_parts sep cs [] else
      getline_parts sep cs (c :: cur)

/-- Equivalent of `isspace` in the "C" locale: space, `\t`, `\n`, `\v`, `\f`, `\r`. -/
def isspace (c : Char) : Bool :=
  c.toNat = 32 || (9 ≤ c.toNat && c.toNat ≤ 13)

/-- Value of `ULONG_MAX` (64-bit `unsigned long`). -/
def ULONG_MAX : Nat := 18446744073709551615

/-- The characters `strtoul(s, &end, 16)` reads its digits from, once white space and sign are
gone: a `0x` or `0X` is skipped when a hex digit follows it, otherwise the `0` is itself the
number. -/
def skip_0x : List Char → List Char
  | c0 :: x :: d :: rest =>
    if c0 = '0' ∧ (x = 'x' ∨ x = 'X') ∧ (hex_value d).isSome then d :: rest
    else c0 :: x :: d :: rest
  | s => s

/-- Equivalent of `std::stoul(s, nullptr, 16)`: leading white space is skipped, then an optional
sign, then an optional `0x`, then the hex digits are read; characters after them are ignored.
Without a digit it throws `std::invalid_argument`, with digits that spell more than `ULONG_MAX`
it throws `std::out_of_range`; after a minus sign the number is negated as an
`unsigned long`. -/
def stoul16 (s : List Char) : Except Error Nat :=
  let s1 := s.dropWhile isspace
  let negative := s1.head? = some '-'
  let s2 := if s1.head? = some '-' ∨ s1.head? = some '+' then s1.tail else s1
  match stoul16_digits (skip_0x s2) 0 0 with
  | (_, 0) => Except.error (Error.invalid_argument "stoul")
  | (v, _) =>
    if v > ULONG_MAX then Except.error (Error.out_of_range "stoul")
    else Except.ok (if negative then (ULONG_MAX + 1 - v) % (ULONG_MAX + 1) else v)

/-- Equivalent of `mac_string_to_bytes`: the bytes stored into the six-byte allocation, in
order, each the `static_cast<uint8_t>` of what `std::stoul(part, nullptr, 16)` returns. -/
def mac_string_to_bytes (mac : String) : Except Error (List Byte) :=
  (getline_parts ':' mac.data []).mapM fun part =>
    match stoul16 part with
    | Except.error e => Except.error e
    | Except.ok v => Except.ok (to_uint8 v)

/-- The memory a list of bytes occupies, as a pointer to its first byte. -/
def Pointer.of_bytes (l : List Byte) : Pointer :=
  ⟨fun i => if 0 ≤ i then l.getD i.toNat 0 else 0, 0⟩

/-- The text `inet_ntop(AF_INET, ip, ..)` produces for the four bytes at `ip`. -/
def inet_ntop4 (ip : Pointer) : String :=
  String.intercalate "." ((List.range 4).map fun (i : Nat) =>
    toString (ip.mem (ip.off + (i : Int))).val)

/-- Equivalent of `BufferMixin::hex`: the guard on `pos`, then
`std::string s((char*)(_storage + pos), len)`, whose constructor throws `std::length_error` for
a negative `len` (converted to a `size_t` above `max_size()`; the text is the one of libstdc++),
then `string_to_hex`. For a range that leaves the allocated block the constructor reads outside
the block; what is rendered then is whatever `_storage` holds at those offsets. -/
def BufferMixin.hex (b : BufferMixin) (pos len : Int) : Outcome String :=
  if pos < 0 ∨ pos > b.len then
    throw_with_trace (Error.ArgumentError ("pos out of bounds " ++ toString pos)) b
  else if len < 0 then
    ⟨Except.error (Error.length_error "basic_string::_M_create"), b⟩
  else ⟨Except.ok (string_to_hex (bytes_at b._storage pos len.toNat)), b⟩

/-- Equivalent of `BufferMixin::clone`; `fresh` is the content of the newly allocated block,
over whose first `_bytes_written` bytes the valid data is copied. -/
def BufferMixin.clone (b : BufferMixin) (fresh : Int → Byte) : BufferMixin :=
  { _storage := memcpy fresh 0 ⟨b._storage, 0⟩ b._bytes_written,
    _bytes_allocated := b._bytes_allocated,
    _bytes_written := b._bytes_written,
    _ownning_storage := true,
    _position := 0 }

/-! ## Header views (`protocol.hpp`) -/

/-- What a member function of a header object leaves when it reads from a parser: whether it
threw, the fields of the header as assigned so far, and the parser. -/
structure Parse (H : Type) where
  result : Except Error Unit
  hdr : H
  buf : BufferMixin

/-- One statement `field = parser->read(..)` of a `parse` function: skipped when an earlier
statement threw; otherwise the read runs on the parser and, unless it throws, its value is
assigned. -/
def Parse.read {H α : Type} (p : Parse H) (op : H → BufferMixin → Outcome α)
    (assign : H → α → H) : Parse H :=
  match p.result with
  | Except.error _ => p
  | Except.ok _ =>
    match (op p.hdr p.buf).result with
    | Except.ok a => ⟨Except.ok (), assign p.hdr a, (op p.hdr p.buf).buf⟩
    | Except.error e => ⟨Except.error e, p.hdr, (op p.hdr p.buf).buf⟩

/-- Conversion to `uint16_t`. -/
def to_uint16 (x : Int) : Int := x % 65536

/-- The fields of `class EthernetHeader`; the two addresses are pointers into the parser's
storage, kept as offsets from `_storage`. -/
structure EthernetHeader where
  dest_mac : Int
  src_mac : Int
  ethertype : Int

/-- Equivalent of `EthernetHeader::parse`. The first statement evaluates the `hex` call of the
log line. -/
def EthernetHeader.parse (h : EthernetHeader) (parser : BufferMixin) : Parse EthernetHeader :=
  ((((Parse.mk (Except.ok ()) h parser).read
      (fun _ b => b.hex b._position ETHERNET_PACKET_HEADER_SIZE) (fun h _ => h)).read
      (fun _ b => b.rbytes 6) (fun h p => { h with dest_mac := p })).read
      (fun _ b => b.rbytes 6) (fun h p => { h with src_mac := p })).read
      (fun _ b => b.ru16) (fun h v => { h with ethertype := v })

/-- The fields of `class ARPHeader`; the four addresses are offsets into the parser's
storage. -/
structure ARPHeader where
  hardware_type : Int
  protocol_type : Int
  hardware_addr_len : Int
  protocol_addr_len : Int
  operation : Int
  sender_mac : Int
  sender_ip : Int
  target_mac : Int
  target_ip : Int

/-- Equivalent of `ARPHeader::parse`. -/
def ARPHeader.parse (h : ARPHeader) (parser : BufferMixin) : Parse ARPHeader :=
  ((((((((((Parse.mk (Except.ok ()) h parser).read
      (fun _ b => b.hex b._position b._bytes_written) (fun h _ => h)).read
      (fun _ b => b.ru16) (fun h v => { h with hardware_type := to_uint16 v })).read
      (fun _ b => b.ru16) (fun h v => { h with protocol_type := to_uint16 v })).read
      (fun _ b => b.ru8) (fun h v => { h with hardware_addr_len := v % 256 })).read
      (fun _ b => b.ru8) (fun h v => { h with protocol_addr_len := v % 256 })).read
      (fun _ b => b.ru16) (fun h v => { h with operation := to_uint16 v })).read
      (fun h b => b.rbytes h.hardware_addr_len) (fun h p => { h with sender_mac := p })).read
      (fun h b => b.rbytes h.protocol_addr_len) (fun h p => { h with sender_ip := p })).read
      (fun h b => b.rbytes h.hardware_addr_len) (fun h p => { h with target_mac := p })).read
      (fun h b => b.rbytes h.protocol_addr_len) (fun h p => { h with target_ip := p })

/-- Equivalent of `ARPHeader::set_dest_mac`. -/
def ARPHeader.set_dest_mac (_h : ARPHeader) (mac : Pointer) (parser : BufferMixin) :
    Outcome Unit :=
  let pos := parser._position
  (((((parser.seek 0).bind fun _ b =>
      b.wbytes mac MAC_ADDR_LEN).bind fun _ b =>
      b.seek 22).bind fun _ b =>
      b.wbytes mac MAC_ADDR_LEN).bind fun _ b =>
      b.seek pos)

/-- Equivalent of `ARPHeader::set_src_mac`. -/
def ARPHeader.set_src_mac (h : ARPHeader) (mac : Pointer) (parser : BufferMixin) :
    Outcome Unit :=
  let pos := parser._position
  (((((parser.seek MAC_ADDR_LEN).bind fun _ b =>
      b.wbytes mac MAC_ADDR_LEN).bind fun _ b =>
      b.seek (22 + MAC_ADDR_LEN + h.protocol_addr_len)).bind fun _ b =>
      b.wbytes mac MAC_ADDR_LEN).bind fun _ b =>
      b.seek pos)

/-- Equivalent of `ARPHeader::set_dest_ip`. -/
def ARPHeader.set_dest_ip (h : ARPHeader) (ip : Pointer) (parser : BufferMixin) :
    Outcome Unit :=
  let pos := parser._position
  (((parser.seek (22 + (MAC_ADDR_LEN * 2) + h.protocol_addr_len)).bind fun _ b =>
      b.wbytes ip h.protocol_addr_len).bind fun _ b =>
      b.seek pos)

/-- Equivalent of `ARPHeader::set_src_ip`. -/
def ARPHeader.set_src_ip (h : ARPHeader) (ip : Pointer) (parser : BufferMixin) :
    Outcome Unit :=
  let pos := parser._position
  (((parser.seek (22 + MAC_ADDR_LEN)).bind fun _ b =>
      b.wbytes ip h.protocol_addr_len).bind fun _ b =>
      b.seek pos)

/-- Equivalent of `ARPHeader::set_operation`: the `operation` field is assigned first, then the
two bytes at offset 20 are rewritten. -/
def ARPHeader.set_operation (h : ARPHeader) (value : Int) (parser : BufferMixin) :
    Parse ARPHeader :=
  let h1 := { h with operation := to_uint16 value }
  let pos := parser._position
  let o := (((parser.seek 20).bind fun _ b =>
      b.wu16 (to_uint16 value)).bind fun _ b =>
      b.seek pos)
  ⟨o.result, h1, o.buf⟩

/-- The fields of `class IPv6Header`; the two addresses are offsets into the parser's
storage. -/
structure IPv6Header where
  version_tc_flowlabel : Int
  payload_length : Int
  next_header : Int
  hop_limit : Int
  source_ip : Int
  dest_ip : Int

/-- Equivalent of `IPv6Header::parse`. -/
def IPv6Header.parse (h : IPv6Header) (parser : BufferMixin) : Parse IPv6Header :=
  (((((((Parse.mk (Except.ok ()) h parser).read
      (fun _ b => b.hex 0 (IPV6_HEADER_LENGTH + ETHERNET_PACKET_HEADER_SIZE)) (fun h _ => h)).read
      (fun _ b => b.ru32) (fun h v => { h with version_tc_flowlabel := v % 2 ^ 32 })).read
      (fun _ b => b.ru16) (fun h v => { h with payload_length := to_uint16 v })).read
      (fun _ b => b.ru8) (fun h v => { h with next_header := v % 256 })).read
      (fun _ b => b.ru8) (fun h v => { h with hop_limit := v % 256 })).read
      (fun _ b => b.rbytes 16) (fun h p => { h with source_ip := p })).read
      (fun _ b => b.rbytes 16) (fun h p => { h with dest_ip := p })

/-! ## Packets and the responder loop (`interface.cpp`) -/

/-- The fields of `class EthernetPacket` that the loop uses (`ipv4_header`, `tcp_header`,
`udp_header` and `total_size_no_checksum` are never touched by it). `parser` is the shared
pointer, `none` while null. -/
structure EthernetPacket where
  index : Int
  eth_header : EthernetHeader
  ipv6_header : IPv6Header
  arp_header : ARPHeader
  read_done : Bool
  parser : Option BufferMixin

/-- Equivalent of `EthernetPacket::EthernetPacket(int index)`; the header fields, which C++
leaves indeterminate, are zero. -/
def EthernetPacket.new (index : Int) : EthernetPacket :=
  { index := index, eth_header := ⟨0, 0, 0⟩, ipv6_header := ⟨0, 0, 0, 0, 0, 0⟩,
    arp_header := ⟨0, 0, 0, 0, 0, 0, 0, 0, 0⟩, read_done := false, parser := none }

/-- The storage the address pointers of a packet's headers point into. -/
def EthernetPacket.memory (p : EthernetPacket) : Int → Byte :=
  match p.parser with
  | some b => b._storage
  | none => fun _ => 0

/-- What `read_packet` leaves: whether it threw, the packet and the parser passed in. -/
structure PacketOutcome where
  result : Except Error Unit
  packet : EthernetPacket
  parser : BufferMixin

/-- Equivalent of `MayhemInterface::read_packet`. -/
def read_packet (packet : EthernetPacket) (parser : BufferMixin) : PacketOutcome :=
  let e := packet.eth_header.parse parser
  let packet := { packet with eth_header := e.hdr }
  match e.result with
  | Except.error err => ⟨Except.error err, packet, e.buf⟩
  | Except.ok _ =>
    if e.hdr.ethertype = EthernetType.IPv4 then
      ⟨Except.ok (), { packet with parser := some e.buf, read_done := true }, e.buf⟩
    else if e.hdr.ethertype = EthernetType.IPv6 then
      let p := packet.ipv6_header.parse e.buf
      let packet := { packet with ipv6_header := p.hdr }
      match p.result with
      | Except.error err => ⟨Except.error err, packet, p.buf⟩
      | Except.ok _ =>
        if p.hdr.payload_length ≠ p.buf.bytes_left then
          ⟨Except.error (Error.runtime_error
            ("Remaining data on parser after IPv6 header do not match the packet payload, r: "
              ++ toString p.buf.bytes_left ++ ", pl: " ++ toString p.hdr.payload_length)),
            packet, p.buf⟩
        else ⟨Except.ok (), { packet with parser := some p.buf, read_done := true }, p.buf⟩
    else if e.hdr.ethertype = EthernetType.ARP then
      let p := packet.arp_header.parse e.buf
      let packet := { packet with arp_header := p.hdr }
      match p.result with
      | Except.error err => ⟨Except.error err, packet, p.buf⟩
      | Except.ok _ =>
        if p.buf.bytes_left > 0 then
          ⟨Except.error (Error.runtime_error
            ("Remaining data on parser after ARP header, remaining: "
              ++ toString p.buf.bytes_left)), packet, p.buf⟩
        else ⟨Except.ok (), { packet with parser := some p.buf, read_done := true }, p.buf⟩
    else
      ⟨Except.error (Error.runtime_error
        ("Unsupported protocol: " ++ toString e.hdr.ethertype)), packet, e.buf⟩

/-- Equivalent of `EthernetPacket::get_dst_ip`; `inet_ntop6` stands for
`inet_ntop(AF_INET6, ..)`. The `IPv4` case has an empty body and falls through to `IPv6`; for an
IPv4 frame `ipv6_header.dest_ip` was never assigned in C++, and the address read here is the
one `EthernetPacket.new` holds. -/
def EthernetPacket.get_dst_ip (p : EthernetPacket) (inet_ntop6 : Pointer → String) :
    Except Error String :=
  if p.eth_header.ethertype = EthernetType.IPv4 ∨ p.eth_header.ethertype = EthernetType.IPv6 then
    Except.ok (inet_ntop6 ⟨p.memory, p.ipv6_header.dest_ip⟩)
  else if p.eth_header.ethertype = EthernetType.ARP then
    if p.arp_header.protocol_addr_len = 4 then
      Except.ok (inet_ntop4 ⟨p.memory, p.arp_header.target_ip⟩)
    else if p.arp_header.protocol_addr_len = 16 then
      Except.ok (inet_ntop6 ⟨p.memory, p.arp_header.target_ip⟩)
    else Except.error (Error.runtime_error
      ("Unsupported adress length in ARP packet, al: "
        ++ toString p.arp_header.protocol_addr_len))
  else Except.error (Error.runtime_error
    ("Unsupported protocol: " ++ toString p.eth_header.ethertype))

/-- Equivalent of `EthernetPacket::get_src_ip`; the `IPv4` case falls through as in
`get_dst_ip`. -/
def EthernetPacket.get_src_ip (p : EthernetPacket) (inet_ntop6 : Pointer → String) :
    Except Error String :=
  if p.eth_header.ethertype = EthernetType.IPv4 ∨ p.eth_header.ethertype = EthernetType.IPv6 then
    Except.ok (inet_ntop6 ⟨p.memory, p.ipv6_header.source_ip⟩)
  else if p.eth_header.ethertype = EthernetType.ARP then
    if p.arp_header.protocol_addr_len = 4 then
      Except.ok (inet_ntop4 ⟨p.memory, p.arp_header.sender_ip⟩)
    else if p.arp_header.protocol_addr_len = 16 then
      Except.ok (inet_ntop6 ⟨p.memory, p.arp_header.sender_ip⟩)
    else Except.error (Error.runtime_error
      ("Unsupported adress length in ARP packet, al: "
        ++ toString p.arp_header.protocol_addr_len))
  else Except.error (Error.runtime_error
    ("Unsupported protocol: " ++ toString p.eth_header.ethertype))

/-- Equivalent of `EthernetPacket::print`: nothing but log lines, whose arguments can throw. -/
def EthernetPacket.print (p : EthernetPacket) (inet_ntop6 : Pointer → String) :
    Except Error Unit :=
  match p.get_dst_ip inet_ntop6 with
  | Except.error e => Except.error e
  | Except.ok _ =>
    match p.get_src_ip inet_ntop6 with
    | Except.error e => Except.error e
    | Except.ok _ =>
      if p.eth_header.ethertype = EthernetType.ARP then
        match p.parser with
        | some b => (b.hex 0 b._position).result.map fun _ => ()
        | none => Except.ok ()
      else Except.ok ()

/-- What the loop acts on besides its own fields: the frames handed to `write(fd, ..)` so far
(oldest first), the successive results of `get_utc()` with the number of calls made, the
content of freshly allocated memory, and `inet_ntop` for `AF_INET6`. -/
structure World where
  written : List (List Nat)
  clock : Nat → Int
  clock_reads : Nat
  fresh : Int → Byte
  inet_ntop6 : Pointer → String

/-- Equivalent of `get_utc()`. -/
def get_utc (w : World) : Int × World :=
  (w.clock w.clock_reads, { w with clock_reads := w.clock_reads + 1 })

/-- The fields of `class MayhemInterface` the loop body uses. -/
structure MayhemInterface where
  mac : String
  local_ip : String
  broadcast_timetable : String → Option Int

/-- Assignment `broadcast_timetable[key] = value`. -/
def MayhemInterface.record (itf : MayhemInterface) (key : String) (value : Int) :
    MayhemInterface :=
  { itf with broadcast_timetable := fun k => if k = key then some value else
      itf.broadcast_timetable k }

/-- Equivalent of `MayhemInterface::write_packet`: the `hex` call of the log line, then
`write(fd, _storage, _bytes_written)`; a short count is only logged. -/
def write_packet (packet : EthernetPacket) (w : World) : Except Error Unit × World :=
  match packet.parser with
  | none => (Except.ok (), w)
  | some b =>
    match (b.hex 0 b._bytes_written).result with
    | Except.error e => (Except.error e, w)
    | Except.ok _ =>
      (Except.ok (),
        { w with written := w.written ++ [bytes_at b._storage 0 b._bytes_written.toNat] })

/-- Equivalent of `MayhemInterface::clone_packet`. -/
def clone_packet (original : EthernetPacket) (w : World) : PacketOutcome :=
  match original.parser with
  | some b => read_packet (EthernetPacket.new original.index) (b.clone w.fresh)
  | none => ⟨Except.ok (), EthernetPacket.new original.index, BufferMixin.from_external_memory
      (fun _ => 0) 0 0⟩

/-- The ARP answer branch of `MayhemInterface::run`: clone the request, overwrite the
addresses and the operation in the clone, write it. -/
def answer_arp (itf : MayhemInterface) (w : World) (packet : EthernetPacket) :
    Except Error Unit × World :=
  let c := clone_packet packet w
  match c.result, c.packet.parser with
  | Except.error e, _ => (Except.error e, w)
  | Except.ok _, none => (Except.ok (), w)
  | Except.ok _, some parser =>
    match mac_string_to_bytes itf.mac with
    | Except.error e => (Except.error e, w)
    | Except.ok mac_bytes =>
      let o1 := c.packet.arp_header.set_src_mac (Pointer.of_bytes mac_bytes) parser
      match o1.result with
      | Except.error e => (Except.error e, w)
      | Except.ok _ =>
        let o2 := c.packet.arp_header.set_dest_mac
          ⟨packet.memory, packet.arp_header.sender_mac⟩ o1.buf
        match o2.result with
        | Except.error e => (Except.error e, w)
        | Except.ok _ =>
          let o3 := c.packet.arp_header.set_operation ArpOperations.ARP_REPLY o2.buf
          match o3.result with
          | Except.error e => (Except.error e, w)
          | Except.ok _ =>
            match (o3.buf.hex 0 o3.buf._position).result with
            | Except.error e => (Except.error e, w)
            | Except.ok _ =>
              write_packet { c.packet with arp_header := o3.hdr, parser := some o3.buf } w

/-- The rebroadcast branch of `MayhemInterface::run`. -/
def rebroadcast (itf : MayhemInterface) (w : World) (packet : EthernetPacket)
    (src_mac : String) : Except Error Unit × MayhemInterface × World :=
  match itf.broadcast_timetable src_mac with
  | some last_broadcast =>
    let t := get_utc w
    if t.1 - last_broadcast > REBROADCAST_INTERVAL then
      let t2 := get_utc t.2
      let r := write_packet packet t2.2
      (r.1, itf.record src_mac t2.1, r.2)
    else (Except.ok (), itf, t.2)
  | none =>
    let t := get_utc w
    let r := write_packet packet t.2
    (r.1, itf.record src_mac t.1, r.2)

/-- One iteration of the loop of `MayhemInterface::run` on the buffer a successful device read
produced: the error is an exception leaving `run` (nothing in `run` catches it without
rethrowing). -/
def run_iteration (itf : MayhemInterface) (w : World) (packet_index : Int)
    (parser : BufferMixin) : Except Error Unit × MayhemInterface × World :=
  let r := read_packet (EthernetPacket.new packet_index) parser
  match r.result with
  | Except.error e => (Except.error e, itf, w)
  | Except.ok _ =>
    let packet := r.packet
    match packet.print w.inet_ntop6 with
    | Except.error e => (Except.error e, itf, w)
    | Except.ok _ =>
      if packet.eth_header.ethertype = EthernetType.ARP then
        let src_mac := mac_to_string ⟨packet.memory, packet.eth_header.src_mac⟩
        if mac_to_string ⟨packet.memory, packet.eth_header.dest_mac⟩ = "ff:ff:ff:ff:ff:ff" then
          match packet.get_dst_ip w.inet_ntop6 with
          | Except.error e => (Except.error e, itf, w)
          | Except.ok dst_ip =>
            if dst_ip = itf.local_ip ∧
                packet.arp_header.operation = ARPOperationType.REQUEST then
              let a := answer_arp itf w packet
              (a.1, itf, a.2)
            else rebroadcast itf w packet src_mac
        else (Except.ok (), itf, w)
      else (Except.ok (), itf, w)

/-- The buffer `from_file_descripto(fd, mtu)` returns when the device read yields the bytes
`frame`: `mtu` bytes allocated, the frame at their start. -/
def device_buffer (frame : List Nat) (mtu : Int) : BufferMixin :=
  { _storage := memory_of frame, _bytes_allocated := mtu, _bytes_written := frame.length,
    _position := 0, _ownning_storage := true }

/-- An ARP request for 192.168.1.10 from 02:00:00:00:00:01 / 192.168.1.1, broadcast. -/
def sample_arp_request : List Nat :=
  [0xff, 0xff, 0xff, 0xff, 0xff, 0xff, 0x02, 0x00, 0x00, 0x00, 0x00, 0x01, 0x08, 0x06,
   0x00, 0x01, 0x08, 0x00, 0x06, 0x04, 0x00, 0x01,
   0x02, 0x00, 0x00, 0x00, 0x00, 0x01, 192, 168, 1, 1,
   0x00, 0x00, 0x00, 0x00, 0x00, 0x00, 192, 168, 1, 10]

/-- An interface with MAC 02:00:00:00:00:aa and address 192.168.1.10, nothing rebroadcast
yet. -/
def sample_interface : MayhemInterface :=
  { mac := "02:00:00:00:00:AA", local_ip := "192.168.1.10", broadcast_timetable := fun _ => none }

/-- A world in which nothing was written yet and the clock reads 5000, 5001, ... -/
def sample_world : World :=
  { written := [], clock := fun n => 5000 + n, clock_reads := 0, fresh := fun _ => 0,
    inet_ntop6 := fun _ => "::" }

/-- The loop classifies the frame in the device buffer `b` as an ARP broadcast from source MAC
`src_mac` that is not addressed to `local_ip`: `read_packet` and the log lines after it return,
the EtherType is ARP, the Ethernet destination renders as ff:ff:ff:ff:ff:ff, the Ethernet source
renders as `src_mac`, and the ARP target address does not render as `local_ip`. -/
def foreign_arp_broadcast (local_ip : String) (inet_ntop6 : Pointer → String) (idx : Int)
    (b : BufferMixin) (src_mac : String) : Prop :=
  0 ≤ b._bytes_written ∧
  (read_packet (EthernetPacket.new idx) b).result = Except.ok () ∧
  (read_packet (EthernetPacket.new idx) b).packet.print inet_ntop6 = Except.ok () ∧
  (read_packet (EthernetPacket.new idx) b).packet.eth_header.ethertype = EthernetType.ARP ∧
  mac_to_string ⟨(read_packet (EthernetPacket.new idx) b).packet.memory,
    (read_packet (EthernetPacket.new idx) b).packet.eth_header.dest_mac⟩
      = "ff:ff:ff:ff:ff:ff" ∧
  mac_to_string ⟨(read_packet (EthernetPacket.new idx) b).packet.memory,
    (read_packet (EthernetPacket.new idx) b).packet.eth_header.src_mac⟩ = src_mac ∧
  ∃ dst_ip, (read_packet (EthernetPacket.new idx) b).packet.get_dst_ip inet_ntop6
      = Except.ok dst_ip ∧ dst_ip ≠ local_ip

/-- The bytes `write(fd, _storage, _bytes_written)` hands over for a buffer. -/
def frame_of (b : BufferMixin) : List Nat :=
  bytes_at b._storage 0 b._bytes_written.toNat

/-- An interface like `sample_interface` whose address is 192.168.1.99, so that
`sample_arp_request` is not addressed to it. -/
def other_interface : MayhemInterface :=
  { sample_interface with local_ip := "192.168.1.99" }

/-- A world like `sample_world` whose clock reads 5000, then 7000, 7001, ... -/
def slow_world : World :=
  { sample_world with clock := fun n => if n = 0 then 5000 else 7000 + n }

/-! ## Floating-point reads and cursor adjustment (`binary_parser.cpp`) -/

/-- Little-endian unsigned value of the `n` bytes of `s` from offset `pos` on. -/
def le_value (s : Int → Byte) (pos : Int) : Nat → Nat
  | 0 => 0
  | n + 1 => le_value s pos n + (s (pos + n)).val * 256 ^ n

/-- Equivalent of `double rdouble(BufferMixin&)`. The `double` is given by its 64-bit pattern:
the byte-swapped load of the eight bytes at the cursor, on the little-endian host the code
asserts, is their big-endian value. -/
def rdouble (b : BufferMixin) : Nat × BufferMixin :=
  (be_value b._storage b._position 8, b.advance 8)

/-- Equivalent of `float rfloat(BufferMixin&)`, the `float` given by its 32-bit pattern. -/
def rfloat (b : BufferMixin) : Nat × BufferMixin :=
  (be_value b._storage b._position 4, b.advance 4)

/-- Equivalent of `float rfloat_le(BufferMixin&)`, the `float` given by its 32-bit pattern. -/
def rfloat_le (b : BufferMixin) : Nat × BufferMixin :=
  (le_value b._storage b._position 4, b.advance 4)

namespace BufferMixin

/-- Equivalent of `double BufferMixin::rdouble()`. -/
def rdouble (b : BufferMixin) : Outcome Nat :=
  if b._position + 8 > b._bytes_written then
    throw_with_trace (Error.BufferReadError (b._bytes_written - b._position - 8)) b
  else ⟨Except.ok (networkinterface.rdouble b).1, (networkinterface.rdouble b).2⟩

/-- Equivalent of `float BufferMixin::rfloat()`. -/
def rfloat (b : BufferMixin) : Outcome Nat :=
  if b._position + 4 > b._bytes_written then
    throw_with_trace (Error.BufferReadError (b._bytes_written - b._position - 4)) b
  else ⟨Except.ok (networkinterface.rfloat b).1, (networkinterface.rfloat b).2⟩

/-- Equivalent of `float BufferMixin::rfloat_le()`. -/
def rfloat_le (b : BufferMixin) : Outcome Nat :=
  if b._position + 4 > b._bytes_written then
    throw_with_trace (Error.BufferReadError (b._bytes_written - b._position - 4)) b
  else ⟨Except.ok (networkinterface.rfloat_le b).1, (networkinterface.rfloat_le b).2⟩

/-- Equivalent of `void BufferMixin::consume_bytes(int64_t amount)`: `_position` is assigned
before the check, so the buffer a throw leaves has the cursor moved. -/
def consume_bytes (b : BufferMixin) (amount : Int) : Outcome Unit :=
  let b1 := { b with _position := b._position + amount }
  if b1._position > b1._bytes_allocated then
    throw_with_trace (Error.BufferWriteError (b1._position - b1._bytes_allocated)) b1
  else ⟨Except.ok (), { b1 with _bytes_written := max b1._bytes_written b1._position }⟩

/-- Equivalent of `void BufferMixin::bytes_appended(int64_t amount)`: `_bytes_written` is
assigned before the check, so the buffer a throw leaves has the valid length increased. -/
def bytes_appended (b : BufferMixin) (amount : Int) : Outcome Unit :=
  let b1 := { b with _bytes_written := b._bytes_written + amount }
  if b1._bytes_written > b1._bytes_allocated then
    throw_with_trace (Error.BufferWriteError (b1._bytes_written - b1._bytes_allocated)) b1
  else ⟨Except.ok (), b1⟩

end BufferMixin

/-! ## The IPv4 header (`protocol.hpp`) -/

/-- Conversion to `uint32_t`. -/
def to_uint32 (x : Int) : Int := x % 2 ^ 32

/-- The byte `buffer[i]` of a `uint8_t*`, promoted to `int`. -/
def Pointer.byte (buffer : Pointer) (i : Int) : Int := (buffer.mem (buffer.off + i)).val

/-- The fields of `class IPv4Header`. -/
structure IPv4Header where
  version_ihl : Int
  type_of_service : Int
  total_length : Int
  identification : Int
  flags_fragment_offset : Int
  ttl : Int
  protocol : Int
  header_checksum : Int
  source_ip : Int
  dest_ip : Int
  deriving DecidableEq

/-- The declared types of the fields of `class IPv4Header`: `uint8_t`, `uint16_t` and
`uint32_t`. -/
def IPv4Header.Typed (h : IPv4Header) : Prop :=
  (0 ≤ h.version_ihl ∧ h.version_ihl < 2 ^ 8) ∧
  (0 ≤ h.type_of_service ∧ h.type_of_service < 2 ^ 8) ∧
  (0 ≤ h.total_length ∧ h.total_length < 2 ^ 16) ∧
  (0 ≤ h.identification ∧ h.identification < 2 ^ 16) ∧
  (0 ≤ h.flags_fragment_offset ∧ h.flags_fragment_offset < 2 ^ 16) ∧
  (0 ≤ h.ttl ∧ h.ttl < 2 ^ 8) ∧
  (0 ≤ h.protocol ∧ h.protocol < 2 ^ 8) ∧
  (0 ≤ h.header_checksum ∧ h.header_checksum < 2 ^ 16) ∧
  (0 ≤ h.source_ip ∧ h.source_ip < 2 ^ 32) ∧
  (0 ≤ h.dest_ip ∧ h.dest_ip < 2 ^ 32)

instance (h : IPv4Header) : Decidable h.Typed := by
  unfold IPv4Header.Typed; infer_instance

/-- Equivalent of `IPv4Header::parse(uint8_t* buffer)`, which assigns all ten fields. The
shifts are computed in `int`; only `<< 24` can leave its range, and the result is then the
value modulo `2^32` as a signed number. Each right-hand side is converted to the type of the
field. -/
def IPv4Header.parse (_h : IPv4Header) (buffer : Pointer) : IPv4Header :=
  { version_ihl := buffer.byte 0,
    type_of_service := buffer.byte 1,
    total_length := to_uint16 (Int.lor (buffer.byte 2 <<< (8 : Int)) (buffer.byte 3)),
    identification := to_uint16 (Int.lor (buffer.byte 4 <<< (8 : Int)) (buffer.byte 5)),
    flags_fragment_offset := to_uint16 (Int.lor (buffer.byte 6 <<< (8 : Int)) (buffer.byte 7)),
    ttl := buffer.byte 8,
    protocol := buffer.byte 9,
    header_checksum := to_uint16 (Int.lor (buffer.byte 10 <<< (8 : Int)) (buffer.byte 11)),
    source_ip := to_uint32 (Int.lor (Int.lor (Int.lor
      (to_int32 (buffer.byte 12 <<< (24 : Int))) (buffer.byte 13 <<< (16 : Int)))
      (buffer.byte 14 <<< (8 : Int))) (buffer.byte 15)),
    dest_ip := to_uint32 (Int.lor (Int.lor (Int.lor
      (to_int32 (buffer.byte 16 <<< (24 : Int))) (buffer.byte 17 <<< (16 : Int)))
      (buffer.byte 18 <<< (8 : Int))) (buffer.byte 19)) }

/-- Equivalent of `IPv4Header::serialize(uint8_t* buffer, size_t length)`: the memory `buffer`
points into after the twenty stores, or the exception. -/
def IPv4Header.serialize (h : IPv4Header) (buffer : Pointer) (length : Nat) :
    Except Error (Int → Byte) :=
  if length < 20 then
    Except.error (Error.runtime_error "Invalid buffer size: too small for IPv4 header.")
  else
    let s := poke buffer.mem (buffer.off + 0) (to_uint8 h.version_ihl)
    let s := poke s (buffer.off + 1) (to_uint8 h.type_of_service)
    let s := poke s (buffer.off + 2) (to_uint8 (h.total_length.shiftRight 8))
    let s := poke s (buffer.off + 3) (to_uint8 (Int.land h.total_length 0xFF))
    let s := poke s (buffer.off + 4) (to_uint8 (h.identification.shiftRight 8))
    let s := poke s (buffer.off + 5) (to_uint8 (Int.land h.identification 0xFF))
    let s := poke s (buffer.off + 6) (to_uint8 (h.flags_fragment_offset.shiftRight 8))
    let s := poke s (buffer.off + 7) (to_uint8 (Int.land h.flags_fragment_offset 0xFF))
    let s := poke s (buffer.off + 8) (to_uint8 h.ttl)
    let s := poke s (buffer.off + 9) (to_uint8 h.protocol)
    let s := poke s (buffer.off + 10) (to_uint8 (h.header_checksum.shiftRight 8))
    let s := poke s (buffer.off + 11) (to_uint8 (Int.land h.header_checksum 0xFF))
    let s := poke s (buffer.off + 12) (to_uint8 (h.source_ip.shiftRight 24))
    let s := poke s (buffer.off + 13) (to_uint8 (Int.land (h.source_ip.shiftRight 16) 0xFF))
    let s := poke s (buffer.off + 14) (to_uint8 (Int.land (h.source_ip.shiftRight 8) 0xFF))
    let s := poke s (buffer.off + 15) (to_uint8 (Int.land h.source_ip 0xFF))
    let s := poke s (buffer.off + 16) (to_uint8 (h.dest_ip.shiftRight 24))
    let s := poke s (buffer.off + 17) (to_uint8 (Int.land (h.dest_ip.shiftRight 16) 0xFF))
    let s := poke s (buffer.off + 18) (to_uint8 (Int.land (h.dest_ip.shiftRight 8) 0xFF))
    let s := poke s (buffer.off + 19) (to_uint8 (Int.land h.dest_ip 0xFF))
    Except.ok s

/-! ## Device reads and the loop of `MayhemInterface::run` -/

/-- Value of `EAGAIN` (Linux). -/
def EAGAIN : Int := 11

/-- Value of `EWOULDBLOCK` (Linux). -/
def EWOULDBLOCK : Int := 11

/-- Value of `ENOENT` (Linux). -/
def ENOENT : Int := 2

/-- What one `read(fd, storage, mtu)` on the device does: the count it returns, the value of
`errno` after it, and the bytes it stored. -/
structure DeviceRead where
  count : Int
  errno : Int
  stored : List Nat

/-- A device read that delivers the bytes of `frame`. -/
def DeviceRead.frame (frame : List Nat) : DeviceRead :=
  { count := frame.length, errno := 0, stored := frame }

/-- A device read that finds nothing to read on the non-blocking descriptor. -/
def DeviceRead.would_block : DeviceRead :=
  { count := -1, errno := EAGAIN, stored := [] }

/-- Equivalent of `BufferMixin::from_file_descripto(fd, mtu)` for a device read that behaves as
`r`: `mtu` bytes are allocated, the read stores its bytes at their start (the rest of the block,
indeterminate in C++, is zero) and its return value becomes `_bytes_written`. In
`errno == EAGAIN || errno == EWOULDBLOCK || ENOENT` the last operand is the constant itself. -/
def BufferMixin.from_file_descripto (r : DeviceRead) (mtu : Int) : Except Error BufferMixin :=
  let parser : BufferMixin :=
    { _storage := memory_of r.stored, _bytes_allocated := mtu, _bytes_written := r.count,
      _ownning_storage := true, _position := 0 }
  if parser._bytes_written < 0 then
    if r.errno = EAGAIN ∨ r.errno = EWOULDBLOCK ∨ ENOENT ≠ 0 then
      Except.error Error.NoDataException
    else
      Except.error (Error.runtime_error
        ("Error reading from TUN descriptor: " ++ toString r.errno))
  else Except.ok parser

/-- The loop of `MayhemInterface::run` from packet index `packet_index` on, over the device
reads it makes until it sees `stop_running` set. `NoDataException` is the only exception the loop
recovers from (sleep, `process_stdin`, `continue`; nothing is waiting on standard input here);
a `std::runtime_error` is logged and thrown again, no other exception is caught, and the calls
after the `try` block are not guarded: any of these ends `run` with the exception. -/
def MayhemInterface.run_from (itf : MayhemInterface) (w : World) (packet_index : Int) :
    List DeviceRead → Except Error Unit × MayhemInterface × World
  | [] => (Except.ok (), itf, w)
  | r :: reads =>
    match BufferMixin.from_file_descripto r ETHERNET_PACKET_MAX_SIZE with
    | Except.error e =>
      if e = Error.NoDataException then MayhemInterface.run_from itf w packet_index reads
      else (Except.error e, itf, w)
    | Except.ok parser =>
      match run_iteration itf w packet_index parser with
      | (Except.error e, itf1, w1) => (Except.error e, itf1, w1)
      | (Except.ok _, itf1, w1) => MayhemInterface.run_from itf1 w1 (packet_index + 1) reads

/-- Equivalent of `MayhemInterface::run`: the loop from packet index 0. -/
def MayhemInterface.run (itf : MayhemInterface) (w : World) (reads : List DeviceRead) :
    Except Error Unit × MayhemInterface × World :=
  itf.run_from w 0 reads

/-! ## Sample frames -/

/-- An IPv6 frame: Ethernet header, 40-byte IPv6 header declaring a payload of 8 bytes, and 8
bytes of payload. -/
def sample_ipv6_frame : List Nat :=
  [0x02, 0x00, 0x00, 0x00, 0x00, 0xAA, 0x02, 0x00, 0x00, 0x00, 0x00, 0x01, 0x86, 0xDD,
   0x60, 0x00, 0x00, 0x00, 0x00, 0x08, 0x3A, 0x40,
   0xFE, 0x80, 0, 0, 0, 0, 0, 0, 0, 0, 0, 0, 0, 0, 0, 0x01,
   0xFE, 0x80, 0, 0, 0, 0, 0, 0, 0, 0, 0, 0, 0, 0, 0, 0x02,
   0x80, 0x00, 0x00, 0x00, 0x00, 0x01, 0x00, 0x01]

/-- The frame `sample_ipv6_frame` with one byte of payload more than it declares. -/
def padded_ipv6_frame : List Nat := sample_ipv6_frame ++ [0x00]

/-- A VLAN-tagged frame (EtherType 0x8100), 18 bytes. -/
def vlan_frame : List Nat :=
  [0xff, 0xff, 0xff, 0xff, 0xff, 0xff, 0x02, 0x00, 0x00, 0x00, 0x00, 0x01, 0x81, 0x00,
   0x00, 0x64, 0x08, 0x06]

/-- The first ten bytes of `sample_arp_request`: the Ethernet header is cut short. -/
def truncated_frame : List Nat := sample_arp_request.take 10

/-- A broadcast ARP request for 192.168.1.10 that declares hardware address length 0 and
protocol address length 4: 30 bytes, the two hardware addresses are empty. -/
def arp_request_no_hw : List Nat :=
  [0xff, 0xff, 0xff, 0xff, 0xff, 0xff, 0x02, 0x00, 0x00, 0x00, 0x00, 0x01, 0x08, 0x06,
   0x00, 0x01, 0x08, 0x00, 0x00, 0x04, 0x00, 0x01,
   192, 168, 1, 1, 192, 168, 1, 10]

/-- A broadcast ARP reply (operation 2) from 02:00:00:00:00:01 / 192.168.1.1 whose target
address is 192.168.1.10. -/
def arp_reply_broadcast : List Nat :=
  [0xff, 0xff, 0xff, 0xff, 0xff, 0xff, 0x02, 0x00, 0x00, 0x00, 0x00, 0x01, 0x08, 0x06,
   0x00, 0x01, 0x08, 0x00, 0x06, 0x04, 0x00, 0x02,
   0x02, 0x00, 0x00, 0x00, 0x00, 0x01, 192, 168, 1, 1,
   0x00, 0x00, 0x00, 0x00, 0x00, 0x00, 192, 168, 1, 10]

/-- A header: version 4, IHL 5, total length 84, TTL 64, ICMP, from 192.168.1.1 to
192.168.1.10. -/
def sample_ipv4_header : IPv4Header :=
  { version_ihl := 0x45, type_of_service := 0, total_length := 84, identification := 0x1234,
    flags_fragment_offset := 0x4000, ttl := 64, protocol := 1, header_checksum := 0xB861,
    source_ip := 0xC0A80101, dest_ip := 0xC0A8010A }

/-! ## The enumerators of `EthernetType` (`protocol.hpp`) -/

/-- Value of `EthernetType::Wake_on_LAN`. -/
def EthernetType.Wake_on_LAN : Int := 0x0842

/-- Value of `EthernetType::IEEE_802_1Q`. -/
def EthernetType.IEEE_802_1Q : Int := 0x8100

/-- Value of `EthernetType::LLDP`. -/
def EthernetType.LLDP : Int := 0x88CC

/-- Value of `EthernetType::Ethernet_Flow_Control`. -/
def EthernetType.Ethernet_Flow_Control : Int := 0x8808

/-- Value of `EthernetType::X_25`. -/
def EthernetType.X_25 : Int := 0x0805

/-- Value of `EthernetType::IPX`. -/
def EthernetType.IPX : Int := 0x8137

/-- Value of `EthernetType::MACSec`. -/
def EthernetType.MACSec : Int := 0x88E5

/-- Value of `EthernetType::MPLS_Unicast`. -/
def EthernetType.MPLS_Unicast : Int := 0x8847

/-- Value of `EthernetType::MPLS_Multicast`. -/
def EthernetType.MPLS_Multicast : Int := 0x8848

/-- Value of `EthernetType::PPPoE_Discovery`. -/
def EthernetType.PPPoE_Discovery : Int := 0x8863

/-- Value of `EthernetType::PPPoE_Session`. -/
def EthernetType.PPPoE_Session : Int := 0x8864

/-- Value of `EthernetType::PTP`. -/
def EthernetType.PTP : Int := 0x88F7

/-- Value of `EthernetType::Unknown`. -/
def EthernetType.Unknown : Int := 0x0000

/-- The values `enum class EthernetType` names, in the order of the declaration. -/
def EthernetType.enumerators : List Int :=
  [EthernetType.IPv4, EthernetType.IPv6, EthernetType.ARP, EthernetType.Wake_on_LAN,
   EthernetType.IEEE_802_1Q, EthernetType.LLDP, EthernetType.Ethernet_Flow_Control,
   EthernetType.X_25, EthernetType.IPX, EthernetType.MACSec, EthernetType.MPLS_Unicast,
   EthernetType.MPLS_Multicast, EthernetType.PPPoE_Discovery, EthernetType.PPPoE_Session,
   EthernetType.PTP, EthernetType.Unknown]

/-- Equivalent of `EthernetHeader::ethernet_type_to_str`: the `switch` over the enumerators and
the `return` after it. -/
def EthernetHeader.ethernet_type_to_str (h : EthernetHeader) : String :=
  if h.ethertype = EthernetType.IPv4 then "IPv4"
  else if h.ethertype = EthernetType.IPv6 then "IPv6"
  else if h.ethertype = EthernetType.ARP then "ARP"
  else if h.ethertype = EthernetType.Wake_on_LAN then "Wake-on-LAN"
  else if h.ethertype = EthernetType.IEEE_802_1Q then "VLAN-tagged frame (IEEE 802.1Q)"
  else if h.ethertype = EthernetType.LLDP then "Link Layer Discovery Protocol (LLDP)"
  else if h.ethertype = EthernetType.Ethernet_Flow_Control then "Ethernet Flow Control"
  else if h.ethertype = EthernetType.X_25 then "CCITT X.25"
  else if h.ethertype = EthernetType.IPX then "Novell Internet Packet Exchange (IPX)"
  else if h.ethertype = EthernetType.MACSec then "MACSec (IEEE 802.1AE)"
  else if h.ethertype = EthernetType.MPLS_Unicast then "MPLS Unicast"
  else if h.ethertype = EthernetType.MPLS_Multicast then "MPLS Multicast"
  else if h.ethertype = EthernetType.PPPoE_Discovery then "PPPoE Discovery"
  else if h.ethertype = EthernetType.PPPoE_Session then "PPPoE Session"
  else if h.ethertype = EthernetType.PTP then "Precision Time Protocol (PTP)"
  else if h.ethertype = EthernetType.Unknown then "Unknown EtherType"
  else "Unknown: " ++ toString h.ethertype

/-- A frame whose EtherType, 0x1234, is none of the enumerators: 16 bytes. -/
def unlisted_frame : List Nat :=
  [0xff, 0xff, 0xff, 0xff, 0xff, 0xff, 0x02, 0x00, 0x00, 0x00, 0x00, 0x01, 0x12, 0x34,
   0xAB, 0xCD]

/-- The frame `sample_arp_request` padded with zeros to the 60-byte Ethernet minimum. -/
def padded_arp_request : List Nat := sample_arp_request ++ List.replicate 18 0

/-! ## The growable buffer (`MemoryBuffer`, `binary_parser.cpp`) -/

/-- The fields of `class MemoryBuffer`: those of `BufferMixin` and `_CHUNK_SIZE_`. -/
structure MemoryBuffer extends BufferMixin where
  _CHUNK_SIZE_ : Int

/-- What a call on a `MemoryBuffer` leaves behind: the value returned or the error thrown, and
the buffer as the call left it. -/
structure Grown (α : Type) where
  result : Except Error α
  mem : MemoryBuffer

/-- Sequencing of two calls on the same `MemoryBuffer`. -/
def Grown.bind {α β : Type} (g : Grown α) (f : α → MemoryBuffer → Grown β) : Grown β :=
  match g.result with
  | Except.ok a => f a g.mem
  | Except.error e => ⟨Except.error e, g.mem⟩

/-- A call of a member function that `MemoryBuffer` inherits from `BufferMixin`. -/
def MemoryBuffer.inherited {α : Type} (m : MemoryBuffer) (call : BufferMixin → Outcome α) :
    Grown α :=
  ⟨(call m.toBufferMixin).result, { m with toBufferMixin := (call m.toBufferMixin).buf }⟩

/-- Equivalent of `MemoryBuffer::MemoryBuffer()`; the null `_storage` has no bytes, read here
as zeros. -/
def MemoryBuffer.new : MemoryBuffer :=
  { _storage := fun _ => 0, _bytes_allocated := 0, _position := 0, _bytes_written := 0,
    _ownning_storage := false, _CHUNK_SIZE_ := 8192 }

/-- Equivalent of `MemoryBuffer::MemoryBuffer(void* data, int64_t data_size)`; `fresh` is the
content of the block `malloc` returns. -/
def MemoryBuffer.from_data (data : Pointer) (data_size : Int) (fresh : Int → Byte) :
    MemoryBuffer :=
  { _storage := memcpy fresh 0 data data_size, _bytes_allocated := data_size, _position := 0,
    _bytes_written := data_size, _ownning_storage := false, _CHUNK_SIZE_ := 8192 }

/-- Equivalent of `realloc(ptr, size)` on a block of `old_size` bytes. `block` is what the
allocator hands out: `none` for `NULL`, otherwise the content of the new block, over which the
first `min old_size size` bytes of the old block are copied. -/
def realloc (ptr : Int → Byte) (old_size size : Int) (block : Option (Int → Byte)) :
    Option (Int → Byte) :=
  block.map fun fresh => memcpy fresh 0 ⟨ptr, 0⟩ (min old_size size)

/-- Equivalent of `std::memmove(dst + d, src, n)`: the source bytes are those before the
call. -/
def memmove (dst : Int → Byte) (d : Int) (src : Pointer) (n : Int) : Int → Byte :=
  fun j => if d ≤ j ∧ j < d + n then src.mem (src.off + (j - d)) else dst j

namespace MemoryBuffer

/-- Equivalent of `MemoryBuffer::reserve_capacity_from_position`; `_storage` is assigned the
result of `realloc` before the test for `NULL`. -/
def reserve_capacity_from_position (m : MemoryBuffer) (amount_needed : Int)
    (block : Option (Int → Byte)) : Grown Unit :=
  if m._bytes_allocated < amount_needed + m._position then
    let space_to_allocate := amount_needed + m._position + (m._CHUNK_SIZE_ * 1)
    match realloc m._storage m._bytes_allocated space_to_allocate block with
    | none => ⟨Except.error (Error.ErrorBase "MemoryBuffer::realloc() 2"),
        { m with _storage := fun _ => 0 }⟩
    | some s => ⟨Except.ok (), { m with _storage := s, _bytes_allocated := space_to_allocate }⟩
  else ⟨Except.ok (), m⟩

/-- The second statement of every write of `MemoryBuffer`: the free write function on the
buffer. -/
def store (m : MemoryBuffer) (write : BufferMixin → BufferMixin) : Grown Unit :=
  ⟨Except.ok (), { m with toBufferMixin := write m.toBufferMixin }⟩

/-- Equivalent of `void MemoryBuffer::wu8(int value)`. -/
def wu8 (m : MemoryBuffer) (value : Int) (block : Option (Int → Byte)) : Grown Unit :=
  (m.reserve_capacity_from_position 1 block).bind fun _ m =>
    m.store fun b => networkinterface.wu8 b value

/-- Equivalent of `void MemoryBuffer::wu16(int value)`. -/
def wu16 (m : MemoryBuffer) (value : Int) (block : Option (Int → Byte)) : Grown Unit :=
  (m.reserve_capacity_from_position 2 block).bind fun _ m =>
    m.store fun b => networkinterface.wu16 b value

/-- Equivalent of `void MemoryBuffer::wu16le(int value)`. -/
def wu16le (m : MemoryBuffer) (value : Int) (block : Option (Int → Byte)) : Grown Unit :=
  (m.reserve_capacity_from_position 2 block).bind fun _ m =>
    m.store fun b => networkinterface.wu16le b value

/-- Equivalent of `void MemoryBuffer::wu24(int value)`. -/
def wu24 (m : MemoryBuffer) (value : Int) (block : Option (Int → Byte)) : Grown Unit :=
  (m.reserve_capacity_from_position 3 block).bind fun _ m =>
    m.store fun b => networkinterface.wu24 b value

/-- Equivalent of `void MemoryBuffer::wu32(int value)`. -/
def wu32 (m : MemoryBuffer) (value : Int) (block : Option (Int → Byte)) : Grown Unit :=
  (m.reserve_capacity_from_position 4 block).bind fun _ m =>
    m.store fun b => networkinterface.wu32 b value

/-- Equivalent of `void MemoryBuffer::wu32le(int value)`. -/
def wu32le (m : MemoryBuffer) (value : Int) (block : Option (Int → Byte)) : Grown Unit :=
  (m.reserve_capacity_from_position 4 block).bind fun _ m =>
    m.store fun b => networkinterface.wu32le b value

/-- Equivalent of `void MemoryBuffer::wu40(int64_t value)`. -/
def wu40 (m : MemoryBuffer) (value : Int) (block : Option (Int → Byte)) : Grown Unit :=
  (m.reserve_capacity_from_position 5 block).bind fun _ m =>
    m.store fun b => networkinterface.wu40 b value

/-- Equivalent of `void MemoryBuffer::wu48(int64_t value)`. -/
def wu48 (m : MemoryBuffer) (value : Int) (block : Option (Int → Byte)) : Grown Unit :=
  (m.reserve_capacity_from_position 6 block).bind fun _ m =>
    m.store fun b => networkinterface.wu48 b value

/-- Equivalent of `void MemoryBuffer::wu56(int64_t value)`. -/
def wu56 (m : MemoryBuffer) (value : Int) (block : Option (Int → Byte)) : Grown Unit :=
  (m.reserve_capacity_from_position 7 block).bind fun _ m =>
    m.store fun b => networkinterface.wu56 b value

/-- Equivalent of `void MemoryBuffer::wu64(int64_t value)`. -/
def wu64 (m : MemoryBuffer) (value : Int) (block : Option (Int → Byte)) : Grown Unit :=
  (m.reserve_capacity_from_position 8 block).bind fun _ m =>
    m.store fun b => networkinterface.wu64 b value

/-- Equivalent of `void MemoryBuffer::wbytes(void* data, int64_t data_size)`. -/
def wbytes (m : MemoryBuffer) (data : Pointer) (data_size : Int)
    (block : Option (Int → Byte)) : Grown Unit :=
  (m.reserve_capacity_from_position data_size block).bind fun _ m =>
    m.store fun b => networkinterface.wbytes b data data_size

/-- Equivalent of `void MemoryBuffer::wstring(const std::string& text)`. -/
def wstring (m : MemoryBuffer) (text : List Byte) (block : Option (Int → Byte)) :
    Grown Unit :=
  let text_size : Int := text.length
  (m.reserve_capacity_from_position text_size block).bind fun _ m =>
    m.store fun b => networkinterface.wstring b text

/-- Equivalent of `void MemoryBuffer::eliminate_parsed_data(bool forced)`. -/
def eliminate_parsed_data (m : MemoryBuffer) (forced : Bool) : MemoryBuffer :=
  if m._position = m._bytes_written then
    { m with toBufferMixin := m.toBufferMixin.clear }
  else if forced = true ∨ m._position > 8 * m.toBufferMixin.bytes_left then
    { m with _storage := memmove m._storage 0 ⟨m._storage, m._position⟩
               m.toBufferMixin.bytes_left,
             _bytes_written := m._bytes_written - m._position,
             _position := 0 }
  else m

end MemoryBuffer

/-- The function `void wmkvuint(BufferMixin& b, int64_t number)` when `b` is a `MemoryBuffer`:
the virtual `b.wu8` .. `b.wu64` are the overrides of `MemoryBuffer`, the non-virtual
`b.bor_byte` is the member of `BufferMixin`. -/
def wmkvuint_virtual (m : MemoryBuffer) (number : Int) (block : Option (Int → Byte)) :
    Grown Unit :=
  let pos := m.toBufferMixin.tell
  if 0x7F > number then
    (m.wu8 (to_int32 number) block).bind fun _ m => m.inherited fun b => b.bor_byte pos 0x80
  else if 0x3FFF > number then
    (m.wu16 (to_int32 number) block).bind fun _ m => m.inherited fun b => b.bor_byte pos 0x40
  else if 0x1FFFFF > number then
    (m.wu24 (to_int32 number) block).bind fun _ m => m.inherited fun b => b.bor_byte pos 0x20
  else if 0xFFFFFFF > number then
    (m.wu32 (to_int32 number) block).bind fun _ m => m.inherited fun b => b.bor_byte pos 0x10
  else if 0x07FFFFFFFF > number then
    (m.wu40 number block).bind fun _ m => m.inherited fun b => b.bor_byte pos 0x08
  else if 0x03FFFFFFFFFF > number then
    (m.wu48 number block).bind fun _ m => m.inherited fun b => b.bor_byte pos 0x04
  else if 0x01FFFFFFFFFFFF > number then
    (m.wu56 number block).bind fun _ m => m.inherited fun b => b.bor_byte pos 0x02
  else
    (m.wu64 number block).bind fun _ m => m.inherited fun b => b.bor_byte pos 0x01

/-- The call `wmkvuint(number)` on a `MemoryBuffer`. The class does not override it, so this is
`BufferMixin::wmkvuint`: the capacity test on `_bytes_allocated`, then the free function. -/
def MemoryBuffer.wmkvuint (m : MemoryBuffer) (number : Int) (block : Option (Int → Byte)) :
    Grown Unit :=
  if m._position + 8 > m._bytes_allocated then
    ⟨Except.error (Error.BufferWriteError (8 - m._bytes_allocated + m._position)), m⟩
  else wmkvuint_virtual m number block

/-- The override of `MemoryBuffer` a `FixedWrite` names, applied to its arguments. -/
def FixedWrite.grow : FixedWrite → MemoryBuffer → Option (Int → Byte) → Grown Unit
  | .wu8 value => fun m => m.wu8 value
  | .wu16 value => fun m => m.wu16 value
  | .wu16le value => fun m => m.wu16le value
  | .wu24 value => fun m => m.wu24 value
  | .wu32 value => fun m => m.wu32 value
  | .wu32le value => fun m => m.wu32le value
  | .wu40 value => fun m => m.wu40 value
  | .wu48 value => fun m => m.wu48 value
  | .wu56 value => fun m => m.wu56 value
  | .wu64 value => fun m => m.wu64 value
  | .wbytes data data_size => fun m => m.wbytes data data_size
  | .wstring text => fun m => m.wstring text

/-- A `MemoryBuffer` of 8 allocated bytes holding 01 02 03 04, the first three of them read. -/
def three_read_of_4 : MemoryBuffer :=
  { _storage := memory_of [1, 2, 3, 4], _bytes_allocated := 8, _bytes_written := 4,
    _position := 3, _ownning_storage := false, _CHUNK_SIZE_ := 8192 }

/-! ## Hex lines (`constants.hpp`) -/

/-- Equivalent of `hexCharToByte`; `std::to_string(c)` prints the `char` as a signed
number. -/
def hexCharToByte (c : Char) (pos : Int) : Except Error Byte :=
  if c = '0' then Except.ok 0
  else if c = '1' then Except.ok 1
  else if c = '2' then Except.ok 2
  else if c = '3' then Except.ok 3
  else if c = '4' then Except.ok 4
  else if c = '5' then Except.ok 5
  else if c = '6' then Except.ok 6
  else if c = '7' then Except.ok 7
  else if c = '8' then Except.ok 8
  else if c = '9' then Except.ok 9
  else if c = 'A' ∨ c = 'a' then Except.ok 10
  else if c = 'B' ∨ c = 'b' then Except.ok 11
  else if c = 'C' ∨ c = 'c' then Except.ok 12
  else if c = 'D' ∨ c = 'd' then Except.ok 13
  else if c = 'E' ∨ c = 'e' then Except.ok 14
  else if c = 'F' ∨ c = 'f' then Except.ok 15
  else Except.error (Error.invalid_argument ("Invalid hex character: " ++
    toString (to_signed 8 c.toNat) ++ " at position: " ++ toString pos))

/-- The loop of `hexStringToBytes` from index `i` on, over the characters not yet read: the
result is the error thrown, if any, and the array `bytes` as the loop leaves it. Of the two
operands of `|` the left one is evaluated first. -/
def hexStringToBytes_loop : List Char → Nat → (Int → Byte) → Except Error Unit × (Int → Byte)
  | c0 :: c1 :: rest, i, bytes =>
    match hexCharToByte c0 (to_int32 i) with
    | Except.error e => (Except.error e, bytes)
    | Except.ok hi =>
      match hexCharToByte c1 (to_int32 (i + 1)) with
      | Except.error e => (Except.error e, bytes)
      | Except.ok lo =>
        hexStringToBytes_loop rest (i + 2)
          (poke bytes ((i / 2 : Nat) : Int)
            (to_uint8 ((hi.val <<< 4) ||| lo.val : Nat)))
  | _, _, bytes => (Except.ok (), bytes)

/-- What `hexStringToBytes` leaves: whether it threw, the array `bytes` and the variable
`size`. -/
structure Decoded where
  result : Except Error Unit
  bytes : Int → Byte
  size : Int

/-- Equivalent of `hexStringToBytes(hex, bytes, size)`. -/
def hexStringToBytes (hex : String) (bytes : Int → Byte) (size : Int) : Decoded :=
  if hex.length % 2 ≠ 0 then
    ⟨Except.error (Error.invalid_argument "Hex string must have an even length."), bytes, size⟩
  else
    match hexStringToBytes_loop hex.data 0 bytes with
    | (Except.error e, stored) => ⟨Except.error e, stored, size⟩
    | (Except.ok _, stored) => ⟨Except.ok (), stored, to_int32 (hex.length / 2 : Nat)⟩

/-! # Theorems -/

/-! ## Reads -/

/-- The state a fixed-width read leaves: untouched when the check fails, the cursor advanced
by the width otherwise. -/
theorem read_buf (r : FixedRead) (b : BufferMixin) :
    (r.call b).buf = if b._position + r.size > b._bytes_written then b else b.advance r.size := by
  cases r <;> simp only [FixedRead.call, FixedRead.size,
      BufferMixin.ru8, BufferMixin.ru16, BufferMixin.rs16, BufferMixin.ru24, BufferMixin.rs24,
      BufferMixin.ru32, BufferMixin.rs32, BufferMixin.ru40, BufferMixin.rs40, BufferMixin.ru48,
      BufferMixin.rs48, BufferMixin.ru56, BufferMixin.rs56, BufferMixin.ru64, BufferMixin.rs64] <;>
    split <;> rfl

/-- A fixed-width read throws `BufferReadError` when the check fails and returns otherwise. -/
theorem read_result (r : FixedRead) (b : BufferMixin) :
    (b._position + r.size > b._bytes_written → (r.call b).readError) ∧
    (¬ b._position + r.size > b._bytes_written → ∃ v, (r.call b).result = Except.ok v) := by
  cases r <;> simp only [FixedRead.call, FixedRead.size,
      BufferMixin.ru8, BufferMixin.ru16, BufferMixin.rs16, BufferMixin.ru24, BufferMixin.rs24,
      BufferMixin.ru32, BufferMixin.rs32, BufferMixin.ru40, BufferMixin.rs40, BufferMixin.ru48,
      BufferMixin.rs48, BufferMixin.ru56, BufferMixin.rs56, BufferMixin.ru64, BufferMixin.rs64] <;>
    (constructor <;> intro h)
  all_goals first
    | (rw [if_pos h]; exact ⟨_, rfl⟩)
    | (rw [if_neg h]; exact ⟨_, rfl⟩)

/-- C2 (read contract). Every fixed-width read (`ru8` .. `rs64`) of `n = width/8` bytes throws,
and what it throws is a `BufferReadError`, exactly when `position + n > bytes_written`; when it
throws the buffer is left as it was (cursor, valid length, bytes); when it returns the cursor has
advanced by exactly `n` and valid length, capacity and stored bytes are unchanged. Holds for every
buffer state, in particular those with `0 ≤ position ≤ bytes_written`. -/
theorem read_contract (r : FixedRead) (b : BufferMixin) :
    ((r.call b).readError ↔ b._position + r.size > b._bytes_written) ∧
    ((r.call b).failed ↔ b._position + r.size > b._bytes_written) ∧
    (b._position + r.size > b._bytes_written → (r.call b).buf = b) ∧
    (¬ b._position + r.size > b._bytes_written →
      (∃ v, (r.call b).result = Except.ok v) ∧
      (r.call b).buf._position = b._position + r.size ∧
      (r.call b).buf._bytes_written = b._bytes_written ∧
      (r.call b).buf._bytes_allocated = b._bytes_allocated ∧
      (r.call b).buf._storage = b._storage) := by
  have hs := read_buf r b
  obtain ⟨h1, h2⟩ := read_result r b
  by_cases h : b._position + r.size > b._bytes_written
  · have he := h1 h
    refine ⟨⟨fun _ => h, fun _ => he⟩, ⟨fun _ => h, fun _ => ?_⟩,
      fun _ => by rw [hs, if_pos h], fun hn => absurd h hn⟩
    obtain ⟨n, hn⟩ := he
    exact ⟨_, hn⟩
  · obtain ⟨v, hv⟩ := h2 h
    rw [if_neg h] at hs
    refine ⟨⟨fun ⟨n, hn⟩ => ?_, fun hh => absurd hh h⟩, ⟨fun ⟨e, he⟩ => ?_, fun hh => absurd hh h⟩,
      fun hh => absurd hh h, fun _ => ⟨⟨v, hv⟩, ?_, ?_, ?_, ?_⟩⟩
    · rw [hv] at hn; cases hn
    · rw [hv] at he; cases he
    all_goals rw [hs]; rfl

/-! ## Writes on the fixed-capacity buffer -/

/-- A write that fits: it returns, the cursor advances by the size, the valid length becomes
the larger of its old value and the new cursor, and only bytes under the written range change. -/
theorem write_ok_state (w : FixedWrite) (b : BufferMixin)
    (h : ¬ b._position + w.size > b._bytes_allocated) :
    (w.call b).result = Except.ok () ∧
    (w.call b).buf._position = b._position + w.size ∧
    (w.call b).buf._bytes_written = max b._bytes_written (b._position + w.size) ∧
    (w.call b).buf._bytes_allocated = b._bytes_allocated ∧
    (w.call b).buf._ownning_storage = b._ownning_storage ∧
    ∀ i, (i < b._position ∨ b._position + w.size ≤ i) →
      (w.call b).buf._storage i = b._storage i := by
  cases w <;> simp only [FixedWrite.call, FixedWrite.size,
      BufferMixin.wu8, BufferMixin.wu16, BufferMixin.wu16le, BufferMixin.wu24, BufferMixin.wu32,
      BufferMixin.wu32le, BufferMixin.wu40, BufferMixin.wu48, BufferMixin.wu56, BufferMixin.wu64,
      BufferMixin.wbytes, BufferMixin.wstring] at h ⊢ <;>
    rw [if_neg h] <;>
    refine ⟨rfl, rfl, max_comm _ _, rfl, rfl, fun i hi => ?_⟩ <;>
    simp only [networkinterface.wu8, networkinterface.wu16, networkinterface.wu16le,
      networkinterface.wu24, networkinterface.wu32, networkinterface.wu32le,
      networkinterface.wu40, networkinterface.wu48, networkinterface.wu56,
      networkinterface.wu64, networkinterface.wbytes, networkinterface.wstring,
      BufferMixin.written, memcpy, poke]
  all_goals (repeat' split) <;> first | rfl | omega

/-- A write that does not fit throws `BufferWriteError` and leaves the buffer as it was. -/
theorem write_fail_state (w : FixedWrite) (b : BufferMixin)
    (h : b._position + w.size > b._bytes_allocated) :
    (w.call b).writeError ∧ (w.call b).buf = b := by
  cases w <;> simp only [FixedWrite.call, FixedWrite.size,
      BufferMixin.wu8, BufferMixin.wu16, BufferMixin.wu16le, BufferMixin.wu24, BufferMixin.wu32,
      BufferMixin.wu32le, BufferMixin.wu40, BufferMixin.wu48, BufferMixin.wu56, BufferMixin.wu64,
      BufferMixin.wbytes, BufferMixin.wstring] at h ⊢ <;>
    rw [if_pos h] <;> exact ⟨⟨_, rfl⟩, rfl⟩

/-- Forgetting the returned value does not change whether a range error was thrown. -/
theorem void_rangeError {α : Type} (o : Outcome α) : o.void.rangeError ↔ o.rangeError := by
  unfold Outcome.rangeError Outcome.readError Outcome.writeError Outcome.void
  cases hr : o.result <;> simp [Except.map]

/-- Or-ing a value below `2^k` into a number whose low `k` bits are clear adds it. -/
theorem lor_eq_add (x y k : Nat) (hx : x % 2 ^ k = 0) (hy : y < 2 ^ k) : x ||| y = x + y := by
  have h := Nat.mul_add_lt_is_or hy (x / 2 ^ k)
  have hx2 : 2 ^ k * (x / 2 ^ k) = x := by
    have := Nat.div_add_mod x (2 ^ k)
    omega
  rw [hx2] at h
  exact h.symm

/-- An arithmetic right shift is a floor division by a power of two. -/
theorem shiftRight_eq_div (v : Int) (n : Nat) : v.shiftRight n = v / 2 ^ n := by
  have h := Int.shiftRight_eq_div_pow v n
  simpa using h

/-- Clearing the bits of `m` in the mask of `k` ones. -/
theorem ldiff_mask (k m : Nat) : Nat.ldiff (2 ^ k - 1) m = 2 ^ k - (m % 2 ^ k + 1) := by
  apply Nat.eq_of_testBit_eq
  intro i
  rw [Nat.testBit_ldiff, Nat.testBit_two_pow_sub_one,
    Nat.testBit_two_pow_sub_succ (Nat.mod_lt _ (Nat.two_pow_pos k)), Nat.testBit_mod_two_pow]
  by_cases h : i < k <;> simp [h]

/-- The sign step `x |= -(x & (1 << k))` on a value below `2^(k+1)`. -/
theorem sign_step (k m : Nat) (hm : m < 2 ^ (k + 1)) :
    Int.lor m (-(Int.land m ((2 ^ k : Nat) : Int))) =
      if m < 2 ^ k then (m : Int) else m - 2 ^ (k + 1) := by
  have hland : Int.land m ((2 ^ k : Nat) : Int) = ((m &&& 2 ^ k : Nat) : Int) := rfl
  rw [hland, Nat.and_two_pow]
  have hpos : 0 < 2 ^ k := Nat.two_pow_pos k
  have hq : m / 2 ^ k < 2 := by
    apply Nat.div_lt_of_lt_mul
    rw [pow_succ] at hm
    omega
  have hdm := Nat.div_add_mod m (2 ^ k)
  have hml := Nat.mod_lt m hpos
  by_cases hb : m.testBit k = true
  · rw [Nat.testBit_to_div_mod] at hb
    have hq1 : m / 2 ^ k = 1 := by
      have h1 : m / 2 ^ k % 2 = 1 := of_decide_eq_true hb
      generalize m / 2 ^ k = q at hq h1 ⊢
      omega
    rw [hq1] at hdm
    have hge : ¬ m < 2 ^ k := by omega
    rw [if_neg hge]
    have hb' : m.testBit k = true := by
      rw [Nat.testBit_to_div_mod, hq1]; rfl
    rw [hb']
    simp only [Bool.toNat_true, one_mul]
    have hneg : -((2 ^ k : Nat) : Int) = Int.negSucc (2 ^ k - 1) := by
      rw [Int.negSucc_eq]
      have : ((2 ^ k - 1 : Nat) : Int) = ((2 ^ k : Nat) : Int) - 1 := by
        rw [Nat.cast_sub hpos]; rfl
      rw [this]; ring
    rw [hneg]
    have hlor : Int.lor (m : Int) (Int.negSucc (2 ^ k - 1)) =
        Int.negSucc (Nat.ldiff (2 ^ k - 1) m) := rfl
    rw [hlor, ldiff_mask, Int.negSucc_eq]
    have hc : ((2 ^ k - (m % 2 ^ k + 1) : Nat) : Int) = (2 ^ k : Nat) - ((m % 2 ^ k : Nat) + 1) := by
      rw [Nat.cast_sub (by omega)]; push_cast; ring
    rw [hc, pow_succ]
    have hm2 : (m : Int) = (2 ^ k : Nat) * 1 + (m % 2 ^ k : Nat) := by
      exact_mod_cast hdm.symm
    rw [hm2]
    push_cast
    ring
  · have hbf : m.testBit k = false := by simpa using hb
    rw [hbf]
    rw [Nat.testBit_to_div_mod] at hbf
    have hq0 : m / 2 ^ k = 0 := by
      have h1 : ¬ m / 2 ^ k % 2 = 1 := of_decide_eq_false hbf
      generalize m / 2 ^ k = q at hq h1 ⊢
      omega
    rw [hq0] at hdm
    have hlt : m < 2 ^ k := by omega
    rw [if_pos hlt]
    simp only [Bool.toNat_false, zero_mul, Nat.cast_zero, neg_zero]
    show ((m ||| 0 : Nat) : Int) = m
    simp

/-- `sign_extend` computes the two's complement reading of a `8 * size`-bit value. -/
theorem sign_extend_eq (size m : Nat) (hs : 0 < size) (hm : m < 2 ^ (8 * size)) :
    sign_extend size m = if m < 2 ^ (8 * size - 1) then (m : Int) else m - 2 ^ (8 * size) := by
  unfold sign_extend
  rw [Int.one_shiftLeft]
  have h8 : 8 * size = (8 * size - 1) + 1 := by omega
  have := sign_step (8 * size - 1) m (by rw [← h8]; exact hm)
  rw [← h8] at this
  exact this

/-- Or-ing a byte into an integer whose low eight bits are clear adds it. -/
theorem int_lor_low (x : Int) (p : Nat) (hx : x % 256 = 0) (hp : p < 256) :
    Int.lor x p = x + p := by
  cases x with
  | ofNat a =>
    show ((a ||| p : Nat) : Int) = (a : Int) + p
    have ha : a % 2 ^ 8 = 0 := by
      have : ((a : Int) % 256) = 0 := hx
      omega
    rw [lor_eq_add a p 8 ha (by omega)]
    push_cast; rfl
  | negSucc a =>
    show Int.negSucc (Nat.ldiff a p) = Int.negSucc a + p
    have ha : a % 256 = 255 := by
      have : (Int.negSucc a) % 256 = 0 := hx
      rw [Int.negSucc_eq] at this
      omega
    have hdm := Nat.div_add_mod a 256
    have hld : Nat.ldiff a p = a - p := by
      apply Nat.eq_of_testBit_eq
      intro i
      rw [Nat.testBit_ldiff]
      have e1 : a = 2 ^ 8 * (a / 256) + (2 ^ 8 - 1) := by omega
      have e2 : a - p = 2 ^ 8 * (a / 256) + (2 ^ 8 - (p + 1)) := by omega
      rw [e2]
      conv_lhs => rw [e1]
      rw [Nat.testBit_mul_pow_two_add _ (by omega), Nat.testBit_mul_pow_two_add _ (by omega),
        Nat.testBit_two_pow_sub_one, Nat.testBit_two_pow_sub_succ (by omega)]
      by_cases hi : i < 8
      · simp [hi]
      · have hpi : p.testBit i = false := by
          apply Nat.testBit_lt_two_pow
          calc p < 2 ^ 8 := by omega
            _ ≤ 2 ^ i := Nat.pow_le_pow_right (by omega) (by omega)
        simp [hi, hpi]
    rw [hld, Int.negSucc_eq, Int.negSucc_eq, Nat.cast_sub (by omega)]
    ring

/-- The sum form of an or with a value below `2^8`. -/
theorem lor_add_8 (x y : Nat) (hx : x % 2 ^ 8 = 0) (hy : y < 2 ^ 8) : x ||| y = x + y :=
  lor_eq_add x y 8 hx hy
/-- The sum form of an or with a value below `2^16`. -/
theorem lor_add_16 (x y : Nat) (hx : x % 2 ^ 16 = 0) (hy : y < 2 ^ 16) : x ||| y = x + y :=
  lor_eq_add x y 16 hx hy
/-- The sum form of an or with a value below `2^24`. -/
theorem lor_add_24 (x y : Nat) (hx : x % 2 ^ 24 = 0) (hy : y < 2 ^ 24) : x ||| y = x + y :=
  lor_eq_add x y 24 hx hy
/-- The sum form of an or with a value below `2^32`. -/
theorem lor_add_32 (x y : Nat) (hx : x % 2 ^ 32 = 0) (hy : y < 2 ^ 32) : x ||| y = x + y :=
  lor_eq_add x y 32 hx hy
/-- The sum form of an or with a value below `2^40`. -/
theorem lor_add_40 (x y : Nat) (hx : x % 2 ^ 40 = 0) (hy : y < 2 ^ 40) : x ||| y = x + y :=
  lor_eq_add x y 40 hx hy
/-- The sum form of an or with a value below `2^48`. -/
theorem lor_add_48 (x y : Nat) (hx : x % 2 ^ 48 = 0) (hy : y < 2 ^ 48) : x ||| y = x + y :=
  lor_eq_add x y 48 hx hy
/-- The sum form of an or with a value below `2^56`. -/
theorem lor_add_56 (x y : Nat) (hx : x % 2 ^ 56 = 0) (hy : y < 2 ^ 56) : x ||| y = x + y :=
  lor_eq_add x y 56 hx hy

/-- Big-endian combination of eight bytes as a sum. -/
theorem be8 (a0 a1 a2 a3 a4 a5 a6 a7 : Nat) (h1 : a1 < 256) (h2 : a2 < 256)
    (h3 : a3 < 256) (h4 : a4 < 256) (h5 : a5 < 256) (h6 : a6 < 256) (h7 : a7 < 256) :
    (a0 <<< 56) ||| (a1 <<< 48) ||| (a2 <<< 40) ||| (a3 <<< 32) ||| (a4 <<< 24) ||| (a5 <<< 16)
      ||| (a6 <<< 8) ||| a7
    = a0 * 2 ^ 56 + a1 * 2 ^ 48 + a2 * 2 ^ 40 + a3 * 2 ^ 32 + a4 * 2 ^ 24 + a5 * 2 ^ 16
      + a6 * 2 ^ 8 + a7 := by
  simp only [Nat.shiftLeft_eq]
  simp (disch := omega) only [lor_add_8, lor_add_16, lor_add_24, lor_add_32, lor_add_40,
    lor_add_48, lor_add_56]

/-- The value of a conversion to `uint8_t`. -/
theorem to_uint8_val (x : Int) : (to_uint8 x).val = (x % 256).toNat := rfl


/-- Quotient and remainder of a division by 256. -/
theorem divmod256 (q : Int) :
    ∃ d r : Int, q / 256 = d ∧ q % 256 = r ∧ 0 ≤ r ∧ r < 256 ∧ q = 256 * d + r :=
  ⟨q / 256, q % 256, rfl, rfl, Int.emod_nonneg _ (by decide), Int.emod_lt_of_pos _ (by decide),
    (Int.ediv_add_emod q 256).symm⟩

/-- The 1 low base-256 digits of an integer add up to its residue modulo `2^8`. -/
theorem digits1 (v : Int) :
    v % 256 = v % 2 ^ 8 := by
  obtain ⟨d1, r0, hd1, hr0, _, _, _⟩ := divmod256 v
  rw [hr0]
  clear hd1 hr0
  omega

/-- The 2 low base-256 digits of an integer add up to its residue modulo `2^16`. -/
theorem digits2 (v : Int) :
    v / 256 % 256 * 2 ^ 8 + v % 256 = v % 2 ^ 16 := by
  obtain ⟨d1, r0, hd1, hr0, _, _, _⟩ := divmod256 v
  rw [hd1, hr0]
  obtain ⟨d2, r1, hd2, hr1, _, _, _⟩ := divmod256 d1
  rw [hr1]
  clear hd1 hr0 hd2 hr1
  omega

/-- The 3 low base-256 digits of an integer add up to its residue modulo `2^24`. -/
theorem digits3 (v : Int) :
    v / 256 / 256 % 256 * 2 ^ 16 + v / 256 % 256 * 2 ^ 8 + v % 256 = v % 2 ^ 24 := by
  obtain ⟨d1, r0, hd1, hr0, _, _, _⟩ := divmod256 v
  rw [hd1, hr0]
  obtain ⟨d2, r1, hd2, hr1, _, _, _⟩ := divmod256 d1
  rw [hd2, hr1]
  obtain ⟨d3, r2, hd3, hr2, _, _, _⟩ := divmod256 d2
  rw [hr2]
  clear hd1 hr0 hd2 hr1 hd3 hr2
  omega

/-- The 4 low base-256 digits of an integer add up to its residue modulo `2^32`. -/
theorem digits4 (v : Int) :
    v / 256 / 256 / 256 % 256 * 2 ^ 24 + v / 256 / 256 % 256 * 2 ^ 16 + v / 256 % 256 * 2 ^ 8 + v % 256 = v % 2 ^ 32 := by
  obtain ⟨d1, r0, hd1, hr0, _, _, _⟩ := divmod256 v
  rw [hd1, hr0]
  obtain ⟨d2, r1, hd2, hr1, _, _, _⟩ := divmod256 d1
  rw [hd2, hr1]
  obtain ⟨d3, r2, hd3, hr2, _, _, _⟩ := divmod256 d2
  rw [hd3, hr2]
  obtain ⟨d4, r3, hd4, hr3, _, _, _⟩ := divmod256 d3
  rw [hr3]
  clear hd1 hr0 hd2 hr1 hd3 hr2 hd4 hr3
  omega

/-- The 5 low base-256 digits of an integer add up to its residue modulo `2^40`. -/
theorem digits5 (v : Int) :
    v / 256 / 256 / 256 / 256 % 256 * 2 ^ 32 + v / 256 / 256 / 256 % 256 * 2 ^ 24 + v / 256 / 256 % 256 * 2 ^ 16 + v / 256 % 256 * 2 ^ 8 + v % 256 = v % 2 ^ 40 := by
  obtain ⟨d1, r0, hd1, hr0, _, _, _⟩ := divmod256 v
  rw [hd1, hr0]
  obtain ⟨d2, r1, hd2, hr1, _, _, _⟩ := divmod256 d1
  rw [hd2, hr1]
  obtain ⟨d3, r2, hd3, hr2, _, _, _⟩ := divmod256 d2
  rw [hd3, hr2]
  obtain ⟨d4, r3, hd4, hr3, _, _, _⟩ := divmod256 d3
  rw [hd4, hr3]
  obtain ⟨d5, r4, hd5, hr4, _, _, _⟩ := divmod256 d4
  rw [hr4]
  clear hd1 hr0 hd2 hr1 hd3 hr2 hd4 hr3 hd5 hr4
  omega

/-- The 6 low base-256 digits of an integer add up to its residue modulo `2^48`. -/
theorem digits6 (v : Int) :
    v / 256 / 256 / 256 / 256 / 256 % 256 * 2 ^ 40 + v / 256 / 256 / 256 / 256 % 256 * 2 ^ 32 + v / 256 / 256 / 256 % 256 * 2 ^ 24 + v / 256 / 256 % 256 * 2 ^ 16 + v / 256 % 256 * 2 ^ 8 + v % 256 = v % 2 ^ 48 := by
  obtain ⟨d1, r0, hd1, hr0, _, _, _⟩ := divmod256 v
  rw [hd1, hr0]
  obtain ⟨d2, r1, hd2, hr1, _, _, _⟩ := divmod256 d1
  rw [hd2, hr1]
  obtain ⟨d3, r2, hd3, hr2, _, _, _⟩ := divmod256 d2
  rw [hd3, hr2]
  obtain ⟨d4, r3, hd4, hr3, _, _, _⟩ := divmod256 d3
  rw [hd4, hr3]
  obtain ⟨d5, r4, hd5, hr4, _, _, _⟩ := divmod256 d4
  rw [hd5, hr4]
  obtain ⟨d6, r5, hd6, hr5, _, _, _⟩ := divmod256 d5
  rw [hr5]
  clear hd1 hr0 hd2 hr1 hd3 hr2 hd4 hr3 hd5 hr4 hd6 hr5
  omega

/-- The 7 low base-256 digits of an integer add up to its residue modulo `2^56`. -/
theorem digits7 (v : Int) :
    v / 256 / 256 / 256 / 256 / 256 / 256 % 256 * 2 ^ 48 + v / 256 / 256 / 256 / 256 / 256 % 256 * 2 ^ 40 + v / 256 / 256 / 256 / 256 % 256 * 2 ^ 32 + v / 256 / 256 / 256 % 256 * 2 ^ 24 + v / 256 / 256 % 256 * 2 ^ 16 + v / 256 % 256 * 2 ^ 8 + v % 256 = v % 2 ^ 56 := by
  obtain ⟨d1, r0, hd1, hr0, _, _, _⟩ := divmod256 v
  rw [hd1, hr0]
  obtain ⟨d2, r1, hd2, hr1, _, _, _⟩ := divmod256 d1
  rw [hd2, hr1]
  obtain ⟨d3, r2, hd3, hr2, _, _, _⟩ := divmod256 d2
  rw [hd3, hr2]
  obtain ⟨d4, r3, hd4, hr3, _, _, _⟩ := divmod256 d3
  rw [hd4, hr3]
  obtain ⟨d5, r4, hd5, hr4, _, _, _⟩ := divmod256 d4
  rw [hd5, hr4]
  obtain ⟨d6, r5, hd6, hr5, _, _, _⟩ := divmod256 d5
  rw [hd6, hr5]
  obtain ⟨d7, r6, hd7, hr6, _, _, _⟩ := divmod256 d6
  rw [hr6]
  clear hd1 hr0 hd2 hr1 hd3 hr2 hd4 hr3 hd5 hr4 hd6 hr5 hd7 hr6
  omega

/-- The 8 low base-256 digits of an integer add up to its residue modulo `2^64`. -/
theorem digits8 (v : Int) :
    v / 256 / 256 / 256 / 256 / 256 / 256 / 256 % 256 * 2 ^ 56 + v / 256 / 256 / 256 / 256 / 256 / 256 % 256 * 2 ^ 48 + v / 256 / 256 / 256 / 256 / 256 % 256 * 2 ^ 40 + v / 256 / 256 / 256 / 256 % 256 * 2 ^ 32 + v / 256 / 256 / 256 % 256 * 2 ^ 24 + v / 256 / 256 % 256 * 2 ^ 16 + v / 256 % 256 * 2 ^ 8 + v % 256 = v % 2 ^ 64 := by
  obtain ⟨d1, r0, hd1, hr0, _, _, _⟩ := divmod256 v
  rw [hd1, hr0]
  obtain ⟨d2, r1, hd2, hr1, _, _, _⟩ := divmod256 d1
  rw [hd2, hr1]
  obtain ⟨d3, r2, hd3, hr2, _, _, _⟩ := divmod256 d2
  rw [hd3, hr2]
  obtain ⟨d4, r3, hd4, hr3, _, _, _⟩ := divmod256 d3
  rw [hd4, hr3]
  obtain ⟨d5, r4, hd5, hr4, _, _, _⟩ := divmod256 d4
  rw [hd5, hr4]
  obtain ⟨d6, r5, hd6, hr5, _, _, _⟩ := divmod256 d5
  rw [hd6, hr5]
  obtain ⟨d7, r6, hd7, hr6, _, _, _⟩ := divmod256 d6
  rw [hd7, hr6]
  obtain ⟨d8, r7, hd8, hr7, _, _, _⟩ := divmod256 d7
  rw [hr7]
  clear hd1 hr0 hd2 hr1 hd3 hr2 hd4 hr3 hd5 hr4 hd6 hr5 hd7 hr6 hd8 hr7
  omega

/-- Big-endian combination of 2 bytes as a sum. -/
theorem be2 (a0 a1 : Nat) (h1 : a1 < 256) :
    (a0 <<< 8) ||| a1
    = a0 * 2 ^ 8 + a1 := by
  simp only [Nat.shiftLeft_eq]
  simp (disch := omega) only [lor_add_8, lor_add_16, lor_add_24, lor_add_32, lor_add_40,
    lor_add_48, lor_add_56]

/-- Big-endian combination of 3 bytes as a sum. -/
theorem be3 (a0 a1 a2 : Nat) (h1 : a1 < 256) (h2 : a2 < 256) :
    (a0 <<< 16) ||| (a1 <<< 8) ||| a2
    = a0 * 2 ^ 16 + a1 * 2 ^ 8 + a2 := by
  simp only [Nat.shiftLeft_eq]
  simp (disch := omega) only [lor_add_8, lor_add_16, lor_add_24, lor_add_32, lor_add_40,
    lor_add_48, lor_add_56]

/-- Big-endian combination of 4 bytes as a sum. -/
theorem be4 (a0 a1 a2 a3 : Nat) (h1 : a1 < 256) (h2 : a2 < 256) (h3 : a3 < 256) :
    (a0 <<< 24) ||| (a1 <<< 16) ||| (a2 <<< 8) ||| a3
    = a0 * 2 ^ 24 + a1 * 2 ^ 16 + a2 * 2 ^ 8 + a3 := by
  simp only [Nat.shiftLeft_eq]
  simp (disch := omega) only [lor_add_8, lor_add_16, lor_add_24, lor_add_32, lor_add_40,
    lor_add_48, lor_add_56]

/-- Big-endian combination of 5 bytes as a sum. -/
theorem be5 (a0 a1 a2 a3 a4 : Nat) (h1 : a1 < 256) (h2 : a2 < 256) (h3 : a3 < 256) (h4 : a4 < 256) :
    (a0 <<< 32) ||| (a1 <<< 24) ||| (a2 <<< 16) ||| (a3 <<< 8) ||| a4
    = a0 * 2 ^ 32 + a1 * 2 ^ 24 + a2 * 2 ^ 16 + a3 * 2 ^ 8 + a4 := by
  simp only [Nat.shiftLeft_eq]
  simp (disch := omega) only [lor_add_8, lor_add_16, lor_add_24, lor_add_32, lor_add_40,
    lor_add_48, lor_add_56]

/-- Big-endian combination of 6 bytes as a sum. -/
theorem be6 (a0 a1 a2 a3 a4 a5 : Nat) (h1 : a1 < 256) (h2 : a2 < 256) (h3 : a3 < 256) (h4 : a4 < 256) (h5 : a5 < 256) :
    (a0 <<< 40) ||| (a1 <<< 32) ||| (a2 <<< 24) ||| (a3 <<< 16) ||| (a4 <<< 8) ||| a5
    = a0 * 2 ^ 40 + a1 * 2 ^ 32 + a2 * 2 ^ 24 + a3 * 2 ^ 16 + a4 * 2 ^ 8 + a5 := by
  simp only [Nat.shiftLeft_eq]
  simp (disch := omega) only [lor_add_8, lor_add_16, lor_add_24, lor_add_32, lor_add_40,
    lor_add_48, lor_add_56]

/-- Big-endian combination of 7 bytes as a sum. -/
theorem be7 (a0 a1 a2 a3 a4 a5 a6 : Nat) (h1 : a1 < 256) (h2 : a2 < 256) (h3 : a3 < 256) (h4 : a4 < 256) (h5 : a5 < 256) (h6 : a6 < 256) :
    (a0 <<< 48) ||| (a1 <<< 40) ||| (a2 <<< 32) ||| (a3 <<< 24) ||| (a4 <<< 16) ||| (a5 <<< 8) ||| a6
    = a0 * 2 ^ 48 + a1 * 2 ^ 40 + a2 * 2 ^ 32 + a3 * 2 ^ 24 + a4 * 2 ^ 16 + a5 * 2 ^ 8 + a6 := by
  simp only [Nat.shiftLeft_eq]
  simp (disch := omega) only [lor_add_8, lor_add_16, lor_add_24, lor_add_32, lor_add_40,
    lor_add_48, lor_add_56]

/-- The byte stored by `to_uint8`, as an integer. -/
theorem to_uint8_cast (x : Int) : (((to_uint8 x).val : Nat) : Int) = x % 256 := by
  show (((x % 256).toNat : Nat) : Int) = x % 256
  exact Int.toNat_of_nonneg (Int.emod_nonneg _ (by decide))

/-- `value >> 8` is division by 256. -/
theorem sr8 (v : Int) : v.shiftRight 8 = v / 256 := shiftRight_eq_div v 8

/-- Shifting by eight more bits divides by 256 once more. -/
theorem sr_add8 (v : Int) (k : Nat) : v.shiftRight (k + 8) = (v.shiftRight k) / 256 := by
  have h : v.shiftRight (k + 8) = (v.shiftRight k).shiftRight 8 := Int.shiftRight_add v k 8
  rw [h, sr8]

/-- `value >> 16` as repeated division by 256. -/
theorem sr16 (v : Int) : v.shiftRight 16 = v / 256 / 256 := by
  rw [show (16 : Nat) = 8 + 8 from rfl, sr_add8, sr8]

/-- `value >> 24` as repeated division by 256. -/
theorem sr24 (v : Int) : v.shiftRight 24 = v / 256 / 256 / 256 := by
  rw [show (24 : Nat) = 16 + 8 from rfl, sr_add8, sr16]

/-- `value >> 32` as repeated division by 256. -/
theorem sr32 (v : Int) : v.shiftRight 32 = v / 256 / 256 / 256 / 256 := by
  rw [show (32 : Nat) = 24 + 8 from rfl, sr_add8, sr24]

/-- `value >> 40` as repeated division by 256. -/
theorem sr40 (v : Int) : v.shiftRight 40 = v / 256 / 256 / 256 / 256 / 256 := by
  rw [show (40 : Nat) = 32 + 8 from rfl, sr_add8, sr32]

/-- `value >> 48` as repeated division by 256. -/
theorem sr48 (v : Int) : v.shiftRight 48 = v / 256 / 256 / 256 / 256 / 256 / 256 := by
  rw [show (48 : Nat) = 40 + 8 from rfl, sr_add8, sr40]

/-- `value >> 56` as repeated division by 256. -/
theorem sr56 (v : Int) : v.shiftRight 56 = v / 256 / 256 / 256 / 256 / 256 / 256 / 256 := by
  rw [show (56 : Nat) = 48 + 8 from rfl, sr_add8, sr48]

/-- A big-endian value of `n` bytes is below `2^(8n)`. -/
theorem be_value_lt (s : Int → Byte) (pos : Int) (n : Nat) : be_value s pos n < 2 ^ (8 * n) := by
  induction n with
  | zero => simp [be_value]
  | succ n ih =>
    have hb := (s (pos + n)).isLt
    have e : 2 ^ (8 * (n + 1)) = 2 ^ (8 * n) * 256 := by
      rw [Nat.mul_succ, pow_add]; norm_num
    simp only [be_value, e]
    have h1 : be_value s pos n + 1 ≤ 2 ^ (8 * n) := ih
    have h2 : (be_value s pos n + 1) * 256 ≤ 2 ^ (8 * n) * 256 := Nat.mul_le_mul_right _ h1
    omega

/-- The bytes `ru8` / `rs8` combine are the big-endian value at the cursor. -/
theorem combine1 (b : BufferMixin) :
    (b.at_cursor 0 : Nat)
      = be_value b._storage b._position 1 := by
  simp only [BufferMixin.at_cursor, be_value]
  simp only [Nat.cast_ofNat, Nat.cast_zero, Nat.cast_one, add_zero, zero_mul, zero_add]
  try ring

/-- The bytes `ru16` / `rs16` combine are the big-endian value at the cursor. -/
theorem combine2 (b : BufferMixin) :
    ((b.at_cursor 0 <<< 8) ||| b.at_cursor 1 : Nat)
      = be_value b._storage b._position 2 := by
  simp only [BufferMixin.at_cursor, be_value]
  rw [be2 _ _ (Fin.is_lt _)]
  simp only [Nat.cast_ofNat, Nat.cast_zero, Nat.cast_one, add_zero, zero_mul, zero_add]
  try ring

/-- The bytes `ru24` / `rs24` combine are the big-endian value at the cursor. -/
theorem combine3 (b : BufferMixin) :
    ((b.at_cursor 0 <<< 16) ||| (b.at_cursor 1 <<< 8) ||| b.at_cursor 2 : Nat)
      = be_value b._storage b._position 3 := by
  simp only [BufferMixin.at_cursor, be_value]
  rw [be3 _ _ _ (Fin.is_lt _) (Fin.is_lt _)]
  simp only [Nat.cast_ofNat, Nat.cast_zero, Nat.cast_one, add_zero, zero_mul, zero_add]
  try ring

/-- The bytes `ru32` / `rs32` combine are the big-endian value at the cursor. -/
theorem combine4 (b : BufferMixin) :
    ((b.at_cursor 0 <<< 24) ||| (b.at_cursor 1 <<< 16) ||| (b.at_cursor 2 <<< 8) ||| b.at_cursor 3 : Nat)
      = be_value b._storage b._position 4 := by
  simp only [BufferMixin.at_cursor, be_value]
  rw [be4 _ _ _ _ (Fin.is_lt _) (Fin.is_lt _) (Fin.is_lt _)]
  simp only [Nat.cast_ofNat, Nat.cast_zero, Nat.cast_one, add_zero, zero_mul, zero_add]
  try ring

/-- The bytes `ru40` / `rs40` combine are the big-endian value at the cursor. -/
theorem combine5 (b : BufferMixin) :
    ((b.at_cursor 0 <<< 32) ||| (b.at_cursor 1 <<< 24) ||| (b.at_cursor 2 <<< 16) ||| (b.at_cursor 3 <<< 8) ||| b.at_cursor 4 : Nat)
      = be_value b._storage b._position 5 := by
  simp only [BufferMixin.at_cursor, be_value]
  rw [be5 _ _ _ _ _ (Fin.is_lt _) (Fin.is_lt _) (Fin.is_lt _) (Fin.is_lt _)]
  simp only [Nat.cast_ofNat, Nat.cast_zero, Nat.cast_one, add_zero, zero_mul, zero_add]
  try ring

/-- The bytes `ru48` / `rs48` combine are the big-endian value at the cursor. -/
theorem combine6 (b : BufferMixin) :
    ((b.at_cursor 0 <<< 40) ||| (b.at_cursor 1 <<< 32) ||| (b.at_cursor 2 <<< 24) ||| (b.at_cursor 3 <<< 16) ||| (b.at_cursor 4 <<< 8) ||| b.at_cursor 5 : Nat)
      = be_value b._storage b._position 6 := by
  simp only [BufferMixin.at_cursor, be_value]
  rw [be6 _ _ _ _ _ _ (Fin.is_lt _) (Fin.is_lt _) (Fin.is_lt _) (Fin.is_lt _) (Fin.is_lt _)]
  simp only [Nat.cast_ofNat, Nat.cast_zero, Nat.cast_one, add_zero, zero_mul, zero_add]
  try ring

/-- The bytes `ru56` / `rs56` combine are the big-endian value at the cursor. -/
theorem combine7 (b : BufferMixin) :
    ((b.at_cursor 0 <<< 48) ||| (b.at_cursor 1 <<< 40) ||| (b.at_cursor 2 <<< 32) ||| (b.at_cursor 3 <<< 24) ||| (b.at_cursor 4 <<< 16) ||| (b.at_cursor 5 <<< 8) ||| b.at_cursor 6 : Nat)
      = be_value b._storage b._position 7 := by
  simp only [BufferMixin.at_cursor, be_value]
  rw [be7 _ _ _ _ _ _ _ (Fin.is_lt _) (Fin.is_lt _) (Fin.is_lt _) (Fin.is_lt _) (Fin.is_lt _) (Fin.is_lt _)]
  simp only [Nat.cast_ofNat, Nat.cast_zero, Nat.cast_one, add_zero, zero_mul, zero_add]
  try ring

/-- The bytes `ru64` / `rs64` combine are the big-endian value at the cursor. -/
theorem combine8 (b : BufferMixin) :
    ((b.at_cursor 0 <<< 56) ||| (b.at_cursor 1 <<< 48) ||| (b.at_cursor 2 <<< 40) ||| (b.at_cursor 3 <<< 32) ||| (b.at_cursor 4 <<< 24) ||| (b.at_cursor 5 <<< 16) ||| (b.at_cursor 6 <<< 8) ||| b.at_cursor 7 : Nat)
      = be_value b._storage b._position 8 := by
  simp only [BufferMixin.at_cursor, be_value]
  rw [be8 _ _ _ _ _ _ _ _ (Fin.is_lt _) (Fin.is_lt _) (Fin.is_lt _) (Fin.is_lt _) (Fin.is_lt _) (Fin.is_lt _) (Fin.is_lt _)]
  simp only [Nat.cast_ofNat, Nat.cast_zero, Nat.cast_one, add_zero, zero_mul, zero_add]
  try ring

/-- `value & 0xFF` is the residue modulo 256, for negative values too. -/
theorem land_255 (v : Int) : Int.land v 0xFF = v % 256 := by
  cases v with
  | ofNat a =>
    show ((a &&& 255 : Nat) : Int) = (a : Int) % 256
    have h := Nat.and_pow_two_sub_one_eq_mod a 8
    norm_num at h
    rw [h]
    norm_cast
  | negSucc a =>
    show ((Nat.ldiff 255 a : Nat) : Int) = Int.negSucc a % 256
    have h := ldiff_mask 8 a
    norm_num at h
    rw [h, Int.negSucc_eq]
    have := Nat.mod_lt a (show 0 < 256 by decide)
    omega

/-- The byte `wu8` stores. -/
theorem be_value_wu8 (b : BufferMixin) (v : Int) :
    ((be_value (networkinterface.wu8 b v)._storage b._position 1 : Nat) : Int) = v % 2 ^ 8 := by
  simp only [networkinterface.wu8, BufferMixin.written, be_value, poke]
  simp only [Nat.cast_ofNat, Nat.cast_zero, Nat.cast_one, add_zero, zero_mul, zero_add,
    add_right_inj, if_true, if_false]
  norm_num
  simp only [to_uint8_cast, land_255]
  omega

/-- The 2 bytes `wu16` stores are the big-endian digits of the value modulo `2^16`. -/
theorem be_value_wu16 (b : BufferMixin) (v : Int) :
    ((be_value (networkinterface.wu16 b v)._storage b._position 2 : Nat) : Int)
      = v % 2 ^ 16 := by
  simp only [networkinterface.wu16, BufferMixin.written, be_value, poke]
  simp only [Nat.cast_ofNat, Nat.cast_zero, Nat.cast_one, add_zero, zero_mul, zero_add,
    add_right_inj, if_true, if_false]
  norm_num
  simp only [to_uint8_cast, sr8, sr16, sr24, sr32, sr40, sr48, sr56]
  have h := digits2 v
  norm_num at h
  rw [← h]
  try ring

/-- The 3 bytes `wu24` stores are the big-endian digits of the value modulo `2^24`. -/
theorem be_value_wu24 (b : BufferMixin) (v : Int) :
    ((be_value (networkinterface.wu24 b v)._storage b._position 3 : Nat) : Int)
      = v % 2 ^ 24 := by
  simp only [networkinterface.wu24, BufferMixin.written, be_value, poke]
  simp only [Nat.cast_ofNat, Nat.cast_zero, Nat.cast_one, add_zero, zero_mul, zero_add,
    add_right_inj, if_true, if_false]
  norm_num
  simp only [to_uint8_cast, sr8, sr16, sr24, sr32, sr40, sr48, sr56]
  have h := digits3 v
  norm_num at h
  rw [← h]
  try ring

/-- The 4 bytes `wu32` stores are the big-endian digits of the value modulo `2^32`. -/
theorem be_value_wu32 (b : BufferMixin) (v : Int) :
    ((be_value (networkinterface.wu32 b v)._storage b._position 4 : Nat) : Int)
      = v % 2 ^ 32 := by
  simp only [networkinterface.wu32, BufferMixin.written, be_value, poke]
  simp only [Nat.cast_ofNat, Nat.cast_zero, Nat.cast_one, add_zero, zero_mul, zero_add,
    add_right_inj, if_true, if_false]
  norm_num
  simp only [to_uint8_cast, sr8, sr16, sr24, sr32, sr40, sr48, sr56]
  have h := digits4 v
  norm_num at h
  rw [← h]
  try ring

/-- The 5 bytes `wu40` stores are the big-endian digits of the value modulo `2^40`. -/
theorem be_value_wu40 (b : BufferMixin) (v : Int) :
    ((be_value (networkinterface.wu40 b v)._storage b._position 5 : Nat) : Int)
      = v % 2 ^ 40 := by
  simp only [networkinterface.wu40, BufferMixin.written, be_value, poke]
  simp only [Nat.cast_ofNat, Nat.cast_zero, Nat.cast_one, add_zero, zero_mul, zero_add,
    add_right_inj, if_true, if_false]
  norm_num
  simp only [to_uint8_cast, sr8, sr16, sr24, sr32, sr40, sr48, sr56]
  have h := digits5 v
  norm_num at h
  rw [← h]
  try ring

/-- The 6 bytes `wu48` stores are the big-endian digits of the value modulo `2^48`. -/
theorem be_value_wu48 (b : BufferMixin) (v : Int) :
    ((be_value (networkinterface.wu48 b v)._storage b._position 6 : Nat) : Int)
      = v % 2 ^ 48 := by
  simp only [networkinterface.wu48, BufferMixin.written, be_value, poke]
  simp only [Nat.cast_ofNat, Nat.cast_zero, Nat.cast_one, add_zero, zero_mul, zero_add,
    add_right_inj, if_true, if_false]
  norm_num
  simp only [to_uint8_cast, sr8, sr16, sr24, sr32, sr40, sr48, sr56]
  have h := digits6 v
  norm_num at h
  rw [← h]
  try ring

/-- The 7 bytes `wu56` stores are the big-endian digits of the value modulo `2^56`. -/
theorem be_value_wu56 (b : BufferMixin) (v : Int) :
    ((be_value (networkinterface.wu56 b v)._storage b._position 7 : Nat) : Int)
      = v % 2 ^ 56 := by
  simp only [networkinterface.wu56, BufferMixin.written, be_value, poke]
  simp only [Nat.cast_ofNat, Nat.cast_zero, Nat.cast_one, add_zero, zero_mul, zero_add,
    add_right_inj, if_true, if_false]
  norm_num
  simp only [to_uint8_cast, sr8, sr16, sr24, sr32, sr40, sr48, sr56]
  have h := digits7 v
  norm_num at h
  rw [← h]
  try ring

/-- The 8 bytes `wu64` stores are the big-endian digits of the value modulo `2^64`. -/
theorem be_value_wu64 (b : BufferMixin) (v : Int) :
    ((be_value (networkinterface.wu64 b v)._storage b._position 8 : Nat) : Int)
      = v % 2 ^ 64 := by
  simp only [networkinterface.wu64, BufferMixin.written, be_value, poke]
  simp only [Nat.cast_ofNat, Nat.cast_zero, Nat.cast_one, add_zero, zero_mul, zero_add,
    add_right_inj, if_true, if_false]
  norm_num
  simp only [to_uint8_cast, sr8, sr16, sr24, sr32, sr40, sr48, sr56]
  have h := digits8 v
  norm_num at h
  rw [← h]
  try ring

/-- What `ru8` returns, in terms of the big-endian value at the cursor. -/
theorem ru8_value (b : BufferMixin) :
    (networkinterface.ru8 b).1 = to_int32 (be_value b._storage b._position 1) := by
  simp only [networkinterface.ru8]
  rw [← combine1]

/-- What `ru16` returns, in terms of the big-endian value at the cursor. -/
theorem ru16_value (b : BufferMixin) :
    (networkinterface.ru16 b).1 = to_int32 (be_value b._storage b._position 2) := by
  simp only [networkinterface.ru16]
  rw [← combine2]

/-- What `ru24` returns, in terms of the big-endian value at the cursor. -/
theorem ru24_value (b : BufferMixin) :
    (networkinterface.ru24 b).1 = to_int32 (be_value b._storage b._position 3) := by
  simp only [networkinterface.ru24]
  rw [← combine3]

/-- What `ru32` returns, in terms of the big-endian value at the cursor. -/
theorem ru32_value (b : BufferMixin) :
    (networkinterface.ru32 b).1 = to_int64 (be_value b._storage b._position 4) := by
  simp only [networkinterface.ru32]
  rw [← combine4]

/-- What `ru40` returns, in terms of the big-endian value at the cursor. -/
theorem ru40_value (b : BufferMixin) :
    (networkinterface.ru40 b).1 = to_int64 (be_value b._storage b._position 5) := by
  simp only [networkinterface.ru40]
  rw [← combine5]

/-- What `ru48` returns, in terms of the big-endian value at the cursor. -/
theorem ru48_value (b : BufferMixin) :
    (networkinterface.ru48 b).1 = to_int64 (be_value b._storage b._position 6) := by
  simp only [networkinterface.ru48]
  rw [← combine6]

/-- What `ru56` returns, in terms of the big-endian value at the cursor. -/
theorem ru56_value (b : BufferMixin) :
    (networkinterface.ru56 b).1 = to_int64 (be_value b._storage b._position 7) := by
  simp only [networkinterface.ru56]
  rw [← combine7]

/-- What `ru64` returns, in terms of the big-endian value at the cursor. -/
theorem ru64_value (b : BufferMixin) :
    (networkinterface.ru64 b).1 = to_int64 (be_value b._storage b._position 8) := by
  simp only [networkinterface.ru64]
  rw [← combine8]

/-- What `rs16` returns: the two's complement reading of the big-endian value. -/
theorem rs16_value (b : BufferMixin) :
    (networkinterface.rs16 b).1 = twos_complement 16 (be_value b._storage b._position 2) := by
  have hlt := be_value_lt b._storage b._position 2
  simp only [networkinterface.rs16]
  rw [combine2, sign_extend_eq 2 _ (by decide) hlt]
  unfold twos_complement to_int32 to_signed
  norm_num at hlt ⊢
  split <;> omega

/-- What `rs24` returns: the two's complement reading of the big-endian value. -/
theorem rs24_value (b : BufferMixin) :
    (networkinterface.rs24 b).1 = twos_complement 24 (be_value b._storage b._position 3) := by
  have hlt := be_value_lt b._storage b._position 3
  simp only [networkinterface.rs24]
  rw [combine3, sign_extend_eq 3 _ (by decide) hlt]
  unfold twos_complement to_int32 to_signed
  norm_num at hlt ⊢
  split <;> omega

/-- What `rs32` returns: the two's complement reading of the big-endian value. -/
theorem rs32_value (b : BufferMixin) :
    (networkinterface.rs32 b).1 = twos_complement 32 (be_value b._storage b._position 4) := by
  have hlt := be_value_lt b._storage b._position 4
  simp only [networkinterface.rs32]
  rw [combine4, sign_extend_eq 4 _ (by decide) hlt]
  unfold twos_complement to_int64 to_signed
  norm_num at hlt ⊢
  split <;> omega

/-- What `rs40` returns: the two's complement reading of the big-endian value. -/
theorem rs40_value (b : BufferMixin) :
    (networkinterface.rs40 b).1 = twos_complement 40 (be_value b._storage b._position 5) := by
  have hlt := be_value_lt b._storage b._position 5
  simp only [networkinterface.rs40]
  rw [combine5, sign_extend_eq 5 _ (by decide) hlt]
  unfold twos_complement to_int64 to_signed
  norm_num at hlt ⊢
  split <;> omega

/-- What `rs48` returns: the two's complement reading of the big-endian value. -/
theorem rs48_value (b : BufferMixin) :
    (networkinterface.rs48 b).1 = twos_complement 48 (be_value b._storage b._position 6) := by
  have hlt := be_value_lt b._storage b._position 6
  simp only [networkinterface.rs48]
  rw [combine6, sign_extend_eq 6 _ (by decide) hlt]
  unfold twos_complement to_int64 to_signed
  norm_num at hlt ⊢
  split <;> omega

/-- What `rs56` returns: the two's complement reading of the big-endian value. -/
theorem rs56_value (b : BufferMixin) :
    (networkinterface.rs56 b).1 = twos_complement 56 (be_value b._storage b._position 7) := by
  have hlt := be_value_lt b._storage b._position 7
  simp only [networkinterface.rs56]
  rw [combine7, sign_extend_eq 7 _ (by decide) hlt]
  unfold twos_complement to_int64 to_signed
  norm_num at hlt ⊢
  split <;> omega

/-- What `rs64` returns: the two's complement reading of the big-endian value. -/
theorem rs64_value (b : BufferMixin) :
    (networkinterface.rs64 b).1 = twos_complement 64 (be_value b._storage b._position 8) := by
  have hlt := be_value_lt b._storage b._position 7
  have hb := (b._storage (b._position + ((7 : Nat) : Int))).isLt
  simp only [networkinterface.rs64]
  rw [combine7]
  have hsh : ((be_value b._storage b._position 7 : Nat) : Int) <<< (8 : Int)
      = (be_value b._storage b._position 7 : Int) * 256 := by
    have := Int.shiftLeft_eq_mul_pow (be_value b._storage b._position 7 : Int) 8
    norm_num at this
    exact this
  rw [hsh]
  have hv : be_value b._storage b._position 8
      = be_value b._storage b._position 7 * 256 + (b._storage (b._position + ((7 : Nat) : Int))).val :=
    rfl
  have hc : b.at_cursor 7 = (b._storage (b._position + ((7 : Nat) : Int))).val := by
    simp [BufferMixin.at_cursor]
  rw [hv, hc, int_lor_low _ _ (by unfold to_int64 to_signed; omega) hb]
  unfold twos_complement to_int64 to_signed
  norm_num at hlt ⊢
  split <;> omega

/-- The value and the state `ru8` returns. -/
theorem ru8_pair (b : BufferMixin) :
    networkinterface.ru8 b = (to_int64 (be_value b._storage b._position 1), b.advance 1) := by
  have hlt := be_value_lt b._storage b._position 1
  have h1 := ru8_value b
  have h3 : to_int32 (be_value b._storage b._position 1)
      = to_int64 (be_value b._storage b._position 1) := by
    simp only [to_int32, to_int64, to_signed]
    norm_num at hlt ⊢
    omega
  rw [h3] at h1
  exact Prod.ext h1 rfl

/-- The value and the state `ru16` returns. -/
theorem ru16_pair (b : BufferMixin) :
    networkinterface.ru16 b = (to_int64 (be_value b._storage b._position 2), b.advance 2) := by
  have hlt := be_value_lt b._storage b._position 2
  have h1 := ru16_value b
  have h3 : to_int32 (be_value b._storage b._position 2)
      = to_int64 (be_value b._storage b._position 2) := by
    simp only [to_int32, to_int64, to_signed]
    norm_num at hlt ⊢
    omega
  rw [h3] at h1
  exact Prod.ext h1 rfl

/-- The value and the state `ru24` returns. -/
theorem ru24_pair (b : BufferMixin) :
    networkinterface.ru24 b = (to_int64 (be_value b._storage b._position 3), b.advance 3) := by
  have hlt := be_value_lt b._storage b._position 3
  have h1 := ru24_value b
  have h3 : to_int32 (be_value b._storage b._position 3)
      = to_int64 (be_value b._storage b._position 3) := by
    simp only [to_int32, to_int64, to_signed]
    norm_num at hlt ⊢
    omega
  rw [h3] at h1
  exact Prod.ext h1 rfl

/-- The value and the state `ru32` returns. -/
theorem ru32_pair (b : BufferMixin) :
    networkinterface.ru32 b = (to_int64 (be_value b._storage b._position 4), b.advance 4) :=
  Prod.ext (ru32_value b) rfl

/-- The value and the state `ru40` returns. -/
theorem ru40_pair (b : BufferMixin) :
    networkinterface.ru40 b = (to_int64 (be_value b._storage b._position 5), b.advance 5) :=
  Prod.ext (ru40_value b) rfl

/-- The value and the state `ru48` returns. -/
theorem ru48_pair (b : BufferMixin) :
    networkinterface.ru48 b = (to_int64 (be_value b._storage b._position 6), b.advance 6) :=
  Prod.ext (ru48_value b) rfl

/-- The value and the state `ru56` returns. -/
theorem ru56_pair (b : BufferMixin) :
    networkinterface.ru56 b = (to_int64 (be_value b._storage b._position 7), b.advance 7) :=
  Prod.ext (ru56_value b) rfl

/-- The value and the state `ru64` returns. -/
theorem ru64_pair (b : BufferMixin) :
    networkinterface.ru64 b = (to_int64 (be_value b._storage b._position 8), b.advance 8) :=
  Prod.ext (ru64_value b) rfl

/-- The value and the state `rs16` returns. -/
theorem rs16_pair (b : BufferMixin) :
    networkinterface.rs16 b
      = (twos_complement 16 (be_value b._storage b._position 2), b.advance 2) :=
  Prod.ext (rs16_value b) rfl

/-- The value and the state `rs24` returns. -/
theorem rs24_pair (b : BufferMixin) :
    networkinterface.rs24 b
      = (twos_complement 24 (be_value b._storage b._position 3), b.advance 3) :=
  Prod.ext (rs24_value b) rfl

/-- The value and the state `rs32` returns. -/
theorem rs32_pair (b : BufferMixin) :
    networkinterface.rs32 b
      = (twos_complement 32 (be_value b._storage b._position 4), b.advance 4) :=
  Prod.ext (rs32_value b) rfl

/-- The value and the state `rs40` returns. -/
theorem rs40_pair (b : BufferMixin) :
    networkinterface.rs40 b
      = (twos_complement 40 (be_value b._storage b._position 5), b.advance 5) :=
  Prod.ext (rs40_value b) rfl

/-- The value and the state `rs48` returns. -/
theorem rs48_pair (b : BufferMixin) :
    networkinterface.rs48 b
      = (twos_complement 48 (be_value b._storage b._position 6), b.advance 6) :=
  Prod.ext (rs48_value b) rfl

/-- The value and the state `rs56` returns. -/
theorem rs56_pair (b : BufferMixin) :
    networkinterface.rs56 b
      = (twos_complement 56 (be_value b._storage b._position 7), b.advance 7) :=
  Prod.ext (rs56_value b) rfl

/-- The value and the state `rs64` returns. -/
theorem rs64_pair (b : BufferMixin) :
    networkinterface.rs64 b
      = (twos_complement 64 (be_value b._storage b._position 8), b.advance 8) :=
  Prod.ext (rs64_value b) rfl

/-- What an unsigned read returns and the state it leaves, when enough valid bytes remain. -/
theorem read_u_value (W : Width) (b : BufferMixin)
    (h : b._position + W.bytes ≤ b._bytes_written) :
    W.read_u b = ⟨Except.ok (to_int64 (be_value b._storage b._position W.bytes)),
      b.advance W.bytes⟩ := by
  cases W <;> simp only [Width.bytes, Nat.cast_ofNat, Nat.cast_one] at h ⊢ <;>
    simp only [Width.read_u]
  all_goals first
    | unfold BufferMixin.ru8
    | unfold BufferMixin.ru16
    | unfold BufferMixin.ru24
    | unfold BufferMixin.ru32
    | unfold BufferMixin.ru40
    | unfold BufferMixin.ru48
    | unfold BufferMixin.ru56
    | unfold BufferMixin.ru64
  all_goals rw [if_neg (by omega)]
  all_goals simp only [ru8_pair, ru16_pair, ru24_pair, ru32_pair, ru40_pair, ru48_pair,
    ru56_pair, ru64_pair]

/-- What a signed read returns and the state it leaves, when enough valid bytes remain. -/
theorem read_s_value (W : Width) (rs : BufferMixin → Outcome Int) (hrs : W.read_s = some rs)
    (b : BufferMixin) (h : b._position + W.bytes ≤ b._bytes_written) :
    rs b = ⟨Except.ok (twos_complement W.bits (be_value b._storage b._position W.bytes)),
      b.advance W.bytes⟩ := by
  cases W <;> simp only [Width.read_s, Option.some.injEq] at hrs <;> try cases hrs
  all_goals simp only [Width.bytes, Width.bits, Nat.cast_ofNat] at h ⊢
  all_goals first
    | unfold BufferMixin.rs16
    | unfold BufferMixin.rs24
    | unfold BufferMixin.rs32
    | unfold BufferMixin.rs40
    | unfold BufferMixin.rs48
    | unfold BufferMixin.rs56
    | unfold BufferMixin.rs64
  all_goals rw [if_neg (by omega)]
  all_goals simp only [rs16_pair, rs24_pair, rs32_pair, rs40_pair, rs48_pair, rs56_pair,
    rs64_pair]

/-- What an unsigned write of an integer `v` leaves, when it fits: the cursor after the written
bytes, and under them the big-endian digits of `v` modulo `2^bits`. -/
theorem write_u_state (W : Width) (b : BufferMixin) (v : Int)
    (h : b._position + W.bytes ≤ b._bytes_allocated) :
    (W.write_u b v).result = Except.ok () ∧
    (W.write_u b v).buf._position = b._position + W.bytes ∧
    (W.write_u b v).buf._bytes_written = max (b._position + W.bytes) b._bytes_written ∧
    (W.write_u b v).buf._bytes_allocated = b._bytes_allocated ∧
    ((be_value (W.write_u b v).buf._storage b._position W.bytes : Nat) : Int) = v % 2 ^ W.bits := by
  cases W <;> simp only [Width.bytes, Nat.cast_ofNat, Nat.cast_one] at h <;>
    simp only [Width.write_u, Width.bytes, Width.bits, BufferMixin.wu8, BufferMixin.wu16,
      BufferMixin.wu24, BufferMixin.wu32, BufferMixin.wu40, BufferMixin.wu48, BufferMixin.wu56,
      BufferMixin.wu64] <;>
    rw [if_neg (by omega)] <;>
    refine ⟨rfl, rfl, rfl, rfl, ?_⟩ <;>
    simp only [be_value_wu8, be_value_wu16, be_value_wu24, be_value_wu32, be_value_wu40,
      be_value_wu48, be_value_wu56, be_value_wu64] <;>
    simp only [to_int32, to_int64, to_signed] <;>
    norm_num <;>
    omega

/-- A write followed by `seek` back and a read, when the write returns normally and leaves
the start cursor within the valid data: the outcome is that of the read on the written buffer
with the cursor moved back. -/
theorem write_seek_read_eq (write : BufferMixin → Outcome Unit) (read : BufferMixin → Outcome Int)
    (b : BufferMixin) (hw : (write b).result = Except.ok ())
    (hs : b._position ≤ (write b).buf._bytes_written) :
    write_seek_read write read b = read { (write b).buf with _position := b._position } := by
  unfold write_seek_read Outcome.bind
  rw [hw]
  simp only [BufferMixin.seek]
  rw [if_neg (by omega)]

/-- Writing `v` with `wuW`, seeking back and reading with `ruW`, for any integer `v`, when the
write fits: the read returns the `int64_t` reading of `v mod 2^W`. -/
theorem write_read_u (W : Width) (v : Int) (b : BufferMixin)
    (hcap : b._position + W.bytes ≤ b._bytes_allocated) :
    (write_seek_read (fun b => W.write_u b v) W.read_u b).result
      = Except.ok (to_int64 (v % 2 ^ W.bits)) := by
  obtain ⟨hr, hp, hw, _, hv⟩ := write_u_state W b v hcap
  rw [write_seek_read_eq _ _ b hr (by rw [hw]; have := le_max_right (b._position + W.bytes) b._bytes_written; have := le_max_left (b._position + (W.bytes : Int)) b._bytes_written; omega)]
  rw [read_u_value W _ (by
    show b._position + (W.bytes : Int) ≤ (W.write_u b v).buf._bytes_written
    rw [hw]; exact le_max_left _ _)]
  show Except.ok (to_int64 (be_value (W.write_u b v).buf._storage b._position W.bytes)) = _
  rw [hv]

/-- C4 (unsigned round trip, amended). For every width `W` in {8, .., 64}, every integer `v`
with `0 ≤ v < 2^W` and `v < 2^63`, and every buffer with at least `W/8` bytes of capacity at the
cursor, `wuW(v)` followed by `seek` back to the original cursor and `ruW` returns exactly `v`.
For `W = 64` and `2^63 ≤ v < 2^64` the read returns `v - 2^64` (`ru64` returns `int64_t`). -/
theorem unsigned_round_trip (W : Width) (v : Int) (b : BufferMixin)
    (h0 : 0 ≤ v) (h1 : v < 2 ^ W.bits)
    (hcap : b._position + W.bytes ≤ b._bytes_allocated) :
    (v < 2 ^ 63 →
      (write_seek_read (fun b => W.write_u b v) W.read_u b).result = Except.ok v) ∧
    (2 ^ 63 ≤ v →
      (write_seek_read (fun b => W.write_u b v) W.read_u b).result = Except.ok (v - 2 ^ 64)) := by
  rw [write_read_u W v b hcap]
  have hb : W.bits ≤ 64 := by cases W <;> decide
  have h64 : (2 : Int) ^ W.bits ≤ 2 ^ 64 := pow_le_pow_right₀ (by norm_num) hb
  rw [Int.emod_eq_of_lt h0 h1]
  constructor <;> intro h <;> congr 1 <;> simp only [to_int64, to_signed] <;> norm_num at h h64 ⊢ <;>
    omega

/-- Witness of C4: `wu32(0xDEADBEEF)` then `ru32` on an empty 16-byte buffer. -/
theorem unsigned_round_trip_witness :
    (write_seek_read (fun b => Width.w32.write_u b 0xDEADBEEF) Width.w32.read_u empty16).result
      = Except.ok 0xDEADBEEF :=
  (unsigned_round_trip Width.w32 0xDEADBEEF empty16 (by decide) (by decide) (by decide)).1
    (by decide)

/-- Counterexample to C4 as stated: `v = 2^64 - 1 < 2^64` written with `wu64` and read back
with `ru64` comes back as `-1`. -/
theorem ru64_round_trip_fails :
    (0 : Int) ≤ 2 ^ 64 - 1 ∧ (2 ^ 64 - 1 : Int) < 2 ^ Width.w64.bits ∧
    empty16._position + Width.w64.bytes ≤ empty16._bytes_allocated ∧
    (write_seek_read (fun b => Width.w64.write_u b (2 ^ 64 - 1)) Width.w64.read_u empty16).result
      = Except.ok (-1) ∧
    (write_seek_read (fun b => Width.w64.write_u b (2 ^ 64 - 1)) Width.w64.read_u empty16).result
      ≠ Except.ok (2 ^ 64 - 1) := by
  refine ⟨by decide, by decide, by decide, by decide, by decide⟩

/-- C5 (signed round trip). For every width `W` in {16, .., 64} and every integer `v` with
`-2^(W-1) ≤ v < 2^(W-1)`, on a buffer with at least `W/8` bytes of capacity at the cursor, `wuW(v)`
followed by `seek` back to the original cursor and `rsW` returns exactly `v`; and on any buffer
with `W/8` valid bytes at the cursor `rsW` returns the two's complement reading of the `W`-bit
big-endian value `u` there (`u` if `u < 2^(W-1)`, else `u - 2^W`). -/
theorem signed_round_trip (W : Width) (rs : BufferMixin → Outcome Int)
    (hrs : W.read_s = some rs) (v : Int) (b : BufferMixin)
    (hlo : -(2 ^ (W.bits - 1)) ≤ v) (hhi : v < 2 ^ (W.bits - 1))
    (hcap : b._position + W.bytes ≤ b._bytes_allocated) :
    (write_seek_read (fun b => W.write_u b v) rs b).result = Except.ok v ∧
    ∀ b' : BufferMixin, b'._position + W.bytes ≤ b'._bytes_written →
      (rs b').result = Except.ok
        (if be_value b'._storage b'._position W.bytes < 2 ^ (W.bits - 1)
          then (be_value b'._storage b'._position W.bytes : Int)
          else (be_value b'._storage b'._position W.bytes : Int) - 2 ^ W.bits) := by
  constructor
  · obtain ⟨hr, hp, hw, _, hv⟩ := write_u_state W b v hcap
    rw [write_seek_read_eq _ _ b hr (by
      rw [hw]; have := le_max_left (b._position + (W.bytes : Int)) b._bytes_written; omega)]
    rw [read_s_value W rs hrs _ (by
      show b._position + (W.bytes : Int) ≤ (W.write_u b v).buf._bytes_written
      rw [hw]; exact le_max_left _ _)]
    show Except.ok (twos_complement W.bits
      (be_value (W.write_u b v).buf._storage b._position W.bytes)) = _
    congr 1
    unfold twos_complement
    have hlt := be_value_lt (W.write_u b v).buf._storage b._position W.bytes
    generalize be_value (W.write_u b v).buf._storage b._position W.bytes = u at hv hlt ⊢
    cases W <;> simp only [Width.bits, Width.bytes] at hlo hhi hv hlt ⊢ <;>
      norm_num at hlo hhi hv hlt ⊢ <;> split <;> omega
  · intro b' hb'
    rw [read_s_value W rs hrs b' hb']
    rfl

/-- Witness of C5: `wu24(-2)` then `rs24` on an empty 16-byte buffer. -/
theorem signed_round_trip_witness :
    (write_seek_read (fun b => Width.w24.write_u b (-2)) BufferMixin.rs24 empty16).result
      = Except.ok (-2) :=
  (signed_round_trip Width.w24 BufferMixin.rs24 rfl (-2) empty16 (by decide) (by decide)
    (by decide)).1

/-- One branch of `wmkvuint`: a fixed-width write followed by `bor_byte` on the first byte. -/
theorem varint_branch (W : Width) (mask : Int) (b : BufferMixin) (v : Int)
    (hcap : b._position + 8 ≤ b._bytes_allocated) :
    ((W.write_u b v).bind fun _ b1 => b1.bor_byte b._position mask).result = Except.ok () ∧
    ((W.write_u b v).bind fun _ b1 => b1.bor_byte b._position mask).buf
      = networkinterface.bor_byte (W.write_u b v).buf b._position mask := by
  have hW : (W.bytes : Int) ≤ 8 := by cases W <;> decide
  obtain ⟨hr, hp, hw, ha, _⟩ := write_u_state W b v (by omega)
  unfold Outcome.bind
  rw [hr]
  simp only [BufferMixin.bor_byte]
  rw [if_neg (by rw [ha]; omega)]
  exact ⟨rfl, rfl⟩

/-- `int64_t` values are unchanged by the conversion to `int64_t`. -/
theorem to_int64_id (v : Int) (h0 : -(2 ^ 63) ≤ v) (h1 : v < 2 ^ 63) : to_int64 v = v := by
  simp only [to_int64, to_signed]
  norm_num at h0 h1 ⊢
  omega

/-- `BufferMixin::wmkvuint` with eight bytes of room is the write of the class of the number
followed by `bor_byte` of its marker. -/
theorem wmkvuint_eq (b : BufferMixin) (n : Int) (h0 : -(2 ^ 63) ≤ n) (h1 : n < 2 ^ 63)
    (hcap : b._position + 8 ≤ b._bytes_allocated) :
    b.wmkvuint n = ((varint_class n).1.write_u b n).bind
      fun _ b1 => b1.bor_byte b._position (varint_class n).2 := by
  have e := to_int64_id n h0 h1
  unfold BufferMixin.wmkvuint
  rw [if_neg (by omega)]
  unfold networkinterface.wmkvuint varint_class
  simp only [BufferMixin.tell]
  split_ifs <;> simp only [Width.write_u, e]

/-- With eight bytes of room `wmkvuint` returns normally; it advances the cursor by the width
of the class of the number and leaves the written bytes with the marker or-ed into the first. -/
theorem wmkvuint_state (b : BufferMixin) (n : Int) (h0 : -(2 ^ 63) ≤ n) (h1 : n < 2 ^ 63)
    (hcap : b._position + 8 ≤ b._bytes_allocated) :
    (b.wmkvuint n).result = Except.ok () ∧
    (b.wmkvuint n).buf
      = networkinterface.bor_byte ((varint_class n).1.write_u b n).buf b._position
          (varint_class n).2 ∧
    (b.wmkvuint n).buf._position = b._position + (varint_class n).1.bytes := by
  rw [wmkvuint_eq b n h0 h1 hcap]
  obtain ⟨hr, hb⟩ := varint_branch (varint_class n).1 (varint_class n).2 b n hcap
  have hW : ((varint_class n).1.bytes : Int) ≤ 8 := by cases (varint_class n).1 <;> decide
  obtain ⟨_, hp, _⟩ := write_u_state (varint_class n).1 b n (by omega)
  refine ⟨hr, hb, ?_⟩
  rw [hb]
  exact hp

/-- The class of a non-negative number has at most `k ≤ 7` bytes exactly when the number is
below the all-ones value `2^(7k) - 1`. -/
theorem varint_class_bytes_le (n : Int) (h0 : 0 ≤ n) (k : Nat) (hk1 : 1 ≤ k) (hk7 : k ≤ 7) :
    (varint_class n).1.bytes ≤ k ↔ n < 2 ^ (7 * k) - 1 := by
  unfold varint_class
  interval_cases k <;> norm_num <;> split_ifs <;> simp only [Width.bytes] <;> omega

/-- C6 (varint boundary law, amended). With eight bytes of room, for every `k` in {1, .., 7}
`wmkvuint` encodes `2^(7k) - 2` in exactly `k` bytes and both `2^(7k) - 1` and `2^(7k)` in
exactly `k + 1` bytes: a value `n ≥ 0` takes at most `k` bytes exactly when `n < 2^(7k) - 1`,
i.e. the width chosen is the smallest whose all-ones value `2^(7k) - 1` exceeds the number. -/
theorem varint_boundary (k : Nat) (hk1 : 1 ≤ k) (hk7 : k ≤ 7) (b : BufferMixin)
    (hcap : b._position + 8 ≤ b._bytes_allocated) :
    ((b.wmkvuint (2 ^ (7 * k) - 2)).result = Except.ok () ∧
      (b.wmkvuint (2 ^ (7 * k) - 2)).buf._position = b._position + k) ∧
    ((b.wmkvuint (2 ^ (7 * k) - 1)).result = Except.ok () ∧
      (b.wmkvuint (2 ^ (7 * k) - 1)).buf._position = b._position + (k + 1)) ∧
    ((b.wmkvuint (2 ^ (7 * k))).result = Except.ok () ∧
      (b.wmkvuint (2 ^ (7 * k))).buf._position = b._position + (k + 1)) ∧
    ∀ n : Int, 0 ≤ n → n < 2 ^ 63 →
      ((b.wmkvuint n).buf._position ≤ b._position + k ↔ n < 2 ^ (7 * k) - 1) := by
  have key : ∀ n : Int, 0 ≤ n → n < 2 ^ 63 →
      (b.wmkvuint n).result = Except.ok () ∧
      (b.wmkvuint n).buf._position = b._position + (varint_class n).1.bytes := by
    intro n h0 h1
    obtain ⟨hr, _, hp⟩ := wmkvuint_state b n (by omega) h1 hcap
    exact ⟨hr, hp⟩
  have k2 := key (2 ^ (7 * k) - 2)
  have k1 := key (2 ^ (7 * k) - 1)
  have k0 := key (2 ^ (7 * k))
  interval_cases k
  all_goals
    refine ⟨?_, ?_, ?_, ?_⟩
    · obtain ⟨hr, hp⟩ := k2 (by norm_num) (by norm_num)
      exact ⟨hr, by rw [hp]; rfl⟩
    · obtain ⟨hr, hp⟩ := k1 (by norm_num) (by norm_num)
      exact ⟨hr, by rw [hp]; rfl⟩
    · obtain ⟨hr, hp⟩ := k0 (by norm_num) (by norm_num)
      exact ⟨hr, by rw [hp]; rfl⟩
    · intro n h0 h1
      rw [(key n h0 h1).2]
      have := varint_class_bytes_le n h0 _ hk1 hk7
      omega

/-- Witness of C6: the boundary `k = 2` on an empty 16-byte buffer: `2^14 - 2` takes two
bytes. -/
theorem varint_boundary_witness :
    (empty16.wmkvuint (2 ^ (7 * 2) - 2)).buf._position = empty16._position + (2 : Nat) :=
  (varint_boundary 2 (by decide) (by decide) empty16 (by decide)).1.2

/-- Counterexample to C6 as stated (`k = 1`): `2^7 - 1 = 127` is encoded in two bytes,
`40 7F`, not in one; the one-byte branch is taken for `number < 0x7F` only. -/
theorem varint_127_takes_two_bytes :
    (empty16.wmkvuint (2 ^ 7 - 1)).result = Except.ok () ∧
    (empty16.wmkvuint (2 ^ 7 - 1)).buf._position = empty16._position + 2 ∧
    (empty16.wmkvuint (2 ^ 7 - 1)).buf._position ≠ empty16._position + 1 ∧
    bytes_at (empty16.wmkvuint (2 ^ 7 - 1)).buf._storage 0 2 = [0x40, 0x7F] := by
  refine ⟨by decide, by decide, by decide, by decide⟩

/-- A store does not change the other bytes. -/
theorem poke_ne (s : Int → Byte) (i j : Int) (v : Byte) (h : j ≠ i) : poke s i v j = s j := by
  simp [poke, h]

/-- A store is read back. -/
theorem poke_eq (s : Int → Byte) (i : Int) (v : Byte) : poke s i v i = v := by
  simp [poke]

/-- The effect on a big-endian value of replacing its first byte, and the bounds the first byte
puts on the value. -/
theorem be_value_succ_poke (s : Int → Byte) (pos : Int) (x : Byte) (n : Nat) :
    be_value (poke s pos x) pos (n + 1)
      = x.val * 256 ^ n + (be_value s pos (n + 1) - (s pos).val * 256 ^ n) ∧
    (s pos).val * 256 ^ n ≤ be_value s pos (n + 1) ∧
    be_value s pos (n + 1) < ((s pos).val + 1) * 256 ^ n := by
  induction n with
  | zero =>
    simp [be_value, poke]
  | succ n ih =>
    obtain ⟨h1, h2, h3⟩ := ih
    have hb := (s (pos + ((n + 1 : Nat) : Int))).isLt
    have hne : pos + ((n + 1 : Nat) : Int) ≠ pos := by omega
    have e1 : be_value (poke s pos x) pos (n + 1 + 1)
        = be_value (poke s pos x) pos (n + 1) * 256
          + (s (pos + ((n + 1 : Nat) : Int))).val := by
      show be_value (poke s pos x) pos (n + 1) * 256
          + (poke s pos x (pos + ((n + 1 : Nat) : Int))).val = _
      rw [poke_ne _ _ _ _ hne]
    have e2 : be_value s pos (n + 1 + 1)
        = be_value s pos (n + 1) * 256 + (s (pos + ((n + 1 : Nat) : Int))).val := rfl
    rw [e1, e2, h1, pow_succ]
    generalize be_value s pos (n + 1) = u at h2 h3 ⊢
    generalize (256 : Nat) ^ n = p at h2 h3 ⊢
    generalize (s (pos + ((n + 1 : Nat) : Int))).val = a at hb ⊢
    generalize (s pos).val = f at h2 h3 ⊢
    generalize x.val = y
    refine ⟨?_, ?_, ?_⟩
    · have : y * p + (u - f * p) = y * p + u - f * p := by omega
      have h4 : f * (p * 256) = f * p * 256 := by ring
      have h5 : y * (p * 256) = y * p * 256 := by ring
      rw [h4, h5]
      omega
    · have h4 : f * (p * 256) = f * p * 256 := by ring
      rw [h4]; omega
    · have h4 : (f + 1) * (p * 256) = (f + 1) * p * 256 := by ring
      rw [h4]; omega

/-- Or-ing the marker bit `2^k` into a byte below `2^k` adds it. -/
theorem marker_or (f k : Nat) (hf : f < 2 ^ k) :
    Int.lor (f : Int) ((2 ^ k : Nat) : Int) = ((f + 2 ^ k : Nat) : Int) := by
  show ((f ||| 2 ^ k : Nat) : Int) = _
  rw [Nat.lor_comm, lor_eq_add (2 ^ k) f k (Nat.mod_self _) hf, Nat.add_comm]

/-- The class of a number below `2^56`: its width `w`, marker `2^(8 - w)`, and the bound
`number < 2^(7w)` that keeps the marker bit free. -/
theorem varint_class_spec (n : Int) (h0 : 0 ≤ n) (h1 : n < 2 ^ 56) :
    (varint_class n).2 = ((2 ^ (8 - (varint_class n).1.bytes) : Nat) : Int) ∧
    n < 2 ^ (7 * (varint_class n).1.bytes) := by
  unfold varint_class
  norm_num at h1
  split_ifs <;> simp only [Width.bytes] <;> norm_num <;> omega

/-- The state `wmkvuint` leaves for a number in `[0, 2^56)`, in terms of its width `w`: the
cursor, the valid length, the range of the first byte and the big-endian value of the `w`
bytes. -/
theorem varint_encoding (n : Int) (b : BufferMixin) (h0 : 0 ≤ n) (h1 : n < 2 ^ 56)
    (hcap : b._position + 8 ≤ b._bytes_allocated) :
    ∃ W : Width,
      (b.wmkvuint n).result = Except.ok () ∧
      (b.wmkvuint n).buf._position = b._position + W.bytes ∧
      (b.wmkvuint n).buf._bytes_written = max (b._position + W.bytes) b._bytes_written ∧
      2 ^ (8 - W.bytes) ≤ ((b.wmkvuint n).buf._storage b._position).val ∧
      ((b.wmkvuint n).buf._storage b._position).val < 2 ^ (8 - W.bytes + 1) ∧
      ((be_value (b.wmkvuint n).buf._storage b._position W.bytes : Nat) : Int)
        = n + 2 ^ (7 * W.bytes) := by
  obtain ⟨hr, hb, hp⟩ := wmkvuint_state b n (by omega) (by omega) hcap
  obtain ⟨hm, hn⟩ := varint_class_spec n h0 h1
  generalize varint_class n = c at hb hp hm hn
  obtain ⟨W, mask⟩ := c
  simp only at hb hp hm hn
  subst hm
  have hW8 : W.bytes ≤ 8 := by cases W <;> decide
  obtain ⟨_, _, hw, _, hv⟩ := write_u_state W b n (by omega)
  refine ⟨W, hr, hp, ?_, ?_⟩
  · rw [hb]; exact hw
  rw [hb]
  obtain ⟨m, hm⟩ : ∃ m, W.bytes = m + 1 := ⟨W.bytes - 1, by cases W <;> rfl⟩
  have hs : (networkinterface.bor_byte (W.write_u b n).buf b._position
        ((2 ^ (8 - W.bytes) : Nat) : Int))._storage
      = poke (W.write_u b n).buf._storage b._position
          (to_uint8 (Int.lor (((W.write_u b n).buf._storage b._position).val : Int)
            ((2 ^ (8 - W.bytes) : Nat) : Int))) := rfl
  rw [hs, poke_eq]
  generalize (W.write_u b n).buf._storage = s1 at hv ⊢
  rw [hm] at hv ⊢
  obtain ⟨e1, e2, e3⟩ := be_value_succ_poke s1 b._position
    (to_uint8 (Int.lor ((s1 b._position).val : Int) ((2 ^ (8 - (m + 1)) : Nat) : Int))) m
  rw [e1]
  generalize be_value s1 b._position (m + 1) = u at hv e2 e3 ⊢
  generalize (s1 b._position).val = f at e2 e3 ⊢
  have hbits : W.bits = 8 * (m + 1) := by rw [Width.bits, hm]
  rw [hbits] at hv
  rw [hm] at hn hW8
  have hk : 8 - (m + 1) = 7 - m := by omega
  rw [hk]
  -- the marker times the weight of the first byte is `2^(7w)`
  have hMp : 2 ^ (7 - m) * 256 ^ m = 2 ^ (7 * (m + 1)) := by
    rw [show (256 : Nat) = 2 ^ 8 by norm_num, ← pow_mul, ← pow_add]
    congr 1; omega
  have hle : (2 : Int) ^ (7 * (m + 1)) ≤ 2 ^ (8 * (m + 1)) :=
    pow_le_pow_right₀ (by norm_num) (by omega)
  have hu : (u : Int) = n := by rw [hv]; exact Int.emod_eq_of_lt h0 (by omega)
  have hun : (u : Int) < ((2 ^ (7 * (m + 1)) : Nat) : Int) := by rw [hu]; exact_mod_cast hn
  have hun' : u < 2 ^ (7 - m) * 256 ^ m := by rw [hMp]; exact_mod_cast hun
  have hf : f < 2 ^ (7 - m) :=
    Nat.lt_of_mul_lt_mul_right (lt_of_le_of_lt e2 hun')
  have h256 : 2 ^ (7 - m + 1) ≤ 256 := by
    rw [show (256 : Nat) = 2 ^ 8 by norm_num]
    exact Nat.pow_le_pow_right (by norm_num) (by omega)
  have h2M : 2 ^ (7 - m + 1) = 2 * 2 ^ (7 - m) := by rw [pow_succ]; ring
  have hx : (to_uint8 (Int.lor (f : Int) ((2 ^ (7 - m) : Nat) : Int))).val = f + 2 ^ (7 - m) := by
    rw [marker_or f (7 - m) hf]
    show (((f + 2 ^ (7 - m) : Nat) : Int) % 256).toNat = _
    rw [Int.emod_eq_of_lt (by positivity) (by exact_mod_cast (by omega : f + 2 ^ (7 - m) < 256))]
    exact Int.toNat_natCast _
  rw [hx]
  refine ⟨by omega, by omega, ?_⟩
  rw [← hu]
  have e4 : (f + 2 ^ (7 - m)) * 256 ^ m + (u - f * 256 ^ m) = u + 2 ^ (7 - m) * 256 ^ m := by
    rw [Nat.add_mul]; omega
  rw [e4, hMp]
  push_cast
  rfl

/-- C7 (varint round trip). For every integer `n` with `0 ≤ n < 2^56`, on a buffer with at
least 8 free bytes at the cursor, `wmkvuint(n)` returns normally having written `w` bytes,
`1 ≤ w ≤ 8`, whose first byte has its highest set bit at position `8 - w` (it lies in
`[2^(8-w), 2^(9-w))`, the marker being `0x80 >> (w-1)`); the `w` bytes read as a big-endian
unsigned integer, by definition and by `seek` back plus `ru` of that width, give `n + 2^(7w)`, so
clearing the marker bit (subtracting `2^(7w)`) yields exactly `n`. -/
theorem varint_round_trip (n : Int) (b : BufferMixin) (h0 : 0 ≤ n) (h1 : n < 2 ^ 56)
    (hcap : b._position + 8 ≤ b._bytes_allocated) :
    ∃ W : Width,
      (b.wmkvuint n).result = Except.ok () ∧
      (b.wmkvuint n).buf._position = b._position + W.bytes ∧
      (1 ≤ W.bytes ∧ W.bytes ≤ 8) ∧
      (2 ^ (8 - W.bytes) ≤ ((b.wmkvuint n).buf._storage b._position).val ∧
        ((b.wmkvuint n).buf._storage b._position).val < 2 ^ (8 - W.bytes + 1)) ∧
      ((be_value (b.wmkvuint n).buf._storage b._position W.bytes : Nat) : Int)
        - 2 ^ (7 * W.bytes) = n ∧
      (((b.wmkvuint n).buf.seek b._position).bind fun _ b2 => W.read_u b2).result
        = Except.ok (n + 2 ^ (7 * W.bytes)) := by
  obtain ⟨W, hr, hp, hw, hlo, hhi, hv⟩ := varint_encoding n b h0 h1 hcap
  have hW : 1 ≤ W.bytes ∧ W.bytes ≤ 8 := by cases W <;> decide
  refine ⟨W, hr, hp, hW, ⟨hlo, hhi⟩, by omega, ?_⟩
  have hmax := le_max_left (b._position + (W.bytes : Int)) b._bytes_written
  unfold Outcome.bind
  simp only [BufferMixin.seek]
  rw [if_neg (by rw [hw]; omega)]
  simp only
  rw [read_u_value W _ (by
    show b._position + (W.bytes : Int) ≤ (b.wmkvuint n).buf._bytes_written
    rw [hw]; exact hmax)]
  show Except.ok (to_int64 (be_value (b.wmkvuint n).buf._storage b._position W.bytes)) = _
  rw [hv]
  congr 1
  have hpow : (2 : Int) ^ (7 * W.bytes) ≤ 2 ^ 56 :=
    pow_le_pow_right₀ (by norm_num) (by omega)
  have hpos : (0 : Int) < 2 ^ (7 * W.bytes) := by positivity
  apply to_int64_id <;> norm_num at h1 hpow ⊢ <;> omega

/-- Witness of C7: `wmkvuint(300)` on an empty 16-byte buffer (two bytes, `41 2C`). -/
theorem varint_round_trip_witness :
    ∃ W : Width,
      (empty16.wmkvuint 300).result = Except.ok () ∧
      (empty16.wmkvuint 300).buf._position = empty16._position + W.bytes ∧
      (1 ≤ W.bytes ∧ W.bytes ≤ 8) ∧
      (2 ^ (8 - W.bytes) ≤ ((empty16.wmkvuint 300).buf._storage empty16._position).val ∧
        ((empty16.wmkvuint 300).buf._storage empty16._position).val < 2 ^ (8 - W.bytes + 1)) ∧
      ((be_value (empty16.wmkvuint 300).buf._storage empty16._position W.bytes : Nat) : Int)
        - 2 ^ (7 * W.bytes) = 300 ∧
      (((empty16.wmkvuint 300).buf.seek empty16._position).bind
        fun _ b2 => W.read_u b2).result = Except.ok (300 + 2 ^ (7 * W.bytes)) :=
  varint_round_trip 300 empty16 (by decide) (by decide) (by decide)

/-- A statement of a `parse` function whose read returns: the value is assigned and the parser
is the one the read left. -/
theorem Parse.read_ok {H α : Type} (p : Parse H) (op : H → BufferMixin → Outcome α)
    (assign : H → α → H) (a : α) (b' : BufferMixin) (hp : p.result = Except.ok ())
    (hop : op p.hdr p.buf = ⟨Except.ok a, b'⟩) :
    p.read op assign = ⟨Except.ok (), assign p.hdr a, b'⟩ := by
  unfold Parse.read
  rw [hp, hop]

/-- A statement of a `parse` function whose read throws: the error is the statement's, the
header keeps the fields assigned so far. -/
theorem Parse.read_error {H α : Type} (p : Parse H) (op : H → BufferMixin → Outcome α)
    (assign : H → α → H) (e : Error) (b' : BufferMixin) (hp : p.result = Except.ok ())
    (hop : op p.hdr p.buf = ⟨Except.error e, b'⟩) :
    p.read op assign = ⟨Except.error e, p.hdr, b'⟩ := by
  unfold Parse.read
  rw [hp, hop]

/-- `hex` with a start offset inside the valid data and a length that is not negative returns
and leaves the buffer alone. -/
theorem hex_ok (b : BufferMixin) (pos len : Int) (h0 : 0 ≤ pos) (h1 : pos ≤ b._bytes_written)
    (h2 : 0 ≤ len) :
    b.hex pos len = ⟨Except.ok (string_to_hex (bytes_at b._storage pos len.toNat)), b⟩ := by
  unfold BufferMixin.hex BufferMixin.len
  rw [if_neg (by omega), if_neg (by omega)]

/-- `rbytes` within the valid data returns the cursor offset and advances the cursor. -/
theorem rbytes_ok (b : BufferMixin) (size : Int) (h : b._position + size ≤ b._bytes_written) :
    b.rbytes size = ⟨Except.ok b._position, b.advance size⟩ := by
  unfold BufferMixin.rbytes
  rw [if_neg (by omega)]
  rfl

/-- `ru8` within the valid data returns the byte at the cursor. -/
theorem ru8_ok (b : BufferMixin) (h : b._position + 1 ≤ b._bytes_written) :
    b.ru8 = ⟨Except.ok (b._storage b._position).val, b.advance 1⟩ := by
  have := read_u_value Width.w8 b (by simpa [Width.bytes] using h)
  simp only [Width.read_u, Width.bytes, be_value, Nat.cast_one, Nat.cast_zero, add_zero,
    zero_mul, zero_add] at this
  have e : to_int64 ((b._storage b._position).val : Int) = (b._storage b._position).val := by
    have hb := (b._storage b._position).isLt
    exact to_int64_id _ (by omega) (by omega)
  rw [this, e]

/-- `ru16` within the valid data returns the big-endian value of the two bytes at the
cursor. -/
theorem ru16_ok (b : BufferMixin) (h : b._position + 2 ≤ b._bytes_written) :
    b.ru16 = ⟨Except.ok ((b._storage b._position).val * 256
      + (b._storage (b._position + 1)).val : Nat), b.advance 2⟩ := by
  have := read_u_value Width.w16 b (by simpa [Width.bytes] using h)
  simp only [Width.read_u, Width.bytes, be_value, Nat.cast_one, Nat.cast_zero, add_zero,
    zero_mul, zero_add, Nat.cast_ofNat] at this
  have e : to_int64 (((b._storage b._position).val * 256
      + (b._storage (b._position + 1)).val : Nat) : Int)
      = ((b._storage b._position).val * 256 + (b._storage (b._position + 1)).val : Nat) := by
    have hb := (b._storage b._position).isLt
    have hb1 := (b._storage (b._position + 1)).isLt
    exact to_int64_id _ (by omega) (by omega)
  rw [this, e]

/-- A `parse` statement after statements that all returned. -/
theorem Parse.read_mk {H α : Type} (h : H) (b : BufferMixin) (op : H → BufferMixin → Outcome α)
    (assign : H → α → H) :
    (Parse.mk (Except.ok ()) h b).read op assign =
      match (op h b).result with
      | Except.ok a => ⟨Except.ok (), assign h a, (op h b).buf⟩
      | Except.error e => ⟨Except.error e, h, (op h b).buf⟩ := rfl

/-- `EthernetHeader::parse` on a buffer with 14 valid bytes at a non-negative cursor. -/
theorem eth_parse_ok (h : EthernetHeader) (b : BufferMixin) (h0 : 0 ≤ b._position)
    (h14 : b._position + 14 ≤ b._bytes_written) :
    h.parse b = ⟨Except.ok (),
      ⟨b._position, b._position + 6,
        ((b._storage (b._position + 12)).val * 256 + (b._storage (b._position + 13)).val : Nat)⟩,
      b.advance 14⟩ := by
  unfold EthernetHeader.parse
  simp (disch := first | omega | decide | (simp only [BufferMixin.advance]; omega)) only
    [Parse.read_mk, hex_ok, rbytes_ok, ru16_ok, ru8_ok]
  simp only [BufferMixin.advance, add_assoc]
  norm_num

/-- A byte is its own residue modulo 256. -/
theorem byte_mod (x : Byte) : ((x.val : Nat) : Int) % 256 = (x.val : Int) := by
  have := x.isLt
  omega

/-- A two-byte big-endian value is its own conversion to `uint16_t`. -/
theorem to_uint16_be (a c : Byte) :
    to_uint16 ((a.val * 256 + c.val : Nat) : Int) = ((a.val * 256 + c.val : Nat) : Int) := by
  have := a.isLt
  have := c.isLt
  unfold to_uint16
  omega

/-- `ARPHeader::parse` on a buffer that holds the whole header at a non-negative cursor: with
`hl` and `pl` the bytes at header offsets 4 and 5, the 16-bit fields are the big-endian values at
offsets 0, 2 and 6, the four addresses are the consecutive slices of lengths `hl`, `pl`, `hl`,
`pl` from offset 8 on, and the cursor advances by `8 + 2 hl + 2 pl`. -/
theorem arp_parse_ok (h : ARPHeader) (b : BufferMixin) (h0 : 0 ≤ b._position)
    (hlen : b._position + 8 + 2 * ((b._storage (b._position + 4)).val : Int)
      + 2 * ((b._storage (b._position + 5)).val : Int) ≤ b._bytes_written) :
    h.parse b = ⟨Except.ok (),
      { hardware_type :=
          ((b._storage b._position).val * 256 + (b._storage (b._position + 1)).val : Nat),
        protocol_type :=
          ((b._storage (b._position + 2)).val * 256 + (b._storage (b._position + 3)).val : Nat),
        hardware_addr_len := (b._storage (b._position + 4)).val,
        protocol_addr_len := (b._storage (b._position + 5)).val,
        operation :=
          ((b._storage (b._position + 6)).val * 256 + (b._storage (b._position + 7)).val : Nat),
        sender_mac := b._position + 8,
        sender_ip := b._position + 8 + (b._storage (b._position + 4)).val,
        target_mac := b._position + 8 + (b._storage (b._position + 4)).val
          + (b._storage (b._position + 5)).val,
        target_ip := b._position + 8 + 2 * ((b._storage (b._position + 4)).val : Int)
          + (b._storage (b._position + 5)).val },
      b.advance (8 + 2 * ((b._storage (b._position + 4)).val : Int)
        + 2 * ((b._storage (b._position + 5)).val : Int))⟩ := by
  have hl0 : (0 : Int) ≤ ((b._storage (b._position + 4)).val : Int) := by positivity
  have hp0 : (0 : Int) ≤ ((b._storage (b._position + 5)).val : Int) := by positivity
  unfold ARPHeader.parse
  simp (disch := first | omega | decide | (simp only [BufferMixin.advance, add_assoc]; norm_num; omega)) only
    [Parse.read_mk, hex_ok, rbytes_ok, ru16_ok, ru8_ok]
  simp only [BufferMixin.advance, add_assoc, byte_mod, to_uint16_be]
  norm_num
  refine ⟨⟨?_, ?_, ?_⟩, ?_⟩ <;> omega

/-- `read_packet` on a frame at cursor 0 whose EtherType is ARP and whose length is exactly
that of the Ethernet header and of the ARP header its address lengths give: it returns, with both
headers decoded, the buffer attached and the cursor at the end of the frame. -/
theorem read_packet_arp (packet : EthernetPacket) (b : BufferMixin) (hpos : b._position = 0)
    (h12 : (b._storage 12).val = 0x08) (h13 : (b._storage 13).val = 0x06)
    (hbw : b._bytes_written
      = 22 + 2 * ((b._storage 18).val : Int) + 2 * ((b._storage 19).val : Int)) :
    read_packet packet b = ⟨Except.ok (),
      { packet with
        eth_header := ⟨0, 6, EthernetType.ARP⟩,
        arp_header :=
          { hardware_type := ((b._storage 14).val * 256 + (b._storage 15).val : Nat),
            protocol_type := ((b._storage 16).val * 256 + (b._storage 17).val : Nat),
            hardware_addr_len := (b._storage 18).val,
            protocol_addr_len := (b._storage 19).val,
            operation := ((b._storage 20).val * 256 + (b._storage 21).val : Nat),
            sender_mac := 22,
            sender_ip := 22 + (b._storage 18).val,
            target_mac := 22 + (b._storage 18).val + (b._storage 19).val,
            target_ip := 22 + 2 * ((b._storage 18).val : Int) + (b._storage 19).val },
        parser := some { b with _position := b._bytes_written },
        read_done := true },
      { b with _position := b._bytes_written }⟩ := by
  have hl0 : (0 : Int) ≤ ((b._storage 18).val : Int) := by positivity
  have hp0 : (0 : Int) ≤ ((b._storage 19).val : Int) := by positivity
  unfold read_packet
  rw [eth_parse_ok _ b (by omega) (by omega)]
  simp only [hpos, zero_add, h12, h13]
  have hA : (((8 * 256 + 6 : Nat) : Int) = EthernetType.ARP) := by decide
  have h4 : ¬ (((8 * 256 + 6 : Nat) : Int) = EthernetType.IPv4) := by decide
  have h6 : ¬ (((8 * 256 + 6 : Nat) : Int) = EthernetType.IPv6) := by decide
  rw [if_neg h4, if_neg h6, if_pos hA]
  have hb14 : (b.advance 14)._position = 14 := by simp [BufferMixin.advance, hpos]
  rw [arp_parse_ok _ (b.advance 14) (by omega) (by
    rw [hb14]; simp only [BufferMixin.advance]; norm_num; omega)]
  simp only [hb14, BufferMixin.advance, BufferMixin.bytes_left, hpos]
  norm_num
  rw [if_neg (by omega)]
  have e : (14 : Int) + (8 + 2 * ((b._storage 18).val : Int) + 2 * ((b._storage 19).val : Int))
      = b._bytes_written := by omega
  rw [e]
  rfl

/-- Sequencing after a call that returned. -/
theorem Outcome.bind_ok {α β : Type} (a : α) (b : BufferMixin)
    (f : α → BufferMixin → Outcome β) : (Outcome.mk (Except.ok a) b).bind f = f a b := rfl

/-- `seek` to an offset within the valid data moves the cursor there. -/
theorem seek_ok (b : BufferMixin) (p : Int) (h : p ≤ b._bytes_written) :
    b.seek p = ⟨Except.ok (), { b with _position := p }⟩ := by
  unfold BufferMixin.seek
  rw [if_neg (by omega)]

/-- `wbytes` within the capacity copies the bytes to the cursor. -/
theorem wbytes_ok (b : BufferMixin) (data : Pointer) (n : Int)
    (h : b._position + n ≤ b._bytes_allocated) :
    b.wbytes data n = ⟨Except.ok (), networkinterface.wbytes b data n⟩ := by
  unfold BufferMixin.wbytes
  rw [if_neg (by omega)]

/-- `wu16` within the capacity stores the two bytes at the cursor. -/
theorem wu16_ok (b : BufferMixin) (value : Int) (h : b._position + 2 ≤ b._bytes_allocated) :
    b.wu16 value = ⟨Except.ok (), networkinterface.wu16 b value⟩ := by
  unfold BufferMixin.wu16
  rw [if_neg (by omega)]

/-- `set_src_mac` on a fully parsed 42-byte ARP frame (protocol address length 4): the six
bytes are copied to offsets 6 and 32, cursor and valid length are as before. -/
theorem set_src_mac_frame (h : ARPHeader) (mac : Pointer) (b : BufferMixin)
    (hpl : h.protocol_addr_len = 4) (hpos : b._position = 42) (hbw : b._bytes_written = 42)
    (hcap : 42 ≤ b._bytes_allocated) :
    h.set_src_mac mac b = ⟨Except.ok (),
      { b with _storage := memcpy (memcpy b._storage 6 mac 6) 32 mac 6 }⟩ := by
  unfold ARPHeader.set_src_mac
  simp (disch := first | omega | (simp only [MAC_ADDR_LEN, networkinterface.wbytes,
      BufferMixin.written, hpl, hbw, hpos]; norm_num; try omega)) only
    [Outcome.bind_ok, seek_ok, wbytes_ok]
  simp only [MAC_ADDR_LEN, networkinterface.wbytes, BufferMixin.written, hpl, hbw, hpos]
  norm_num

/-- `set_dest_mac` on a fully parsed 42-byte ARP frame: the six bytes are copied to offsets 0
and 22, cursor and valid length are as before. -/
theorem set_dest_mac_frame (h : ARPHeader) (mac : Pointer) (b : BufferMixin)
    (hpos : b._position = 42) (hbw : b._bytes_written = 42) (hcap : 42 ≤ b._bytes_allocated) :
    h.set_dest_mac mac b = ⟨Except.ok (),
      { b with _storage := memcpy (memcpy b._storage 0 mac 6) 22 mac 6 }⟩ := by
  unfold ARPHeader.set_dest_mac
  simp (disch := first | omega | (simp only [MAC_ADDR_LEN, networkinterface.wbytes,
      BufferMixin.written, hbw, hpos]; norm_num; try omega)) only
    [Outcome.bind_ok, seek_ok, wbytes_ok]
  simp only [MAC_ADDR_LEN, networkinterface.wbytes, BufferMixin.written, hbw, hpos]
  norm_num

/-- `set_operation(ARP_REPLY)` on a fully parsed 42-byte ARP frame: bytes 20 and 21 become
`00 02`, cursor and valid length are as before. -/
theorem set_operation_frame (h : ARPHeader) (b : BufferMixin)
    (hpos : b._position = 42) (hbw : b._bytes_written = 42) (hcap : 42 ≤ b._bytes_allocated) :
    h.set_operation ArpOperations.ARP_REPLY b = ⟨Except.ok (),
      { h with operation := 2 },
      { b with _storage := poke (poke b._storage 20 0) 21 2 }⟩ := by
  have e0 : to_uint16 ArpOperations.ARP_REPLY = 2 := by decide
  have e1 : to_uint8 (Int.shiftRight 2 8) = 0 := by decide
  have e2 : to_uint8 2 = 2 := by decide
  unfold ARPHeader.set_operation
  simp (disch := first | omega | (simp only [networkinterface.wu16,
      BufferMixin.written, hbw, hpos]; norm_num; try omega)) only
    [Outcome.bind_ok, seek_ok, wu16_ok, e0]
  simp only [networkinterface.wu16, BufferMixin.written, hbw, hpos, e1, e2]
  norm_num

/-- Six bytes `ff` are rendered as the broadcast address. -/
theorem mac_to_string_broadcast (mac : Pointer)
    (h : ∀ i : Int, 0 ≤ i → i < 6 → (mac.mem (mac.off + i)).val = 0xff) :
    mac_to_string mac = "ff:ff:ff:ff:ff:ff" := by
  have h0 := h 0 (by omega) (by omega)
  have h1 := h 1 (by omega) (by omega)
  have h2 := h 2 (by omega) (by omega)
  have h3 := h 3 (by omega) (by omega)
  have h4 := h 4 (by omega) (by omega)
  have h5 := h 5 (by omega) (by omega)
  unfold mac_to_string
  simp only [List.range, List.range.loop, List.map, Nat.cast_zero, Nat.cast_one, Nat.cast_ofNat]
  rw [h0, h1, h2, h3, h4, h5]
  decide

/-- The bytes of a clone under the valid length are those of the original. -/
theorem clone_storage (b : BufferMixin) (fresh : Int → Byte) (i : Int) (h0 : 0 ≤ i)
    (h1 : i < b._bytes_written) : (b.clone fresh)._storage i = b._storage i := by
  simp only [BufferMixin.clone, memcpy]
  rw [if_pos (by omega)]
  congr 1
  omega

/-- Element `i` of the bytes read out of a storage. -/
theorem bytes_at_getD (s : Int → Byte) (pos : Int) (n i : Nat) (h : i < n) :
    (bytes_at s pos n).getD i 0 = (s (pos + i)).val := by
  unfold bytes_at
  rw [List.getD_eq_getElem _ _ (by simpa using h)]
  simp

/-- Length of the bytes read out of a storage. -/
theorem bytes_at_length (s : Int → Byte) (pos : Int) (n : Nat) : (bytes_at s pos n).length = n := by
  simp [bytes_at]

/-- The answer branch on a parsed 42-byte ARP request: the clone parses like the request, the
three mutators succeed, and the clone's 42 bytes are written. -/
theorem answer_arp_frame (itf : MayhemInterface) (w : World) (packet : EthernetPacket)
    (b : BufferMixin) (mac_bytes : List Byte)
    (hparser : packet.parser = some b) (hsm : packet.arp_header.sender_mac = 22)
    (hbw : b._bytes_written = 42) (hcap : 42 ≤ b._bytes_allocated)
    (h12 : (b._storage 12).val = 0x08) (h13 : (b._storage 13).val = 0x06)
    (h18 : (b._storage 18).val = 6) (h19 : (b._storage 19).val = 4)
    (hmac : mac_string_to_bytes itf.mac = Except.ok mac_bytes) :
    answer_arp itf w packet = (Except.ok (),
      { w with written := w.written ++ [bytes_at
        (poke (poke (memcpy (memcpy (memcpy (memcpy (b.clone w.fresh)._storage
          6 (Pointer.of_bytes mac_bytes) 6) 32 (Pointer.of_bytes mac_bytes) 6)
          0 ⟨b._storage, 22⟩ 6) 22 ⟨b._storage, 22⟩ 6) 20 0) 21 2) 0 42] }) := by
  have hc : ∀ i : Int, 0 ≤ i → i < 42 → ((b.clone w.fresh)._storage i).val = (b._storage i).val :=
    fun i h0 h1 => by rw [clone_storage b w.fresh i h0 (by omega)]
  have hcbw : (b.clone w.fresh)._bytes_written = 42 := hbw
  have hrc := read_packet_arp (EthernetPacket.new packet.index) (b.clone w.fresh) rfl
    (by rw [hc 12 (by omega) (by omega)]; exact h12)
    (by rw [hc 13 (by omega) (by omega)]; exact h13)
    (by rw [hc 18 (by omega) (by omega), hc 19 (by omega) (by omega), h18, h19, hcbw]; rfl)
  simp only [hc 18 (by omega) (by omega), hc 19 (by omega) (by omega), h18, h19, hcbw] at hrc
  norm_num at hrc
  have hcal : 42 ≤ (b.clone w.fresh)._bytes_allocated := hcap
  generalize (b.clone w.fresh)._storage = cs at hrc ⊢
  generalize (b.clone w.fresh)._bytes_allocated = ca at hrc hcal
  generalize (b.clone w.fresh)._ownning_storage = co at hrc
  unfold answer_arp clone_packet
  simp only [hparser]
  rw [hrc]
  simp only [hmac]
  rw [set_src_mac_frame _ _ _ rfl rfl rfl hcal]
  simp only
  rw [set_dest_mac_frame _ _ _ rfl rfl hcal]
  simp only
  rw [set_operation_frame _ _ rfl rfl hcal]
  simp only
  rw [hex_ok _ 0 _ (le_refl 0) (by norm_num) (by norm_num)]
  simp only [write_packet]
  rw [hex_ok _ 0 _ (le_refl 0) (by norm_num) (by norm_num)]
  simp only [EthernetPacket.memory, hparser, hsm]
  rfl

/-- The loop iteration on an ARP request (hardware address length 6, protocol address length
4) with broadcast destination whose target address is the local one: the iteration returns,
the dedup table is untouched, no clock reading is taken, and exactly one frame is written: the 42
bytes of the clone after the local MAC was copied to offsets 6 and 32, the request's ARP sender
MAC to offsets 0 and 22, and `00 02` stored at offsets 20 and 21. -/
theorem run_iteration_answer (itf : MayhemInterface) (w : World) (idx : Int) (b : BufferMixin)
    (mac_bytes : List Byte)
    (hpos : b._position = 0) (hbw : b._bytes_written = 42) (hcap : 42 ≤ b._bytes_allocated)
    (h12 : (b._storage 12).val = 0x08) (h13 : (b._storage 13).val = 0x06)
    (h18 : (b._storage 18).val = 6) (h19 : (b._storage 19).val = 4)
    (h20 : (b._storage 20).val = 0) (h21 : (b._storage 21).val = 1)
    (hbc : ∀ i : Int, 0 ≤ i → i < 6 → (b._storage i).val = 0xff)
    (hip : inet_ntop4 ⟨b._storage, 38⟩ = itf.local_ip)
    (hmac : mac_string_to_bytes itf.mac = Except.ok mac_bytes) :
    run_iteration itf w idx b = (Except.ok (), itf,
      { w with written := w.written ++ [bytes_at
        (poke (poke (memcpy (memcpy (memcpy (memcpy (b.clone w.fresh)._storage
          6 (Pointer.of_bytes mac_bytes) 6) 32 (Pointer.of_bytes mac_bytes) 6)
          0 ⟨b._storage, 22⟩ 6) 22 ⟨b._storage, 22⟩ 6) 20 0) 21 2) 0 42] }) := by
  have hr := read_packet_arp (EthernetPacket.new idx) b hpos h12 h13 (by rw [hbw, h18, h19]; rfl)
  have hbroad : mac_to_string ⟨b._storage, 0⟩ = "ff:ff:ff:ff:ff:ff" :=
    mac_to_string_broadcast _ (fun i h0 h1 => by simpa using hbc i h0 h1)
  have hA4 : ¬ (EthernetType.ARP = EthernetType.IPv4 ∨ EthernetType.ARP = EthernetType.IPv6) := by
    decide
  have h38 : (22 : Int) + 2 * 6 + 4 = 38 := by norm_num
  have hop : (((0 * 256 + 1 : Nat) : Int) = ARPOperationType.REQUEST) := by decide
  unfold run_iteration
  rw [hr]
  simp only [EthernetPacket.print, EthernetPacket.get_dst_ip, EthernetPacket.get_src_ip,
    EthernetPacket.memory, if_neg hA4, if_true, h18, h19, h20, h21, Nat.cast_ofNat, h38, hip,
    hbroad, Except.map, hop, and_self]
  rw [hex_ok _ 0 _ (le_refl 0) (by show (0 : Int) ≤ b._bytes_written; omega)
    (by show (0 : Int) ≤ b._bytes_written; omega)]
  simp only
  rw [answer_arp_frame itf w _ { b with _position := b._bytes_written } mac_bytes rfl rfl hbw hcap
    h12 h13 h18 h19 hmac]
  rfl

/-- C8 (ARP reply framing). For an ARP request frame as the loop receives it (42 bytes at
cursor 0: EtherType ARP, hardware address length 6, protocol address length 4, operation 1)
whose Ethernet destination is ff:ff:ff:ff:ff:ff and whose target address renders as the
configured local IP, with a local MAC string that parses to six bytes: the iteration writes
exactly one frame; it has the length of the request, bytes 20-21 are `00 02` (reply), bytes 6-11
are the local MAC and bytes 0-5 are the request's ARP sender MAC (request bytes 22-27). -/
theorem arp_reply_framing (itf : MayhemInterface) (w : World) (idx : Int) (b : BufferMixin)
    (mac_bytes : List Byte)
    (hpos : b._position = 0) (hbw : b._bytes_written = 42) (hcap : 42 ≤ b._bytes_allocated)
    (h12 : (b._storage 12).val = 0x08) (h13 : (b._storage 13).val = 0x06)
    (h18 : (b._storage 18).val = 6) (h19 : (b._storage 19).val = 4)
    (h20 : (b._storage 20).val = 0) (h21 : (b._storage 21).val = 1)
    (hbc : ∀ i : Int, 0 ≤ i → i < 6 → (b._storage i).val = 0xff)
    (hip : inet_ntop4 ⟨b._storage, 38⟩ = itf.local_ip)
    (hmac : mac_string_to_bytes itf.mac = Except.ok mac_bytes) (_hmac6 : mac_bytes.length = 6) :
    ∃ out : List Nat,
      run_iteration itf w idx b
        = (Except.ok (), itf, { w with written := w.written ++ [out] }) ∧
      (out.length : Int) = b._bytes_written ∧
      (out.getD 20 0 = 0 ∧ out.getD 21 0 = 2) ∧
      (∀ i : Nat, i < 6 → out.getD (6 + i) 0 = (mac_bytes.getD i 0).val) ∧
      (∀ i : Nat, i < 6 → out.getD i 0 = (b._storage (22 + (i : Int))).val) := by
  refine ⟨_, run_iteration_answer itf w idx b mac_bytes hpos hbw hcap h12 h13 h18 h19 h20 h21
    hbc hip hmac, ?_, ⟨?_, ?_⟩, ?_, ?_⟩
  · rw [bytes_at_length, hbw]; rfl
  · rw [bytes_at_getD _ _ _ _ (by norm_num)]
    simp [poke]
  · rw [bytes_at_getD _ _ _ _ (by norm_num)]
    simp [poke]
  · intro i hi
    rw [bytes_at_getD _ _ _ _ (by omega)]
    simp only [poke, memcpy, Pointer.of_bytes]
    push_cast
    rw [if_neg (by omega), if_neg (by omega), if_neg (by omega), if_neg (by omega),
      if_neg (by omega), if_pos (by omega), if_pos (by omega)]
    congr 2
    omega
  · intro i hi
    rw [bytes_at_getD _ _ _ _ (by omega)]
    simp only [poke, memcpy]
    rw [if_neg (by omega), if_neg (by omega), if_neg (by omega), if_pos (by omega)]
    congr 2
    omega

/-- A `parse` statement whose read leaves storage and valid length alone leaves them alone. -/
theorem Parse.read_frame {H α : Type} (p : Parse H) (op : H → BufferMixin → Outcome α)
    (assign : H → α → H)
    (hop : ∀ h b, ((op h b).buf._storage, (op h b).buf._bytes_written)
      = (b._storage, b._bytes_written)) :
    ((p.read op assign).buf._storage, (p.read op assign).buf._bytes_written)
      = (p.buf._storage, p.buf._bytes_written) := by
  unfold Parse.read
  cases hp : p.result with
  | error e => rfl
  | ok a =>
    cases ho : (op p.hdr p.buf).result with
    | error e => exact hop p.hdr p.buf
    | ok a => exact hop p.hdr p.buf

/-- `hex` leaves storage and valid length alone. -/
theorem hex_frame (b : BufferMixin) (pos len : Int) :
    ((b.hex pos len).buf._storage, (b.hex pos len).buf._bytes_written)
      = (b._storage, b._bytes_written) := by
  unfold BufferMixin.hex
  split
  · rfl
  · split <;> rfl

/-- `rbytes` leaves storage and valid length alone. -/
theorem rbytes_frame (b : BufferMixin) (n : Int) :
    ((b.rbytes n).buf._storage, (b.rbytes n).buf._bytes_written)
      = (b._storage, b._bytes_written) := by
  unfold BufferMixin.rbytes
  split <;> rfl

/-- A fixed-width read leaves storage and valid length alone. -/
theorem fixed_read_frame (r : FixedRead) (b : BufferMixin) :
    ((r.call b).buf._storage, (r.call b).buf._bytes_written)
      = (b._storage, b._bytes_written) := by
  rw [read_buf]
  split <;> rfl

/-- `EthernetHeader::parse` leaves storage and valid length alone, whether it throws or not. -/
theorem eth_parse_frame (h : EthernetHeader) (b : BufferMixin) :
    ((h.parse b).buf._storage, (h.parse b).buf._bytes_written)
      = (b._storage, b._bytes_written) := by
  unfold EthernetHeader.parse
  exact (Parse.read_frame _ _ _ (fun _ b => fixed_read_frame FixedRead.ru16 b)).trans
    ((Parse.read_frame _ _ _ (fun _ b => rbytes_frame b _)).trans
    ((Parse.read_frame _ _ _ (fun _ b => rbytes_frame b _)).trans
    (Parse.read_frame _ _ _ (fun _ b => hex_frame b _ _))))

/-- `ARPHeader::parse` leaves storage and valid length alone, whether it throws or not. -/
theorem arp_parse_frame (h : ARPHeader) (b : BufferMixin) :
    ((h.parse b).buf._storage, (h.parse b).buf._bytes_written)
      = (b._storage, b._bytes_written) := by
  unfold ARPHeader.parse
  exact (Parse.read_frame _ _ _ (fun _ b => rbytes_frame b _)).trans
    ((Parse.read_frame _ _ _ (fun _ b => rbytes_frame b _)).trans
    ((Parse.read_frame _ _ _ (fun _ b => rbytes_frame b _)).trans
    ((Parse.read_frame _ _ _ (fun _ b => rbytes_frame b _)).trans
    ((Parse.read_frame _ _ _ (fun _ b => fixed_read_frame FixedRead.ru16 b)).trans
    ((Parse.read_frame _ _ _ (fun _ b => fixed_read_frame FixedRead.ru8 b)).trans
    ((Parse.read_frame _ _ _ (fun _ b => fixed_read_frame FixedRead.ru8 b)).trans
    ((Parse.read_frame _ _ _ (fun _ b => fixed_read_frame FixedRead.ru16 b)).trans
    ((Parse.read_frame _ _ _ (fun _ b => fixed_read_frame FixedRead.ru16 b)).trans
    (Parse.read_frame _ _ _ (fun _ b => hex_frame b _ _))))))))))

/-- `IPv6Header::parse` leaves storage and valid length alone, whether it throws or not. -/
theorem ipv6_parse_frame (h : IPv6Header) (b : BufferMixin) :
    ((h.parse b).buf._storage, (h.parse b).buf._bytes_written)
      = (b._storage, b._bytes_written) := by
  unfold IPv6Header.parse
  exact (Parse.read_frame _ _ _ (fun _ b => rbytes_frame b _)).trans
    ((Parse.read_frame _ _ _ (fun _ b => rbytes_frame b _)).trans
    ((Parse.read_frame _ _ _ (fun _ b => fixed_read_frame FixedRead.ru8 b)).trans
    ((Parse.read_frame _ _ _ (fun _ b => fixed_read_frame FixedRead.ru8 b)).trans
    ((Parse.read_frame _ _ _ (fun _ b => fixed_read_frame FixedRead.ru16 b)).trans
    ((Parse.read_frame _ _ _ (fun _ b => fixed_read_frame FixedRead.ru32 b)).trans
    (Parse.read_frame _ _ _ (fun _ b => hex_frame b _ _)))))))

/-- When `read_packet` returns, the packet holds the parser passed in, with the storage and
the valid length it had. -/
theorem read_packet_attaches (packet : EthernetPacket) (b : BufferMixin)
    (h : (read_packet packet b).result = Except.ok ()) :
    ∃ pb, (read_packet packet b).packet.parser = some pb ∧ pb._storage = b._storage ∧
      pb._bytes_written = b._bytes_written := by
  have he := eth_parse_frame packet.eth_header b
  have ha := arp_parse_frame packet.arp_header (packet.eth_header.parse b).buf
  have h6 := ipv6_parse_frame packet.ipv6_header (packet.eth_header.parse b).buf
  simp only [Prod.mk.injEq] at he ha h6
  unfold read_packet at h ⊢
  simp only at h ⊢
  cases hE : (packet.eth_header.parse b).result with
  | error e => simp only [hE] at h; cases h
  | ok u =>
    simp only [hE] at h ⊢
    by_cases h4 : (packet.eth_header.parse b).hdr.ethertype = EthernetType.IPv4
    · simp only [h4, if_true]
      exact ⟨_, rfl, he.1, he.2⟩
    · simp only [h4, if_false] at h ⊢
      by_cases h6' : (packet.eth_header.parse b).hdr.ethertype = EthernetType.IPv6
      · simp only [h6', if_true] at h ⊢
        cases hP : (packet.ipv6_header.parse (packet.eth_header.parse b).buf).result with
        | error e => simp only [hP] at h; cases h
        | ok u =>
          simp only [hP] at h ⊢
          split at h
          · cases h
          · rename_i hc
            rw [if_neg hc]
            exact ⟨_, rfl, h6.1.trans he.1, h6.2.trans he.2⟩
      · simp only [h6', if_false] at h ⊢
        by_cases hA : (packet.eth_header.parse b).hdr.ethertype = EthernetType.ARP
        · simp only [hA, if_true] at h ⊢
          cases hP : (packet.arp_header.parse (packet.eth_header.parse b).buf).result with
          | error e => simp only [hP] at h; cases h
          | ok u =>
            simp only [hP] at h ⊢
            split at h
            · cases h
            · rename_i hc
              rw [if_neg hc]
              exact ⟨_, rfl, ha.1.trans he.1, ha.2.trans he.2⟩
        · simp only [hA, if_false] at h
          cases h

/-- `write_packet` on a packet whose buffer has a non-negative valid length hands the valid
bytes of the buffer to the device. -/
theorem write_packet_frame (packet : EthernetPacket) (w : World) (pb : BufferMixin)
    (hp : packet.parser = some pb) (h0 : 0 ≤ pb._bytes_written) :
    write_packet packet w = (Except.ok (), { w with written := w.written ++ [frame_of pb] }) := by
  unfold write_packet
  rw [hp]
  simp only
  rw [hex_ok _ 0 _ (le_refl 0) h0 h0]
  rfl

/-- An iteration on a frame classified as a foreign ARP broadcast is the rebroadcast branch. -/
theorem run_iteration_foreign (itf : MayhemInterface) (w : World) (idx : Int) (b : BufferMixin)
    (m : String) (h : foreign_arp_broadcast itf.local_ip w.inet_ntop6 idx b m) :
    run_iteration itf w idx b
      = rebroadcast itf w (read_packet (EthernetPacket.new idx) b).packet m := by
  obtain ⟨_, hr, hprint, harp, hbc, hsrc, dst, hdst, hne⟩ := h
  unfold run_iteration
  simp only [hr, hprint, harp, hbc, hsrc, hdst, if_true]
  rw [if_neg (fun hc => hne hc.1)]

/-- The rebroadcast branch writes the received frame as it is. -/
theorem write_received (idx : Int) (b : BufferMixin) (w : World) (h0 : 0 ≤ b._bytes_written)
    (hr : (read_packet (EthernetPacket.new idx) b).result = Except.ok ()) :
    write_packet (read_packet (EthernetPacket.new idx) b).packet w
      = (Except.ok (), { w with written := w.written ++ [frame_of b] }) := by
  obtain ⟨pb, hp, hs, hw⟩ := read_packet_attaches _ b hr
  rw [write_packet_frame _ w pb hp (by omega)]
  unfold frame_of
  rw [hs, hw]

/-- C10 (rebroadcast suppression). Two frames that the loop classifies as ARP broadcasts not
addressed to the local host, from the same source MAC `m` which has no entry in the dedup table,
are processed one after the other; `t1` is the clock reading taken for the first and `t2` the
reading taken when the second is checked. Both iterations return. If `t2 - t1` is less than
`REBROADCAST_INTERVAL` (1000 ms) exactly one frame, the first, is written to the device; if it is
more, both are, in order and unmodified. -/
theorem rebroadcast_suppression (itf : MayhemInterface) (w : World) (i1 i2 : Int)
    (f1 f2 : BufferMixin) (m : String)
    (h1 : foreign_arp_broadcast itf.local_ip w.inet_ntop6 i1 f1 m)
    (h2 : foreign_arp_broadcast itf.local_ip w.inet_ntop6 i2 f2 m)
    (hnew : itf.broadcast_timetable m = none) :
    (run_iteration itf w i1 f1).1 = Except.ok () ∧
    (run_iteration (run_iteration itf w i1 f1).2.1 (run_iteration itf w i1 f1).2.2 i2 f2).1
      = Except.ok () ∧
    (w.clock (w.clock_reads + 1) - w.clock w.clock_reads < REBROADCAST_INTERVAL →
      (run_iteration (run_iteration itf w i1 f1).2.1 (run_iteration itf w i1 f1).2.2
        i2 f2).2.2.written = w.written ++ [frame_of f1]) ∧
    (w.clock (w.clock_reads + 1) - w.clock w.clock_reads > REBROADCAST_INTERVAL →
      (run_iteration (run_iteration itf w i1 f1).2.1 (run_iteration itf w i1 f1).2.2
        i2 f2).2.2.written = w.written ++ [frame_of f1, frame_of f2]) := by
  have e1 : run_iteration itf w i1 f1 = (Except.ok (), itf.record m (w.clock w.clock_reads),
      { w with clock_reads := w.clock_reads + 1, written := w.written ++ [frame_of f1] }) := by
    rw [run_iteration_foreign itf w i1 f1 m h1]
    unfold rebroadcast
    simp only [hnew, get_utc]
    rw [write_received i1 f1 _ h1.1 h1.2.1]
  rw [e1]
  simp only
  have e2 := run_iteration_foreign (itf.record m (w.clock w.clock_reads))
    { w with clock_reads := w.clock_reads + 1, written := w.written ++ [frame_of f1] } i2 f2 m h2
  rw [e2]
  have ht : (itf.record m (w.clock w.clock_reads)).broadcast_timetable m
      = some (w.clock w.clock_reads) := by
    simp [MayhemInterface.record]
  unfold rebroadcast
  simp only [ht, get_utc]
  refine ⟨trivial, ?_, ?_, ?_⟩
  · split_ifs
    · rw [write_received i2 f2 _ h2.1 h2.2.1]
    · rfl
  · intro hlt
    rw [if_neg (by omega)]
  · intro hgt
    rw [if_pos hgt, write_received i2 f2 _ h2.1 h2.2.1]
    simp

/-- The ARP payload of the frame the answer branch writes, for every request as in
`run_iteration_answer`: bytes 22-27 and 28-31 (sender hardware and protocol address) and bytes
38-41 (target protocol address) are those of the request, bytes 32-37 (target hardware address)
are the local MAC. -/
theorem arp_reply_payload (itf : MayhemInterface) (w : World) (idx : Int) (b : BufferMixin)
    (mac_bytes : List Byte)
    (hpos : b._position = 0) (hbw : b._bytes_written = 42) (hcap : 42 ≤ b._bytes_allocated)
    (h12 : (b._storage 12).val = 0x08) (h13 : (b._storage 13).val = 0x06)
    (h18 : (b._storage 18).val = 6) (h19 : (b._storage 19).val = 4)
    (h20 : (b._storage 20).val = 0) (h21 : (b._storage 21).val = 1)
    (hbc : ∀ i : Int, 0 ≤ i → i < 6 → (b._storage i).val = 0xff)
    (hip : inet_ntop4 ⟨b._storage, 38⟩ = itf.local_ip)
    (hmac : mac_string_to_bytes itf.mac = Except.ok mac_bytes) :
    ∃ out : List Nat,
      run_iteration itf w idx b
        = (Except.ok (), itf, { w with written := w.written ++ [out] }) ∧
      (∀ i : Nat, 22 ≤ i → i < 32 → out.getD i 0 = (b._storage i).val) ∧
      (∀ i : Nat, i < 6 → out.getD (32 + i) 0 = (mac_bytes.getD i 0).val) ∧
      (∀ i : Nat, 38 ≤ i → i < 42 → out.getD i 0 = (b._storage i).val) := by
  refine ⟨_, run_iteration_answer itf w idx b mac_bytes hpos hbw hcap h12 h13 h18 h19 h20 h21
    hbc hip hmac, ?_, ?_, ?_⟩
  · intro i h0 h1
    rw [bytes_at_getD _ _ _ _ (by omega)]
    simp only [poke, memcpy]
    rw [if_neg (by omega), if_neg (by omega)]
    by_cases h28 : i < 28
    · rw [if_pos (by omega)]
      congr 2
      omega
    · rw [if_neg (by omega), if_neg (by omega), if_neg (by omega), if_neg (by omega)]
      rw [zero_add, clone_storage b w.fresh i (by omega) (by omega)]
  · intro i hi
    rw [bytes_at_getD _ _ _ _ (by omega)]
    simp only [poke, memcpy, Pointer.of_bytes]
    push_cast
    rw [if_neg (by omega), if_neg (by omega), if_neg (by omega), if_neg (by omega),
      if_pos (by omega), if_pos (by omega)]
    congr 2
    omega
  · intro i h0 h1
    rw [bytes_at_getD _ _ _ _ (by omega)]
    simp only [poke, memcpy]
    rw [if_neg (by omega), if_neg (by omega), if_neg (by omega), if_neg (by omega),
      if_neg (by omega), if_neg (by omega)]
    rw [zero_add, clone_storage b w.fresh i (by omega) (by omega)]

/-- Witness of C8: `sample_arp_request` received by `sample_interface`. -/
theorem arp_reply_framing_witness :
    ∃ out : List Nat,
      run_iteration sample_interface sample_world 0 (device_buffer sample_arp_request 1518)
        = (Except.ok (), sample_interface,
            { sample_world with written := sample_world.written ++ [out] }) ∧
      (out.length : Int) = (device_buffer sample_arp_request 1518)._bytes_written ∧
      (out.getD 20 0 = 0 ∧ out.getD 21 0 = 2) ∧
      (∀ i : Nat, i < 6 → out.getD (6 + i) 0
        = (([0x02, 0x00, 0x00, 0x00, 0x00, 0xAA] : List Byte).getD i 0).val) ∧
      (∀ i : Nat, i < 6 → out.getD i 0
        = ((device_buffer sample_arp_request 1518)._storage (22 + (i : Int))).val) :=
  arp_reply_framing sample_interface sample_world 0 (device_buffer sample_arp_request 1518)
    [0x02, 0x00, 0x00, 0x00, 0x00, 0xAA] rfl rfl (by decide) (by decide) (by decide) (by decide)
    (by decide) (by decide) (by decide)
    (fun i h0 h1 => by interval_cases i <;> decide)
    (by decide) (by decide) rfl

/-- The model of `std::stoul(.., 16)` at sample parts: a `0x` or `0X` before the digits, white
space and a sign before them, characters after them, a bare `0x`, a negative number, no digit
at all, and seventeen digits. -/
theorem stoul16_samples :
    stoul16 "0x02".data = Except.ok 2 ∧ stoul16 "0XaA".data = Except.ok 170 ∧
    stoul16 "  +1f".data = Except.ok 31 ∧ stoul16 "1z".data = Except.ok 1 ∧
    stoul16 "0x".data = Except.ok 0 ∧ stoul16 "0xg".data = Except.ok 0 ∧
    stoul16 "-1".data = Except.ok ULONG_MAX ∧
    stoul16 "".data = Except.error (Error.invalid_argument "stoul") ∧
    stoul16 "zz".data = Except.error (Error.invalid_argument "stoul") ∧
    stoul16 "11111111111111111".data = Except.error (Error.out_of_range "stoul") := by
  decide

/-- A MAC string whose parts carry a `0x` parses to the bytes its digits spell. -/
theorem mac_string_to_bytes_0x :
    mac_string_to_bytes "0x02:0x00:0x00:0x00:0x00:0xAA"
      = Except.ok [0x02, 0x00, 0x00, 0x00, 0x00, 0xAA] := by
  decide

/-- The interface of `sample_interface` with its MAC written as
0x02:0x00:0x00:0x00:0x00:0xAA answers `sample_arp_request` with the frame `sample_interface`
answers with: bytes 6-11 are 02 00 00 00 00 aa. -/
theorem arp_reply_with_0x_mac :
    (run_iteration { sample_interface with mac := "0x02:0x00:0x00:0x00:0x00:0xAA" } sample_world 0
        (device_buffer sample_arp_request 1518)).2.2.written
      = [[0x02, 0x00, 0x00, 0x00, 0x00, 0x01, 0x02, 0x00, 0x00, 0x00, 0x00, 0xAA, 0x08, 0x06,
          0x00, 0x01, 0x08, 0x00, 0x06, 0x04, 0x00, 0x02,
          0x02, 0x00, 0x00, 0x00, 0x00, 0x01, 192, 168, 1, 1,
          0x02, 0x00, 0x00, 0x00, 0x00, 0xAA, 192, 168, 1, 10]] := by
  decide

/-- C9, the code at a concrete request. `sample_interface` (MAC 02:00:00:00:00:AA, address
192.168.1.10) answers `sample_arp_request` (sender 02:00:00:00:00:01 / 192.168.1.1) with exactly
one frame, in whose ARP payload the sender hardware address (bytes 22-27) is still the
requester's MAC and not the local MAC, the sender protocol address (bytes 28-31) is still the
requester's IP and not the request's target IP, the target hardware address (bytes 32-37) is the
local MAC and not the requester's MAC, and the target protocol address (bytes 38-41) is still the
local IP and not the requester's IP: sender and target are not swapped. -/
theorem arp_reply_payload_not_swapped :
    (run_iteration sample_interface sample_world 0
        (device_buffer sample_arp_request 1518)).2.2.written
      = [[0x02, 0x00, 0x00, 0x00, 0x00, 0x01, 0x02, 0x00, 0x00, 0x00, 0x00, 0xAA, 0x08, 0x06,
          0x00, 0x01, 0x08, 0x00, 0x06, 0x04, 0x00, 0x02,
          0x02, 0x00, 0x00, 0x00, 0x00, 0x01, 192, 168, 1, 1,
          0x02, 0x00, 0x00, 0x00, 0x00, 0xAA, 192, 168, 1, 10]] ∧
    mac_string_to_bytes sample_interface.mac = Except.ok [0x02, 0x00, 0x00, 0x00, 0x00, 0xAA] ∧
    (sample_arp_request.drop 22).take 6 = [0x02, 0x00, 0x00, 0x00, 0x00, 0x01] ∧
    (sample_arp_request.drop 28).take 4 = [192, 168, 1, 1] ∧
    (sample_arp_request.drop 38).take 4 = [192, 168, 1, 10] := by
  refine ⟨by decide, by decide, by decide, by decide, by decide⟩

/-- Witness of C10: `sample_arp_request` received twice by an interface it is not addressed
to, the clock reading 5000 for the first and 7000-odd for the second. -/
theorem rebroadcast_suppression_witness :
    (run_iteration (run_iteration other_interface slow_world 0
        (device_buffer sample_arp_request 1518)).2.1
      (run_iteration other_interface slow_world 0 (device_buffer sample_arp_request 1518)).2.2
      1 (device_buffer sample_arp_request 1518)).2.2.written
    = slow_world.written ++ [frame_of (device_buffer sample_arp_request 1518),
        frame_of (device_buffer sample_arp_request 1518)] :=
  (rebroadcast_suppression other_interface slow_world 0 1
    (device_buffer sample_arp_request 1518) (device_buffer sample_arp_request 1518)
    "02:00:00:00:00:01"
    ⟨by decide, by decide, by decide, by decide, by decide, by decide,
      "192.168.1.10", by decide, by decide⟩
    ⟨by decide, by decide, by decide, by decide, by decide, by decide,
      "192.168.1.10", by decide, by decide⟩
    rfl).2.2.2 (by decide)

/-! ## Failing reads and header parsing -/

/-- A `parse` statement after a statement that threw is skipped. -/
theorem Parse.read_thrown {H α : Type} (e : Error) (h : H) (b : BufferMixin)
    (op : H → BufferMixin → Outcome α) (assign : H → α → H) :
    (Parse.mk (Except.error e) h b).read op assign = ⟨Except.error e, h, b⟩ := rfl

/-- `hex` with a start offset outside the valid data throws `ArgumentError`. -/
theorem hex_fail (b : BufferMixin) (pos len : Int) (h : pos < 0 ∨ pos > b._bytes_written) :
    b.hex pos len
      = ⟨Except.error (Error.ArgumentError ("pos out of bounds " ++ toString pos)), b⟩ := by
  unfold BufferMixin.hex BufferMixin.len
  rw [if_pos h]
  rfl

/-- `rbytes` past the valid data throws `BufferReadError` and leaves the buffer alone. -/
theorem rbytes_fail (b : BufferMixin) (size : Int) (h : b._position + size > b._bytes_written) :
    b.rbytes size
      = ⟨Except.error (Error.BufferReadError (b._bytes_written - (b._position + size))), b⟩ := by
  unfold BufferMixin.rbytes
  rw [if_pos h]
  rfl

/-- `ru8` past the valid data throws `BufferReadError(1)` and leaves the buffer alone. -/
theorem ru8_fail (b : BufferMixin) (h : b._position + 1 > b._bytes_written) :
    b.ru8 = ⟨Except.error (Error.BufferReadError 1), b⟩ := by
  unfold BufferMixin.ru8
  rw [if_pos h]
  rfl

/-- `ru16` past the valid data throws `BufferReadError` and leaves the buffer alone. -/
theorem ru16_fail (b : BufferMixin) (h : b._position + 2 > b._bytes_written) :
    b.ru16 = ⟨Except.error (Error.BufferReadError (2 - b._bytes_written + b._position)), b⟩ := by
  unfold BufferMixin.ru16
  rw [if_pos h]
  rfl

/-- `ru32` past the valid data throws `BufferReadError` and leaves the buffer alone. -/
theorem ru32_fail (b : BufferMixin) (h : b._position + 4 > b._bytes_written) :
    b.ru32 = ⟨Except.error (Error.BufferReadError (4 - b._bytes_written + b._position)), b⟩ := by
  unfold BufferMixin.ru32
  rw [if_pos h]
  rfl

/-- `ru32` within the valid data returns the big-endian value of the four bytes at the
cursor. -/
theorem ru32_ok (b : BufferMixin) (h : b._position + 4 ≤ b._bytes_written) :
    b.ru32 = ⟨Except.ok (be_value b._storage b._position 4 : Nat), b.advance 4⟩ := by
  have := read_u_value Width.w32 b (by simpa [Width.bytes] using h)
  simp only [Width.read_u, Width.bytes, Nat.cast_ofNat] at this
  have hb := be_value_lt b._storage b._position 4
  generalize be_value b._storage b._position 4 = v at this hb
  have e : to_int64 ((v : Nat) : Int) = (v : Nat) := by
    apply to_int64_id
    · have : (0 : Int) ≤ (v : Nat) := Int.ofNat_nonneg _
      omega
    · have : ((v : Nat) : Int) < 2 ^ (8 * 4) := by exact_mod_cast hb
      norm_num at this ⊢
      omega
  rw [this, e]

/-- `ARPHeader::parse` on a buffer whose unread bytes do not hold the whole header throws
`BufferReadError`. -/
theorem arp_parse_fail (h : ARPHeader) (b : BufferMixin) (h0 : 0 ≤ b._position)
    (hle : b._position ≤ b._bytes_written)
    (hlen : b._position + 8 + 2 * ((b._storage (b._position + 4)).val : Int)
      + 2 * ((b._storage (b._position + 5)).val : Int) > b._bytes_written) :
    ∃ n, (h.parse b).result = Except.error (Error.BufferReadError n) := by
  have hl0 : (0 : Int) ≤ ((b._storage (b._position + 4)).val : Int) := by positivity
  have hp0 : (0 : Int) ≤ ((b._storage (b._position + 5)).val : Int) := by positivity
  unfold ARPHeader.parse
  by_cases c1 : b._position + 2 ≤ b._bytes_written
  swap
  · simp (disch := first | omega | decide | (simp only [BufferMixin.advance, add_assoc]; norm_num; omega))
      only [Parse.read_mk, hex_ok, rbytes_ok, ru16_ok, ru8_ok, Parse.read_thrown, ru16_fail,
        ru8_fail, rbytes_fail]
    exact ⟨_, rfl⟩
  by_cases c2 : b._position + 4 ≤ b._bytes_written
  swap
  · simp (disch := first | omega | decide | (simp only [BufferMixin.advance, add_assoc]; norm_num; omega))
      only [Parse.read_mk, hex_ok, rbytes_ok, ru16_ok, ru8_ok, Parse.read_thrown, ru16_fail,
        ru8_fail, rbytes_fail]
    exact ⟨_, rfl⟩
  by_cases c3 : b._position + 5 ≤ b._bytes_written
  swap
  · simp (disch := first | omega | decide | (simp only [BufferMixin.advance, add_assoc]; norm_num; omega))
      only [Parse.read_mk, hex_ok, rbytes_ok, ru16_ok, ru8_ok, Parse.read_thrown, ru16_fail,
        ru8_fail, rbytes_fail]
    exact ⟨_, rfl⟩
  by_cases c4 : b._position + 6 ≤ b._bytes_written
  swap
  · simp (disch := first | omega | decide | (simp only [BufferMixin.advance, add_assoc]; norm_num; omega))
      only [Parse.read_mk, hex_ok, rbytes_ok, ru16_ok, ru8_ok, Parse.read_thrown, ru16_fail,
        ru8_fail, rbytes_fail]
    exact ⟨_, rfl⟩
  by_cases c5 : b._position + 8 ≤ b._bytes_written
  swap
  · simp (disch := first | omega | decide | (simp only [BufferMixin.advance, add_assoc]; norm_num; omega))
      only [Parse.read_mk, hex_ok, rbytes_ok, ru16_ok, ru8_ok, Parse.read_thrown, ru16_fail,
        ru8_fail, rbytes_fail]
    exact ⟨_, rfl⟩
  by_cases c6 : b._position + 8 + ((b._storage (b._position + 4)).val : Int) ≤ b._bytes_written
  swap
  · simp (disch := first | omega | decide |
        (simp only [BufferMixin.advance, add_assoc, byte_mod]; norm_num; omega)) only
      [Parse.read_mk, hex_ok, rbytes_ok, ru16_ok, ru8_ok, Parse.read_thrown, ru16_fail,
        ru8_fail, rbytes_fail]
    exact ⟨_, rfl⟩
  by_cases c7 : b._position + 8 + ((b._storage (b._position + 4)).val : Int)
      + ((b._storage (b._position + 5)).val : Int) ≤ b._bytes_written
  swap
  · simp (disch := first | omega | decide |
        (simp only [BufferMixin.advance, add_assoc, byte_mod]; norm_num; omega)) only
      [Parse.read_mk, hex_ok, rbytes_ok, ru16_ok, ru8_ok, Parse.read_thrown, ru16_fail,
        ru8_fail, rbytes_fail]
    exact ⟨_, rfl⟩
  by_cases c8 : b._position + 8 + 2 * ((b._storage (b._position + 4)).val : Int)
      + ((b._storage (b._position + 5)).val : Int) ≤ b._bytes_written
  swap
  · simp (disch := first | omega | decide |
        (simp only [BufferMixin.advance, add_assoc, byte_mod]; norm_num; omega)) only
      [Parse.read_mk, hex_ok, rbytes_ok, ru16_ok, ru8_ok, Parse.read_thrown, ru16_fail,
        ru8_fail, rbytes_fail]
    exact ⟨_, rfl⟩
  · simp (disch := first | omega | decide |
        (simp only [BufferMixin.advance, add_assoc, byte_mod]; norm_num; omega)) only
      [Parse.read_mk, hex_ok, rbytes_ok, ru16_ok, ru8_ok, Parse.read_thrown, ru16_fail,
        ru8_fail, rbytes_fail]
    exact ⟨_, rfl⟩

/-- C18 (ARP parse with data-driven field widths). A buffer is positioned at an ARP header
(`0 ≤ position ≤ bytes_written`); `hl` and `pl` are the bytes at header offsets 4 and 5. If at
least `8 + 2 hl + 2 pl` unread bytes are available, `ARPHeader::parse` returns;
`hardware_type`, `protocol_type` and `operation` are the big-endian 16-bit values at header
offsets 0, 2 and 6, the two length fields are `hl` and `pl`, `sender_mac`, `sender_ip`,
`target_mac`, `target_ip` point at the consecutive slices of lengths `hl`, `pl`, `hl`, `pl`
that start at header offset 8, and the cursor has advanced by exactly `8 + 2 hl + 2 pl` (the end
of the last slice), bytes and valid length untouched. With fewer unread bytes the call throws a
`BufferReadError`. -/
theorem arp_parse_widths (h : ARPHeader) (b : BufferMixin) (h0 : 0 ≤ b._position)
    (hle : b._position ≤ b._bytes_written) :
    (8 + 2 * ((b._storage (b._position + 4)).val : Int)
        + 2 * ((b._storage (b._position + 5)).val : Int) ≤ b.bytes_left →
      (h.parse b).result = Except.ok () ∧
      (h.parse b).hdr.hardware_type = be_value b._storage b._position 2 ∧
      (h.parse b).hdr.protocol_type = be_value b._storage (b._position + 2) 2 ∧
      (h.parse b).hdr.hardware_addr_len = (b._storage (b._position + 4)).val ∧
      (h.parse b).hdr.protocol_addr_len = (b._storage (b._position + 5)).val ∧
      (h.parse b).hdr.operation = be_value b._storage (b._position + 6) 2 ∧
      (h.parse b).hdr.sender_mac = b._position + 8 ∧
      (h.parse b).hdr.sender_ip = (h.parse b).hdr.sender_mac + (h.parse b).hdr.hardware_addr_len ∧
      (h.parse b).hdr.target_mac = (h.parse b).hdr.sender_ip + (h.parse b).hdr.protocol_addr_len ∧
      (h.parse b).hdr.target_ip = (h.parse b).hdr.target_mac + (h.parse b).hdr.hardware_addr_len ∧
      (h.parse b).buf._position = (h.parse b).hdr.target_ip + (h.parse b).hdr.protocol_addr_len ∧
      (h.parse b).buf._position = b._position + (8 + 2 * ((b._storage (b._position + 4)).val : Int)
        + 2 * ((b._storage (b._position + 5)).val : Int)) ∧
      (h.parse b).buf._storage = b._storage ∧
      (h.parse b).buf._bytes_written = b._bytes_written) ∧
    (b.bytes_left < 8 + 2 * ((b._storage (b._position + 4)).val : Int)
        + 2 * ((b._storage (b._position + 5)).val : Int) →
      ∃ n, (h.parse b).result = Except.error (Error.BufferReadError n)) := by
  constructor
  · intro hlen
    unfold BufferMixin.bytes_left at hlen
    rw [arp_parse_ok h b h0 (by omega)]
    simp only [be_value, BufferMixin.advance, Nat.cast_zero, Nat.cast_one, add_zero, zero_mul,
      zero_add, add_assoc, true_and]
    norm_num
    refine ⟨?_, ?_⟩ <;> ring
  · intro hlen
    unfold BufferMixin.bytes_left at hlen
    exact arp_parse_fail h b h0 hle (by omega)

/-- Witness of C18: the ARP header of `sample_arp_request`, read from offset 14 of the device
buffer. -/
theorem arp_parse_widths_witness :
    (0 : Int) ≤ ((device_buffer sample_arp_request 1518).advance 14)._position ∧
    ((device_buffer sample_arp_request 1518).advance 14)._position
      ≤ ((device_buffer sample_arp_request 1518).advance 14)._bytes_written ∧
    ((EthernetPacket.new 0).arp_header.parse
      ((device_buffer sample_arp_request 1518).advance 14)).hdr.target_ip = 38 ∧
    ((EthernetPacket.new 0).arp_header.parse
      ((device_buffer sample_arp_request 1518).advance 14)).buf._position = 42 :=
  have h := (arp_parse_widths (EthernetPacket.new 0).arp_header
    ((device_buffer sample_arp_request 1518).advance 14) (by decide) (by decide)).1 (by decide)
  ⟨by decide, by decide, by decide, h.2.2.2.2.2.2.2.2.2.2.2.1⟩

/-- `EthernetHeader::parse` on a buffer without 14 valid bytes at a non-negative cursor
throws. -/
theorem eth_parse_fail (h : EthernetHeader) (b : BufferMixin)
    (hs : ¬ (0 ≤ b._position ∧ b._position + 14 ≤ b._bytes_written)) :
    ∃ e, (h.parse b).result = Except.error e := by
  unfold EthernetHeader.parse
  by_cases c0 : b._position < 0 ∨ b._position > b._bytes_written
  · simp (disch := assumption) only [Parse.read_mk, hex_fail, Parse.read_thrown]
    exact ⟨_, rfl⟩
  by_cases c1 : b._position + 6 ≤ b._bytes_written
  swap
  · simp (disch := first | omega | decide | (simp only [BufferMixin.advance, add_assoc]; norm_num; omega))
      only [Parse.read_mk, hex_ok, rbytes_ok, ru16_ok, Parse.read_thrown, ru16_fail, rbytes_fail]
    exact ⟨_, rfl⟩
  by_cases c2 : b._position + 12 ≤ b._bytes_written
  swap
  · simp (disch := first | omega | decide | (simp only [BufferMixin.advance, add_assoc]; norm_num; omega))
      only [Parse.read_mk, hex_ok, rbytes_ok, ru16_ok, Parse.read_thrown, ru16_fail, rbytes_fail]
    exact ⟨_, rfl⟩
  · simp (disch := first | omega | decide | (simp only [BufferMixin.advance, add_assoc]; norm_num; omega))
      only [Parse.read_mk, hex_ok, rbytes_ok, ru16_ok, Parse.read_thrown, ru16_fail, rbytes_fail]
    exact ⟨_, rfl⟩

/-- `EthernetHeader::parse` on a buffer whose unread bytes do not hold the 14-byte header
throws `BufferReadError`. -/
theorem eth_parse_short (h : EthernetHeader) (b : BufferMixin) (h0 : 0 ≤ b._position)
    (hle : b._position ≤ b._bytes_written) (hs : b._position + 14 > b._bytes_written) :
    ∃ n, (h.parse b).result = Except.error (Error.BufferReadError n) := by
  unfold EthernetHeader.parse
  by_cases c1 : b._position + 6 ≤ b._bytes_written
  swap
  · simp (disch := first | omega | decide | (simp only [BufferMixin.advance, add_assoc]; norm_num; omega))
      only [Parse.read_mk, hex_ok, rbytes_ok, ru16_ok, Parse.read_thrown, ru16_fail, rbytes_fail]
    exact ⟨_, rfl⟩
  by_cases c2 : b._position + 12 ≤ b._bytes_written
  swap
  · simp (disch := first | omega | decide | (simp only [BufferMixin.advance, add_assoc]; norm_num; omega))
      only [Parse.read_mk, hex_ok, rbytes_ok, ru16_ok, Parse.read_thrown, ru16_fail, rbytes_fail]
    exact ⟨_, rfl⟩
  · simp (disch := first | omega | decide | (simp only [BufferMixin.advance, add_assoc]; norm_num; omega))
      only [Parse.read_mk, hex_ok, rbytes_ok, ru16_ok, Parse.read_thrown, ru16_fail, rbytes_fail]
    exact ⟨_, rfl⟩

/-- `IPv6Header::parse` on a buffer that holds the 40-byte header at a non-negative cursor:
the payload length is the big-endian 16-bit value at header offset 4, the two addresses are the
16-byte slices at header offsets 8 and 24, and the cursor advances by 40. -/
theorem ipv6_parse_ok (h : IPv6Header) (b : BufferMixin) (h0 : 0 ≤ b._position)
    (hlen : b._position + 40 ≤ b._bytes_written) :
    h.parse b = ⟨Except.ok (),
      { version_tc_flowlabel := ((be_value b._storage b._position 4 : Nat) : Int) % 2 ^ 32,
        payload_length :=
          ((b._storage (b._position + 4)).val * 256 + (b._storage (b._position + 5)).val : Nat),
        next_header := (b._storage (b._position + 6)).val,
        hop_limit := (b._storage (b._position + 7)).val,
        source_ip := b._position + 8,
        dest_ip := b._position + 24 },
      b.advance 40⟩ := by
  unfold IPv6Header.parse
  simp (disch := first | omega | decide | (simp only [BufferMixin.advance, add_assoc]; norm_num; omega)) only
    [Parse.read_mk, hex_ok, rbytes_ok, ru16_ok, ru8_ok, ru32_ok]
  simp only [BufferMixin.advance, add_assoc, byte_mod, to_uint16_be]
  norm_num

/-- `IPv6Header::parse` on a buffer whose unread bytes do not hold the 40-byte header throws
`BufferReadError`. -/
theorem ipv6_parse_short (h : IPv6Header) (b : BufferMixin) (h0 : 0 ≤ b._position)
    (hle : b._position ≤ b._bytes_written) (hs : b._position + 40 > b._bytes_written) :
    ∃ n, (h.parse b).result = Except.error (Error.BufferReadError n) := by
  unfold IPv6Header.parse
  by_cases c1 : b._position + 4 ≤ b._bytes_written
  swap
  · simp (disch := first | omega | decide | (simp only [BufferMixin.advance, add_assoc]; norm_num; omega))
      only [Parse.read_mk, hex_ok, rbytes_ok, ru16_ok, ru8_ok, ru32_ok, Parse.read_thrown,
        ru16_fail, ru8_fail, ru32_fail, rbytes_fail]
    exact ⟨_, rfl⟩
  by_cases c2 : b._position + 6 ≤ b._bytes_written
  swap
  · simp (disch := first | omega | decide | (simp only [BufferMixin.advance, add_assoc]; norm_num; omega))
      only [Parse.read_mk, hex_ok, rbytes_ok, ru16_ok, ru8_ok, ru32_ok, Parse.read_thrown,
        ru16_fail, ru8_fail, ru32_fail, rbytes_fail]
    exact ⟨_, rfl⟩
  by_cases c3 : b._position + 7 ≤ b._bytes_written
  swap
  · simp (disch := first | omega | decide | (simp only [BufferMixin.advance, add_assoc]; norm_num; omega))
      only [Parse.read_mk, hex_ok, rbytes_ok, ru16_ok, ru8_ok, ru32_ok, Parse.read_thrown,
        ru16_fail, ru8_fail, ru32_fail, rbytes_fail]
    exact ⟨_, rfl⟩
  by_cases c4 : b._position + 8 ≤ b._bytes_written
  swap
  · simp (disch := first | omega | decide | (simp only [BufferMixin.advance, add_assoc]; norm_num; omega))
      only [Parse.read_mk, hex_ok, rbytes_ok, ru16_ok, ru8_ok, ru32_ok, Parse.read_thrown,
        ru16_fail, ru8_fail, ru32_fail, rbytes_fail]
    exact ⟨_, rfl⟩
  by_cases c5 : b._position + 24 ≤ b._bytes_written
  swap
  · simp (disch := first | omega | decide | (simp only [BufferMixin.advance, add_assoc]; norm_num; omega))
      only [Parse.read_mk, hex_ok, rbytes_ok, ru16_ok, ru8_ok, ru32_ok, Parse.read_thrown,
        ru16_fail, ru8_fail, ru32_fail, rbytes_fail]
    exact ⟨_, rfl⟩
  · simp (disch := first | omega | decide | (simp only [BufferMixin.advance, add_assoc]; norm_num; omega))
      only [Parse.read_mk, hex_ok, rbytes_ok, ru16_ok, ru8_ok, ru32_ok, Parse.read_thrown,
        ru16_fail, ru8_fail, ru32_fail, rbytes_fail]
    exact ⟨_, rfl⟩

/-- When `read_packet` throws, the packet is not marked as read and its buffer pointer is the
one it had: the two assignments at the end of `read_packet` were not reached. -/
theorem read_packet_thrown (packet : EthernetPacket) (b : BufferMixin) (e : Error)
    (h : (read_packet packet b).result = Except.error e) :
    (read_packet packet b).packet.read_done = packet.read_done ∧
    (read_packet packet b).packet.parser = packet.parser := by
  unfold read_packet at h ⊢
  simp only at h ⊢
  cases hE : (packet.eth_header.parse b).result with
  | error e => simp only [hE]; constructor <;> first | rfl | trivial
  | ok u =>
    simp only [hE] at h ⊢
    by_cases h4 : (packet.eth_header.parse b).hdr.ethertype = EthernetType.IPv4
    · simp only [h4, if_true] at h
      cases h
    · simp only [h4, if_false] at h ⊢
      by_cases h6 : (packet.eth_header.parse b).hdr.ethertype = EthernetType.IPv6
      · simp only [h6, if_true] at h ⊢
        cases hP : (packet.ipv6_header.parse (packet.eth_header.parse b).buf).result with
        | error e => simp only [hP]; constructor <;> first | rfl | trivial
        | ok u =>
          simp only [hP] at h ⊢
          split at h
          · rename_i hc
            rw [if_pos hc]
            exact ⟨rfl, rfl⟩
          · cases h
      · simp only [h6, if_false] at h ⊢
        by_cases hA : (packet.eth_header.parse b).hdr.ethertype = EthernetType.ARP
        · simp only [hA, if_true] at h ⊢
          cases hP : (packet.arp_header.parse (packet.eth_header.parse b).buf).result with
          | error e => simp only [hP]; constructor <;> first | rfl | trivial
          | ok u =>
            simp only [hP] at h ⊢
            split at h
            · rename_i hc
              rw [if_pos hc]
              exact ⟨rfl, rfl⟩
            · cases h
        · simp only [hA, if_false]
          constructor <;> first | rfl | trivial

/-- When `read_packet` returns, the EtherType it decoded is one of the three the `switch`
has a case for. -/
theorem read_packet_supported (packet : EthernetPacket) (b : BufferMixin)
    (h : (read_packet packet b).result = Except.ok ()) :
    (read_packet packet b).packet.eth_header.ethertype = EthernetType.IPv4 ∨
    (read_packet packet b).packet.eth_header.ethertype = EthernetType.IPv6 ∨
    (read_packet packet b).packet.eth_header.ethertype = EthernetType.ARP := by
  unfold read_packet at h ⊢
  simp only at h ⊢
  cases hE : (packet.eth_header.parse b).result with
  | error e => simp only [hE] at h; cases h
  | ok u =>
    simp only [hE] at h ⊢
    by_cases h4 : (packet.eth_header.parse b).hdr.ethertype = EthernetType.IPv4
    · simp only [h4, if_true]
      first | exact Or.inl rfl | exact Or.inl trivial
    · simp only [h4, if_false] at h ⊢
      by_cases h6 : (packet.eth_header.parse b).hdr.ethertype = EthernetType.IPv6
      · simp only [h6, if_true] at h ⊢
        cases hP : (packet.ipv6_header.parse (packet.eth_header.parse b).buf).result with
        | error e => simp only [hP] at h; cases h
        | ok u =>
          simp only [hP] at h ⊢
          split at h
          · cases h
          · rename_i hc
            rw [if_neg hc]
            exact Or.inr (Or.inl h6)
      · simp only [h6, if_false] at h ⊢
        by_cases hA : (packet.eth_header.parse b).hdr.ethertype = EthernetType.ARP
        · simp only [hA, if_true] at h ⊢
          cases hP : (packet.arp_header.parse (packet.eth_header.parse b).buf).result with
          | error e => simp only [hP] at h; cases h
          | ok u =>
            simp only [hP] at h ⊢
            split at h
            · cases h
            · rename_i hc
              rw [if_neg hc]
              exact Or.inr (Or.inr hA)
        · simp only [hA, if_false] at h
          cases h

/-- `read_packet` on a frame at cursor 0 of at least 54 bytes whose EtherType is IPv6: both
headers are decoded, the cursor stops at offset 54, and the declared payload length is compared
with the bytes left. -/
theorem read_packet_ipv6 (packet : EthernetPacket) (b : BufferMixin) (hpos : b._position = 0)
    (hlen : 54 ≤ b._bytes_written)
    (h12 : (b._storage 12).val = 0x86) (h13 : (b._storage 13).val = 0xDD) :
    read_packet packet b =
      if (((b._storage 18).val * 256 + (b._storage 19).val : Nat) : Int) ≠ b._bytes_written - 54
      then
        ⟨Except.error (Error.runtime_error
          ("Remaining data on parser after IPv6 header do not match the packet payload, r: "
            ++ toString (b._bytes_written - 54) ++ ", pl: "
            ++ toString (((b._storage 18).val * 256 + (b._storage 19).val : Nat) : Int))),
          { packet with
            eth_header := ⟨0, 6, EthernetType.IPv6⟩,
            ipv6_header :=
              { version_tc_flowlabel := ((be_value b._storage 14 4 : Nat) : Int) % 2 ^ 32,
                payload_length := ((b._storage 18).val * 256 + (b._storage 19).val : Nat),
                next_header := (b._storage 20).val,
                hop_limit := (b._storage 21).val,
                source_ip := 22,
                dest_ip := 38 } },
          { b with _position := 54 }⟩
      else
        ⟨Except.ok (),
          { packet with
            eth_header := ⟨0, 6, EthernetType.IPv6⟩,
            ipv6_header :=
              { version_tc_flowlabel := ((be_value b._storage 14 4 : Nat) : Int) % 2 ^ 32,
                payload_length := ((b._storage 18).val * 256 + (b._storage 19).val : Nat),
                next_header := (b._storage 20).val,
                hop_limit := (b._storage 21).val,
                source_ip := 22,
                dest_ip := 38 },
            parser := some { b with _position := 54 },
            read_done := true },
          { b with _position := 54 }⟩ := by
  unfold read_packet
  rw [eth_parse_ok _ b (by omega) (by omega)]
  simp only [hpos, zero_add, h12, h13]
  have h6 : (((0x86 * 256 + 0xDD : Nat) : Int) = EthernetType.IPv6) := by decide
  have h4 : ¬ (((0x86 * 256 + 0xDD : Nat) : Int) = EthernetType.IPv4) := by decide
  rw [if_neg h4, if_pos h6]
  have hb14 : (b.advance 14)._position = 14 := by simp [BufferMixin.advance, hpos]
  rw [ipv6_parse_ok _ (b.advance 14) (by omega) (by
    rw [hb14]; simp only [BufferMixin.advance]; omega)]
  simp only [hb14, BufferMixin.advance, BufferMixin.bytes_left, hpos]
  norm_num
  split_ifs with hc
  · rfl
  · rfl

/-- C11 (IPv6 length cross-check). For every frame of at least 54 bytes, as the loop hands it to
`read_packet` (cursor 0), whose EtherType bytes are `86 DD`: `read_packet` returns if and only if
the big-endian 16-bit value at frame offset 18 equals the frame length minus 54; when it does the
buffer is attached and the packet marked as read; when it does not, a `std::runtime_error` is
thrown, `read_done` is what it was (false for the fresh packet of the loop) and so is the buffer
pointer of the packet (null for a fresh packet). -/
theorem ipv6_length_cross_check (packet : EthernetPacket) (b : BufferMixin)
    (hpos : b._position = 0) (hlen : 54 ≤ b._bytes_written)
    (h12 : (b._storage 12).val = 0x86) (h13 : (b._storage 13).val = 0xDD) :
    ((read_packet packet b).result = Except.ok () ↔
      ((be_value b._storage 18 2 : Nat) : Int) = b._bytes_written - 54) ∧
    (((be_value b._storage 18 2 : Nat) : Int) = b._bytes_written - 54 →
      (read_packet packet b).packet.read_done = true ∧
      (read_packet packet b).packet.parser = some { b with _position := 54 } ∧
      (read_packet packet b).packet.ipv6_header.payload_length = b.bytes_left - 54) ∧
    (((be_value b._storage 18 2 : Nat) : Int) ≠ b._bytes_written - 54 →
      (∃ what, (read_packet packet b).result = Except.error (Error.runtime_error what)) ∧
      (read_packet packet b).packet.read_done = packet.read_done ∧
      (read_packet packet b).packet.parser = packet.parser) := by
  have hbe : be_value b._storage 18 2 = (b._storage 18).val * 256 + (b._storage 19).val := by
    simp [be_value]
  rw [hbe, read_packet_ipv6 packet b hpos hlen h12 h13]
  refine ⟨?_, ?_, ?_⟩
  · constructor
    · intro h
      by_contra hne
      rw [if_pos hne] at h
      cases h
    · intro h
      rw [if_neg (not_not.mpr h)]
  · intro h
    rw [if_neg (not_not.mpr h)]
    refine ⟨rfl, rfl, ?_⟩
    simp only [BufferMixin.bytes_left, hpos]
    rw [h]
    ring
  · intro h
    rw [if_pos h]
    exact ⟨⟨_, rfl⟩, rfl, rfl⟩

/-- Witness of C11: `sample_ipv6_frame` (62 bytes, declared payload length 8) is accepted. -/
theorem ipv6_length_cross_check_witness :
    (device_buffer sample_ipv6_frame 1518)._position = 0 ∧
    (54 : Int) ≤ (device_buffer sample_ipv6_frame 1518)._bytes_written ∧
    (read_packet (EthernetPacket.new 0) (device_buffer sample_ipv6_frame 1518)).result
      = Except.ok () :=
  ⟨rfl, by decide,
    (ipv6_length_cross_check (EthernetPacket.new 0) (device_buffer sample_ipv6_frame 1518) rfl
      (by decide) (by decide) (by decide)).1.2 (by decide)⟩

/-- `read_packet` on a frame at cursor 0 of at least 14 bytes whose EtherType is none of IPv4,
IPv6 and ARP throws `std::runtime_error("Unsupported protocol: <EtherType>")`. -/
theorem read_packet_unsupported (packet : EthernetPacket) (b : BufferMixin)
    (hpos : b._position = 0) (hlen : 14 ≤ b._bytes_written)
    (h4 : ((be_value b._storage 12 2 : Nat) : Int) ≠ EthernetType.IPv4)
    (h6 : ((be_value b._storage 12 2 : Nat) : Int) ≠ EthernetType.IPv6)
    (hA : ((be_value b._storage 12 2 : Nat) : Int) ≠ EthernetType.ARP) :
    (read_packet packet b).result = Except.error (Error.runtime_error
      ("Unsupported protocol: " ++ toString ((be_value b._storage 12 2 : Nat) : Int))) := by
  have hbe : be_value b._storage 12 2 = (b._storage 12).val * 256 + (b._storage 13).val := by
    simp [be_value]
  rw [hbe] at h4 h6 hA ⊢
  unfold read_packet
  rw [eth_parse_ok _ b (by omega) (by omega)]
  simp only [hpos, zero_add]
  rw [if_neg h4, if_neg h6, if_neg hA]

/-- C20 (unsupported EtherType is a hard error). For every frame of at least 14 bytes, as the
loop hands it to `read_packet` (cursor 0), whose EtherType (the big-endian 16-bit value at offset
12) is none of 0x0800, 0x86DD and 0x0806, `read_packet` throws
`std::runtime_error("Unsupported protocol: <EtherType in decimal>")`, `read_done` is what it was
and so is the buffer pointer of the packet; and whenever `read_packet` returns, on any packet and
buffer, the EtherType it decoded is one of the three. -/
theorem unsupported_ethertype (packet : EthernetPacket) (b : BufferMixin)
    (hpos : b._position = 0) (hlen : 14 ≤ b._bytes_written)
    (h4 : ((be_value b._storage 12 2 : Nat) : Int) ≠ 0x0800)
    (h6 : ((be_value b._storage 12 2 : Nat) : Int) ≠ 0x86DD)
    (hA : ((be_value b._storage 12 2 : Nat) : Int) ≠ 0x0806) :
    ((read_packet packet b).result = Except.error (Error.runtime_error
      ("Unsupported protocol: " ++ toString ((be_value b._storage 12 2 : Nat) : Int))) ∧
      (read_packet packet b).packet.read_done = packet.read_done ∧
      (read_packet packet b).packet.parser = packet.parser) ∧
    (∀ (packet' : EthernetPacket) (b' : BufferMixin),
      (read_packet packet' b').result = Except.ok () →
        (read_packet packet' b').packet.eth_header.ethertype = 0x0800 ∨
        (read_packet packet' b').packet.eth_header.ethertype = 0x86DD ∨
        (read_packet packet' b').packet.eth_header.ethertype = 0x0806) := by
  have hr := read_packet_unsupported packet b hpos hlen h4 h6 hA
  exact ⟨⟨hr, read_packet_thrown packet b _ hr⟩, fun p' b' h => read_packet_supported p' b' h⟩

/-- Witness of C20: `vlan_frame` (EtherType 0x8100 = 33024) is rejected. -/
theorem unsupported_ethertype_witness :
    (read_packet (EthernetPacket.new 0) (device_buffer vlan_frame 1518)).result
      = Except.error (Error.runtime_error "Unsupported protocol: 33024") ∧
    (read_packet (EthernetPacket.new 0) (device_buffer vlan_frame 1518)).packet.read_done
      = false ∧
    (read_packet (EthernetPacket.new 0) (device_buffer vlan_frame 1518)).packet.parser = none :=
  (unsupported_ethertype (EthernetPacket.new 0) (device_buffer vlan_frame 1518) rfl (by decide)
    (by decide) (by decide) (by decide)).1

/-! ## Error amounts, cursor adjustment and clone -/

/-- C15, the amounts the range errors carry. A failed fixed-width read of `n ≥ 2` bytes carries
`position + n - bytes_written`, `ru8` carries the constant 1; a failed `rbytes`, `rbytes_into`,
`rstring`, `rdouble`, `rfloat` or `rfloat_le` carries `bytes_written - (position + n)`, the
deficit with its sign reversed, a negative number; a failed write of `n` bytes carries
`position + n - bytes_allocated`, `wu8` the constant 1. At the buffer `four_of_16` (four valid
bytes, cursor 0) `rbytes(6)`, two bytes short, throws `BufferReadError(-2)`, while `ru16` two
bytes short of its two throws `BufferReadError(2)`. -/
theorem range_error_amounts (b : BufferMixin) :
    (∀ r : FixedRead, b._position + r.size > b._bytes_written →
      (r.call b).result = Except.error (Error.BufferReadError
        (if r = FixedRead.ru8 then 1 else b._position + r.size - b._bytes_written))) ∧
    (∀ size : Int, b._position + size > b._bytes_written →
      (b.rbytes size).result = Except.error (Error.BufferReadError
        (-(b._position + size - b._bytes_written))) ∧
      (b.rbytes_into size).result = Except.error (Error.BufferReadError
        (-(b._position + size - b._bytes_written))) ∧
      (b.rstring size).result = Except.error (Error.BufferReadError
        (-(b._position + size - b._bytes_written)))) ∧
    (b._position + 8 > b._bytes_written →
      b.rdouble.result = Except.error (Error.BufferReadError
        (-(b._position + 8 - b._bytes_written)))) ∧
    (b._position + 4 > b._bytes_written →
      b.rfloat.result = Except.error (Error.BufferReadError
        (-(b._position + 4 - b._bytes_written))) ∧
      b.rfloat_le.result = Except.error (Error.BufferReadError
        (-(b._position + 4 - b._bytes_written)))) ∧
    (∀ w : FixedWrite, b._position + w.size > b._bytes_allocated →
      (w.call b).result = Except.error (Error.BufferWriteError
        (match w with
          | FixedWrite.wu8 _ => 1
          | _ => b._position + w.size - b._bytes_allocated))) ∧
    ((four_of_16.rbytes 6).result = Except.error (Error.BufferReadError (-2)) ∧
      four_of_16._position + 6 - four_of_16._bytes_written = 2 ∧
      ((four_of_16.advance 4).ru16).result = Except.error (Error.BufferReadError 2)) := by
  refine ⟨?_, ?_, ?_, ?_, ?_, ?_⟩
  · intro r h
    cases r <;> simp only [FixedRead.call, FixedRead.size,
      BufferMixin.ru8, BufferMixin.ru16, BufferMixin.rs16, BufferMixin.ru24, BufferMixin.rs24,
      BufferMixin.ru32, BufferMixin.rs32, BufferMixin.ru40, BufferMixin.rs40, BufferMixin.ru48,
      BufferMixin.rs48, BufferMixin.ru56, BufferMixin.rs56, BufferMixin.ru64, BufferMixin.rs64]
      at h ⊢ <;>
    rw [if_pos h] <;> simp only [throw_with_trace, reduceCtorEq, if_false, if_true] <;>
    (congr 2; omega)
  · intro size h
    refine ⟨?_, ?_, ?_⟩
    · simp only [BufferMixin.rbytes, if_pos h, throw_with_trace]
      congr 2; omega
    · simp only [BufferMixin.rbytes_into, if_pos h, throw_with_trace]
      congr 2; omega
    · simp only [BufferMixin.rstring, if_pos h, throw_with_trace]
      congr 2; omega
  · intro h
    simp only [BufferMixin.rdouble, if_pos h, throw_with_trace]
    congr 2; omega
  · intro h
    refine ⟨?_, ?_⟩
    · simp only [BufferMixin.rfloat, if_pos h, throw_with_trace]
      congr 2; omega
    · simp only [BufferMixin.rfloat_le, if_pos h, throw_with_trace]
      congr 2; omega
  · intro w h
    cases w <;> simp only [FixedWrite.call, FixedWrite.size,
      BufferMixin.wu8, BufferMixin.wu16, BufferMixin.wu16le, BufferMixin.wu24, BufferMixin.wu32,
      BufferMixin.wu32le, BufferMixin.wu40, BufferMixin.wu48, BufferMixin.wu56, BufferMixin.wu64,
      BufferMixin.wbytes, BufferMixin.wstring] at h ⊢ <;>
    rw [if_pos h] <;> simp only [throw_with_trace] <;>
    (congr 2; omega)
  · refine ⟨by decide, by decide, by decide⟩

/-- C16, the state a failed adjustment leaves. `bytes_appended(amount)` with
`bytes_written + amount > bytes_allocated` throws `BufferWriteError` and leaves `bytes_written`
increased by `amount`; `consume_bytes(amount)` with `position + amount > bytes_allocated` throws
`BufferWriteError` and leaves the cursor moved by `amount` (`bytes_written` as it was). At the
buffer `four_of_16` (capacity 16, four valid bytes, cursor 0) a failed `bytes_appended(13)`
leaves `bytes_written = 17` and a failed `consume_bytes(17)` leaves `position = 17`. -/
theorem adjustment_failure_state (b : BufferMixin) (amount : Int) :
    (b._bytes_written + amount > b._bytes_allocated →
      (b.bytes_appended amount).result = Except.error (Error.BufferWriteError
        (b._bytes_written + amount - b._bytes_allocated)) ∧
      (b.bytes_appended amount).buf._bytes_written = b._bytes_written + amount ∧
      (b.bytes_appended amount).buf._position = b._position) ∧
    (b._position + amount > b._bytes_allocated →
      (b.consume_bytes amount).result = Except.error (Error.BufferWriteError
        (b._position + amount - b._bytes_allocated)) ∧
      (b.consume_bytes amount).buf._position = b._position + amount ∧
      (b.consume_bytes amount).buf._bytes_written = b._bytes_written) ∧
    ((four_of_16._bytes_written = 4 ∧ four_of_16._position = 0 ∧
        four_of_16._bytes_allocated = 16) ∧
      (four_of_16.bytes_appended 13).result = Except.error (Error.BufferWriteError 1) ∧
      (four_of_16.bytes_appended 13).buf._bytes_written = 17 ∧
      (four_of_16.consume_bytes 17).result = Except.error (Error.BufferWriteError 1) ∧
      (four_of_16.consume_bytes 17).buf._position = 17) := by
  refine ⟨?_, ?_, ?_⟩
  · intro h
    simp only [BufferMixin.bytes_appended]
    rw [if_pos h]
    exact ⟨rfl, rfl, rfl⟩
  · intro h
    simp only [BufferMixin.consume_bytes]
    rw [if_pos h]
    exact ⟨rfl, rfl, rfl⟩
  · refine ⟨⟨by decide, by decide, by decide⟩, by decide, by decide, by decide, by decide⟩

/-- C17 (clone). For every buffer with `0 ≤ bytes_written ≤ bytes_allocated`, whatever its
cursor, and whatever the content `fresh` of the block `malloc` returns, the clone has the valid
length and the capacity of the original, cursor 0, the ownership flag set, and the bytes of the
original at every offset in `[0, bytes_written)` (the rest of its block is as allocated). The
source function assigns to no member of the original and stores only into the new block; in the
embedding the original is the value `b` before and after. -/
theorem clone_contract (b : BufferMixin) (fresh : Int → Byte) (_h0 : 0 ≤ b._bytes_written)
    (_hcap : b._bytes_written ≤ b._bytes_allocated) :
    (b.clone fresh)._bytes_written = b._bytes_written ∧
    (b.clone fresh)._bytes_allocated = b._bytes_allocated ∧
    (b.clone fresh)._position = 0 ∧
    (b.clone fresh)._ownning_storage = true ∧
    (∀ i : Int, 0 ≤ i → i < b._bytes_written → (b.clone fresh)._storage i = b._storage i) ∧
    (∀ i : Int, i < 0 ∨ b._bytes_written ≤ i → (b.clone fresh)._storage i = fresh i) ∧
    bytes_at (b.clone fresh)._storage 0 b._bytes_written.toNat
      = bytes_at b._storage 0 b._bytes_written.toNat := by
  refine ⟨rfl, rfl, rfl, rfl, ?_, ?_, ?_⟩
  · intro i hi0 hi1
    exact clone_storage b fresh i hi0 hi1
  · intro i hi
    simp only [BufferMixin.clone, memcpy]
    rw [if_neg (by omega)]
  · unfold bytes_at
    apply List.map_congr_left
    intro k hk
    rw [List.mem_range] at hk
    rw [clone_storage b fresh _ (by omega) (by omega)]

/-- Witness of C17: the clone of `four_of_16` after its cursor was moved to offset 3. -/
theorem clone_contract_witness :
    (0 : Int) ≤ (four_of_16.advance 3)._bytes_written ∧
    (four_of_16.advance 3)._bytes_written ≤ (four_of_16.advance 3)._bytes_allocated ∧
    ((four_of_16.advance 3).clone (fun _ => 0))._position = 0 ∧
    bytes_at ((four_of_16.advance 3).clone (fun _ => 0))._storage 0 4 = [1, 2, 3, 4] :=
  have h := clone_contract (four_of_16.advance 3) (fun _ => 0) (by decide) (by decide)
  ⟨by decide, by decide, h.2.2.1, by decide⟩

/-! ## The IPv4 codec -/

/-- Or-ing a value below `2^16` into an integer whose low sixteen bits are clear adds it. -/
theorem int_lor_low16 (x : Int) (p : Nat) (hx : x % 65536 = 0) (hp : p < 65536) :
    Int.lor x p = x + p := by
  cases x with
  | ofNat a =>
    show ((a ||| p : Nat) : Int) = (a : Int) + p
    have ha : a % 2 ^ 16 = 0 := by
      have : ((a : Int) % 65536) = 0 := hx
      omega
    rw [lor_eq_add a p 16 ha (by omega)]
    push_cast; rfl
  | negSucc a =>
    show Int.negSucc (Nat.ldiff a p) = Int.negSucc a + p
    have ha : a % 65536 = 65535 := by
      have : (Int.negSucc a) % 65536 = 0 := hx
      rw [Int.negSucc_eq] at this
      omega
    have hdm := Nat.div_add_mod a 65536
    have hld : Nat.ldiff a p = a - p := by
      apply Nat.eq_of_testBit_eq
      intro i
      rw [Nat.testBit_ldiff]
      have e1 : a = 2 ^ 16 * (a / 65536) + (2 ^ 16 - 1) := by omega
      have e2 : a - p = 2 ^ 16 * (a / 65536) + (2 ^ 16 - (p + 1)) := by omega
      rw [e2]
      conv_lhs => rw [e1]
      rw [Nat.testBit_mul_pow_two_add _ (by omega), Nat.testBit_mul_pow_two_add _ (by omega),
        Nat.testBit_two_pow_sub_one, Nat.testBit_two_pow_sub_succ (by omega)]
      by_cases hi : i < 16
      · simp [hi]
      · have hpi : p.testBit i = false := by
          apply Nat.testBit_lt_two_pow
          calc p < 2 ^ 16 := by omega
            _ ≤ 2 ^ i := Nat.pow_le_pow_right (by omega) (by omega)
        simp [hi, hpi]
    rw [hld, Int.negSucc_eq, Int.negSucc_eq, Nat.cast_sub (by omega)]
    ring

/-- Or-ing a value below `2^24` into an integer whose low twenty-four bits are clear adds
it. -/
theorem int_lor_low24 (x : Int) (p : Nat) (hx : x % 16777216 = 0) (hp : p < 16777216) :
    Int.lor x p = x + p := by
  cases x with
  | ofNat a =>
    show ((a ||| p : Nat) : Int) = (a : Int) + p
    have ha : a % 2 ^ 24 = 0 := by
      have : ((a : Int) % 16777216) = 0 := hx
      omega
    rw [lor_eq_add a p 24 ha (by omega)]
    push_cast; rfl
  | negSucc a =>
    show Int.negSucc (Nat.ldiff a p) = Int.negSucc a + p
    have ha : a % 16777216 = 16777215 := by
      have : (Int.negSucc a) % 16777216 = 0 := hx
      rw [Int.negSucc_eq] at this
      omega
    have hdm := Nat.div_add_mod a 16777216
    have hld : Nat.ldiff a p = a - p := by
      apply Nat.eq_of_testBit_eq
      intro i
      rw [Nat.testBit_ldiff]
      have e1 : a = 2 ^ 24 * (a / 16777216) + (2 ^ 24 - 1) := by omega
      have e2 : a - p = 2 ^ 24 * (a / 16777216) + (2 ^ 24 - (p + 1)) := by omega
      rw [e2]
      conv_lhs => rw [e1]
      rw [Nat.testBit_mul_pow_two_add _ (by omega), Nat.testBit_mul_pow_two_add _ (by omega),
        Nat.testBit_two_pow_sub_one, Nat.testBit_two_pow_sub_succ (by omega)]
      by_cases hi : i < 24
      · simp [hi]
      · have hpi : p.testBit i = false := by
          apply Nat.testBit_lt_two_pow
          calc p < 2 ^ 24 := by omega
            _ ≤ 2 ^ i := Nat.pow_le_pow_right (by omega) (by omega)
        simp [hi, hpi]
    rw [hld, Int.negSucc_eq, Int.negSucc_eq, Nat.cast_sub (by omega)]
    ring

/-- `x << 8` on integers. -/
theorem shl8 (a : Int) : a <<< (8 : Int) = a * 256 := by
  have := Int.shiftLeft_eq_mul_pow a 8
  norm_num at this
  exact this

/-- `x << 16` on integers. -/
theorem shl16 (a : Int) : a <<< (16 : Int) = a * 65536 := by
  have := Int.shiftLeft_eq_mul_pow a 16
  norm_num at this
  exact this

/-- `x << 24` on integers. -/
theorem shl24 (a : Int) : a <<< (24 : Int) = a * 16777216 := by
  have := Int.shiftLeft_eq_mul_pow a 24
  norm_num at this
  exact this

/-- The expression `(hi << 8) | lo` on two bytes, converted to `uint16_t`. -/
theorem be16_int (a c : Nat) (ha : a < 256) (hc : c < 256) :
    to_uint16 (Int.lor ((a : Int) <<< (8 : Int)) (c : Int)) = (a : Int) * 256 + c := by
  rw [shl8, int_lor_low _ c (by omega) hc]
  unfold to_uint16
  omega

/-- The expression `(b0 << 24) | (b1 << 16) | (b2 << 8) | b3` on four bytes, computed in `int`
and converted to `uint32_t`. -/
theorem be32_int (a0 a1 a2 a3 : Nat) (h0 : a0 < 256) (h1 : a1 < 256) (h2 : a2 < 256)
    (h3 : a3 < 256) :
    to_uint32 (Int.lor (Int.lor (Int.lor (to_int32 ((a0 : Int) <<< (24 : Int)))
      ((a1 : Int) <<< (16 : Int))) ((a2 : Int) <<< (8 : Int))) (a3 : Int))
      = (a0 : Int) * 16777216 + a1 * 65536 + a2 * 256 + a3 := by
  rw [shl24, shl16, shl8]
  have e1 : (a1 : Int) * 65536 = ((a1 * 65536 : Nat) : Int) := by push_cast; rfl
  have e2 : (a2 : Int) * 256 = ((a2 * 256 : Nat) : Int) := by push_cast; rfl
  have hA : to_int32 ((a0 : Int) * 16777216) % 16777216 = 0 := by
    simp only [to_int32, to_signed]
    norm_num
    omega
  have hB : to_int32 ((a0 : Int) * 16777216) % 4294967296 = (a0 : Int) * 16777216 := by
    simp only [to_int32, to_signed]
    norm_num
    omega
  generalize to_int32 ((a0 : Int) * 16777216) = A at hA hB ⊢
  rw [e1, int_lor_low24 A (a1 * 65536) hA (by omega), e2,
    int_lor_low16 (A + ((a1 * 65536 : Nat) : Int)) (a2 * 256) (by omega) (by omega),
    int_lor_low (A + ((a1 * 65536 : Nat) : Int) + ((a2 * 256 : Nat) : Int)) a3 (by omega) h3]
  simp only [to_uint32]
  norm_num
  omega

/-- A byte converted to `int` and back to `uint8_t` is itself. -/
theorem to_uint8_byte (v : Byte) : to_uint8 ((v.val : Nat) : Int) = v := by
  apply Fin.ext
  rw [to_uint8_val]
  have := v.isLt
  omega

/-- The bytes `serialize` stores for a 16-bit field holding `hi * 256 + lo`. -/
theorem split16 (a c : Byte) :
    to_uint8 (((a.val : Int) * 256 + c.val).shiftRight 8) = a ∧
    to_uint8 (Int.land ((a.val : Int) * 256 + c.val) 0xFF) = c := by
  have ha := a.isLt
  have hc := c.isLt
  rw [sr8, land_255]
  constructor <;> apply Fin.ext <;> rw [to_uint8_val] <;> omega

/-- The bytes `serialize` stores for a 32-bit field holding the big-endian value of four
bytes. -/
theorem split32 (a0 a1 a2 a3 : Byte) :
    to_uint8 (((a0.val : Int) * 16777216 + a1.val * 65536 + a2.val * 256 + a3.val).shiftRight 24)
      = a0 ∧
    to_uint8 (Int.land (((a0.val : Int) * 16777216 + a1.val * 65536 + a2.val * 256
      + a3.val).shiftRight 16) 0xFF) = a1 ∧
    to_uint8 (Int.land (((a0.val : Int) * 16777216 + a1.val * 65536 + a2.val * 256
      + a3.val).shiftRight 8) 0xFF) = a2 ∧
    to_uint8 (Int.land ((a0.val : Int) * 16777216 + a1.val * 65536 + a2.val * 256 + a3.val)
      0xFF) = a3 := by
  have h0 := a0.isLt
  have h1 := a1.isLt
  have h2 := a2.isLt
  have h3 := a3.isLt
  simp only [shiftRight_eq_div, land_255]
  norm_num
  refine ⟨?_, ?_, ?_, ?_⟩ <;> apply Fin.ext <;> rw [to_uint8_val] <;> omega

/-- The bytes `serialize` stores for a 16-bit field, read back as `(hi << 8) | lo`. -/
theorem join16 (v : Int) (h0 : 0 ≤ v) (h1 : v < 2 ^ 16) :
    to_uint16 (Int.lor ((((to_uint8 (v.shiftRight 8)).val : Nat) : Int) <<< (8 : Int))
      (((to_uint8 (Int.land v 0xFF)).val : Nat) : Int)) = v := by
  rw [be16_int _ _ (to_uint8 _).isLt (to_uint8 _).isLt, to_uint8_cast, to_uint8_cast, sr8,
    land_255]
  norm_num at h1
  omega

/-- The bytes `serialize` stores for a 32-bit field, read back as
`(b0 << 24) | (b1 << 16) | (b2 << 8) | b3`. -/
theorem join32 (v : Int) (h0 : 0 ≤ v) (h1 : v < 2 ^ 32) :
    to_uint32 (Int.lor (Int.lor (Int.lor
      (to_int32 ((((to_uint8 (v.shiftRight 24)).val : Nat) : Int) <<< (24 : Int)))
      ((((to_uint8 (Int.land (v.shiftRight 16) 0xFF)).val : Nat) : Int) <<< (16 : Int)))
      ((((to_uint8 (Int.land (v.shiftRight 8) 0xFF)).val : Nat) : Int) <<< (8 : Int)))
      (((to_uint8 (Int.land v 0xFF)).val : Nat) : Int)) = v := by
  rw [be32_int _ _ _ _ (to_uint8 _).isLt (to_uint8 _).isLt (to_uint8 _).isLt (to_uint8 _).isLt]
  simp only [to_uint8_cast, shiftRight_eq_div, land_255]
  norm_num at h1 ⊢
  omega

/-- The expression `(hi << 8) | lo` on two bytes of memory, converted to `uint16_t`. -/
theorem be16_byte (a c : Byte) :
    to_uint16 (Int.lor (((a.val : Nat) : Int) <<< (8 : Int)) ((c.val : Nat) : Int))
      = (a.val : Int) * 256 + c.val :=
  be16_int _ _ a.isLt c.isLt

/-- The expression `(b0 << 24) | (b1 << 16) | (b2 << 8) | b3` on four bytes of memory,
converted to `uint32_t`. -/
theorem be32_byte (a0 a1 a2 a3 : Byte) :
    to_uint32 (Int.lor (Int.lor (Int.lor (to_int32 (((a0.val : Nat) : Int) <<< (24 : Int)))
      (((a1.val : Nat) : Int) <<< (16 : Int))) (((a2.val : Nat) : Int) <<< (8 : Int)))
      ((a3.val : Nat) : Int))
      = (a0.val : Int) * 16777216 + a1.val * 65536 + a2.val * 256 + a3.val :=
  be32_int _ _ _ _ a0.isLt a1.isLt a2.isLt a3.isLt

/-- The fields `IPv4Header::parse` assigns, as sums. -/
theorem ipv4_parse_fields (h : IPv4Header) (src : Pointer) :
    h.parse src =
      { version_ihl := (src.mem (src.off + 0)).val,
        type_of_service := (src.mem (src.off + 1)).val,
        total_length := ((src.mem (src.off + 2)).val : Int) * 256 + (src.mem (src.off + 3)).val,
        identification := ((src.mem (src.off + 4)).val : Int) * 256 + (src.mem (src.off + 5)).val,
        flags_fragment_offset :=
          ((src.mem (src.off + 6)).val : Int) * 256 + (src.mem (src.off + 7)).val,
        ttl := (src.mem (src.off + 8)).val,
        protocol := (src.mem (src.off + 9)).val,
        header_checksum :=
          ((src.mem (src.off + 10)).val : Int) * 256 + (src.mem (src.off + 11)).val,
        source_ip := ((src.mem (src.off + 12)).val : Int) * 16777216
          + (src.mem (src.off + 13)).val * 65536 + (src.mem (src.off + 14)).val * 256
          + (src.mem (src.off + 15)).val,
        dest_ip := ((src.mem (src.off + 16)).val : Int) * 16777216
          + (src.mem (src.off + 17)).val * 65536 + (src.mem (src.off + 18)).val * 256
          + (src.mem (src.off + 19)).val } := by
  simp only [IPv4Header.parse, Pointer.byte, be16_byte, be32_byte]

/-- The twenty bytes `serialize` stores, and the memory it leaves alone. -/
theorem ipv4_serialize_bytes (h : IPv4Header) (buffer : Pointer) (length : Nat)
    (hl : 20 ≤ length) :
    ∃ out, h.serialize buffer length = Except.ok out ∧
      (out (buffer.off + 0) = to_uint8 h.version_ihl ∧
        out (buffer.off + 1) = to_uint8 h.type_of_service ∧
        out (buffer.off + 2) = to_uint8 (h.total_length.shiftRight 8) ∧
        out (buffer.off + 3) = to_uint8 (Int.land h.total_length 0xFF) ∧
        out (buffer.off + 4) = to_uint8 (h.identification.shiftRight 8) ∧
        out (buffer.off + 5) = to_uint8 (Int.land h.identification 0xFF) ∧
        out (buffer.off + 6) = to_uint8 (h.flags_fragment_offset.shiftRight 8) ∧
        out (buffer.off + 7) = to_uint8 (Int.land h.flags_fragment_offset 0xFF) ∧
        out (buffer.off + 8) = to_uint8 h.ttl ∧
        out (buffer.off + 9) = to_uint8 h.protocol ∧
        out (buffer.off + 10) = to_uint8 (h.header_checksum.shiftRight 8) ∧
        out (buffer.off + 11) = to_uint8 (Int.land h.header_checksum 0xFF) ∧
        out (buffer.off + 12) = to_uint8 (h.source_ip.shiftRight 24) ∧
        out (buffer.off + 13) = to_uint8 (Int.land (h.source_ip.shiftRight 16) 0xFF) ∧
        out (buffer.off + 14) = to_uint8 (Int.land (h.source_ip.shiftRight 8) 0xFF) ∧
        out (buffer.off + 15) = to_uint8 (Int.land h.source_ip 0xFF) ∧
        out (buffer.off + 16) = to_uint8 (h.dest_ip.shiftRight 24) ∧
        out (buffer.off + 17) = to_uint8 (Int.land (h.dest_ip.shiftRight 16) 0xFF) ∧
        out (buffer.off + 18) = to_uint8 (Int.land (h.dest_ip.shiftRight 8) 0xFF) ∧
        out (buffer.off + 19) = to_uint8 (Int.land h.dest_ip 0xFF)) ∧
      ∀ j, j < buffer.off ∨ buffer.off + 20 ≤ j → out j = buffer.mem j := by
  unfold IPv4Header.serialize
  rw [if_neg (by omega)]
  refine ⟨_, rfl, ?_, ?_⟩
  · simp only [poke, add_right_inj]
    norm_num
  · intro j hj
    simp only [poke]
    repeat rw [if_neg (by omega)]

/-- C19 (IPv4 parse and serialize are mutual inverses). For every header value `h` whose fields
are within their declared types, every memory `src` holding twenty bytes and every destination
`buffer` of `length` bytes: if `length ≥ 20`, serializing the header parsed from `src` returns
and stores exactly the twenty bytes of `src` at `buffer` (no other byte of the destination
changes), and parsing the twenty bytes `serialize(h)` stores gives back `h`, equal in all ten
fields; and `serialize` throws if and only if `length < 20`. -/
theorem ipv4_parse_serialize_inverse (h : IPv4Header) (hT : h.Typed) (src buffer : Pointer)
    (length : Nat) :
    (20 ≤ length →
      (∃ out, (h.parse src).serialize buffer length = Except.ok out ∧
        (∀ i : Int, 0 ≤ i → i < 20 → out (buffer.off + i) = src.mem (src.off + i)) ∧
        (∀ j, j < buffer.off ∨ buffer.off + 20 ≤ j → out j = buffer.mem j)) ∧
      (∃ out, h.serialize buffer length = Except.ok out ∧
        ∀ h0 : IPv4Header, h0.parse ⟨out, buffer.off⟩ = h)) ∧
    ((∃ e, h.serialize buffer length = Except.error e) ↔ length < 20) := by
  refine ⟨fun hl => ⟨?_, ?_⟩, ?_⟩
  · obtain ⟨out, ho, hb, hrest⟩ := ipv4_serialize_bytes (h.parse src) buffer length hl
    refine ⟨out, ho, ?_, hrest⟩
    rw [ipv4_parse_fields] at hb
    simp only [split16, split32, to_uint8_byte] at hb
    obtain ⟨b0, b1, b2, b3, b4, b5, b6, b7, b8, b9, b10, b11, b12, b13, b14, b15, b16, b17, b18,
      b19⟩ := hb
    intro i hi0 hi1
    have hi : i = 0 ∨ i = 1 ∨ i = 2 ∨ i = 3 ∨ i = 4 ∨ i = 5 ∨ i = 6 ∨ i = 7 ∨ i = 8 ∨ i = 9 ∨
        i = 10 ∨ i = 11 ∨ i = 12 ∨ i = 13 ∨ i = 14 ∨ i = 15 ∨ i = 16 ∨ i = 17 ∨ i = 18 ∨
        i = 19 := by omega
    rcases hi with hi | hi | hi | hi | hi | hi | hi | hi | hi | hi | hi | hi | hi | hi | hi | hi |
      hi | hi | hi | hi <;> subst hi <;> assumption
  · obtain ⟨out, ho, hb, _⟩ := ipv4_serialize_bytes h buffer length hl
    refine ⟨out, ho, fun h0 => ?_⟩
    obtain ⟨b0, b1, b2, b3, b4, b5, b6, b7, b8, b9, b10, b11, b12, b13, b14, b15, b16, b17, b18,
      b19⟩ := hb
    obtain ⟨⟨v0, v1⟩, ⟨t0, t1⟩, ⟨l0, l1⟩, ⟨i0, i1⟩, ⟨f0, f1⟩, ⟨tt0, tt1⟩, ⟨p0, p1⟩, ⟨c0, c1⟩,
      ⟨s0, s1⟩, ⟨d0, d1⟩⟩ := hT
    simp only [IPv4Header.parse, Pointer.byte, b0, b1, b2, b3, b4, b5, b6, b7, b8, b9, b10, b11,
      b12, b13, b14, b15, b16, b17, b18, b19]
    rw [join16 _ l0 l1, join16 _ i0 i1, join16 _ f0 f1, join16 _ c0 c1, join32 _ s0 s1,
      join32 _ d0 d1, to_uint8_cast, to_uint8_cast, to_uint8_cast, to_uint8_cast,
      Int.emod_eq_of_lt v0 (by norm_num at v1 ⊢; exact v1),
      Int.emod_eq_of_lt t0 (by norm_num at t1 ⊢; exact t1),
      Int.emod_eq_of_lt tt0 (by norm_num at tt1 ⊢; exact tt1),
      Int.emod_eq_of_lt p0 (by norm_num at p1 ⊢; exact p1)]
  · unfold IPv4Header.serialize
    constructor
    · rintro ⟨e, he⟩
      by_contra hc
      rw [if_neg hc] at he
      cases he
    · intro hl
      rw [if_pos hl]
      exact ⟨_, rfl⟩

/-- Witness of C19: `sample_ipv4_header` serialized into twenty bytes of zeroed memory and
parsed back. -/
theorem ipv4_parse_serialize_inverse_witness :
    sample_ipv4_header.Typed ∧
    ∃ out, sample_ipv4_header.serialize ⟨memory_of [], 0⟩ 20 = Except.ok out ∧
      ∀ h0 : IPv4Header, h0.parse ⟨out, 0⟩ = sample_ipv4_header :=
  ⟨by decide, ((ipv4_parse_serialize_inverse sample_ipv4_header (by decide)
    ⟨memory_of [], 0⟩ ⟨memory_of [], 0⟩ 20).1 (by decide)).2⟩

/-! ## Classification of frames by the loop -/

/-- Whatever `read_packet` does after it, the Ethernet header of the packet is the one
`EthernetHeader::parse` left. -/
theorem read_packet_eth_header (packet : EthernetPacket) (b : BufferMixin) :
    (read_packet packet b).packet.eth_header = (packet.eth_header.parse b).hdr := by
  unfold read_packet
  simp only
  cases hE : (packet.eth_header.parse b).result with
  | error e => rfl
  | ok u =>
    simp only
    by_cases h4 : (packet.eth_header.parse b).hdr.ethertype = EthernetType.IPv4
    · simp only [h4, if_true]
    · simp only [h4, if_false]
      by_cases h6 : (packet.eth_header.parse b).hdr.ethertype = EthernetType.IPv6
      · simp only [h6, if_true]
        cases hP : (packet.ipv6_header.parse (packet.eth_header.parse b).buf).result with
        | error e => rfl
        | ok u =>
          simp only
          split <;> rfl
      · simp only [h6, if_false]
        by_cases hA : (packet.eth_header.parse b).hdr.ethertype = EthernetType.ARP
        · simp only [hA, if_true]
          cases hP : (packet.arp_header.parse (packet.eth_header.parse b).buf).result with
          | error e => rfl
          | ok u =>
            simp only
            split <;> rfl
        · simp only [hA, if_false]

/-- When `EthernetHeader::parse` throws, so does `read_packet`. -/
theorem read_packet_eth_thrown (packet : EthernetPacket) (b : BufferMixin) (e : Error)
    (h : (packet.eth_header.parse b).result = Except.error e) :
    (read_packet packet b).result = Except.error e := by
  unfold read_packet
  simp only [h]

/-- A frame at cursor 0 that `read_packet` accepts has the 14 bytes of the Ethernet header. -/
theorem read_packet_min_length (packet : EthernetPacket) (b : BufferMixin)
    (hpos : b._position = 0) (hr : (read_packet packet b).result = Except.ok ()) :
    14 ≤ b._bytes_written := by
  by_contra hc
  obtain ⟨e, he⟩ := eth_parse_fail packet.eth_header b (by omega)
  rw [read_packet_eth_thrown packet b e he] at hr
  cases hr

/-- An ARP frame at cursor 0 that `read_packet` accepts: its EtherType bytes are `08 06` and
its length is exactly that of the Ethernet header and of the ARP header its two address lengths
(the bytes at offsets 18 and 19) give. -/
theorem read_packet_arp_inv (packet : EthernetPacket) (b : BufferMixin) (hpos : b._position = 0)
    (hr : (read_packet packet b).result = Except.ok ())
    (hA : (read_packet packet b).packet.eth_header.ethertype = EthernetType.ARP) :
    (b._storage 12).val = 0x08 ∧ (b._storage 13).val = 0x06 ∧
    b._bytes_written = 22 + 2 * ((b._storage 18).val : Int) + 2 * ((b._storage 19).val : Int) := by
  have hlen := read_packet_min_length packet b hpos hr
  have hl0 : (0 : Int) ≤ ((b._storage 18).val : Int) := Int.ofNat_nonneg _
  have hp0 : (0 : Int) ≤ ((b._storage 19).val : Int) := Int.ofNat_nonneg _
  rw [read_packet_eth_header, eth_parse_ok _ b (by omega) (by omega)] at hA
  simp only [hpos, zero_add] at hA
  have h12 : (b._storage 12).val = 0x08 := by
    have := (b._storage 12).isLt
    have := (b._storage 13).isLt
    have hA' : (((b._storage 12).val * 256 + (b._storage 13).val : Nat) : Int) = 2054 := hA
    omega
  have h13 : (b._storage 13).val = 0x06 := by
    have := (b._storage 12).isLt
    have := (b._storage 13).isLt
    have hA' : (((b._storage 12).val * 256 + (b._storage 13).val : Nat) : Int) = 2054 := hA
    omega
  refine ⟨h12, h13, ?_⟩
  have hA1 : (((8 * 256 + 6 : Nat) : Int) = EthernetType.ARP) := by decide
  have h4 : ¬ (((8 * 256 + 6 : Nat) : Int) = EthernetType.IPv4) := by decide
  have h6 : ¬ (((8 * 256 + 6 : Nat) : Int) = EthernetType.IPv6) := by decide
  have hb14 : (b.advance 14)._position = 14 := by simp [BufferMixin.advance, hpos]
  have hs : (b.advance 14)._storage = b._storage := rfl
  have hw : (b.advance 14)._bytes_written = b._bytes_written := rfl
  unfold read_packet at hr
  rw [eth_parse_ok _ b (by omega) (by omega)] at hr
  simp only [hpos, zero_add, h12, h13] at hr
  rw [if_neg h4, if_neg h6, if_pos hA1] at hr
  by_cases hfit : 22 + 2 * ((b._storage 18).val : Int) + 2 * ((b._storage 19).val : Int)
      ≤ b._bytes_written
  · rw [arp_parse_ok _ (b.advance 14) (by omega) (by
      rw [hb14, hs, hw]; norm_num; omega)] at hr
    simp only [hb14, BufferMixin.advance, BufferMixin.bytes_left, hpos] at hr
    norm_num at hr
    by_contra hne
    rw [if_pos (by omega)] at hr
    cases hr
  · obtain ⟨n, hn⟩ := arp_parse_fail packet.arp_header (b.advance 14) (by omega)
      (by rw [hb14, hw]; omega) (by rw [hb14, hs, hw]; norm_num; omega)
    simp only [hn] at hr
    cases hr

/-- `set_src_mac` on a buffer whose valid data reaches past the second field it writes
(`34 + protocol_addr_len` bytes): the six bytes are copied to offsets 6 and
`28 + protocol_addr_len`; cursor, valid length and capacity are as before. -/
theorem set_src_mac_valid (h : ARPHeader) (mac : Pointer) (b : BufferMixin)
    (hp0 : 0 ≤ h.protocol_addr_len) (hpos : b._position ≤ b._bytes_written)
    (hbw : 34 + h.protocol_addr_len ≤ b._bytes_written)
    (hcap : b._bytes_written ≤ b._bytes_allocated) :
    h.set_src_mac mac b = ⟨Except.ok (),
      { b with _storage :=
          memcpy (memcpy b._storage 6 mac 6) (28 + h.protocol_addr_len) mac 6 }⟩ := by
  unfold ARPHeader.set_src_mac
  simp (disch := first | omega | decide |
      (simp only [MAC_ADDR_LEN, networkinterface.wbytes, BufferMixin.written]; norm_num;
        try omega)) only
    [Outcome.bind_ok, seek_ok, wbytes_ok]
  simp only [MAC_ADDR_LEN, networkinterface.wbytes, BufferMixin.written]
  norm_num
  simp only [max_def]
  split_ifs <;> omega

/-- `set_dest_mac` on a buffer with at least 28 valid bytes: the six bytes are copied to
offsets 0 and 22; cursor, valid length and capacity are as before. -/
theorem set_dest_mac_valid (h : ARPHeader) (mac : Pointer) (b : BufferMixin)
    (hpos : b._position ≤ b._bytes_written) (hbw : 28 ≤ b._bytes_written)
    (hcap : b._bytes_written ≤ b._bytes_allocated) :
    h.set_dest_mac mac b = ⟨Except.ok (),
      { b with _storage := memcpy (memcpy b._storage 0 mac 6) 22 mac 6 }⟩ := by
  unfold ARPHeader.set_dest_mac
  simp (disch := first | omega | decide |
      (simp only [MAC_ADDR_LEN, networkinterface.wbytes, BufferMixin.written]; norm_num;
        try omega)) only
    [Outcome.bind_ok, seek_ok, wbytes_ok]
  simp only [MAC_ADDR_LEN, networkinterface.wbytes, BufferMixin.written]
  norm_num
  omega

/-- `set_operation(ARP_REPLY)` on a buffer with at least 22 valid bytes: bytes 20 and 21
become `00 02`; cursor, valid length and capacity are as before. -/
theorem set_operation_valid (h : ARPHeader) (b : BufferMixin)
    (hpos : b._position ≤ b._bytes_written) (hbw : 22 ≤ b._bytes_written)
    (hcap : b._bytes_written ≤ b._bytes_allocated) :
    h.set_operation ArpOperations.ARP_REPLY b = ⟨Except.ok (),
      { h with operation := 2 },
      { b with _storage := poke (poke b._storage 20 0) 21 2 }⟩ := by
  have e0 : to_uint16 ArpOperations.ARP_REPLY = 2 := by decide
  have e1 : to_uint8 (Int.shiftRight 2 8) = 0 := by decide
  have e2 : to_uint8 2 = 2 := by decide
  unfold ARPHeader.set_operation
  simp (disch := first | omega | decide |
      (simp only [networkinterface.wu16, BufferMixin.written]; norm_num; try omega)) only
    [Outcome.bind_ok, seek_ok, wu16_ok, e0]
  simp only [networkinterface.wu16, BufferMixin.written, e1, e2]
  norm_num
  omega

/-- The answer branch on a parsed ARP frame with hardware address length 6 and protocol address
length `p` (the byte at offset 19): the clone parses like the request, the three mutators
succeed, and the clone's bytes are written: those of the request with the local MAC copied to
offsets 6 and `28 + p`, the request's ARP sender MAC to offsets 0 and 22, and `00 02` stored at
offsets 20 and 21. -/
theorem answer_arp_hw6 (itf : MayhemInterface) (w : World) (packet : EthernetPacket)
    (b : BufferMixin) (mac_bytes : List Byte)
    (hparser : packet.parser = some b) (hsm : packet.arp_header.sender_mac = 22)
    (hbw : b._bytes_written = 34 + 2 * ((b._storage 19).val : Int))
    (hcap : b._bytes_written ≤ b._bytes_allocated)
    (h12 : (b._storage 12).val = 0x08) (h13 : (b._storage 13).val = 0x06)
    (h18 : (b._storage 18).val = 6)
    (hmac : mac_string_to_bytes itf.mac = Except.ok mac_bytes) :
    answer_arp itf w packet = (Except.ok (),
      { w with written := w.written ++ [bytes_at
        (poke (poke (memcpy (memcpy (memcpy (memcpy (b.clone w.fresh)._storage
          6 (Pointer.of_bytes mac_bytes) 6)
          (28 + ((b._storage 19).val : Int)) (Pointer.of_bytes mac_bytes) 6)
          0 ⟨b._storage, 22⟩ 6) 22 ⟨b._storage, 22⟩ 6) 20 0) 21 2) 0 b._bytes_written.toNat] }) := by
  have hp0 : (0 : Int) ≤ ((b._storage 19).val : Int) := Int.ofNat_nonneg _
  have hc : ∀ i : Int, 0 ≤ i → i < 34 → ((b.clone w.fresh)._storage i).val = (b._storage i).val :=
    fun i h0 h1 => by rw [clone_storage b w.fresh i h0 (by omega)]
  have hcbw : (b.clone w.fresh)._bytes_written = b._bytes_written := rfl
  have hrc := read_packet_arp (EthernetPacket.new packet.index) (b.clone w.fresh) rfl
    (by rw [hc 12 (by omega) (by omega)]; exact h12)
    (by rw [hc 13 (by omega) (by omega)]; exact h13)
    (by rw [hc 18 (by omega) (by omega), hc 19 (by omega) (by omega), h18, hcbw, hbw]
        norm_num)
  simp only [hc 18 (by omega) (by omega), hc 19 (by omega) (by omega), h18, hcbw] at hrc
  have hcal : b._bytes_written ≤ (b.clone w.fresh)._bytes_allocated := hcap
  generalize (b.clone w.fresh)._storage = cs at hrc ⊢
  generalize (b.clone w.fresh)._bytes_allocated = ca at hrc hcal
  generalize (b.clone w.fresh)._ownning_storage = co at hrc
  unfold answer_arp clone_packet
  simp only [hparser]
  rw [hrc]
  simp only [hmac]
  simp (disch := first | omega | decide | (dsimp only; omega)) only
    [set_src_mac_valid, set_dest_mac_valid, set_operation_valid]
  rw [hex_ok _ 0 _ (le_refl 0) (by show (0 : Int) ≤ b._bytes_written; omega)
    (by show (0 : Int) ≤ b._bytes_written; omega)]
  simp only [write_packet]
  rw [hex_ok _ 0 _ (le_refl 0) (by show (0 : Int) ≤ b._bytes_written; omega)
    (by show (0 : Int) ≤ b._bytes_written; omega)]
  simp only [EthernetPacket.memory, hparser, hsm]

/-- `write_packet` takes no clock reading. -/
theorem write_packet_clock (packet : EthernetPacket) (w : World) :
    (write_packet packet w).2.clock_reads = w.clock_reads ∧
    (write_packet packet w).2.clock = w.clock := by
  unfold write_packet
  cases packet.parser with
  | none => exact ⟨rfl, rfl⟩
  | some b =>
    simp only
    cases (b.hex 0 b._bytes_written).result <;> exact ⟨rfl, rfl⟩

/-- Every path through the rebroadcast branch takes at least one clock reading. -/
theorem rebroadcast_clock (itf : MayhemInterface) (w : World) (packet : EthernetPacket)
    (m : String) : w.clock_reads < (rebroadcast itf w packet m).2.2.clock_reads := by
  unfold rebroadcast
  cases itf.broadcast_timetable m with
  | none =>
    simp only [get_utc]
    rw [(write_packet_clock _ _).1]
    exact Nat.lt_succ_self _
  | some t =>
    simp only [get_utc]
    split_ifs
    · rw [(write_packet_clock _ _).1]
      show w.clock_reads < w.clock_reads + 1 + 1
      omega
    · exact Nat.lt_succ_self _

/-- An iteration on a frame that `read_packet` and the log lines accept and that is an ARP
request, broadcast, for the local address, is the answer branch. -/
theorem run_iteration_to_answer (itf : MayhemInterface) (w : World) (idx : Int)
    (b : BufferMixin)
    (hr : (read_packet (EthernetPacket.new idx) b).result = Except.ok ())
    (hprint : (read_packet (EthernetPacket.new idx) b).packet.print w.inet_ntop6 = Except.ok ())
    (hA : (read_packet (EthernetPacket.new idx) b).packet.eth_header.ethertype
      = EthernetType.ARP)
    (hB : mac_to_string ⟨(read_packet (EthernetPacket.new idx) b).packet.memory,
      (read_packet (EthernetPacket.new idx) b).packet.eth_header.dest_mac⟩ = "ff:ff:ff:ff:ff:ff")
    (hD : (read_packet (EthernetPacket.new idx) b).packet.get_dst_ip w.inet_ntop6
      = Except.ok itf.local_ip)
    (hO : (read_packet (EthernetPacket.new idx) b).packet.arp_header.operation
      = ARPOperationType.REQUEST) :
    run_iteration itf w idx b
      = ((answer_arp itf w (read_packet (EthernetPacket.new idx) b).packet).1, itf,
         (answer_arp itf w (read_packet (EthernetPacket.new idx) b).packet).2) := by
  unfold run_iteration
  simp only [hr, hprint, hA, hB, hD, hO, if_true, and_self]

/-- An iteration that returns having written one frame, without a clock reading and with the
dedup table as it was, has gone through the answer branch: the frame was an ARP request,
broadcast, for the local address. -/
theorem run_iteration_answered (itf : MayhemInterface) (w : World) (idx : Int)
    (b : BufferMixin) (out : List Nat)
    (h : run_iteration itf w idx b
      = (Except.ok (), itf, { w with written := w.written ++ [out] })) :
    (read_packet (EthernetPacket.new idx) b).result = Except.ok () ∧
    (read_packet (EthernetPacket.new idx) b).packet.eth_header.ethertype = EthernetType.ARP ∧
    mac_to_string ⟨(read_packet (EthernetPacket.new idx) b).packet.memory,
      (read_packet (EthernetPacket.new idx) b).packet.eth_header.dest_mac⟩
        = "ff:ff:ff:ff:ff:ff" ∧
    (read_packet (EthernetPacket.new idx) b).packet.get_dst_ip w.inet_ntop6
      = Except.ok itf.local_ip ∧
    (read_packet (EthernetPacket.new idx) b).packet.arp_header.operation
      = ARPOperationType.REQUEST := by
  have hw : ∀ w' : World, w' = { w with written := w.written ++ [out] } → w' ≠ w := by
    intro w' hw' hc
    have := congrArg (fun x => x.written.length) (hw'.symm.trans hc)
    simp at this
  unfold run_iteration at h
  simp only at h
  cases hr : (read_packet (EthernetPacket.new idx) b).result with
  | error e =>
    simp only [hr] at h
    cases h
  | ok u =>
    simp only [hr] at h
    cases hp : (read_packet (EthernetPacket.new idx) b).packet.print w.inet_ntop6 with
    | error e =>
      simp only [hp] at h
      cases h
    | ok u' =>
      simp only [hp] at h
      by_cases hA : (read_packet (EthernetPacket.new idx) b).packet.eth_header.ethertype
          = EthernetType.ARP
      swap
      · simp only [hA, if_false] at h
        exact absurd rfl (hw _ (congrArg (fun x => x.2.2) h))
      simp only [hA, if_true] at h
      by_cases hB : mac_to_string ⟨(read_packet (EthernetPacket.new idx) b).packet.memory,
          (read_packet (EthernetPacket.new idx) b).packet.eth_header.dest_mac⟩
            = "ff:ff:ff:ff:ff:ff"
      swap
      · simp only [hB, if_false] at h
        exact absurd rfl (hw _ (congrArg (fun x => x.2.2) h))
      simp only [hB, if_true] at h
      cases hD : (read_packet (EthernetPacket.new idx) b).packet.get_dst_ip w.inet_ntop6 with
      | error e =>
        simp only [hD] at h
        cases h
      | ok dst =>
        simp only [hD] at h
        by_cases hC : dst = itf.local_ip ∧
            (read_packet (EthernetPacket.new idx) b).packet.arp_header.operation
              = ARPOperationType.REQUEST
        · exact ⟨rfl, hA, hB, by rw [hC.1], hC.2⟩
        · rw [if_neg hC] at h
          have hc := rebroadcast_clock itf w (read_packet (EthernetPacket.new idx) b).packet
            (mac_to_string ⟨(read_packet (EthernetPacket.new idx) b).packet.memory,
              (read_packet (EthernetPacket.new idx) b).packet.eth_header.src_mac⟩)
          rw [h] at hc
          exact absurd hc (lt_irrefl _)

/-- The loop iteration on an ARP request with hardware address length 6, broadcast, for the
local address, on an interface whose MAC string parses: the iteration returns, the dedup table
is untouched, no clock reading is taken, and exactly one frame is written, the mutated clone. -/
theorem run_iteration_answer_hw6 (itf : MayhemInterface) (w : World) (idx : Int)
    (b : BufferMixin) (mac_bytes : List Byte)
    (hpos : b._position = 0) (hcap : b._bytes_written ≤ b._bytes_allocated)
    (hr : (read_packet (EthernetPacket.new idx) b).result = Except.ok ())
    (hmac : mac_string_to_bytes itf.mac = Except.ok mac_bytes)
    (hA : (read_packet (EthernetPacket.new idx) b).packet.eth_header.ethertype
      = EthernetType.ARP)
    (hB : mac_to_string ⟨(read_packet (EthernetPacket.new idx) b).packet.memory,
      (read_packet (EthernetPacket.new idx) b).packet.eth_header.dest_mac⟩ = "ff:ff:ff:ff:ff:ff")
    (hD : (read_packet (EthernetPacket.new idx) b).packet.get_dst_ip w.inet_ntop6
      = Except.ok itf.local_ip)
    (hO : (read_packet (EthernetPacket.new idx) b).packet.arp_header.operation
      = ARPOperationType.REQUEST)
    (hH : (read_packet (EthernetPacket.new idx) b).packet.arp_header.hardware_addr_len = 6) :
    run_iteration itf w idx b = (Except.ok (), itf,
      { w with written := w.written ++ [bytes_at
        (poke (poke (memcpy (memcpy (memcpy (memcpy (b.clone w.fresh)._storage
          6 (Pointer.of_bytes mac_bytes) 6)
          (28 + ((b._storage 19).val : Int)) (Pointer.of_bytes mac_bytes) 6)
          0 ⟨b._storage, 22⟩ 6) 22 ⟨b._storage, 22⟩ 6) 20 0) 21 2) 0 b._bytes_written.toNat] }) ∧
    34 ≤ b._bytes_written := by
  obtain ⟨h12, h13, hbw⟩ := read_packet_arp_inv _ b hpos hr hA
  have hrp := read_packet_arp (EthernetPacket.new idx) b hpos h12 h13 hbw
  have hp0 : (0 : Int) ≤ ((b._storage 19).val : Int) := Int.ofNat_nonneg _
  have hprint : (read_packet (EthernetPacket.new idx) b).packet.print w.inet_ntop6
      = Except.ok () := by
    have hD' := hD
    rw [hrp] at hD' ⊢
    have hA4 : ¬ (EthernetType.ARP = EthernetType.IPv4 ∨ EthernetType.ARP = EthernetType.IPv6) := by
      decide
    simp only [EthernetPacket.get_dst_ip, if_neg hA4, if_true] at hD'
    simp only [EthernetPacket.print, EthernetPacket.get_dst_ip, EthernetPacket.get_src_ip,
      if_neg hA4, if_true]
    by_cases h4 : ((b._storage 19).val : Int) = 4
    · simp only [h4, if_true, Except.map]
      rw [hex_ok _ 0 _ (le_refl 0) (by show (0 : Int) ≤ b._bytes_written; omega)
        (by show (0 : Int) ≤ b._bytes_written; omega)]
    · by_cases h16 : ((b._storage 19).val : Int) = 16
      · simp only [h16, if_true, Except.map]
        norm_num
        rw [hex_ok _ 0 _ (le_refl 0) (by show (0 : Int) ≤ b._bytes_written; omega)
          (by show (0 : Int) ≤ b._bytes_written; omega)]
      · simp only [h4, h16, if_false] at hD'
        cases hD'
  have h18 : (b._storage 18).val = 6 := by
    rw [hrp] at hH
    simp only at hH
    exact_mod_cast hH
  rw [run_iteration_to_answer itf w idx b hr hprint hA hB hD hO]
  have hans := answer_arp_hw6 itf w (read_packet (EthernetPacket.new idx) b).packet
    { b with _position := b._bytes_written } mac_bytes (by rw [hrp]) (by rw [hrp])
    (by show b._bytes_written = 34 + 2 * ((b._storage 19).val : Int); rw [hbw, h18]; norm_num)
    hcap h12 h13 h18 hmac
  rw [hans]
  refine ⟨rfl, ?_⟩
  rw [hbw, h18]
  norm_num

/-- Sequencing after a call that threw. -/
theorem Outcome.bind_error {α β : Type} (e : Error) (b : BufferMixin)
    (f : α → BufferMixin → Outcome β) :
    (Outcome.mk (Except.error e) b).bind f = ⟨Except.error e, b⟩ := rfl

/-- `seek` past the valid data throws and leaves the buffer alone. -/
theorem seek_fail (b : BufferMixin) (p : Int) (h : p > b._bytes_written) :
    b.seek p = ⟨Except.error (Error.BufferReadError (p - b._bytes_written)), b⟩ := by
  unfold BufferMixin.seek
  rw [if_pos h]
  rfl

/-- `wu16` past the capacity throws and leaves the buffer alone. -/
theorem wu16_fail (b : BufferMixin) (value : Int) (h : b._position + 2 > b._bytes_allocated) :
    b.wu16 value
      = ⟨Except.error (Error.BufferWriteError (2 - b._bytes_allocated + b._position)), b⟩ := by
  unfold BufferMixin.wu16
  rw [if_pos h]
  rfl

/-- Whenever `set_operation(ARP_REPLY)` returns, on any buffer, byte 21 of the buffer is 2 and
the valid data reaches past it. -/
theorem set_operation_effect (h : ARPHeader) (b : BufferMixin)
    (hok : (h.set_operation ArpOperations.ARP_REPLY b).result = Except.ok ()) :
    ((h.set_operation ArpOperations.ARP_REPLY b).buf._storage 21).val = 2 ∧
    22 ≤ (h.set_operation ArpOperations.ARP_REPLY b).buf._bytes_written := by
  have e0 : to_uint16 ArpOperations.ARP_REPLY = 2 := by decide
  have e2 : to_uint8 2 = 2 := by decide
  unfold ARPHeader.set_operation at hok ⊢
  simp only [e0] at hok ⊢
  by_cases c1 : 20 ≤ b._bytes_written
  swap
  · rw [seek_fail b 20 (by omega)] at hok
    simp only [Outcome.bind_error] at hok
    cases hok
  rw [seek_ok b 20 c1] at hok ⊢
  simp only [Outcome.bind_ok] at hok ⊢
  by_cases c2 : (20 : Int) + 2 ≤ b._bytes_allocated
  swap
  · rw [wu16_fail _ 2 (by show (20 : Int) + 2 > b._bytes_allocated; omega)] at hok
    simp only [Outcome.bind_error] at hok
    cases hok
  rw [wu16_ok _ 2 (by show (20 : Int) + 2 ≤ b._bytes_allocated; omega)] at hok ⊢
  simp only [Outcome.bind_ok] at hok ⊢
  simp only [BufferMixin.seek, networkinterface.wu16, BufferMixin.written] at hok ⊢
  split_ifs at hok ⊢
  · cases hok
  · simp only [poke, e2]
    norm_num

/-- What the answer branch does to the device, whatever the packet: either nothing is written,
or exactly one frame is, at least 22 bytes long with byte 21 equal to 2. -/
theorem answer_arp_effect (itf : MayhemInterface) (w : World) (packet : EthernetPacket) :
    (answer_arp itf w packet).2 = w ∨
    ∃ out : List Nat, (answer_arp itf w packet).2 = { w with written := w.written ++ [out] } ∧
      out.getD 21 0 = 2 := by
  unfold answer_arp
  simp only
  split
  · exact Or.inl rfl
  · exact Or.inl rfl
  · rename_i u parser hres hpar
    split
    · exact Or.inl rfl
    · rename_i mac_bytes hmac
      split
      · exact Or.inl rfl
      · split
        · exact Or.inl rfl
        · split
          · exact Or.inl rfl
          · rename_i u3 h3
            split
            · exact Or.inl rfl
            · unfold write_packet
              simp only
              split
              · exact Or.inl rfl
              · refine Or.inr ⟨_, rfl, ?_⟩
                have he := set_operation_effect _ _ h3
                rw [bytes_at_getD _ _ _ _ (by omega)]
                simpa using he.1

/-- C13 (re-injection is confined, amended). A frame as the loop receives it (cursor 0) is
processed by one iteration. Unless `read_packet` accepts it, its EtherType is ARP, its Ethernet
destination renders as ff:ff:ff:ff:ff:ff and it is not a request (operation 1) whose target
address renders as the local IP, the iteration leaves the dedup table as it was and does not
write the received frame back: it writes nothing, or (answer branch) one frame that differs
from the received one. -/
theorem reinjection_confined (itf : MayhemInterface) (w : World) (idx : Int) (b : BufferMixin)
    (hpos : b._position = 0)
    (hn : ¬ ((read_packet (EthernetPacket.new idx) b).result = Except.ok () ∧
      (read_packet (EthernetPacket.new idx) b).packet.eth_header.ethertype = EthernetType.ARP ∧
      mac_to_string ⟨(read_packet (EthernetPacket.new idx) b).packet.memory,
        (read_packet (EthernetPacket.new idx) b).packet.eth_header.dest_mac⟩
          = "ff:ff:ff:ff:ff:ff" ∧
      ¬ ((read_packet (EthernetPacket.new idx) b).packet.get_dst_ip w.inet_ntop6
          = Except.ok itf.local_ip ∧
        (read_packet (EthernetPacket.new idx) b).packet.arp_header.operation
          = ARPOperationType.REQUEST))) :
    (run_iteration itf w idx b).2.1 = itf ∧
    ((run_iteration itf w idx b).2.2.written = w.written ∨
      ∃ out : List Nat, (run_iteration itf w idx b).2.2.written = w.written ++ [out] ∧
        out ≠ frame_of b) := by
  unfold run_iteration
  simp only
  cases hr : (read_packet (EthernetPacket.new idx) b).result with
  | error e => exact ⟨rfl, Or.inl rfl⟩
  | ok u =>
    simp only
    cases hp : (read_packet (EthernetPacket.new idx) b).packet.print w.inet_ntop6 with
    | error e => exact ⟨rfl, Or.inl rfl⟩
    | ok u' =>
      simp only
      by_cases hA : (read_packet (EthernetPacket.new idx) b).packet.eth_header.ethertype
          = EthernetType.ARP
      swap
      · simp only [hA, if_false]
        exact ⟨trivial, Or.inl trivial⟩
      simp only [hA, if_true]
      by_cases hB : mac_to_string ⟨(read_packet (EthernetPacket.new idx) b).packet.memory,
          (read_packet (EthernetPacket.new idx) b).packet.eth_header.dest_mac⟩
            = "ff:ff:ff:ff:ff:ff"
      swap
      · simp only [hB, if_false]
        exact ⟨trivial, Or.inl trivial⟩
      simp only [hB, if_true]
      cases hD : (read_packet (EthernetPacket.new idx) b).packet.get_dst_ip w.inet_ntop6 with
      | error e => exact ⟨rfl, Or.inl rfl⟩
      | ok dst =>
        simp only
        by_cases hC : dst = itf.local_ip ∧
            (read_packet (EthernetPacket.new idx) b).packet.arp_header.operation
              = ARPOperationType.REQUEST
        swap
        · exfalso
          apply hn
          refine ⟨hr, hA, hB, ?_⟩
          rintro ⟨hd, ho⟩
          rw [hD] at hd
          exact hC ⟨by injection hd, ho⟩
        rw [if_pos hC]
        refine ⟨rfl, ?_⟩
        rcases answer_arp_effect itf w (read_packet (EthernetPacket.new idx) b).packet with
          h | ⟨out, h, h21⟩
        · exact Or.inl (by rw [h])
        · refine Or.inr ⟨out, by rw [h], ?_⟩
          obtain ⟨h12, h13, hbw⟩ := read_packet_arp_inv _ b hpos hr hA
          have hrp := read_packet_arp (EthernetPacket.new idx) b hpos h12 h13 hbw
          have hO := hC.2
          rw [hrp] at hO
          simp only at hO
          have hO' : (((b._storage 20).val * 256 + (b._storage 21).val : Nat) : Int) = 1 := hO
          have h21b : (b._storage 21).val = 1 := by
            have := (b._storage 21).isLt
            omega
          have hl0 : (0 : Int) ≤ ((b._storage 18).val : Int) := Int.ofNat_nonneg _
          have hp0 : (0 : Int) ≤ ((b._storage 19).val : Int) := Int.ofNat_nonneg _
          intro heq
          rw [heq] at h21
          unfold frame_of at h21
          rw [bytes_at_getD _ _ _ _ (by omega)] at h21
          simp only [Nat.cast_ofNat, zero_add] at h21
          omega

/-- Witness of C13: `sample_ipv6_frame` is not ARP; nothing is written and the dedup table is
as it was. -/
theorem reinjection_confined_witness :
    (run_iteration sample_interface sample_world 0 (device_buffer sample_ipv6_frame 1518)).2.1
      = sample_interface ∧
    ((run_iteration sample_interface sample_world 0
        (device_buffer sample_ipv6_frame 1518)).2.2.written = sample_world.written ∨
      ∃ out : List Nat, (run_iteration sample_interface sample_world 0
          (device_buffer sample_ipv6_frame 1518)).2.2.written = sample_world.written ++ [out] ∧
        out ≠ frame_of (device_buffer sample_ipv6_frame 1518)) :=
  reinjection_confined sample_interface sample_world 0 (device_buffer sample_ipv6_frame 1518) rfl
    (fun h => absurd h.2.1 (by decide))

/-- Counterexample to C13 as stated: `arp_reply_broadcast` is an ARP frame with broadcast
destination whose target address is the local IP of `sample_interface`, but its operation is
reply (2), not request; the iteration writes it back unmodified and records its source MAC in
the dedup table. -/
theorem arp_reply_to_local_reinjected :
    ((read_packet (EthernetPacket.new 0) (device_buffer arp_reply_broadcast 1518)).result
        = Except.ok () ∧
      (read_packet (EthernetPacket.new 0)
        (device_buffer arp_reply_broadcast 1518)).packet.eth_header.ethertype
          = EthernetType.ARP ∧
      mac_to_string
        ⟨(read_packet (EthernetPacket.new 0)
            (device_buffer arp_reply_broadcast 1518)).packet.memory,
          (read_packet (EthernetPacket.new 0)
            (device_buffer arp_reply_broadcast 1518)).packet.eth_header.dest_mac⟩
          = "ff:ff:ff:ff:ff:ff" ∧
      (read_packet (EthernetPacket.new 0)
        (device_buffer arp_reply_broadcast 1518)).packet.get_dst_ip sample_world.inet_ntop6
          = Except.ok sample_interface.local_ip) ∧
    (run_iteration sample_interface sample_world 0
      (device_buffer arp_reply_broadcast 1518)).2.2.written = [arp_reply_broadcast] ∧
    frame_of (device_buffer arp_reply_broadcast 1518) = arp_reply_broadcast ∧
    sample_interface.broadcast_timetable "02:00:00:00:00:01" = none ∧
    (run_iteration sample_interface sample_world 0
      (device_buffer arp_reply_broadcast 1518)).2.1.broadcast_timetable "02:00:00:00:00:01"
        = some 5000 := by
  refine ⟨⟨by decide, by decide, by decide, by decide⟩, by decide, by decide, by decide,
    by decide⟩

/-! ## The loop over several device reads -/

/-- A device read that delivers a frame gives `from_file_descripto` the device buffer of that
frame. -/
theorem from_file_descripto_frame (frame : List Nat) (mtu : Int) :
    BufferMixin.from_file_descripto (DeviceRead.frame frame) mtu
      = Except.ok (device_buffer frame mtu) := by
  unfold BufferMixin.from_file_descripto DeviceRead.frame
  simp only
  rw [if_neg (by omega)]
  rfl

/-- An iteration on a frame `read_packet` rejects ends with the exception `read_packet` threw,
nothing written and the dedup table as it was. -/
theorem run_iteration_rejected (itf : MayhemInterface) (w : World) (idx : Int)
    (b : BufferMixin) (e : Error)
    (h : (read_packet (EthernetPacket.new idx) b).result = Except.error e) :
    run_iteration itf w idx b = (Except.error e, itf, w) := by
  unfold run_iteration
  simp only [h]

/-- C14 (per-frame recovery, amended). For every state of the loop, every frame the device
delivers that `read_packet` rejects with an exception `e` (unsupported EtherType, IPv6 payload
length mismatch, truncated header, ...) and every sequence of device reads that would follow,
`run` ends with `e`: nothing is written, the dedup table is as it was, and none of the following
reads is processed. The one failure the loop recovers from is a device read without data, after
which it goes on with the following reads. -/
theorem frame_failure_ends_run (itf : MayhemInterface) (w : World) (idx : Int)
    (frame : List Nat) (reads : List DeviceRead) (e : Error)
    (hbad : (read_packet (EthernetPacket.new idx)
      (device_buffer frame ETHERNET_PACKET_MAX_SIZE)).result = Except.error e) :
    itf.run_from w idx (DeviceRead.frame frame :: reads) = (Except.error e, itf, w) ∧
    itf.run_from w idx (DeviceRead.would_block :: DeviceRead.frame frame :: reads)
      = (Except.error e, itf, w) ∧
    itf.run_from w idx (DeviceRead.would_block :: reads) = itf.run_from w idx reads := by
  have h1 : itf.run_from w idx (DeviceRead.frame frame :: reads) = (Except.error e, itf, w) := by
    rw [MayhemInterface.run_from, from_file_descripto_frame]
    simp only [run_iteration_rejected itf w idx _ e hbad]
  have h2 : ∀ rs, itf.run_from w idx (DeviceRead.would_block :: rs) = itf.run_from w idx rs := by
    intro rs
    rw [MayhemInterface.run_from]
    have : BufferMixin.from_file_descripto DeviceRead.would_block ETHERNET_PACKET_MAX_SIZE
        = Except.error Error.NoDataException := by
      unfold BufferMixin.from_file_descripto DeviceRead.would_block
      simp only
      rw [if_pos (by decide), if_pos (by decide)]
    rw [this]
    simp only [if_true]
  exact ⟨h1, by rw [h2, h1], h2 reads⟩

/-- Witness of C14: after `vlan_frame` the loop does not get to `sample_arp_request`. -/
theorem frame_failure_ends_run_witness :
    (sample_interface.run_from sample_world 0
      [DeviceRead.frame vlan_frame, DeviceRead.frame sample_arp_request]).1
        = Except.error (Error.runtime_error "Unsupported protocol: 33024") ∧
    (sample_interface.run_from sample_world 0
      [DeviceRead.frame vlan_frame, DeviceRead.frame sample_arp_request]).2.2.written = [] :=
  have h := (frame_failure_ends_run sample_interface sample_world 0 vlan_frame
    [DeviceRead.frame sample_arp_request]
    (Error.runtime_error "Unsupported protocol: 33024") (by decide)).1
  ⟨by rw [h], by rw [h]; rfl⟩

/-- Counterexample to C14 as stated. `sample_arp_request` alone is answered by `run`; preceded
by a frame with an unsupported EtherType, by an IPv6 frame whose declared payload length is one
short, or by a frame cut off inside the Ethernet header, it is never processed: `run` ends with
the exception of the malformed frame and nothing is written. -/
theorem malformed_frame_stops_the_loop :
    (sample_interface.run sample_world [DeviceRead.frame sample_arp_request]).1 = Except.ok () ∧
    (sample_interface.run sample_world [DeviceRead.frame sample_arp_request]).2.2.written.length
      = 1 ∧
    ((sample_interface.run sample_world
        [DeviceRead.frame vlan_frame, DeviceRead.frame sample_arp_request]).1
        = Except.error (Error.runtime_error "Unsupported protocol: 33024") ∧
      (sample_interface.run sample_world
        [DeviceRead.frame vlan_frame, DeviceRead.frame sample_arp_request]).2.2.written = []) ∧
    ((sample_interface.run sample_world
        [DeviceRead.frame padded_ipv6_frame, DeviceRead.frame sample_arp_request]).1
        = Except.error (Error.runtime_error
          ("Remaining data on parser after IPv6 header do not match the packet payload, "
            ++ "r: 9, pl: 8")) ∧
      (sample_interface.run sample_world
        [DeviceRead.frame padded_ipv6_frame, DeviceRead.frame sample_arp_request]).2.2.written
          = []) ∧
    ((sample_interface.run sample_world
        [DeviceRead.frame truncated_frame, DeviceRead.frame sample_arp_request]).1
        = Except.error (Error.BufferReadError (-2)) ∧
      (sample_interface.run sample_world
        [DeviceRead.frame truncated_frame, DeviceRead.frame sample_arp_request]).2.2.written
          = []) := by
  refine ⟨by decide, by decide, ⟨by decide, by decide⟩, ⟨by decide, by decide⟩,
    ⟨by decide, by decide⟩⟩

/-! ## ARP frame length, the device read and the dedup table -/

/-- A frame with EtherType ARP that carries bytes after the ARP header is rejected with the
count of the bytes left over. -/
theorem read_packet_arp_trailing (packet : EthernetPacket) (b : BufferMixin)
    (hpos : b._position = 0)
    (h12 : (b._storage 12).val = 0x08) (h13 : (b._storage 13).val = 0x06)
    (hbw : b._bytes_written
      > 22 + 2 * ((b._storage 18).val : Int) + 2 * ((b._storage 19).val : Int)) :
    (read_packet packet b).result = Except.error (Error.runtime_error
      ("Remaining data on parser after ARP header, remaining: " ++ toString
        (b._bytes_written
          - (22 + 2 * ((b._storage 18).val : Int) + 2 * ((b._storage 19).val : Int))))) := by
  have hl0 : (0 : Int) ≤ ((b._storage 18).val : Int) := Int.ofNat_nonneg _
  have hp0 : (0 : Int) ≤ ((b._storage 19).val : Int) := Int.ofNat_nonneg _
  unfold read_packet
  rw [eth_parse_ok _ b (by omega) (by omega)]
  simp only [hpos, zero_add, h12, h13]
  have hA : (((8 * 256 + 6 : Nat) : Int) = EthernetType.ARP) := by decide
  have h4 : ¬ (((8 * 256 + 6 : Nat) : Int) = EthernetType.IPv4) := by decide
  have h6 : ¬ (((8 * 256 + 6 : Nat) : Int) = EthernetType.IPv6) := by decide
  rw [if_neg h4, if_neg h6, if_pos hA]
  have hb14 : (b.advance 14)._position = 14 := by simp [BufferMixin.advance, hpos]
  rw [arp_parse_ok _ (b.advance 14) (by omega) (by
    rw [hb14]; simp only [BufferMixin.advance]; norm_num; omega)]
  simp only [hb14, BufferMixin.advance, BufferMixin.bytes_left, hpos]
  norm_num
  rw [if_pos (by omega)]
  have e : b._bytes_written
      - (14 + (8 + 2 * ((b._storage 18).val : Int) + 2 * ((b._storage 19).val : Int)))
      = b._bytes_written
        - (22 + 2 * ((b._storage 18).val : Int) + 2 * ((b._storage 19).val : Int)) := by omega
  rw [e]

/-- A frame with EtherType ARP that ends before the ARP header does fails with a
`BufferReadError`. -/
theorem read_packet_arp_short (packet : EthernetPacket) (b : BufferMixin)
    (hpos : b._position = 0) (hlen : 14 ≤ b._bytes_written)
    (h12 : (b._storage 12).val = 0x08) (h13 : (b._storage 13).val = 0x06)
    (hbw : b._bytes_written
      < 22 + 2 * ((b._storage 18).val : Int) + 2 * ((b._storage 19).val : Int)) :
    ∃ n, (read_packet packet b).result = Except.error (Error.BufferReadError n) := by
  have hA : (((8 * 256 + 6 : Nat) : Int) = EthernetType.ARP) := by decide
  have h4 : ¬ (((8 * 256 + 6 : Nat) : Int) = EthernetType.IPv4) := by decide
  have h6 : ¬ (((8 * 256 + 6 : Nat) : Int) = EthernetType.IPv6) := by decide
  have hb14 : (b.advance 14)._position = 14 := by simp [BufferMixin.advance, hpos]
  have hs : (b.advance 14)._storage = b._storage := rfl
  have hw : (b.advance 14)._bytes_written = b._bytes_written := rfl
  obtain ⟨n, hn⟩ := arp_parse_fail packet.arp_header (b.advance 14) (by omega)
    (by rw [hb14, hw]; omega) (by rw [hb14, hs, hw]; norm_num; omega)
  refine ⟨n, ?_⟩
  unfold read_packet
  rw [eth_parse_ok _ b (by omega) (by omega)]
  simp only [hpos, zero_add, h12, h13]
  rw [if_neg h4, if_neg h6, if_pos hA]
  simp only [hn]

/-- C29 (ARP frames must end exactly at the ARP header). For every frame of at least 14 bytes
handed to `read_packet` at cursor 0 whose EtherType is ARP (bytes 08 06 at offsets 12 and 13),
with `h` and `p` the bytes at offsets 18 and 19: `read_packet` returns if and only if the frame
is exactly `22 + 2h + 2p` bytes long; a longer frame is rejected with the `std::runtime_error`
"Remaining data on parser after ARP header, remaining: <count of the trailing bytes>"; a
shorter frame fails with a `BufferReadError`. -/
theorem arp_frame_exact_length (packet : EthernetPacket) (b : BufferMixin)
    (hpos : b._position = 0) (hlen : 14 ≤ b._bytes_written)
    (h12 : (b._storage 12).val = 0x08) (h13 : (b._storage 13).val = 0x06) :
    ((read_packet packet b).result = Except.ok () ↔
      b._bytes_written
        = 22 + 2 * ((b._storage 18).val : Int) + 2 * ((b._storage 19).val : Int)) ∧
    (b._bytes_written
        > 22 + 2 * ((b._storage 18).val : Int) + 2 * ((b._storage 19).val : Int) →
      (read_packet packet b).result = Except.error (Error.runtime_error
        ("Remaining data on parser after ARP header, remaining: " ++ toString
          (b._bytes_written
            - (22 + 2 * ((b._storage 18).val : Int) + 2 * ((b._storage 19).val : Int)))))) ∧
    (b._bytes_written
        < 22 + 2 * ((b._storage 18).val : Int) + 2 * ((b._storage 19).val : Int) →
      ∃ n, (read_packet packet b).result = Except.error (Error.BufferReadError n)) := by
  refine ⟨⟨fun hr => ?_, fun hbw => ?_⟩, read_packet_arp_trailing packet b hpos h12 h13,
    read_packet_arp_short packet b hpos hlen h12 h13⟩
  · rcases lt_trichotomy b._bytes_written
      (22 + 2 * ((b._storage 18).val : Int) + 2 * ((b._storage 19).val : Int)) with h | h | h
    · obtain ⟨n, hn⟩ := read_packet_arp_short packet b hpos hlen h12 h13 h
      rw [hn] at hr
      cases hr
    · exact h
    · rw [read_packet_arp_trailing packet b hpos h12 h13 h] at hr
      cases hr
  · rw [read_packet_arp packet b hpos h12 h13 hbw]

/-- Witness of C29: the 42-byte `sample_arp_request` (`h = 6`, `p = 4`) is accepted, and the
same frame padded to 60 bytes is rejected with 18 bytes remaining. -/
theorem arp_frame_exact_length_witness :
    (read_packet (EthernetPacket.new 0) (device_buffer sample_arp_request 1518)).result
      = Except.ok () ∧
    (read_packet (EthernetPacket.new 0) (device_buffer padded_arp_request 1518)).result
      = Except.error (Error.runtime_error
        "Remaining data on parser after ARP header, remaining: 18") :=
  ⟨(arp_frame_exact_length (EthernetPacket.new 0) (device_buffer sample_arp_request 1518) rfl
      (by decide) (by decide) (by decide)).1.2 (by decide),
   (arp_frame_exact_length (EthernetPacket.new 0) (device_buffer padded_arp_request 1518) rfl
      (by decide) (by decide) (by decide)).2.1 (by decide)⟩

/-- C30 (every failed device read is classified as "no data"). For every device read `r` and
every `mtu`: `from_file_descripto` throws `NoDataException` when the count is negative, whatever
`errno` is, and otherwise returns the buffer with `_bytes_written` the count (0 included),
`_bytes_allocated` the `mtu` and the cursor at 0; it never throws the `std::runtime_error` of
its last branch; and the loop of `run` goes on to the next device read after a negative
count. -/
theorem failed_read_is_no_data (r : DeviceRead) (mtu : Int) :
    (BufferMixin.from_file_descripto r mtu =
      if r.count < 0 then Except.error Error.NoDataException
      else Except.ok { _storage := memory_of r.stored, _bytes_allocated := mtu,
                       _bytes_written := r.count, _ownning_storage := true,
                       _position := 0 }) ∧
    (∀ what : String,
      BufferMixin.from_file_descripto r mtu ≠ Except.error (Error.runtime_error what)) ∧
    (∀ (itf : MayhemInterface) (w : World) (idx : Int) (reads : List DeviceRead),
      r.count < 0 → itf.run_from w idx (r :: reads) = itf.run_from w idx reads) := by
  have hE : ENOENT ≠ 0 := by decide
  have h1 : BufferMixin.from_file_descripto r mtu =
      if r.count < 0 then Except.error Error.NoDataException
      else Except.ok { _storage := memory_of r.stored, _bytes_allocated := mtu,
                       _bytes_written := r.count, _ownning_storage := true,
                       _position := 0 } := by
    unfold BufferMixin.from_file_descripto
    simp only
    by_cases hc : r.count < 0
    · rw [if_pos hc, if_pos hc, if_pos (Or.inr (Or.inr hE))]
    · rw [if_neg hc, if_neg hc]
  refine ⟨h1, fun what hw => ?_, fun itf w idx reads hc => ?_⟩
  · rw [h1] at hw
    by_cases hc : r.count < 0
    · rw [if_pos hc] at hw
      cases hw
    · rw [if_neg hc] at hw
      cases hw
  · have h2 : BufferMixin.from_file_descripto r ETHERNET_PACKET_MAX_SIZE
        = Except.error Error.NoDataException := by
      unfold BufferMixin.from_file_descripto
      simp only
      rw [if_pos hc, if_pos (Or.inr (Or.inr hE))]
    rw [MayhemInterface.run_from, h2]
    simp only [if_true]

/-- Witness of C30: a device read that returns -1 with `errno` 5 (`EIO`) raises
`NoDataException`, and the loop over this one read ends without an error and has written
nothing. -/
theorem failed_read_is_no_data_witness :
    BufferMixin.from_file_descripto ⟨-1, 5, []⟩ 1518 = Except.error Error.NoDataException ∧
    (sample_interface.run_from sample_world 0 [⟨-1, 5, []⟩]).1 = Except.ok () ∧
    (sample_interface.run_from sample_world 0 [⟨-1, 5, []⟩]).2.2.written = [] :=
  ⟨(failed_read_is_no_data ⟨-1, 5, []⟩ 1518).1.trans (if_pos (by decide)),
   by rw [(failed_read_is_no_data ⟨-1, 5, []⟩ 1518).2.2 sample_interface sample_world 0 []
     (by decide)]; rfl,
   by rw [(failed_read_is_no_data ⟨-1, 5, []⟩ 1518).2.2 sample_interface sample_world 0 []
     (by decide)]; rfl⟩

/-- The rebroadcast branch for a source MAC without an entry: the frame is written and the
entry is created with the clock reading taken. -/
theorem rebroadcast_first (itf : MayhemInterface) (w : World) (packet : EthernetPacket)
    (pb : BufferMixin) (m : String) (hp : packet.parser = some pb)
    (h0 : 0 ≤ pb._bytes_written) (hnone : itf.broadcast_timetable m = none) :
    rebroadcast itf w packet m = (Except.ok (), itf.record m (w.clock w.clock_reads),
      { w with clock_reads := w.clock_reads + 1, written := w.written ++ [frame_of pb] }) := by
  unfold rebroadcast
  rw [hnone]
  simp only [get_utc, write_packet_frame packet _ pb hp h0]

/-- The rebroadcast branch for a source MAC whose entry is more than the interval old: the
frame is written and the entry is overwritten with a second clock reading. -/
theorem rebroadcast_elapsed (itf : MayhemInterface) (w : World) (packet : EthernetPacket)
    (pb : BufferMixin) (m : String) (t : Int) (hp : packet.parser = some pb)
    (h0 : 0 ≤ pb._bytes_written) (hsome : itf.broadcast_timetable m = some t)
    (hgap : w.clock w.clock_reads - t > REBROADCAST_INTERVAL) :
    rebroadcast itf w packet m = (Except.ok (), itf.record m (w.clock (w.clock_reads + 1)),
      { w with clock_reads := w.clock_reads + 1 + 1,
               written := w.written ++ [frame_of pb] }) := by
  unfold rebroadcast
  rw [hsome]
  simp only [get_utc, if_pos hgap, write_packet_frame packet _ pb hp h0]

/-- The rebroadcast branch for a source MAC whose entry is at most the interval old: nothing
is written and the table is left alone. -/
theorem rebroadcast_recent (itf : MayhemInterface) (w : World) (packet : EthernetPacket)
    (m : String) (t : Int) (hsome : itf.broadcast_timetable m = some t)
    (hgap : w.clock w.clock_reads - t ≤ REBROADCAST_INTERVAL) :
    rebroadcast itf w packet m
      = (Except.ok (), itf, { w with clock_reads := w.clock_reads + 1 }) := by
  unfold rebroadcast
  rw [hsome]
  simp only [get_utc, if_neg (not_lt.mpr hgap)]

/-- The rebroadcast branch assigns at most the entry of the source MAC. -/
theorem rebroadcast_table (itf : MayhemInterface) (w : World) (packet : EthernetPacket)
    (m : String) :
    (rebroadcast itf w packet m).2.1 = itf ∨
    ∃ v, (rebroadcast itf w packet m).2.1 = itf.record m v := by
  unfold rebroadcast
  cases itf.broadcast_timetable m with
  | none => exact Or.inr ⟨_, rfl⟩
  | some t =>
    simp only
    by_cases hgap : (get_utc w).1 - t > REBROADCAST_INTERVAL
    · rw [if_pos hgap]
      exact Or.inr ⟨_, rfl⟩
    · rw [if_neg hgap]
      exact Or.inl rfl

/-- C27 (dedup table update rule). An ARP broadcast held in a packet whose buffer is `pb`, from
source MAC `m`, reaches the rebroadcast branch when the clock reads `now`. If `m` has no entry,
the frame is written to the device and `table[m]` becomes `now`; if `m` has an entry `t` with
`now - t > 1000`, the frame is written and `table[m]` becomes the reading of the clock taken
next; if `m` has an entry `t` with `now - t ≤ 1000` (a gap of exactly 1000 included) nothing is
written and the table is unchanged. In every case the entries of the other MACs are unchanged
and no entry disappears. -/
theorem dedup_update_rule (itf : MayhemInterface) (w : World) (packet : EthernetPacket)
    (pb : BufferMixin) (m : String) (hp : packet.parser = some pb)
    (h0 : 0 ≤ pb._bytes_written) :
    (itf.broadcast_timetable m = none →
      (rebroadcast itf w packet m).1 = Except.ok () ∧
      (rebroadcast itf w packet m).2.2.written = w.written ++ [frame_of pb] ∧
      (rebroadcast itf w packet m).2.1.broadcast_timetable m
        = some (w.clock w.clock_reads)) ∧
    (∀ t : Int, itf.broadcast_timetable m = some t → w.clock w.clock_reads - t > 1000 →
      (rebroadcast itf w packet m).1 = Except.ok () ∧
      (rebroadcast itf w packet m).2.2.written = w.written ++ [frame_of pb] ∧
      (rebroadcast itf w packet m).2.1.broadcast_timetable m
        = some (w.clock (w.clock_reads + 1))) ∧
    (∀ t : Int, itf.broadcast_timetable m = some t → w.clock w.clock_reads - t ≤ 1000 →
      (rebroadcast itf w packet m).1 = Except.ok () ∧
      (rebroadcast itf w packet m).2.2.written = w.written ∧
      (rebroadcast itf w packet m).2.1 = itf) ∧
    (∀ k : String, k ≠ m →
      (rebroadcast itf w packet m).2.1.broadcast_timetable k = itf.broadcast_timetable k) ∧
    (∀ k : String, itf.broadcast_timetable k ≠ none →
      (rebroadcast itf w packet m).2.1.broadcast_timetable k ≠ none) := by
  refine ⟨fun hnone => ?_, fun t hsome hgap => ?_, fun t hsome hgap => ?_, fun k hk => ?_,
    fun k hk => ?_⟩
  · rw [rebroadcast_first itf w packet pb m hp h0 hnone]
    refine ⟨rfl, rfl, ?_⟩
    simp only [MayhemInterface.record, if_true]
  · rw [rebroadcast_elapsed itf w packet pb m t hp h0 hsome hgap]
    refine ⟨rfl, rfl, ?_⟩
    simp only [MayhemInterface.record, if_true]
  · rw [rebroadcast_recent itf w packet m t hsome hgap]
    exact ⟨rfl, rfl, rfl⟩
  · rcases rebroadcast_table itf w packet m with h | ⟨v, h⟩
    · rw [h]
    · rw [h]
      simp only [MayhemInterface.record, if_neg hk]
  · rcases rebroadcast_table itf w packet m with h | ⟨v, h⟩
    · rw [h]
      exact hk
    · rw [h]
      simp only [MayhemInterface.record]
      by_cases hkm : k = m
      · rw [if_pos hkm]
        exact Option.some_ne_none v
      · rw [if_neg hkm]
        exact hk

/-- Witness of C27: `sample_arp_request` from 02:00:00:00:00:01, whose entry reads 4000, is
considered when the clock reads 5000, a gap of exactly 1000: nothing is written and the entry
still reads 4000. -/
theorem dedup_update_rule_witness :
    (rebroadcast (sample_interface.record "02:00:00:00:00:01" 4000) sample_world
      { EthernetPacket.new 0 with parser := some (device_buffer sample_arp_request 1518) }
      "02:00:00:00:00:01").2.2.written = [] ∧
    (rebroadcast (sample_interface.record "02:00:00:00:00:01" 4000) sample_world
      { EthernetPacket.new 0 with parser := some (device_buffer sample_arp_request 1518) }
      "02:00:00:00:00:01").2.1.broadcast_timetable "02:00:00:00:00:01" = some 4000 :=
  have h := (dedup_update_rule (sample_interface.record "02:00:00:00:00:01" 4000) sample_world
    { EthernetPacket.new 0 with parser := some (device_buffer sample_arp_request 1518) }
    (device_buffer sample_arp_request 1518) "02:00:00:00:00:01" rfl (by decide)).2.2.1 4000
    (by decide) (by decide)
  ⟨h.2.1, by rw [h.2.2]; decide⟩

/-! ## The in-place ARP mutators -/

/-- `set_src_ip` on a buffer whose valid data reaches past the field: the `protocol_addr_len`
bytes are copied to offset 28; cursor, valid length and capacity are as before. -/
theorem set_src_ip_valid (h : ARPHeader) (ip : Pointer) (b : BufferMixin)
    (hp0 : 0 ≤ h.protocol_addr_len) (hpos : b._position ≤ b._bytes_written)
    (hbw : 28 + h.protocol_addr_len ≤ b._bytes_written)
    (hcap : b._bytes_written ≤ b._bytes_allocated) :
    h.set_src_ip ip b = ⟨Except.ok (),
      { b with _storage := memcpy b._storage 28 ip h.protocol_addr_len }⟩ := by
  unfold ARPHeader.set_src_ip
  simp (disch := first | omega | decide |
      (simp only [MAC_ADDR_LEN, networkinterface.wbytes, BufferMixin.written]; norm_num;
        try omega)) only
    [Outcome.bind_ok, seek_ok, wbytes_ok]
  simp only [MAC_ADDR_LEN, networkinterface.wbytes, BufferMixin.written]
  norm_num
  omega

/-- `set_dest_ip` on a buffer whose valid data reaches past the field: the
`protocol_addr_len` bytes are copied to offset `34 + protocol_addr_len`; cursor, valid length
and capacity are as before. -/
theorem set_dest_ip_valid (h : ARPHeader) (ip : Pointer) (b : BufferMixin)
    (hp0 : 0 ≤ h.protocol_addr_len) (hpos : b._position ≤ b._bytes_written)
    (hbw : 34 + 2 * h.protocol_addr_len ≤ b._bytes_written)
    (hcap : b._bytes_written ≤ b._bytes_allocated) :
    h.set_dest_ip ip b = ⟨Except.ok (),
      { b with _storage :=
          memcpy b._storage (34 + h.protocol_addr_len) ip h.protocol_addr_len }⟩ := by
  unfold ARPHeader.set_dest_ip
  simp (disch := first | omega | decide |
      (simp only [MAC_ADDR_LEN, networkinterface.wbytes, BufferMixin.written]; norm_num;
        try omega)) only
    [Outcome.bind_ok, seek_ok, wbytes_ok]
  simp only [MAC_ADDR_LEN, networkinterface.wbytes, BufferMixin.written]
  norm_num
  omega

/-- `set_operation` with any value on a buffer of at least 22 valid bytes: the two bytes at
offset 20 become the big-endian encoding of the value as a `uint16_t`; cursor, valid length and
capacity are as before. -/
theorem set_operation_any (h : ARPHeader) (value : Int) (b : BufferMixin)
    (hpos : b._position ≤ b._bytes_written) (hbw : 22 ≤ b._bytes_written)
    (hcap : b._bytes_written ≤ b._bytes_allocated) :
    h.set_operation value b = ⟨Except.ok (),
      { h with operation := to_uint16 value },
      { b with _storage := poke (poke b._storage 20
          (to_uint8 ((to_uint16 value).shiftRight 8))) 21 (to_uint8 (to_uint16 value)) }⟩ := by
  unfold ARPHeader.set_operation
  simp (disch := first | omega | decide |
      (simp only [networkinterface.wu16, BufferMixin.written]; norm_num; try omega)) only
    [Outcome.bind_ok, seek_ok, wu16_ok]
  simp only [networkinterface.wu16, BufferMixin.written]
  norm_num
  omega

/-- A byte outside the destination of a `memcpy` is as before. -/
theorem memcpy_outside (dst : Int → Byte) (d : Int) (src : Pointer) (n i : Int)
    (h : i < d ∨ d + n ≤ i) : memcpy dst d src n i = dst i := by
  unfold memcpy
  rw [if_neg (by omega)]

/-- A byte inside the destination of a `memcpy` is the source byte at the same distance. -/
theorem memcpy_inside (dst : Int → Byte) (d : Int) (src : Pointer) (n i : Int)
    (h : d ≤ i ∧ i < d + n) : memcpy dst d src n i = src.mem (src.off + (i - d)) := by
  unfold memcpy
  rw [if_pos h]

/-- C26 (the in-place ARP mutators are framed). The buffer `b` holds a fully parsed ARP frame
with hardware address length 6 and protocol address length `p`: cursor and valid length are both
`22 + 2*6 + 2p`, within the capacity. Each of `set_operation`, `set_src_mac`, `set_dest_mac`,
`set_src_ip` and `set_dest_ip` returns with cursor, valid length and capacity as before and
leaves every byte outside the fields it writes as it was: `set_operation(v)` writes bytes 20
and 21, the big-endian encoding of `v` as a `uint16_t`; `set_src_mac` writes `[6, 12)` and
`[28+p, 34+p)`; `set_dest_mac` writes `[0, 6)` and `[22, 28)`; `set_src_ip` writes
`[28, 28+p)`; `set_dest_ip` writes `[34+p, 34+2p)`; the bytes written are those of the
argument. -/
theorem arp_mutators_framed (h : ARPHeader) (b : BufferMixin) (data : Pointer) (v : Int)
    (hh : h.hardware_addr_len = 6) (hp0 : 0 ≤ h.protocol_addr_len)
    (hpos : b._position = b._bytes_written)
    (hbw : b._bytes_written = 22 + 2 * h.hardware_addr_len + 2 * h.protocol_addr_len)
    (hcap : b._bytes_written ≤ b._bytes_allocated) :
    ((h.set_operation v b).result = Except.ok () ∧
      (h.set_operation v b).buf._position = b._position ∧
      (h.set_operation v b).buf._bytes_written = b._bytes_written ∧
      (h.set_operation v b).buf._bytes_allocated = b._bytes_allocated ∧
      (∀ i : Int, i ≠ 20 → i ≠ 21 → (h.set_operation v b).buf._storage i = b._storage i) ∧
      (((h.set_operation v b).buf._storage 20).val : Int) = to_uint16 v / 256 ∧
      (((h.set_operation v b).buf._storage 21).val : Int) = to_uint16 v % 256) ∧
    ((h.set_src_mac data b).result = Except.ok () ∧
      (h.set_src_mac data b).buf._position = b._position ∧
      (h.set_src_mac data b).buf._bytes_written = b._bytes_written ∧
      (h.set_src_mac data b).buf._bytes_allocated = b._bytes_allocated ∧
      (∀ i : Int, ¬ (6 ≤ i ∧ i < 12) →
        ¬ (28 + h.protocol_addr_len ≤ i ∧ i < 34 + h.protocol_addr_len) →
        (h.set_src_mac data b).buf._storage i = b._storage i) ∧
      (∀ k : Int, 0 ≤ k → k < 6 →
        (h.set_src_mac data b).buf._storage (28 + h.protocol_addr_len + k)
          = data.mem (data.off + k))) ∧
    ((h.set_dest_mac data b).result = Except.ok () ∧
      (h.set_dest_mac data b).buf._position = b._position ∧
      (h.set_dest_mac data b).buf._bytes_written = b._bytes_written ∧
      (h.set_dest_mac data b).buf._bytes_allocated = b._bytes_allocated ∧
      (∀ i : Int, ¬ (0 ≤ i ∧ i < 6) → ¬ (22 ≤ i ∧ i < 28) →
        (h.set_dest_mac data b).buf._storage i = b._storage i) ∧
      (∀ k : Int, 0 ≤ k → k < 6 →
        (h.set_dest_mac data b).buf._storage (22 + k) = data.mem (data.off + k))) ∧
    ((h.set_src_ip data b).result = Except.ok () ∧
      (h.set_src_ip data b).buf._position = b._position ∧
      (h.set_src_ip data b).buf._bytes_written = b._bytes_written ∧
      (h.set_src_ip data b).buf._bytes_allocated = b._bytes_allocated ∧
      (∀ i : Int, ¬ (28 ≤ i ∧ i < 28 + h.protocol_addr_len) →
        (h.set_src_ip data b).buf._storage i = b._storage i) ∧
      (∀ k : Int, 0 ≤ k → k < h.protocol_addr_len →
        (h.set_src_ip data b).buf._storage (28 + k) = data.mem (data.off + k))) ∧
    ((h.set_dest_ip data b).result = Except.ok () ∧
      (h.set_dest_ip data b).buf._position = b._position ∧
      (h.set_dest_ip data b).buf._bytes_written = b._bytes_written ∧
      (h.set_dest_ip data b).buf._bytes_allocated = b._bytes_allocated ∧
      (∀ i : Int, ¬ (34 + h.protocol_addr_len ≤ i ∧ i < 34 + 2 * h.protocol_addr_len) →
        (h.set_dest_ip data b).buf._storage i = b._storage i) ∧
      (∀ k : Int, 0 ≤ k → k < h.protocol_addr_len →
        (h.set_dest_ip data b).buf._storage (34 + h.protocol_addr_len + k)
          = data.mem (data.off + k))) := by
  rw [hh] at hbw
  have hu0 : 0 ≤ to_uint16 v := Int.emod_nonneg _ (by decide)
  have hu1 : to_uint16 v < 65536 := Int.emod_lt_of_pos _ (by decide)
  refine ⟨?_, ?_, ?_, ?_, ?_⟩
  · rw [set_operation_any h v b (by omega) (by omega) hcap]
    refine ⟨rfl, rfl, rfl, rfl, fun i h20 h21 => ?_, ?_, ?_⟩
    · dsimp only
      rw [poke_ne _ _ _ _ h21, poke_ne _ _ _ _ h20]
    · dsimp only
      rw [poke_ne _ _ _ _ (by decide), poke_eq, to_uint8_cast, sr8]
      omega
    · dsimp only
      rw [poke_eq, to_uint8_cast]
  · rw [set_src_mac_valid h data b hp0 (by omega) (by omega) hcap]
    refine ⟨rfl, rfl, rfl, rfl, fun i h1 h2 => ?_, fun k hk0 hk6 => ?_⟩
    · dsimp only
      rw [memcpy_outside _ _ _ _ _ (by omega), memcpy_outside _ _ _ _ _ (by omega)]
    · dsimp only
      rw [memcpy_inside _ _ _ _ _ (by omega)]
      congr 2
      omega
  · rw [set_dest_mac_valid h data b (by omega) (by omega) hcap]
    refine ⟨rfl, rfl, rfl, rfl, fun i h1 h2 => ?_, fun k hk0 hk6 => ?_⟩
    · dsimp only
      rw [memcpy_outside _ _ _ _ _ (by omega), memcpy_outside _ _ _ _ _ (by omega)]
    · dsimp only
      rw [memcpy_inside _ _ _ _ _ (by omega)]
      congr 2
      omega
  · rw [set_src_ip_valid h data b hp0 (by omega) (by omega) hcap]
    refine ⟨rfl, rfl, rfl, rfl, fun i h1 => ?_, fun k hk0 hk6 => ?_⟩
    · dsimp only
      rw [memcpy_outside _ _ _ _ _ (by omega)]
    · dsimp only
      rw [memcpy_inside _ _ _ _ _ (by omega)]
      congr 2
      omega
  · rw [set_dest_ip_valid h data b hp0 (by omega) (by omega) hcap]
    refine ⟨rfl, rfl, rfl, rfl, fun i h1 => ?_, fun k hk0 hk6 => ?_⟩
    · dsimp only
      rw [memcpy_outside _ _ _ _ _ (by omega)]
    · dsimp only
      rw [memcpy_inside _ _ _ _ _ (by omega)]
      congr 2
      omega

/-- Witness of C26: on the buffer of the fully parsed `sample_arp_request` (42 bytes, `p = 4`)
`set_operation(2)` returns, leaves the cursor at 42 and stores 00 02 at offsets 20 and 21, and
`set_dest_ip` returns and leaves the cursor at 42. -/
theorem arp_mutators_framed_witness :
    ((⟨1, 0x0800, 6, 4, 1, 22, 28, 32, 38⟩ : ARPHeader).set_operation 2
      { device_buffer sample_arp_request 1518 with _position := 42 }).result = Except.ok () ∧
    ((⟨1, 0x0800, 6, 4, 1, 22, 28, 32, 38⟩ : ARPHeader).set_operation 2
      { device_buffer sample_arp_request 1518 with _position := 42 }).buf._position = 42 ∧
    ((((⟨1, 0x0800, 6, 4, 1, 22, 28, 32, 38⟩ : ARPHeader).set_operation 2
      { device_buffer sample_arp_request 1518 with _position := 42 }).buf._storage 21).val
        : Int) = 2 ∧
    ((⟨1, 0x0800, 6, 4, 1, 22, 28, 32, 38⟩ : ARPHeader).set_dest_ip
      (Pointer.of_bytes [10, 0, 0, 1])
      { device_buffer sample_arp_request 1518 with _position := 42 }).result = Except.ok () ∧
    ((⟨1, 0x0800, 6, 4, 1, 22, 28, 32, 38⟩ : ARPHeader).set_dest_ip
      (Pointer.of_bytes [10, 0, 0, 1])
      { device_buffer sample_arp_request 1518 with _position := 42 }).buf._position = 42 :=
  have h := arp_mutators_framed ⟨1, 0x0800, 6, 4, 1, 22, 28, 32, 38⟩
    { device_buffer sample_arp_request 1518 with _position := 42 }
    (Pointer.of_bytes [10, 0, 0, 1]) 2 rfl (by decide) rfl (by decide) (by decide)
  ⟨h.1.1, h.1.2.1, h.1.2.2.2.2.2.2, h.2.2.2.2.1, h.2.2.2.2.2.1⟩

/-! ## The EtherType and the hex dump -/

/-- The text `ethernet_type_to_str` gives for a value that is none of the enumerators: the
`return` after the `switch`. -/
theorem ethernet_type_to_str_unlisted (h : EthernetHeader)
    (hn : h.ethertype ∉ EthernetType.enumerators) :
    h.ethernet_type_to_str = "Unknown: " ++ toString h.ethertype := by
  simp only [EthernetType.enumerators, List.mem_cons, List.mem_singleton, not_or,
    List.not_mem_nil, not_false_eq_true, and_true] at hn
  obtain ⟨h1, h2, h3, h4, h5, h6, h7, h8, h9, h10, h11, h12, h13, h14, h15, h16⟩ := hn
  unfold EthernetHeader.ethernet_type_to_str
  rw [if_neg h1, if_neg h2, if_neg h3, if_neg h4, if_neg h5, if_neg h6, if_neg h7, if_neg h8]
  rw [if_neg h9, if_neg h10, if_neg h11, if_neg h12, if_neg h13, if_neg h14, if_neg h15]
  rw [if_neg h16]

/-- C21, amended (the EtherType is kept as read). For every frame of at least 14 bytes at the
cursor, `EthernetHeader::parse` returns, with `dest_mac` pointing at the cursor, `src_mac` six
bytes further, `ethertype` the big-endian 16-bit value of the bytes at offsets 12 and 13 from
the cursor, and the cursor moved by 14. A value that is none of the enumerators of
`EthernetType` is kept as it is: the parsed `ethertype` is then not `Unknown` (0x0000), and
`ethernet_type_to_str` renders it as "Unknown: " followed by the value in decimal. -/
theorem ethertype_kept_as_read (h : EthernetHeader) (b : BufferMixin) (h0 : 0 ≤ b._position)
    (h14 : b._position + 14 ≤ b._bytes_written) :
    (h.parse b).result = Except.ok () ∧
    (h.parse b).hdr.dest_mac = b._position ∧
    (h.parse b).hdr.src_mac = b._position + 6 ∧
    (h.parse b).hdr.ethertype = ((be_value b._storage (b._position + 12) 2 : Nat) : Int) ∧
    (h.parse b).buf = b.advance 14 ∧
    (((be_value b._storage (b._position + 12) 2 : Nat) : Int) ∉ EthernetType.enumerators →
      (h.parse b).hdr.ethertype ≠ EthernetType.Unknown ∧
      (h.parse b).hdr.ethernet_type_to_str = "Unknown: "
        ++ toString ((be_value b._storage (b._position + 12) 2 : Nat) : Int)) := by
  have hbe : be_value b._storage (b._position + 12) 2
      = (b._storage (b._position + 12)).val * 256 + (b._storage (b._position + 13)).val := by
    simp only [be_value, zero_mul, zero_add, Nat.cast_zero, add_zero, Nat.cast_one]
    rw [show b._position + 12 + 1 = b._position + 13 by omega]
  rw [hbe, eth_parse_ok h b h0 h14]
  refine ⟨rfl, rfl, rfl, rfl, rfl, fun hn => ⟨fun hU => hn ?_, ?_⟩⟩
  · dsimp only at hU
    rw [hU]
    decide
  · exact ethernet_type_to_str_unlisted _ hn

/-- Witness of C21, amended: the 16-byte `unlisted_frame` parses to EtherType 0x1234, rendered
as "Unknown: 4660". -/
theorem ethertype_kept_as_read_witness :
    ((⟨0, 0, 0⟩ : EthernetHeader).parse (device_buffer unlisted_frame 1518)).result
      = Except.ok () ∧
    ((⟨0, 0, 0⟩ : EthernetHeader).parse (device_buffer unlisted_frame 1518)).hdr.ethertype
      = 0x1234 ∧
    ((⟨0, 0, 0⟩ : EthernetHeader).parse
      (device_buffer unlisted_frame 1518)).hdr.ethernet_type_to_str = "Unknown: 4660" :=
  have h := ethertype_kept_as_read ⟨0, 0, 0⟩ (device_buffer unlisted_frame 1518) (by decide)
    (by decide)
  ⟨h.1, h.2.2.2.1, (h.2.2.2.2.2 (by decide)).2⟩

/-- Counterexample to C21: the EtherType 0x1234 of `unlisted_frame` is none of the
enumerators, and the `ethertype` parsed from the frame is 0x1234, not `Unknown`. -/
theorem unlisted_ethertype_not_unknown :
    (0x1234 : Int) ∉ EthernetType.enumerators ∧
    ((⟨0, 0, 0⟩ : EthernetHeader).parse (device_buffer unlisted_frame 1518)).hdr.ethertype
      = 0x1234 ∧
    ((⟨0, 0, 0⟩ : EthernetHeader).parse (device_buffer unlisted_frame 1518)).hdr.ethertype
      ≠ EthernetType.Unknown := by
  decide

/-- The capital hex digit of a value below 16 is the character of "0123456789ABCDEF" at that
index. -/
theorem hex_digit_upper (n : Nat) (h : n < 16) :
    hex_digit true n = "0123456789ABCDEF".data.getD n '0' := by
  revert n
  decide

/-- `string_to_hex` yields two characters per byte. -/
theorem string_to_hex_length (l : List Nat) : (string_to_hex l).length = 2 * l.length := by
  unfold string_to_hex
  show (List.flatMap l _).length = _
  induction l with
  | nil => rfl
  | cons c cs ih =>
    rw [List.flatMap_cons, List.length_append, ih, List.length_cons]
    simp only [List.length_cons, List.length_nil]
    omega

/-- The characters `string_to_hex` yields for the byte at index `k`: the digit of the high
nibble, then the digit of the low nibble. -/
theorem string_to_hex_digits (l : List Nat) (k : Nat) (hk : k < l.length) :
    (string_to_hex l).data.getD (2 * k) '0' = hex_digit true (l.getD k 0 / 16) ∧
    (string_to_hex l).data.getD (2 * k + 1) '0' = hex_digit true (l.getD k 0 % 16) := by
  unfold string_to_hex
  show (List.flatMap l _).getD _ _ = _ ∧ (List.flatMap l _).getD _ _ = _
  induction l generalizing k with
  | nil => simp at hk
  | cons c cs ih =>
    rw [List.flatMap_cons]
    cases k with
    | zero => exact ⟨rfl, rfl⟩
    | succ j =>
      have hj : j < cs.length := by
        simp only [List.length_cons] at hk
        omega
      have e1 : 2 * (j + 1) = 2 * j + 2 := by omega
      have e2 : 2 * j + 2 + 1 = 2 * j + 1 + 2 := by omega
      rw [e1, e2]
      exact ih j hj

/-- `hex` with a start offset inside the valid data and a negative length throws
`std::length_error`. -/
theorem hex_negative_len (b : BufferMixin) (pos len : Int) (h0 : 0 ≤ pos)
    (h1 : pos ≤ b._bytes_written) (h2 : len < 0) :
    b.hex pos len = ⟨Except.error (Error.length_error "basic_string::_M_create"), b⟩ := by
  unfold BufferMixin.hex BufferMixin.len
  rw [if_neg (by omega), if_pos h2]

/-- C28 (evicting the read bytes preserves the unread data). For every `MemoryBuffer` with
`0 ≤ position ≤ bytes_written` and either value of `forced`, `eliminate_parsed_data(forced)`
leaves `bytes_left()` as it was, leaves the bytes of the unread region, read from the new
cursor, as they were, leaves `bytes_allocated` and `_CHUNK_SIZE_` as they were, and keeps
`0 ≤ position ≤ bytes_written`. When
`position == bytes_written`, or `forced`, or `position > 8 * bytes_left()`, the cursor becomes 0
and `bytes_written` becomes the former `bytes_left()`; otherwise the buffer is unchanged. -/
theorem eliminate_preserves_unread (m : MemoryBuffer) (forced : Bool)
    (h0 : 0 ≤ m._position) (h1 : m._position ≤ m._bytes_written) :
    (m.eliminate_parsed_data forced).toBufferMixin.bytes_left = m.toBufferMixin.bytes_left ∧
    (∀ k : Int, 0 ≤ k → k < m.toBufferMixin.bytes_left →
      (m.eliminate_parsed_data forced)._storage ((m.eliminate_parsed_data forced)._position + k)
        = m._storage (m._position + k)) ∧
    (m.eliminate_parsed_data forced)._bytes_allocated = m._bytes_allocated ∧
    (m.eliminate_parsed_data forced)._CHUNK_SIZE_ = m._CHUNK_SIZE_ ∧
    (0 ≤ (m.eliminate_parsed_data forced)._position ∧
      (m.eliminate_parsed_data forced)._position
        ≤ (m.eliminate_parsed_data forced)._bytes_written) ∧
    (m._position = m._bytes_written ∨ forced = true
        ∨ m._position > 8 * m.toBufferMixin.bytes_left →
      (m.eliminate_parsed_data forced)._position = 0 ∧
      (m.eliminate_parsed_data forced)._bytes_written = m._bytes_written - m._position) ∧
    (¬ (m._position = m._bytes_written ∨ forced = true
        ∨ m._position > 8 * m.toBufferMixin.bytes_left) →
      m.eliminate_parsed_data forced = m) := by
  unfold MemoryBuffer.eliminate_parsed_data
  by_cases he : m._position = m._bytes_written
  · rw [if_pos he]
    simp only [BufferMixin.clear, BufferMixin.bytes_left]
    refine ⟨by omega, fun k hk0 hk => by omega, trivial, trivial, ⟨le_refl _, le_refl _⟩,
      fun _ => ⟨trivial, by omega⟩,
      fun hn => absurd (Or.inl he) hn⟩
  · rw [if_neg he]
    by_cases hc : forced = true ∨ m._position > 8 * m.toBufferMixin.bytes_left
    · rw [if_pos hc]
      simp only [BufferMixin.bytes_left]
      refine ⟨by omega, fun k hk0 hk => ?_, trivial, trivial, ⟨le_refl _, by omega⟩,
        fun _ => ⟨trivial, trivial⟩,
        fun hn => absurd (Or.inr hc) hn⟩
      unfold memmove
      rw [if_pos (by omega)]
      simp only [zero_add, sub_zero]
    · rw [if_neg hc]
      refine ⟨rfl, fun k _ _ => rfl, rfl, rfl, ⟨h0, h1⟩, fun h => ?_, fun _ => rfl⟩
      rcases h with h | h
      · exact absurd h he
      · exact absurd h hc

/-- Witness of C28: on `three_read_of_4` (bytes 01 02 03 04, cursor 3) the forced call moves
the unread byte 04 to the start, with cursor 0 and one valid byte, and the call that is not
forced changes nothing, as 3 is not more than 8 times the one byte left. -/
theorem eliminate_preserves_unread_witness :
    (three_read_of_4.eliminate_parsed_data true)._position = 0 ∧
    (three_read_of_4.eliminate_parsed_data true)._bytes_written = 1 ∧
    (three_read_of_4.eliminate_parsed_data true)._storage 0 = 4 ∧
    three_read_of_4.eliminate_parsed_data false = three_read_of_4 :=
  have h := eliminate_preserves_unread three_read_of_4 true (by decide) (by decide)
  ⟨(h.2.2.2.2.2.1 (Or.inr (Or.inl rfl))).1, (h.2.2.2.2.2.1 (Or.inr (Or.inl rfl))).2,
    by decide,
    (eliminate_preserves_unread three_read_of_4 false (by decide) (by decide)).2.2.2.2.2.2
      (by decide)⟩

/-- `reserve_capacity_from_position` does nothing when the capacity reaches the amount past the
cursor. -/
theorem reserve_enough (m : MemoryBuffer) (n : Int) (block : Option (Int → Byte))
    (h : n + m._position ≤ m._bytes_allocated) :
    m.reserve_capacity_from_position n block = ⟨Except.ok (), m⟩ := by
  unfold MemoryBuffer.reserve_capacity_from_position
  rw [if_neg (by omega)]

/-- `reserve_capacity_from_position` when the capacity falls short and `realloc` hands out a
block: the capacity becomes the amount past the cursor plus `_CHUNK_SIZE_`, the bytes of the
old block are at the start of the new one. -/
theorem reserve_grows (m : MemoryBuffer) (n : Int) (fresh : Int → Byte)
    (h : m._bytes_allocated < n + m._position) :
    m.reserve_capacity_from_position n (some fresh) = ⟨Except.ok (),
      { m with
        _storage := memcpy fresh 0 ⟨m._storage, 0⟩
          (min m._bytes_allocated (n + m._position + m._CHUNK_SIZE_ * 1)),
        _bytes_allocated := n + m._position + m._CHUNK_SIZE_ * 1 }⟩ := by
  unfold MemoryBuffer.reserve_capacity_from_position
  rw [if_pos h]
  rfl

/-- A write of `MemoryBuffer` once the reservation has returned with room for it: the rest is
the write of the fixed-capacity buffer. -/
theorem grow_after_reserve (w : FixedWrite) (m m1 : MemoryBuffer)
    (block : Option (Int → Byte))
    (hr : m.reserve_capacity_from_position w.size block = ⟨Except.ok (), m1⟩)
    (hfit : ¬ m1._position + w.size > m1._bytes_allocated) :
    w.grow m block = m1.inherited w.call := by
  cases w <;> simp only [FixedWrite.size] at hr hfit <;>
    simp only [FixedWrite.grow, FixedWrite.call, MemoryBuffer.wu8, MemoryBuffer.wu16,
      MemoryBuffer.wu16le, MemoryBuffer.wu24, MemoryBuffer.wu32, MemoryBuffer.wu32le,
      MemoryBuffer.wu40, MemoryBuffer.wu48, MemoryBuffer.wu56, MemoryBuffer.wu64,
      MemoryBuffer.wbytes, MemoryBuffer.wstring, hr, Grown.bind, MemoryBuffer.store,
      MemoryBuffer.inherited, BufferMixin.wu8, BufferMixin.wu16, BufferMixin.wu16le,
      BufferMixin.wu24, BufferMixin.wu32, BufferMixin.wu32le, BufferMixin.wu40,
      BufferMixin.wu48, BufferMixin.wu56, BufferMixin.wu64, BufferMixin.wbytes,
      BufferMixin.wstring] <;>
    rw [if_neg hfit]

/-- The write `wuN` of `MemoryBuffer` when the capacity reaches `N` bytes past the cursor is
the write of the fixed-capacity buffer: nothing is reallocated. -/
theorem grow_enough (w : FixedWrite) (m : MemoryBuffer) (block : Option (Int → Byte))
    (h : m._position + w.size ≤ m._bytes_allocated) :
    w.grow m block = m.inherited w.call :=
  grow_after_reserve w m m block (reserve_enough m w.size block (by omega)) (by omega)

/-- Sequencing of an inherited call after an inherited call is the inherited sequence. -/
theorem inherited_bind (m : MemoryBuffer) (f : BufferMixin → Outcome Unit)
    (g : BufferMixin → Outcome Unit) :
    (m.inherited f).bind (fun _ m1 => m1.inherited g)
      = m.inherited fun b => (f b).bind fun _ b1 => g b1 := by
  unfold Grown.bind Outcome.bind MemoryBuffer.inherited
  dsimp only
  cases (f m.toBufferMixin).result <;> rfl

/-- On a `MemoryBuffer` whose capacity reaches 8 bytes past the cursor the free function
`wmkvuint` does what it does on the fixed-capacity buffer. -/
theorem wmkvuint_virtual_eq (m : MemoryBuffer) (number : Int) (block : Option (Int → Byte))
    (h : m._position + 8 ≤ m._bytes_allocated) :
    wmkvuint_virtual m number block
      = m.inherited fun b => networkinterface.wmkvuint b number := by
  have e8 := grow_enough (FixedWrite.wu8 (to_int32 number)) m block
    (by simp only [FixedWrite.size]; omega)
  have e16 := grow_enough (FixedWrite.wu16 (to_int32 number)) m block
    (by simp only [FixedWrite.size]; omega)
  have e24 := grow_enough (FixedWrite.wu24 (to_int32 number)) m block
    (by simp only [FixedWrite.size]; omega)
  have e32 := grow_enough (FixedWrite.wu32 (to_int32 number)) m block
    (by simp only [FixedWrite.size]; omega)
  have e40 := grow_enough (FixedWrite.wu40 number) m block
    (by simp only [FixedWrite.size]; omega)
  have e48 := grow_enough (FixedWrite.wu48 number) m block
    (by simp only [FixedWrite.size]; omega)
  have e56 := grow_enough (FixedWrite.wu56 number) m block
    (by simp only [FixedWrite.size]; omega)
  have e64 := grow_enough (FixedWrite.wu64 number) m block
    (by simp only [FixedWrite.size]; omega)
  simp only [FixedWrite.grow, FixedWrite.call] at e8 e16 e24 e32 e40 e48 e56 e64
  unfold wmkvuint_virtual networkinterface.wmkvuint
  simp only [e8, e16, e24, e32, e40, e48, e56, e64, inherited_bind]
  split_ifs <;> rfl

/-- C22 (the varint write on the growable buffer does not grow it). For every `MemoryBuffer`,
every number and whatever `realloc` would hand out, `wmkvuint` does exactly what it does on the
fixed-capacity buffer with the same fields: when `position + 8 > bytes_allocated` it throws
`BufferWriteError(8 - bytes_allocated + position)` and leaves the buffer, capacity included, as
it was. On the default-constructed buffer `wmkvuint(5)` throws `BufferWriteError(8)`, while
`wu8(5)` on the same buffer reallocates to 8193 bytes and returns. -/
theorem memory_buffer_varint_does_not_grow (m : MemoryBuffer) (number : Int)
    (block : Option (Int → Byte)) :
    m.wmkvuint number block = m.inherited (fun b => b.wmkvuint number) ∧
    (m._position + 8 > m._bytes_allocated →
      (m.wmkvuint number block).result
        = Except.error (Error.BufferWriteError (8 - m._bytes_allocated + m._position)) ∧
      (m.wmkvuint number block).mem = m) ∧
    (MemoryBuffer.new.wmkvuint 5 block).result = Except.error (Error.BufferWriteError 8) ∧
    (MemoryBuffer.new.wu8 5 (some fun _ => 0)).result = Except.ok () ∧
    (MemoryBuffer.new.wu8 5 (some fun _ => 0)).mem._bytes_allocated = 8193 := by
  refine ⟨?_, fun h => ?_, ?_, ?_, ?_⟩
  · unfold MemoryBuffer.wmkvuint BufferMixin.wmkvuint
    by_cases h : m._position + 8 > m._bytes_allocated
    · rw [if_pos h]
      simp only [MemoryBuffer.inherited, if_pos h, throw_with_trace]
    · rw [if_neg h, wmkvuint_virtual_eq m number block (by omega)]
      simp only [MemoryBuffer.inherited, if_neg h]
  · unfold MemoryBuffer.wmkvuint
    rw [if_pos h]
    exact ⟨rfl, rfl⟩
  · unfold MemoryBuffer.wmkvuint
    rw [if_pos (by decide)]
    rfl
  · rfl
  · rfl

/-- Witness of C22: a `MemoryBuffer` of 4 allocated bytes, none written, refuses `wmkvuint(5)`
with `BufferWriteError(4)` and keeps its 4 bytes of capacity. -/
theorem memory_buffer_varint_does_not_grow_witness :
    (({ MemoryBuffer.new with _bytes_allocated := 4 } : MemoryBuffer).wmkvuint 5
      (some fun _ => 0)).result = Except.error (Error.BufferWriteError 4) ∧
    (({ MemoryBuffer.new with _bytes_allocated := 4 } : MemoryBuffer).wmkvuint 5
      (some fun _ => 0)).mem._bytes_allocated = 4 :=
  have h := (memory_buffer_varint_does_not_grow { MemoryBuffer.new with _bytes_allocated := 4 }
    5 (some fun _ => 0)).2.1 (by decide)
  ⟨h.1, by rw [h.2]⟩

/-! ## Hex lines -/

/-- `hexCharToByte` on one of the 22 hex digits returns its value, which is the one
`hex_value` gives and is below 16. -/
theorem hexCharToByte_digit (c : Char) (pos : Int)
    (h : c ∈ "0123456789abcdefABCDEF".data) :
    ∃ d : Byte, hexCharToByte c pos = Except.ok d ∧ hex_value c = some d.val ∧ d.val < 16 := by
  simp only [List.mem_cons, List.mem_singleton, List.not_mem_nil, or_false] at h
  rcases h with h | h | h | h | h | h | h | h | h | h | h | h | h | h | h | h | h | h | h | h
    | h | h <;> subst h <;> exact ⟨_, rfl, by decide, by decide⟩

/-- `hexCharToByte` on any other character throws `std::invalid_argument`. -/
theorem hexCharToByte_other (c : Char) (pos : Int)
    (h : c ∉ "0123456789abcdefABCDEF".data) :
    ∃ what, hexCharToByte c pos = Except.error (Error.invalid_argument what) := by
  simp only [List.mem_cons, List.mem_singleton, List.not_mem_nil, or_false, not_or] at h
  obtain ⟨h0, h1, h2, h3, h4, h5, h6, h7, h8, h9, ha, hb, hc, hd, he, hf, hA, hB, hC, hD, hE,
    hF⟩ := h
  unfold hexCharToByte
  rw [if_neg h0, if_neg h1, if_neg h2, if_neg h3, if_neg h4, if_neg h5, if_neg h6, if_neg h7]
  rw [if_neg h8, if_neg h9, if_neg (not_or.mpr ⟨hA, ha⟩), if_neg (not_or.mpr ⟨hB, hb⟩)]
  rw [if_neg (not_or.mpr ⟨hC, hc⟩), if_neg (not_or.mpr ⟨hD, hd⟩)]
  rw [if_neg (not_or.mpr ⟨hE, he⟩), if_neg (not_or.mpr ⟨hF, hf⟩)]
  exact ⟨_, rfl⟩

/-- Whatever `hexCharToByte` throws is a `std::invalid_argument`. -/
theorem hexCharToByte_error (c : Char) (pos : Int) (e : Error)
    (h : hexCharToByte c pos = Except.error e) : ∃ what, e = Error.invalid_argument what := by
  by_cases hc : c ∈ "0123456789abcdefABCDEF".data
  · obtain ⟨d, hd, _⟩ := hexCharToByte_digit c pos hc
    rw [hd] at h
    cases h
  · obtain ⟨what, hw⟩ := hexCharToByte_other c pos hc
    rw [hw] at h
    cases h
    exact ⟨_, rfl⟩

/-- The byte stored for two digit values: sixteen times the first plus the second. -/
theorem hex_pair_value (hi lo : Byte) (h1 : hi.val < 16) (h2 : lo.val < 16) :
    (to_uint8 ((hi.val <<< 4) ||| lo.val : Nat)).val = 16 * hi.val + lo.val := by
  have e : (hi.val <<< 4) ||| lo.val = hi.val * 16 + lo.val := by
    rw [Nat.shiftLeft_eq]
    exact lor_eq_add (hi.val * 2 ^ 4) lo.val 4 (Nat.mul_mod_left _ _) (by
      show lo.val < 16
      exact h2)
  rw [e, to_uint8_val]
  omega

/-- Induction over a list two elements at a time. -/
theorem pairs_induction {P : List Char → Prop} (h0 : P []) (h1 : ∀ c, P [c])
    (h2 : ∀ c0 c1 rest, P rest → P (c0 :: c1 :: rest)) : ∀ l, P l
  | [] => h0
  | [c] => h1 c
  | c0 :: c1 :: rest => h2 c0 c1 rest (pairs_induction h0 h1 h2 rest)

/-- The loop of `hexStringToBytes`: it stores nothing below the index it starts at; over hex
digits only it returns, with each pair stored as sixteen times the value of its first digit
plus the value of its second; over an even number of characters one of which is no hex digit
it throws; and whatever it throws is a `std::invalid_argument`. -/
theorem hexStringToBytes_loop_spec (l : List Char) : ∀ (i : Nat) (bytes : Int → Byte),
    (∀ j : Int, j < ((i / 2 : Nat) : Int) → (hexStringToBytes_loop l i bytes).2 j = bytes j) ∧
    ((∀ c ∈ l, c ∈ "0123456789abcdefABCDEF".data) →
      (hexStringToBytes_loop l i bytes).1 = Except.ok () ∧
      ∀ k : Nat, 2 * k + 1 < l.length → ∃ hi lo : Nat,
        hex_value (l.getD (2 * k) '0') = some hi ∧
        hex_value (l.getD (2 * k + 1) '0') = some lo ∧
        ((hexStringToBytes_loop l i bytes).2 ((i / 2 + k : Nat) : Int)).val = 16 * hi + lo) ∧
    (l.length % 2 = 0 → (∃ c ∈ l, c ∉ "0123456789abcdefABCDEF".data) →
      ∃ what, (hexStringToBytes_loop l i bytes).1
        = Except.error (Error.invalid_argument what)) ∧
    (∀ e, (hexStringToBytes_loop l i bytes).1 = Except.error e →
      ∃ what, e = Error.invalid_argument what) := by
  induction l using pairs_induction with
  | h0 =>
    intro i bytes
    refine ⟨fun j _ => rfl, fun _ => ⟨rfl, fun k hk => ?_⟩, fun _ ⟨c, hc, _⟩ => ?_,
      fun e he => ?_⟩
    · simp at hk
    · simp at hc
    · simp only [hexStringToBytes_loop] at he
      cases he
  | h1 c =>
    intro i bytes
    refine ⟨fun j _ => rfl, fun _ => ⟨rfl, fun k hk => ?_⟩, fun hl _ => ?_, fun e he => ?_⟩
    · simp at hk
    · simp at hl
    · simp only [hexStringToBytes_loop] at he
      cases he
  | h2 c0 c1 rest ih =>
    intro i bytes
    by_cases hc0 : c0 ∈ "0123456789abcdefABCDEF".data
    · obtain ⟨d0, hd0, hv0, hlt0⟩ := hexCharToByte_digit c0 (to_int32 i) hc0
      by_cases hc1 : c1 ∈ "0123456789abcdefABCDEF".data
      · obtain ⟨d1, hd1, hv1, hlt1⟩ := hexCharToByte_digit c1 (to_int32 (i + 1)) hc1
        have hstep : hexStringToBytes_loop (c0 :: c1 :: rest) i bytes
            = hexStringToBytes_loop rest (i + 2)
                (poke bytes ((i / 2 : Nat) : Int)
                  (to_uint8 ((d0.val <<< 4) ||| d1.val : Nat))) := by
          rw [hexStringToBytes_loop]
          simp only [hd0, hd1]
        have hi2 : (i + 2) / 2 = i / 2 + 1 := by omega
        obtain ⟨ih1, ih2, ih3, ih4⟩ := ih (i + 2)
          (poke bytes ((i / 2 : Nat) : Int) (to_uint8 ((d0.val <<< 4) ||| d1.val : Nat)))
        rw [hstep]
        refine ⟨fun j hj => ?_, fun hall => ?_, fun hl hex => ?_, ih4⟩
        · rw [ih1 j (by rw [hi2]; push_cast; omega), poke_ne _ _ _ _ (by omega)]
        · obtain ⟨hr, hk⟩ := ih2 (fun c hc => hall c (by simp [hc]))
          refine ⟨hr, fun k hk2 => ?_⟩
          cases k with
          | zero =>
            refine ⟨d0.val, d1.val, hv0, hv1, ?_⟩
            rw [ih1 _ (by rw [hi2]; push_cast; omega)]
            simp only [add_zero]
            rw [poke_eq]
            exact hex_pair_value d0 d1 hlt0 hlt1
          | succ n =>
            obtain ⟨hi, lo, e1, e2, e3⟩ := hk n (by
              simp only [List.length_cons] at hk2
              omega)
            refine ⟨hi, lo, ?_, ?_, ?_⟩
            · rw [show 2 * (n + 1) = 2 * n + 1 + 1 by omega]
              exact e1
            · rw [show 2 * (n + 1) + 1 = 2 * n + 1 + 1 + 1 by omega]
              exact e2
            · rw [show i / 2 + (n + 1) = (i + 2) / 2 + n by omega]
              exact e3
        · obtain ⟨c, hc, hcn⟩ := hex
          simp only [List.mem_cons] at hc
          rcases hc with hc | hc | hc
          · exact absurd (hc ▸ hc0) hcn
          · exact absurd (hc ▸ hc1) hcn
          · exact ih3 (by
              simp only [List.length_cons] at hl
              omega) ⟨c, hc, hcn⟩
      · obtain ⟨what, hw⟩ := hexCharToByte_other c1 (to_int32 (i + 1)) hc1
        have hstep : hexStringToBytes_loop (c0 :: c1 :: rest) i bytes
            = (Except.error (Error.invalid_argument what), bytes) := by
          rw [hexStringToBytes_loop]
          simp only [hd0, hw]
        rw [hstep]
        refine ⟨fun j _ => rfl, fun hall => absurd (hall c1 (by simp)) hc1,
          fun _ _ => ⟨what, rfl⟩, fun e he => ?_⟩
        cases he
        exact ⟨what, rfl⟩
    · obtain ⟨what, hw⟩ := hexCharToByte_other c0 (to_int32 i) hc0
      have hstep : hexStringToBytes_loop (c0 :: c1 :: rest) i bytes
          = (Except.error (Error.invalid_argument what), bytes) := by
        rw [hexStringToBytes_loop]
        simp only [hw]
      rw [hstep]
      refine ⟨fun j _ => rfl, fun hall => absurd (hall c0 (by simp)) hc0,
        fun _ _ => ⟨what, rfl⟩, fun e he => ?_⟩
      cases he
      exact ⟨what, rfl⟩

/-- What `hexStringToBytes` leaves in terms of its loop, for a string of even length. -/
theorem hexStringToBytes_even (s : String) (bytes : Int → Byte) (size : Int)
    (h : s.length % 2 = 0) :
    (hexStringToBytes s bytes size).result = (hexStringToBytes_loop s.data 0 bytes).1 ∧
    (hexStringToBytes s bytes size).bytes = (hexStringToBytes_loop s.data 0 bytes).2 ∧
    ((hexStringToBytes_loop s.data 0 bytes).1 = Except.ok () →
      (hexStringToBytes s bytes size).size = to_int32 ((s.length / 2 : Nat) : Int)) := by
  unfold hexStringToBytes
  rw [if_neg (by omega)]
  rcases hl : hexStringToBytes_loop s.data 0 bytes with ⟨r, stored⟩
  cases r with
  | error e => exact ⟨rfl, rfl, fun h => by cases h⟩
  | ok u => exact ⟨rfl, rfl, fun _ => rfl⟩

/-- `hexStringToBytes` on a string of odd length throws `std::invalid_argument`. -/
theorem hexStringToBytes_odd (s : String) (bytes : Int → Byte) (size : Int)
    (h : s.length % 2 = 1) :
    (hexStringToBytes s bytes size).result
      = Except.error (Error.invalid_argument "Hex string must have an even length.") := by
  unfold hexStringToBytes
  rw [if_pos (by omega)]

/-- The two digits `string_to_hex` yields for a byte are hex digits, with the values of its
two nibbles. -/
theorem hex_digit_value (n : Nat) (h : n < 16) :
    hex_digit true n ∈ "0123456789abcdefABCDEF".data ∧ hex_value (hex_digit true n) = some n := by
  revert n
  decide

/-- Every character `string_to_hex` yields for bytes is a hex digit. -/
theorem string_to_hex_chars (b : List Nat) (hb : ∀ x ∈ b, x < 256) :
    ∀ c ∈ (string_to_hex b).data, c ∈ "0123456789abcdefABCDEF".data := by
  intro c hc
  unfold string_to_hex at hc
  simp only [List.mem_flatMap, List.mem_cons, List.mem_singleton, List.not_mem_nil,
    or_false] at hc
  obtain ⟨x, hx, h | h⟩ := hc
  · rw [h]
    exact (hex_digit_value _ (by have := hb x hx; omega)).1
  · rw [h]
    exact (hex_digit_value _ (by omega)).1

/-- C25 (hex line decoding). For every string `s`: `hexStringToBytes(s)` throws
`std::invalid_argument` if and only if `s` has odd length or contains a character that is none
of 0-9, a-f, A-F, and it throws nothing else. When it returns, `size` is `|s|/2` (for `s`
shorter than 2^32 characters, so that the count fits the `int`) and byte `i` of the array is
`16 * val(s[2i]) + val(s[2i+1])` for every `i < |s|/2`, `val` being the value of the hex digit
in either case. Decoding `string_to_hex(b)` returns the bytes `b`, for every sequence of bytes
`b`. -/
theorem hex_line_decoding (s : String) (bytes : Int → Byte) (size : Int) :
    ((∃ what, (hexStringToBytes s bytes size).result
        = Except.error (Error.invalid_argument what)) ↔
      (s.length % 2 = 1 ∨ ∃ c ∈ s.data, c ∉ "0123456789abcdefABCDEF".data)) ∧
    (∀ e, (hexStringToBytes s bytes size).result = Except.error e →
      ∃ what, e = Error.invalid_argument what) ∧
    ((hexStringToBytes s bytes size).result = Except.ok () →
      (s.length < 2 ^ 32 →
        (hexStringToBytes s bytes size).size = ((s.length / 2 : Nat) : Int)) ∧
      ∀ i : Nat, i < s.length / 2 → ∃ hi lo : Nat,
        hex_value (s.data.getD (2 * i) '0') = some hi ∧
        hex_value (s.data.getD (2 * i + 1) '0') = some lo ∧
        ((hexStringToBytes s bytes size).bytes (i : Int)).val = 16 * hi + lo) ∧
    (∀ b : List Nat, (∀ x ∈ b, x < 256) →
      (hexStringToBytes (string_to_hex b) bytes size).result = Except.ok () ∧
      (b.length < 2 ^ 31 →
        (hexStringToBytes (string_to_hex b) bytes size).size = (b.length : Int)) ∧
      ∀ i : Nat, i < b.length →
        ((hexStringToBytes (string_to_hex b) bytes size).bytes (i : Int)).val
          = b.getD i 0) := by
  have hlen : s.length = s.data.length := rfl
  obtain ⟨_, l2, l3, l4⟩ := hexStringToBytes_loop_spec s.data 0 bytes
  have hgood : s.length % 2 = 0 → (∀ c ∈ s.data, c ∈ "0123456789abcdefABCDEF".data) →
      (hexStringToBytes s bytes size).result = Except.ok () ∧
      (s.length < 2 ^ 32 →
        (hexStringToBytes s bytes size).size = ((s.length / 2 : Nat) : Int)) ∧
      ∀ i : Nat, i < s.length / 2 → ∃ hi lo : Nat,
        hex_value (s.data.getD (2 * i) '0') = some hi ∧
        hex_value (s.data.getD (2 * i + 1) '0') = some lo ∧
        ((hexStringToBytes s bytes size).bytes (i : Int)).val = 16 * hi + lo := by
    intro he hall
    obtain ⟨e1, e2, e3⟩ := hexStringToBytes_even s bytes size he
    obtain ⟨hr, hk⟩ := l2 hall
    refine ⟨e1.trans hr, fun hs => ?_, fun i hi => ?_⟩
    · rw [e3 hr]
      simp only [to_int32, to_signed]
      have : ((s.length / 2 : Nat) : Int) < 2 ^ 31 := by
        have h2 : s.length / 2 < 2 ^ 31 := by omega
        exact_mod_cast h2
      have h0 : (0 : Int) ≤ ((s.length / 2 : Nat) : Int) := Int.ofNat_nonneg _
      norm_num at this ⊢
      omega
    · obtain ⟨hi', lo, a1, a2, a3⟩ := hk i (by omega)
      rw [e2]
      simp only [Nat.zero_div, zero_add] at a3
      exact ⟨hi', lo, a1, a2, a3⟩
  have hfail_iff : (∃ what, (hexStringToBytes s bytes size).result
        = Except.error (Error.invalid_argument what)) ↔
      (s.length % 2 = 1 ∨ ∃ c ∈ s.data, c ∉ "0123456789abcdefABCDEF".data) := by
    constructor
    · rintro ⟨what, hw⟩
      by_contra hn
      rw [not_or] at hn
      obtain ⟨hodd, hex⟩ := hn
      have hall : ∀ c ∈ s.data, c ∈ "0123456789abcdefABCDEF".data := by
        intro c hc
        by_contra hcn
        exact hex ⟨c, hc, hcn⟩
      rw [(hgood (by omega) hall).1] at hw
      cases hw
    · intro h
      by_cases hodd : s.length % 2 = 1
      · exact ⟨_, hexStringToBytes_odd s bytes size hodd⟩
      · rcases h with h | h
        · exact absurd h hodd
        · obtain ⟨what, hw⟩ := l3 (by omega) h
          exact ⟨what, (hexStringToBytes_even s bytes size (by omega)).1.trans hw⟩
  refine ⟨hfail_iff, fun e he => ?_, fun hok => ?_, fun b hb => ?_⟩
  · by_cases hodd : s.length % 2 = 1
    · rw [hexStringToBytes_odd s bytes size hodd] at he
      cases he
      exact ⟨_, rfl⟩
    · rw [(hexStringToBytes_even s bytes size (by omega)).1] at he
      exact l4 e he
  · have hodd : ¬ s.length % 2 = 1 := by
      intro h
      rw [hexStringToBytes_odd s bytes size h] at hok
      cases hok
    have hall : ∀ c ∈ s.data, c ∈ "0123456789abcdefABCDEF".data := by
      intro c hc
      by_contra hcn
      obtain ⟨what, hw⟩ := hfail_iff.mpr (Or.inr ⟨c, hc, hcn⟩)
      rw [hw] at hok
      cases hok
    exact (hgood (by omega) hall).2
  · have hl := string_to_hex_length b
    obtain ⟨_, m2, _, _⟩ := hexStringToBytes_loop_spec (string_to_hex b).data 0 bytes
    obtain ⟨e1, e2, e3⟩ := hexStringToBytes_even (string_to_hex b) bytes size (by omega)
    obtain ⟨hr, hk⟩ := m2 (string_to_hex_chars b hb)
    refine ⟨e1.trans hr, fun hs => ?_, fun i hi => ?_⟩
    · rw [e3 hr, hl]
      simp only [to_int32, to_signed]
      have h2 : 2 * b.length / 2 = b.length := by omega
      rw [h2]
      have : ((b.length : Nat) : Int) < 2 ^ 31 := by exact_mod_cast hs
      have h0 : (0 : Int) ≤ ((b.length : Nat) : Int) := Int.ofNat_nonneg _
      norm_num at this ⊢
      omega
    · have hl2 : (string_to_hex b).data.length = 2 * b.length := hl
      obtain ⟨hi', lo, a1, a2, a3⟩ := hk i (by omega)
      obtain ⟨d1, d2⟩ := string_to_hex_digits b i hi
      have hx : b.getD i 0 < 256 := by
        have hmem : b.getD i 0 ∈ b := by
          rw [List.getD_eq_getElem _ _ hi]
          exact List.getElem_mem hi
        exact hb _ hmem
      rw [d1, (hex_digit_value _ (by omega)).2] at a1
      rw [d2, (hex_digit_value _ (by omega)).2] at a2
      rw [e2]
      simp only [Nat.zero_div, zero_add] at a3
      rw [a3]
      cases a1
      cases a2
      omega

/-- Witness of C25: "0aF3" decodes to the two bytes 0x0A, 0xF3; "0g" and "abc" are refused. -/
theorem hex_line_decoding_witness :
    (hexStringToBytes "0aF3" (fun _ => 0) 0).result = Except.ok () ∧
    (hexStringToBytes "0aF3" (fun _ => 0) 0).size = 2 ∧
    ((hexStringToBytes "0aF3" (fun _ => 0) 0).bytes 0).val = 0x0A ∧
    ((hexStringToBytes "0aF3" (fun _ => 0) 0).bytes 1).val = 0xF3 ∧
    (∃ what, (hexStringToBytes "0g" (fun _ => 0) 0).result
      = Except.error (Error.invalid_argument what)) ∧
    (∃ what, (hexStringToBytes "abc" (fun _ => 0) 0).result
      = Except.error (Error.invalid_argument what)) :=
  ⟨by decide, ((hex_line_decoding "0aF3" (fun _ => 0) 0).2.2.1 (by decide)).1 (by decide),
    by decide, by decide,
    (hex_line_decoding "0g" (fun _ => 0) 0).1.mpr (Or.inr ⟨'g', by decide, by decide⟩),
    (hex_line_decoding "abc" (fun _ => 0) 0).1.mpr (Or.inl (by decide))⟩

end networkinterface
